import Mathlib

/-!
# boot2flipper: virtual disk synthesis

A shallow embedding of the read path of the emulated USB disk
(`src/disk/gpt.c`, `src/disk/mbr.c`, `src/disk/virtual_fat.c`) together with
theorems about the sectors it synthesises.

Conventions of the embedding.

* A byte is a `Nat` below 256; a buffer is a `List Nat`; a sector is a buffer of
  512 bytes.
* A C string is the list of its bytes before the terminating NUL.
* `uint32_t` values are `Nat`s; arithmetic that can wrap is written with an
  explicit `% 4294967296`.  `(x >> k) & 0xFF` is written `x / 2 ^ k % 256`.
* A store outside the 512-byte sector buffer, or outside the 16-slot entry
  table, is undefined behaviour in C; the functions that can perform one
  return `Option` and yield `none` there.
* `char` is unsigned on the target (ARM), so a name byte converts to the
  UTF-16 unit of the same value.
-/

namespace Boot2Flipper

/-! ## Constants (`virtual_fat.h`) -/

def SECTOR_SIZE : Nat := 512
def SECTORS_PER_CLUSTER : Nat := 1
def TOTAL_SECTORS : Nat := 262144
def RESERVED_SECTORS : Nat := 32
def FAT_COPIES : Nat := 2
def PARTITION_START : Nat := 2048
def GPT_BACKUP_SECTORS : Nat := 33
def GPT_FIRST_USABLE : Nat := 34
def GPT_LAST_USABLE : Nat := TOTAL_SECTORS - GPT_BACKUP_SECTORS - 1
def GPT_BACKUP_ARRAY_START : Nat := TOTAL_SECTORS - GPT_BACKUP_SECTORS
def GPT_BACKUP_HEADER : Nat := TOTAL_SECTORS - 1
def PARTITION_SECTORS_MBR : Nat := TOTAL_SECTORS - PARTITION_START
def PARTITION_SECTORS_GPT : Nat := GPT_LAST_USABLE - PARTITION_START + 1
def MAX_FILES : Nat := 16
def LFN_ATTR : Nat := 0x0F
def LFN_LAST : Nat := 0x40

/-! ## Byte-level helpers -/

/-- The value `2^32`, the modulus of `uint32_t` arithmetic. -/
def U32 : Nat := 4294967296

/-- Wrapping `uint32_t` addition. -/
def add32 (a b : Nat) : Nat := (a + b) % U32

/-- Wrapping `uint32_t` subtraction. -/
def sub32 (a b : Nat) : Nat := (a % U32 + U32 - b % U32) % U32

/-- The four bytes `v & 0xFF, (v >> 8) & 0xFF, (v >> 16) & 0xFF, (v >> 24) & 0xFF`. -/
def le32 (v : Nat) : List Nat :=
  [v % 256, v / 256 % 256, v / 65536 % 256, v / 16777216 % 256]

/-- The two bytes `v & 0xFF, (v >> 8) & 0xFF`. -/
def le16 (v : Nat) : List Nat := [v % 256, v / 256 % 256]

/-- Little-endian value of a byte string (used to read fields back). -/
def leValue : List Nat → Nat
  | [] => 0
  | b :: bs => b + 256 * leValue bs

/-- A buffer of `n` zero bytes (`memset(buffer, 0, n)`). -/
def zeros (n : Nat) : List Nat := List.replicate n 0

/-- The store `memcpy(&buf[off], src, src.length)` (also used for a run of
single-byte assignments to consecutive offsets).  The caller guarantees
`off + src.length ≤ buf.length`. -/
def memcpy (buf : List Nat) (off : Nat) (src : List Nat) : List Nat :=
  buf.take off ++ src ++ buf.drop (off + src.length)

/-- The bytes `buf[off .. off+n)`. -/
def slice (buf : List Nat) (off n : Nat) : List Nat := (buf.drop off).take n

/-- Bytes of an ASCII string literal. -/
def ascii (s : String) : List Nat := s.toList.map Char.toNat

/-- C `toupper` in the "C" locale, on an unsigned byte. -/
def toupper (c : Nat) : Nat := if 97 ≤ c ∧ c ≤ 122 then c - 32 else c

/-! ## CRC-32 (`crc32.h`; the implementation file is not part of the sources) -/

/-- One bit step of the reflected CRC-32 with polynomial `0xEDB88320`. -/
def crc32_bit (crc : Nat) : Nat :=
  if crc % 2 = 1 then (crc >>> 1) ^^^ 0xEDB88320 else crc >>> 1

/-- Feed one byte: xor it into the low bits, then eight bit steps. -/
def crc32_byte (crc : Nat) (b : Nat) : Nat :=
  crc32_bit (crc32_bit (crc32_bit (crc32_bit
    (crc32_bit (crc32_bit (crc32_bit (crc32_bit (crc ^^^ b))))))))

/-- Modelled from the spec: `crc32_calculate` is declared in `crc32.h` but its
defining file is absent.  Spec §4.1: "Standard IEEE 802.3 polynomial
`0xEDB88320`, initial value `0xFFFFFFFF`, final XOR `0xFFFFFFFF`, reflected
input/output." -/
def crc32_calculate (data : List Nat) : Nat :=
  (data.foldl crc32_byte 0xFFFFFFFF) ^^^ 0xFFFFFFFF

/-! ## GPT (`gpt.c`) -/

def ESP_TYPE_GUID : List Nat :=
  [0x28, 0x73, 0x2A, 0xC1, 0x1F, 0xF8, 0xD2, 0x11, 0xBA, 0x4B, 0x00, 0xA0, 0xC9, 0x3E, 0xC9, 0x3B]

def PART_GUID : List Nat :=
  [0xAA, 0xBB, 0xCC, 0xDD, 0xEE, 0xFF, 0x00, 0x11, 0x22, 0x33, 0x44, 0x55, 0x66, 0x77, 0x88, 0x99]

def DISK_GUID : List Nat :=
  [0x12, 0x34, 0x56, 0x78, 0x9A, 0xBC, 0xDE, 0xF0, 0x11, 0x22, 0x33, 0x44, 0x55, 0x66, 0x77, 0x88]

/-- The 11 UTF-16 units `'E','F','I',' ','S','y','s','t','e','m',0` as 22 bytes. -/
def ESP_NAME_UTF16 : List Nat :=
  ((ascii "EFI System") ++ [0]).flatMap le16

/-- Embeds `build_partition_entry`: fills bytes 0..77 of `entry`. -/
def build_partition_entry (entry : List Nat) (partition_start_lba partition_sectors : Nat) :
    List Nat :=
  let e := memcpy entry 0 ESP_TYPE_GUID
  let e := memcpy e 16 PART_GUID
  let e := memcpy e 32 (le32 partition_start_lba ++ [0, 0, 0, 0])
  let last_lba := sub32 (add32 partition_start_lba partition_sectors) 1
  let e := memcpy e 40 (le32 last_lba ++ [0, 0, 0, 0])
  let e := memcpy e 48 ([0x01] ++ zeros 7)
  memcpy e 56 ESP_NAME_UTF16

/-- The 128 × 128-byte partition array whose CRC both headers carry. -/
def gpt_part_array (partition_start_lba partition_sectors : Nat) : List Nat :=
  build_partition_entry (zeros (128 * 128)) partition_start_lba partition_sectors

/-- The primary header as `generate_gpt_header` has it just before the header
CRC is computed (CRC field still zero). -/
def gpt_header_fields (total_sectors partition_start_lba partition_sectors : Nat) : List Nat :=
  let part_array_crc := crc32_calculate (gpt_part_array partition_start_lba partition_sectors)
  let b := zeros SECTOR_SIZE
  let b := memcpy b 0 (ascii "EFI PART")
  let b := memcpy b 8 [0x00, 0x00, 0x01, 0x00]
  let b := memcpy b 12 [0x5C, 0x00, 0x00, 0x00]
  let b := memcpy b 16 (zeros 4)
  let b := memcpy b 20 (zeros 4)
  let b := memcpy b 24 ([0x01] ++ zeros 7)
  let backup_lba := sub32 total_sectors 1
  let b := memcpy b 32 (le32 backup_lba ++ zeros 4)
  let b := memcpy b 40 (le32 GPT_FIRST_USABLE ++ zeros 4)
  let b := memcpy b 48 (le32 GPT_LAST_USABLE ++ zeros 4)
  let b := memcpy b 56 DISK_GUID
  let b := memcpy b 72 ([0x02] ++ zeros 7)
  let b := memcpy b 80 ([0x80] ++ zeros 3)
  let b := memcpy b 84 ([0x80] ++ zeros 3)
  memcpy b 88 (le32 part_array_crc)

/-- Embeds `generate_gpt_header`: the sector it leaves in `buffer`.  It returns
`true`; the 16 KiB `malloc` for the partition array is taken to succeed (the
early `return false` on NULL is outside the model). -/
def generate_gpt_header (total_sectors partition_start_lba partition_sectors : Nat) : List Nat :=
  let buffer := gpt_header_fields total_sectors partition_start_lba partition_sectors
  let header_crc := crc32_calculate (buffer.take 92)
  memcpy buffer 16 (le32 header_crc)

/-- Embeds `generate_gpt_partitions` (always returns `true`). -/
def generate_gpt_partitions (partition_start_lba partition_sectors : Nat) : List Nat :=
  build_partition_entry (zeros SECTOR_SIZE) partition_start_lba partition_sectors

/-- The backup header as `generate_gpt_backup_header` has it just before the
header CRC is computed. -/
def gpt_backup_header_fields (total_sectors partition_start_lba partition_sectors : Nat) :
    List Nat :=
  let part_array_crc := crc32_calculate (gpt_part_array partition_start_lba partition_sectors)
  let b := zeros SECTOR_SIZE
  let b := memcpy b 0 (ascii "EFI PART")
  let b := memcpy b 8 [0x00, 0x00, 0x01, 0x00]
  let b := memcpy b 12 [0x5C, 0x00, 0x00, 0x00]
  let b := memcpy b 16 (zeros 4)
  let b := memcpy b 20 (zeros 4)
  let current_lba := sub32 total_sectors 1
  let b := memcpy b 24 (le32 current_lba ++ zeros 4)
  let b := memcpy b 32 ([0x01] ++ zeros 7)
  let b := memcpy b 40 (le32 GPT_FIRST_USABLE ++ zeros 4)
  let b := memcpy b 48 (le32 GPT_LAST_USABLE ++ zeros 4)
  let b := memcpy b 56 DISK_GUID
  let b := memcpy b 72 (le32 GPT_BACKUP_ARRAY_START ++ zeros 4)
  let b := memcpy b 80 ([0x80] ++ zeros 3)
  let b := memcpy b 84 ([0x80] ++ zeros 3)
  memcpy b 88 (le32 part_array_crc)

/-- Embeds `generate_gpt_backup_header`, like `generate_gpt_header`. -/
def generate_gpt_backup_header (total_sectors partition_start_lba partition_sectors : Nat) :
    List Nat :=
  let buffer := gpt_backup_header_fields total_sectors partition_start_lba partition_sectors
  let header_crc := crc32_calculate (buffer.take 92)
  memcpy buffer 16 (le32 header_crc)

/-- Embeds `generate_gpt_backup_partitions`: same as the primary array sector. -/
def generate_gpt_backup_partitions (partition_start_lba partition_sectors : Nat) : List Nat :=
  generate_gpt_partitions partition_start_lba partition_sectors

/-- Embeds `generate_protective_mbr` (always returns `true`). -/
def generate_protective_mbr (total_sectors : Nat) : List Nat :=
  let b := zeros SECTOR_SIZE
  let b := memcpy b 446 [0x00, 0x00, 0x02, 0x00, 0xEE, 0xFF, 0xFF, 0xFF]
  let b := memcpy b 454 [0x01, 0x00, 0x00, 0x00]
  let protective_sectors := sub32 total_sectors 1
  let b := memcpy b 458 (le32 protective_sectors)
  memcpy b 510 [0x55, 0xAA]

/-! ## MBR (`mbr.c`) -/

def mbr_bootstrap : List Nat :=
  [0xFA, 0x33, 0xC0, 0x8E, 0xD0, 0xBC, 0x00, 0x7C, 0x8E, 0xD8, 0x8E, 0xC0, 0xFB,
   0xBE, 0xBE, 0x01, 0xB4, 0x02, 0xB0, 0x01, 0xBB, 0x00, 0x7C, 0xB9, 0x01, 0x00,
   0xB6, 0x00, 0x8A, 0x14, 0x8A, 0x74, 0x01, 0x8A, 0x4C, 0x02, 0x8A, 0x6C, 0x03,
   0x8A, 0x54, 0x08, 0xCD, 0x13, 0x72, 0x0A, 0xEA, 0x00, 0x7C, 0x00, 0x00,
   0xB4, 0x0E, 0xB0, 0x45, 0xCD, 0x10, 0xEB, 0xFE]

/-- Embeds `generate_mbr` (always returns `true`). -/
def generate_mbr (partition_start_lba partition_sectors partition_type : Nat) : List Nat :=
  let b := zeros SECTOR_SIZE
  let b := memcpy b 0 mbr_bootstrap
  let start_cylinder := partition_start_lba / (255 * 63)
  let start_head := (partition_start_lba / 63) % 255
  let start_sector := (partition_start_lba % 63) + 1
  let end_lba := sub32 (add32 partition_start_lba partition_sectors) 1
  let end_cylinder := end_lba / (255 * 63)
  let end_head := (end_lba / 63) % 255
  let end_sector := (end_lba % 63) + 1
  let b := memcpy b 446
    [0x80,
     start_head % 256,
     ((start_sector &&& 0x3F) ||| ((start_cylinder >>> 2) &&& 0xC0)) % 256,
     start_cylinder % 256,
     partition_type % 256,
     end_head % 256,
     ((end_sector &&& 0x3F) ||| ((end_cylinder >>> 2) &&& 0xC0)) % 256,
     end_cylinder % 256]
  let b := memcpy b 454 (le32 partition_start_lba)
  let b := memcpy b 458 (le32 partition_sectors)
  memcpy b 510 [0x55, 0xAA]

/-! ## The virtual filesystem (`virtual_fat.h`, `virtual_fat.c`) -/

inductive PartitionScheme where
  | PARTITION_SCHEME_MBR_ONLY
  | PARTITION_SCHEME_GPT_ONLY
deriving DecidableEq, Repr

inductive FileSourceType where
  | FILE_SOURCE_MEMORY
  | FILE_SOURCE_SD_CARD
deriving DecidableEq, Repr

/-- Embeds `VirtualFatFile`.  The C union of `memory_data` and `sd_path` is two
fields, the one not selected by `source_type` being empty. -/
structure VirtualFatFile where
  name : List Nat
  long_name : List Nat
  size : Nat
  start_cluster : Nat
  source_type : FileSourceType
  memory_data : List Nat
  sd_path : List Nat
  is_directory : Bool
  parent_index : Int
deriving DecidableEq, Repr

/-- Embeds `struct VirtualFat`.  `files` holds the entries `files[0 .. file_count)`, so
`file_count` is `files.length`; the table has room for `MAX_FILES` entries.
`read_callback` records whether a callback is installed, `callback_context` is
the `void*` stored with it (as a number). -/
structure VirtualFat where
  files : List VirtualFatFile
  next_cluster : Nat
  partition_scheme : PartitionScheme
  read_callback : Bool
  callback_context : Nat
deriving DecidableEq, Repr

/-- The external storage API as the filesystem uses it: `file_size path` is
`none` when `storage_file_open` fails and the 64-bit `storage_file_size`
otherwise; `file_read path offset count` is what `storage_file_seek`
followed by `storage_file_read` delivers. -/
structure Storage where
  file_size : List Nat → Option Nat
  file_read : List Nat → Nat → Nat → List Nat

/-- Embeds `virtual_fat_alloc`. -/
def virtual_fat_alloc : VirtualFat :=
  { files := [], next_cluster := 3,
    partition_scheme := PartitionScheme.PARTITION_SCHEME_GPT_ONLY, read_callback := false
    callback_context := 0 }

/-- Embeds `strrchr(s, c)`: index of the last occurrence of `c`. -/
def strrchr (s : List Nat) (c : Nat) : Option Nat :=
  match s with
  | [] => none
  | x :: xs =>
    match strrchr xs c with
    | some i => some (i + 1)
    | none => if x = c then some 0 else none

/-- The block "Parse filename to 8.3 format" of `virtual_fat_add_file`,
`virtual_fat_add_sd_file` and `virtual_fat_add_file_to_subdir`. -/
def parse_83 (filename : List Nat) : List Nat :=
  let name := List.replicate 11 32
  let dot := strrchr filename 46
  let name_len := min (match dot with | some d => d | none => filename.length) 8
  let name := memcpy name 0 ((filename.take name_len).map toupper)
  match dot with
  | some d =>
    let ext := filename.drop (d + 1)
    if ext.length > 0 then
      let ext_len := min ext.length 3
      memcpy name 8 ((ext.take ext_len).map toupper)
    else name
  | none => name

/-- The 8.3 form of a directory name (`find_directory`, `virtual_fat_add_directory`,
`create_directory_path`): first 8 characters, upper-cased, space-padded. -/
def dir_83 (dirname : List Nat) : List Nat :=
  let name_len := min dirname.length 8
  memcpy (List.replicate 11 32) 0 ((dirname.take name_len).map toupper)

/-- The `uint32_t` expression
`(size + (SECTORS_PER_CLUSTER * SECTOR_SIZE) - 1) / (SECTORS_PER_CLUSTER * SECTOR_SIZE)`. -/
def clusters_needed (size : Nat) : Nat :=
  ((size + (SECTORS_PER_CLUSTER * SECTOR_SIZE) - 1) % U32) /
    (SECTORS_PER_CLUSTER * SECTOR_SIZE)

/-- Embeds `virtual_fat_add_file`; `size` is `data.length`.  Result: return value and
the filesystem afterwards. -/
def virtual_fat_add_file (vfat : VirtualFat) (filename data : List Nat) : Bool × VirtualFat :=
  if vfat.files.length ≥ MAX_FILES then (false, vfat)
  else
    let size := data.length
    let file : VirtualFatFile :=
      { name := parse_83 filename
        long_name := filename.take 255
        size := size
        start_cluster := vfat.next_cluster
        source_type := FileSourceType.FILE_SOURCE_MEMORY
        memory_data := data
        sd_path := []
        is_directory := false
        parent_index := -1 }
    (true, { vfat with files := vfat.files ++ [file]
                       next_cluster := add32 vfat.next_cluster (clusters_needed size) })

/-- Embeds `virtual_fat_add_text_file`. -/
def virtual_fat_add_text_file (vfat : VirtualFat) (filename text : List Nat) :
    Bool × VirtualFat :=
  virtual_fat_add_file vfat filename text

/-- Embeds `virtual_fat_add_sd_file`. -/
def virtual_fat_add_sd_file (storage : Storage) (vfat : VirtualFat)
    (filename sd_path : List Nat) : Bool × VirtualFat :=
  if vfat.files.length ≥ MAX_FILES then (false, vfat)
  else
    match storage.file_size sd_path with
    | none => (false, vfat)
    | some file_size =>
      let file : VirtualFatFile :=
        { name := parse_83 filename
          long_name := filename.take 255
          size := file_size % U32
          start_cluster := vfat.next_cluster
          source_type := FileSourceType.FILE_SOURCE_SD_CARD
          memory_data := []
          sd_path := sd_path
          is_directory := false
          parent_index := -1 }
      (true, { vfat with files := vfat.files ++ [file]
                         next_cluster := add32 vfat.next_cluster (clusters_needed file.size) })

/-- The search loop of `find_directory`, from table index `i`. -/
def find_directory_loop (search_name : List Nat) (parent_index : Int) :
    List VirtualFatFile → Nat → Int
  | [], _ => -1
  | f :: fs, i =>
    if f.is_directory = true ∧ f.parent_index = parent_index ∧ f.name = search_name then (i : Int)
    else find_directory_loop search_name parent_index fs (i + 1)

/-- Embeds `find_directory`. -/
def find_directory (vfat : VirtualFat) (name : List Nat) (parent_index : Int) : Int :=
  find_directory_loop (dir_83 name) parent_index vfat.files 0

/-- The directory entry that `virtual_fat_add_directory` and
`create_directory_path` store. -/
def new_directory (vfat : VirtualFat) (dirname : List Nat) (parent_index : Int) :
    VirtualFatFile :=
  { name := dir_83 dirname
    long_name := dirname.take 255
    size := 0
    start_cluster := vfat.next_cluster
    source_type := FileSourceType.FILE_SOURCE_MEMORY
    memory_data := []
    sd_path := []
    is_directory := true
    parent_index := parent_index }

/-- Embeds `virtual_fat_add_directory`. -/
def virtual_fat_add_directory (vfat : VirtualFat) (dirname : List Nat) : Bool × VirtualFat :=
  if vfat.files.length ≥ MAX_FILES then (false, vfat)
  else
    (true, { vfat with files := vfat.files ++ [new_directory vfat dirname (-1)]
                       next_cluster := add32 vfat.next_cluster 1 })

/-- The `while(*ptr != '\0')` loop of `create_directory_path`; `ptr` is the rest
of `path_copy`.  Each round consumes at least one character, so `fuel` above
the length of `ptr` is never used up. -/
def create_directory_path_loop : Nat → VirtualFat → List Nat → Int → VirtualFat × Int
  | 0, vfat, _, current_parent => (vfat, current_parent)
  | fuel + 1, vfat, ptr, current_parent =>
    let ptr := ptr.dropWhile (fun c => c = 47)
    if ptr = [] then (vfat, current_parent)
    else
      let token := (ptr.takeWhile (fun c => c ≠ 47)).take 63
      let ptr := ptr.drop token.length
      if token.length = 0 then (vfat, current_parent)
      else
        let dir_index := find_directory vfat token current_parent
        if dir_index < 0 then
          if vfat.files.length ≥ MAX_FILES then (vfat, -1)
          else
            let vfat1 : VirtualFat :=
              { vfat with files := vfat.files ++ [new_directory vfat token current_parent]
                          next_cluster := add32 vfat.next_cluster 1 }
            create_directory_path_loop fuel vfat1 ptr (vfat.files.length : Int)
        else create_directory_path_loop fuel vfat ptr dir_index

/-- Embeds `create_directory_path`: the filesystem afterwards and the returned index. -/
def create_directory_path (vfat : VirtualFat) (path : List Nat) : VirtualFat × Int :=
  if path.length = 0 then (vfat, -1)
  else
    let path_copy := path.take 255
    create_directory_path_loop (path_copy.length + 1) vfat path_copy (-1)

/-- Embeds `virtual_fat_add_file_to_subdir`.  `none`: the entry is stored at
`files[MAX_FILES]`, outside the table. -/
def virtual_fat_add_file_to_subdir (storage : Storage) (vfat : VirtualFat)
    (parent_dir filename sd_path : List Nat) : Option (Bool × VirtualFat) :=
  if vfat.files.length ≥ MAX_FILES then some (false, vfat)
  else
    let r := create_directory_path vfat parent_dir
    let vfat1 := r.1
    let parent_index := r.2
    if parent_index < 0 then some (false, vfat1)
    else
      match storage.file_size sd_path with
      | none => some (false, vfat1)
      | some file_size =>
        if vfat1.files.length ≥ MAX_FILES then none
        else
          let file : VirtualFatFile :=
            { name := parse_83 filename
              long_name := filename.take 255
              size := file_size % U32
              start_cluster := vfat1.next_cluster
              source_type := FileSourceType.FILE_SOURCE_SD_CARD
              memory_data := []
              sd_path := sd_path
              is_directory := false
              parent_index := parent_index }
          some (true, { vfat1 with
            files := vfat1.files ++ [file]
            next_cluster := add32 vfat1.next_cluster (clusters_needed file.size) })

/-- Embeds `virtual_fat_set_partition_scheme`. -/
def virtual_fat_set_partition_scheme (vfat : VirtualFat) (scheme : PartitionScheme) :
    VirtualFat :=
  { vfat with partition_scheme := scheme }

/-- Embeds `virtual_fat_set_read_callback` (`installed` is `callback != NULL`). -/
def virtual_fat_set_read_callback (vfat : VirtualFat) (installed : Bool) (context : Nat) :
    VirtualFat :=
  { vfat with read_callback := installed, callback_context := context }

/-- Embeds `virtual_fat_get_total_sectors`. -/
def virtual_fat_get_total_sectors (_vfat : VirtualFat) : Nat := TOTAL_SECTORS

/-- One call of the public construction API. -/
inductive Op where
  | add_file (filename data : List Nat)
  | add_text_file (filename text : List Nat)
  | add_sd_file (storage : Storage) (filename sd_path : List Nat)
  | add_directory (dirname : List Nat)
  | add_file_to_subdir (storage : Storage) (parent_dir filename sd_path : List Nat)
  | set_partition_scheme (scheme : PartitionScheme)
  | set_read_callback (installed : Bool) (context : Nat)

/-- The filesystem after one API call (the boolean result is dropped);
`none` when the call stores outside the entry table. -/
def Op.apply (vfat : VirtualFat) : Op → Option VirtualFat
  | Op.add_file filename data => some (virtual_fat_add_file vfat filename data).2
  | Op.add_text_file filename text => some (virtual_fat_add_text_file vfat filename text).2
  | Op.add_sd_file storage filename sd_path =>
    some (virtual_fat_add_sd_file storage vfat filename sd_path).2
  | Op.add_directory dirname => some (virtual_fat_add_directory vfat dirname).2
  | Op.add_file_to_subdir storage parent_dir filename sd_path =>
    (virtual_fat_add_file_to_subdir storage vfat parent_dir filename sd_path).map Prod.snd
  | Op.set_partition_scheme scheme => some (virtual_fat_set_partition_scheme vfat scheme)
  | Op.set_read_callback installed context =>
    some (virtual_fat_set_read_callback vfat installed context)

/-- The filesystem after a sequence of API calls. -/
def run_ops (vfat : VirtualFat) : List Op → Option VirtualFat
  | [] => some vfat
  | op :: ops =>
    match op.apply vfat with
    | none => none
    | some vfat1 => run_ops vfat1 ops

/-- A filesystem built through the public API from `virtual_fat_alloc`. -/
def Built (vfat : VirtualFat) : Prop :=
  ∃ ops : List Op, run_ops virtual_fat_alloc ops = some vfat

/-! ## Sector synthesis (`virtual_fat.c`) -/

def fat32_bootstrap : List Nat :=
  [0xFA, 0x33, 0xC0, 0x8E, 0xD0, 0x8E, 0xD8, 0xBC, 0x00, 0x7C, 0xFB,
   0xBE, 0x00, 0x01, 0xAC, 0x08, 0xC0, 0x74, 0x09, 0xB4, 0x0E, 0xBB, 0x07, 0x00,
   0xCD, 0x10, 0xEB, 0xF2, 0xEB, 0xFE]

/-- The boot message with its terminating NUL (`strlen(message) + 1` bytes). -/
def boot_message : List Nat :=
  ascii "Use UEFI boot (BOOTX64.EFI) or embed iPXE in boot sector\r\n" ++ [0]

/-- Embeds `generate_boot_sector`. -/
def generate_boot_sector (total_sectors : Nat) : List Nat :=
  let b := zeros SECTOR_SIZE
  let b := memcpy b 0 [0xEB, 0x58, 0x90]
  let b := memcpy b 3 (ascii "BOOT2FLP")
  let b := memcpy b 11 (le16 SECTOR_SIZE)
  let b := memcpy b 13 [SECTORS_PER_CLUSTER]
  let b := memcpy b 14 (le16 RESERVED_SECTORS)
  let b := memcpy b 16 [FAT_COPIES]
  let b := memcpy b 17 [0, 0, 0, 0, 0xF8, 0, 0, 0x3F, 0x00, 0xFF, 0x00, 0x00, 0x00, 0x00, 0x00]
  let b := memcpy b 32 (le32 total_sectors)
  let cluster_count := total_sectors / SECTORS_PER_CLUSTER
  let fat_size := (((cluster_count * 4) % U32 + SECTOR_SIZE - 1) % U32) / SECTOR_SIZE
  let b := memcpy b 36 (le32 fat_size)
  let b := memcpy b 40 [0x00, 0x00, 0x00, 0x00, 0x02, 0x00, 0x00, 0x00, 0x01, 0x00, 0x06, 0x00]
  let b := memcpy b 64 [0x80, 0x00, 0x29, 0x12, 0x34, 0x56, 0x78]
  let b := memcpy b 71 (ascii "Boot2Flippr")
  let b := memcpy b 82 (ascii "FAT32   ")
  let b := memcpy b 90 fat32_bootstrap
  let b := memcpy b 256 boot_message
  memcpy b 510 [0x55, 0xAA]

/-- Embeds `generate_fsinfo_sector`. -/
def generate_fsinfo_sector : List Nat :=
  let b := zeros SECTOR_SIZE
  let b := memcpy b 0 [0x52, 0x52, 0x61, 0x41]
  let b := memcpy b 484 [0x72, 0x72, 0x41, 0x61]
  let b := memcpy b 488 [0xFF, 0xFF, 0xFF, 0xFF]
  let b := memcpy b 492 [0xFF, 0xFF, 0xFF, 0xFF]
  memcpy b 508 [0x00, 0x00, 0x55, 0xAA]

/-- The cluster count `generate_fat_sector` and `virtual_fat_read_sector`
compute for an entry of the table. -/
def fat_clusters (file : VirtualFatFile) : Nat :=
  if file.is_directory then 1 else clusters_needed file.size

/-- The loop `for(c = 0; c < clusters; c++)` of `generate_fat_sector` for one
entry, run for its first `n` rounds on the 128 `uint32_t` entries `fat`. -/
def fat_chain_loop (first_entry start_cluster clusters : Nat) : Nat → List Nat → List Nat
  | 0, fat => fat
  | n + 1, fat =>
    let fat := fat_chain_loop first_entry start_cluster clusters n fat
    let c := n
    let cluster_num := add32 start_cluster c
    if first_entry ≤ cluster_num ∧ cluster_num < add32 first_entry (SECTOR_SIZE / 4) then
      let idx := cluster_num - first_entry
      if c = clusters - 1 then fat.set idx 0x0FFFFFFF
      else fat.set idx (add32 cluster_num 1)
    else fat

/-- The loop over the entry table of `generate_fat_sector`. -/
def fat_files_loop (first_entry : Nat) : List VirtualFatFile → List Nat → List Nat
  | [], fat => fat
  | file :: files, fat =>
    let clusters := fat_clusters file
    fat_files_loop first_entry files
      (fat_chain_loop first_entry file.start_cluster clusters clusters fat)

/-- The 128 `uint32_t` FAT entries of FAT sector `fat_sector`. -/
def fat_sector_entries (vfat : VirtualFat) (fat_sector : Nat) : List Nat :=
  let entries_per_sector := SECTOR_SIZE / 4
  let first_entry := (fat_sector * entries_per_sector) % U32
  let fat := List.replicate entries_per_sector 0
  let fat := if fat_sector = 0 then [0x0FFFFFF8, 0x0FFFFFFF, 0x0FFFFFFF] ++ fat.drop 3 else fat
  fat_files_loop first_entry vfat.files fat

/-- Embeds `generate_fat_sector`: the entries stored little-endian. -/
def generate_fat_sector (vfat : VirtualFat) (fat_sector : Nat) : List Nat :=
  (fat_sector_entries vfat fat_sector).flatMap le32

/-- Embeds `lfn_checksum`, on the 11 bytes of an 8.3 name (`uint8_t` arithmetic). -/
def lfn_checksum (short_name : List Nat) : Nat :=
  (short_name.take 11).foldl
    (fun sum c => (((sum &&& 1) <<< 7) + (sum >>> 1) + c % 256) % 256) 0

/-- The UTF-16 unit `write_lfn_entry` stores for name position `idx`. -/
def lfn_unit (long_name : List Nat) (idx : Nat) : Nat :=
  let name_len := long_name.length % 256
  let ch := if idx < name_len then long_name.getD idx 0 else 0x0000
  let ch := if idx = name_len then 0x0000 else ch
  if idx > name_len then 0xFFFF else ch

/-- The bytes of the units for `i = 0 .. n-1` at name positions
`(uint8_t)(name_offset + first + i)`. -/
def lfn_units (long_name : List Nat) (name_offset first n : Nat) : List Nat :=
  (List.range n).flatMap (fun i => le16 (lfn_unit long_name ((name_offset + first + i) % 256)))

/-- Embeds `write_lfn_entry`: the 32 bytes stored at `entry`. -/
def write_lfn_entry (sequence : Nat) (long_name : List Nat) (checksum : Nat) : List Nat :=
  let e := List.replicate 32 0xFF
  let e := memcpy e 0 [sequence]
  let e := memcpy e 11 [LFN_ATTR, 0x00, checksum]
  let e := memcpy e 26 [0x00, 0x00]
  let name_offset := (((((sequence &&& 0x3F : Nat) : Int) - 1) * 13) % 256).toNat
  let e := memcpy e 1 (lfn_units long_name name_offset 0 5)
  let e := memcpy e 14 (lfn_units long_name name_offset 5 6)
  memcpy e 28 (lfn_units long_name name_offset 11 2)

/-- Embeds `write_directory_entry`: the 32 bytes stored at `entry`. -/
def write_directory_entry (name : List Nat) (attributes start_cluster size : Nat) : List Nat :=
  let e := zeros 32
  let e := memcpy e 0 (name.take 11)
  let e := memcpy e 11 [attributes]
  let e := memcpy e 12 (zeros 10)
  let e := memcpy e 22 [0x00, 0x60]
  let e := memcpy e 24 [0x21, 0x58]
  let e := memcpy e 26 (le16 start_cluster)
  let e := memcpy e 20 (le16 (start_cluster / 65536))
  memcpy e 28 (le32 size)

/-- The loop `for(j = lfn_entries; j >= 1 && entry_count < 16; j--)`; the
`entry` pointer is `buffer + 32 * entry_count` throughout. -/
def lfn_loop (long_name : List Nat) (checksum lfn_entries : Nat) :
    Nat → Nat → List Nat → Nat × List Nat
  | 0, entry_count, buffer => (entry_count, buffer)
  | j + 1, entry_count, buffer =>
    if entry_count < SECTOR_SIZE / 32 then
      let seq := if j + 1 = lfn_entries then (j + 1) ||| LFN_LAST else j + 1
      lfn_loop long_name checksum lfn_entries j (entry_count + 1)
        (memcpy buffer (32 * entry_count) (write_lfn_entry seq long_name checksum))
    else (entry_count, buffer)

/-- The body of the directory loops for an entry that belongs to the
directory: long-name slots, then the 8.3 slot.  The 8.3 store is not guarded
by `entry_count < 16`; `none` when it falls outside the sector buffer. -/
def dir_emit (file : VirtualFatFile) (entry_count : Nat) (buffer : List Nat) :
    Option (Nat × List Nat) :=
  let st :=
    if file.long_name ≠ [] then
      let lfn_len := file.long_name.length % 256
      let lfn_entries := ((lfn_len + 12) / 13) % 256
      let checksum := lfn_checksum file.name
      lfn_loop file.long_name checksum lfn_entries lfn_entries entry_count buffer
    else (entry_count, buffer)
  let attributes := if file.is_directory then 0x10 else 0x20
  if 32 * st.1 + 32 ≤ SECTOR_SIZE then
    some (st.1 + 1,
      memcpy st.2 (32 * st.1)
        (write_directory_entry file.name attributes file.start_cluster file.size))
  else none

/-- The loop `for(i = 0; i < file_count && entry_count < 16; i++)` shared by
`generate_root_directory` (`dir_index = -1`) and `generate_subdirectory`. -/
def dir_loop (dir_index : Int) : List VirtualFatFile → Nat → List Nat → Option (List Nat)
  | [], _, buffer => some buffer
  | file :: files, entry_count, buffer =>
    if entry_count < SECTOR_SIZE / 32 then
      if file.parent_index ≠ dir_index then dir_loop dir_index files entry_count buffer
      else
        match dir_emit file entry_count buffer with
        | none => none
        | some st => dir_loop dir_index files st.1 st.2
    else some buffer

/-- Embeds `generate_root_directory`; `none` when a store leaves the buffer. -/
def generate_root_directory (vfat : VirtualFat) : Option (List Nat) :=
  dir_loop (-1) vfat.files 0 (zeros SECTOR_SIZE)

/-- Embeds `generate_subdirectory`; `none` when a store leaves the buffer. -/
def generate_subdirectory (vfat : VirtualFat) (dir_index : Int) : Option (List Nat) :=
  let buffer := zeros SECTOR_SIZE
  if dir_index < 0 ∨ dir_index ≥ vfat.files.length then some buffer
  else
    match vfat.files[dir_index.toNat]? with
    | none => some buffer
    | some dir =>
      if ¬ dir.is_directory then some buffer
      else
        let buffer := memcpy buffer 0
          (write_directory_entry (memcpy (List.replicate 11 32) 0 [46]) 0x10 dir.start_cluster 0)
        let parent_cluster :=
          if dir.parent_index ≥ 0 then
            match vfat.files[dir.parent_index.toNat]? with
            | some parent => parent.start_cluster
            | none => 0
          else 2
        let buffer := memcpy buffer 32
          (write_directory_entry (memcpy (List.replicate 11 32) 0 [46, 46]) 0x10 parent_cluster 0)
        dir_loop dir_index vfat.files 2 buffer

/-- What a call of `virtual_fat_read_sector` does. -/
inductive ReadOutcome where
  | ok (buffer : List Nat)
  | returned_false
  | out_of_bounds
deriving DecidableEq, Repr

/-- The data bytes `virtual_fat_read_sector` puts into the zeroed buffer for a
regular file at byte `offset`. -/
def read_file_data (storage : Storage) (file : VirtualFatFile) (offset : Nat) : List Nat :=
  let buffer := zeros SECTOR_SIZE
  if offset < file.size then
    let copy_size := if file.size - offset > SECTOR_SIZE then SECTOR_SIZE else file.size - offset
    match file.source_type with
    | FileSourceType.FILE_SOURCE_MEMORY =>
      memcpy buffer 0 (slice file.memory_data offset copy_size)
    | FileSourceType.FILE_SOURCE_SD_CARD =>
      match storage.file_size file.sd_path with
      | some _ => memcpy buffer 0 ((storage.file_read file.sd_path offset copy_size).take copy_size)
      | none => buffer
  else buffer

/-- The loop over the entry table in the data-area branch of
`virtual_fat_read_sector`, from table index `i`. -/
def data_area_loop (storage : Storage) (vfat : VirtualFat) (cluster_num sector_in_cluster : Nat) :
    List VirtualFatFile → Nat → ReadOutcome
  | [], _ => ReadOutcome.ok (zeros SECTOR_SIZE)
  | file :: files, i =>
    if file.is_directory = true ∧ cluster_num = file.start_cluster ∧ sector_in_cluster = 0 then
      match generate_subdirectory vfat i with
      | some buffer => ReadOutcome.ok buffer
      | none => ReadOutcome.out_of_bounds
    else if file.is_directory = false ∧ file.start_cluster ≤ cluster_num ∧
        cluster_num < add32 file.start_cluster (clusters_needed file.size) then
      let file_cluster := cluster_num - file.start_cluster
      let file_sector := (file_cluster * SECTORS_PER_CLUSTER + sector_in_cluster) % U32
      let offset := (file_sector * SECTOR_SIZE) % U32
      ReadOutcome.ok (read_file_data storage file offset)
    else data_area_loop storage vfat cluster_num sector_in_cluster files (i + 1)

/-- Embeds `virtual_fat_read_sector` for a non-NULL filesystem and buffer; `lba` is a
`uint32_t`. -/
def virtual_fat_read_sector (storage : Storage) (vfat : VirtualFat) (lba : Nat) : ReadOutcome :=
  let gpt := vfat.partition_scheme = PartitionScheme.PARTITION_SCHEME_GPT_ONLY
  let PARTITION_SECTORS := if gpt then PARTITION_SECTORS_GPT else PARTITION_SECTORS_MBR
  let cluster_count := PARTITION_SECTORS / SECTORS_PER_CLUSTER
  let fat_size := ((cluster_count * 4) + SECTOR_SIZE - 1) / SECTOR_SIZE
  let fat1_start := PARTITION_START + RESERVED_SECTORS
  let fat2_start := fat1_start + fat_size
  let data_start := fat2_start + fat_size
  if lba = 0 then
    if vfat.partition_scheme = PartitionScheme.PARTITION_SCHEME_MBR_ONLY then
      ReadOutcome.ok (generate_mbr PARTITION_START PARTITION_SECTORS 0xEF)
    else ReadOutcome.ok (generate_protective_mbr TOTAL_SECTORS)
  else if lba = 1 then
    if gpt then
      ReadOutcome.ok (generate_gpt_header TOTAL_SECTORS PARTITION_START PARTITION_SECTORS)
    else ReadOutcome.ok (zeros SECTOR_SIZE)
  else if lba = 2 then
    if gpt then ReadOutcome.ok (generate_gpt_partitions PARTITION_START PARTITION_SECTORS)
    else ReadOutcome.ok (zeros SECTOR_SIZE)
  else if lba > 2 ∧ lba < PARTITION_START then ReadOutcome.ok (zeros SECTOR_SIZE)
  else if gpt ∧ lba ≥ GPT_BACKUP_ARRAY_START ∧ lba < GPT_BACKUP_HEADER then
    if lba = GPT_BACKUP_ARRAY_START then
      ReadOutcome.ok (generate_gpt_backup_partitions PARTITION_START PARTITION_SECTORS)
    else ReadOutcome.ok (zeros SECTOR_SIZE)
  else if gpt ∧ lba = GPT_BACKUP_HEADER then
    ReadOutcome.ok (generate_gpt_backup_header TOTAL_SECTORS PARTITION_START PARTITION_SECTORS)
  else if lba = PARTITION_START then ReadOutcome.ok (generate_boot_sector PARTITION_SECTORS)
  else if lba = PARTITION_START + 1 then ReadOutcome.ok generate_fsinfo_sector
  else if lba = PARTITION_START + 6 then ReadOutcome.ok (generate_boot_sector PARTITION_SECTORS)
  else if lba = PARTITION_START + 7 then ReadOutcome.ok generate_fsinfo_sector
  else if lba < fat1_start then ReadOutcome.ok (zeros SECTOR_SIZE)
  else if lba ≥ fat1_start ∧ lba < fat2_start then
    ReadOutcome.ok (generate_fat_sector vfat (lba - fat1_start))
  else if lba ≥ fat2_start ∧ lba < data_start then
    ReadOutcome.ok (generate_fat_sector vfat (lba - fat2_start))
  else if lba ≥ data_start then
    let cluster_offset := (lba - data_start) / SECTORS_PER_CLUSTER
    let sector_in_cluster := (lba - data_start) % SECTORS_PER_CLUSTER
    let cluster_num := add32 cluster_offset 2
    if cluster_num = 2 ∧ sector_in_cluster = 0 then
      match generate_root_directory vfat with
      | some buffer => ReadOutcome.ok buffer
      | none => ReadOutcome.out_of_bounds
    else data_area_loop storage vfat cluster_num sector_in_cluster vfat.files 0
  else ReadOutcome.returned_false

/-- The display name handed to the read callback: the long name when it is
not empty, else `snprintf("%.8s.%.3s", file->name, file->name + 8)` (the 11
name bytes hold no NUL, so 8 and 3 characters are printed). -/
def callback_display_name (file : VirtualFatFile) : List Nat :=
  if file.long_name ≠ [] then file.long_name
  else file.name.take 8 ++ [46] ++ (file.name.drop 8).take 3

/-- The calls `vfat->read_callback(display_name, vfat->callback_context)` made
by the loop over the entry table in the data-area branch of
`virtual_fat_read_sector`: the same walk as `data_area_loop`, which ends at the
first entry that answers the read. -/
def data_area_callbacks (vfat : VirtualFat) (cluster_num sector_in_cluster : Nat) :
    List VirtualFatFile → List (List Nat × Nat)
  | [] => []
  | file :: files =>
    if file.is_directory = true ∧ cluster_num = file.start_cluster ∧ sector_in_cluster = 0 then
      []
    else if file.is_directory = false ∧ file.start_cluster ≤ cluster_num ∧
        cluster_num < add32 file.start_cluster (clusters_needed file.size) then
      let file_cluster := cluster_num - file.start_cluster
      let file_sector := (file_cluster * SECTORS_PER_CLUSTER + sector_in_cluster) % U32
      let offset := (file_sector * SECTOR_SIZE) % U32
      if vfat.read_callback = true ∧ offset = 0 then
        [(callback_display_name file, vfat.callback_context)]
      else []
    else data_area_callbacks vfat cluster_num sector_in_cluster files

/-- The read-callback calls made during one call of `virtual_fat_read_sector`
(same dispatch; only the file branch of the data area calls back).  The call
does not change the filesystem. -/
def virtual_fat_read_sector_callbacks (vfat : VirtualFat) (lba : Nat) : List (List Nat × Nat) :=
  let gpt := vfat.partition_scheme = PartitionScheme.PARTITION_SCHEME_GPT_ONLY
  let PARTITION_SECTORS := if gpt then PARTITION_SECTORS_GPT else PARTITION_SECTORS_MBR
  let cluster_count := PARTITION_SECTORS / SECTORS_PER_CLUSTER
  let fat_size := ((cluster_count * 4) + SECTOR_SIZE - 1) / SECTOR_SIZE
  let fat1_start := PARTITION_START + RESERVED_SECTORS
  let fat2_start := fat1_start + fat_size
  let data_start := fat2_start + fat_size
  if lba = 0 then []
  else if lba = 1 then []
  else if lba = 2 then []
  else if lba > 2 ∧ lba < PARTITION_START then []
  else if gpt ∧ lba ≥ GPT_BACKUP_ARRAY_START ∧ lba < GPT_BACKUP_HEADER then []
  else if gpt ∧ lba = GPT_BACKUP_HEADER then []
  else if lba = PARTITION_START then []
  else if lba = PARTITION_START + 1 then []
  else if lba = PARTITION_START + 6 then []
  else if lba = PARTITION_START + 7 then []
  else if lba < fat1_start then []
  else if lba ≥ fat1_start ∧ lba < fat2_start then []
  else if lba ≥ fat2_start ∧ lba < data_start then []
  else if lba ≥ data_start then
    let cluster_offset := (lba - data_start) / SECTORS_PER_CLUSTER
    let sector_in_cluster := (lba - data_start) % SECTORS_PER_CLUSTER
    let cluster_num := add32 cluster_offset 2
    if cluster_num = 2 ∧ sector_in_cluster = 0 then []
    else data_area_callbacks vfat cluster_num sector_in_cluster vfat.files
  else []

/-! ## The SCSI target (`usb_scsi_commands.h`, `usb_scsi.c`) -/

def SCSI_CMD_TEST_UNIT_READY : Nat := 0x00
def SCSI_CMD_REQUEST_SENSE : Nat := 0x03
def SCSI_CMD_INQUIRY : Nat := 0x12
def SCSI_CMD_MODE_SENSE_6 : Nat := 0x1A
def SCSI_CMD_START_STOP_UNIT : Nat := 0x1B
def SCSI_CMD_PREVENT_ALLOW_MEDIUM_REMOVAL : Nat := 0x1E
def SCSI_CMD_READ_FORMAT_CAPACITY : Nat := 0x23
def SCSI_CMD_READ_CAPACITY_10 : Nat := 0x25
def SCSI_CMD_READ_10 : Nat := 0x28
def SCSI_CMD_WRITE_10 : Nat := 0x2A
def SCSI_CMD_MODE_SENSE_10 : Nat := 0x5A

def SCSI_SENSE_NO_SENSE : Nat := 0x00
def SCSI_SENSE_NOT_READY : Nat := 0x02
def SCSI_SENSE_ILLEGAL_REQUEST : Nat := 0x05
def SCSI_SENSE_DATA_PROTECT : Nat := 0x07

def SCSI_ASC_INVALID_COMMAND : Nat := 0x20
def SCSI_ASC_LBA_OUT_OF_RANGE : Nat := 0x21
def SCSI_ASC_INVALID_FIELD_IN_CDB : Nat := 0x24
def SCSI_ASC_MEDIUM_NOT_PRESENT : Nat := 0x3A

def SCSI_BLOCK_SIZE : Nat := 512
def SCSI_INQUIRY_DATA_SIZE : Nat := 36
def SCSI_SENSE_DATA_SIZE : Nat := 18
def SCSI_DEVICE_TYPE_DIRECT_ACCESS : Nat := 0x00

inductive ScsiState where
  | SCSI_STATE_IDLE
  | SCSI_STATE_TX_DATA
  | SCSI_STATE_RX_DATA
deriving DecidableEq, Repr

/-- Embeds `struct UsbScsiContext`.  The pointers `storage` and `vfat` are
options (`none` is NULL); `vfat` holds the filesystem pointed to, which is not
changed while it is attached.  `block_buffer` is the 512-byte scratch array. -/
structure UsbScsiContext where
  storage : Option Storage
  vfat : Option VirtualFat
  active : Bool
  state : ScsiState
  sense_key : Nat
  asc : Nat
  is_small_data_mode : Bool
  current_lba : Nat
  remaining_blocks : Nat
  block_buffer : List Nat
  buffer_offset : Nat

/-- Embeds `usb_scsi_alloc`: the zeroed context. -/
def usb_scsi_alloc : UsbScsiContext :=
  { storage := none, vfat := none, active := false, state := ScsiState.SCSI_STATE_IDLE
    sense_key := SCSI_SENSE_NO_SENSE, asc := 0, is_small_data_mode := false
    current_lba := 0, remaining_blocks := 0, block_buffer := zeros SCSI_BLOCK_SIZE
    buffer_offset := 0 }

/-- Embeds `usb_scsi_set_virtual_fat` for a non-NULL filesystem (returns `true`). -/
def usb_scsi_set_virtual_fat (ctx : UsbScsiContext) (vfat : VirtualFat) : UsbScsiContext :=
  { ctx with vfat := some vfat, active := true }

/-- Embeds `usb_scsi_clear`. -/
def usb_scsi_clear (ctx : UsbScsiContext) : UsbScsiContext :=
  { ctx with vfat := none, active := false, state := ScsiState.SCSI_STATE_IDLE }

/-- Embeds `usb_scsi_set_storage`. -/
def usb_scsi_set_storage (ctx : UsbScsiContext) (storage : Option Storage) : UsbScsiContext :=
  { ctx with storage := storage }

/-- Embeds `scsi_set_sense`. -/
def scsi_set_sense (ctx : UsbScsiContext) (sense_key asc : Nat) : UsbScsiContext :=
  { ctx with sense_key := sense_key, asc := asc }

/-- The byte `cmd[i]` of the command buffer.  The caller hands over the
16-byte `CB` field of the command block wrapper, and no index above 8 is read;
a buffer given shorter than that reads as 0 here. -/
def cdb_byte (cmd : List Nat) (i : Nat) : Nat := cmd.getD i 0

/-- The reply of a small-data command put at the start of `block_buffer`, with
the bookkeeping every such command does after its `memcpy`. -/
def small_reply (ctx : UsbScsiContext) (reply : List Nat) : UsbScsiContext :=
  { ctx with block_buffer := memcpy ctx.block_buffer 0 reply
             is_small_data_mode := true
             buffer_offset := 0
             remaining_blocks := reply.length
             state := ScsiState.SCSI_STATE_TX_DATA }

/-- Embeds `scsi_cmd_test_unit_ready`. -/
def scsi_cmd_test_unit_ready (ctx : UsbScsiContext) : Bool × UsbScsiContext := (true, ctx)

/-- Embeds `scsi_cmd_inquiry`. -/
def scsi_cmd_inquiry (ctx : UsbScsiContext) (cmd : List Nat) : Bool × UsbScsiContext :=
  let evpd := (cdb_byte cmd 1 &&& 0x01) ≠ 0
  let page_code := cdb_byte cmd 2
  if evpd then
    if page_code = 0x00 then
      (true, small_reply ctx [SCSI_DEVICE_TYPE_DIRECT_ACCESS, 0x00, 0x00, 0x02, 0x00, 0x80])
    else if page_code = 0x80 then
      (true, small_reply ctx
        ([SCSI_DEVICE_TYPE_DIRECT_ACCESS, 0x80, 0x00, 0x04] ++ ascii "FLP0"))
    else
      (false, scsi_set_sense ctx SCSI_SENSE_ILLEGAL_REQUEST SCSI_ASC_INVALID_FIELD_IN_CDB)
  else
    (true, small_reply ctx
      ([SCSI_DEVICE_TYPE_DIRECT_ACCESS, 0x80, 0x00, 0x02, 0x1F, 0x00, 0x00, 0x00]
        ++ ascii "FLIPPER " ++ ascii "Boot2Flipper    " ++ ascii "1.0 "))

/-- The four bytes `(v >> 24) & 0xFF`, `(v >> 16) & 0xFF`, `(v >> 8) & 0xFF`,
`v & 0xFF` of a `uint32_t`. -/
def be32_bytes (v : Nat) : List Nat :=
  [(v >>> 24) &&& 0xFF, (v >>> 16) &&& 0xFF, (v >>> 8) &&& 0xFF, v &&& 0xFF]

/-- Embeds `scsi_cmd_read_capacity_10`; the eight stores to
`block_buffer[0 .. 7]` are one copy of eight bytes. -/
def scsi_cmd_read_capacity_10 (ctx : UsbScsiContext) : Bool × UsbScsiContext :=
  match ctx.vfat with
  | none => (false, scsi_set_sense ctx SCSI_SENSE_NOT_READY SCSI_ASC_MEDIUM_NOT_PRESENT)
  | some vfat =>
    let total_blocks := virtual_fat_get_total_sectors vfat
    let last_lba := sub32 total_blocks 1
    (true, small_reply ctx (be32_bytes last_lba ++ be32_bytes SCSI_BLOCK_SIZE))

/-- The `uint32_t` parsed from `cmd[2 .. 5]` by `scsi_cmd_read_10`. -/
def read_10_lba (cmd : List Nat) : Nat :=
  ((cdb_byte cmd 2 <<< 24) ||| (cdb_byte cmd 3 <<< 16) ||| (cdb_byte cmd 4 <<< 8)
    ||| cdb_byte cmd 5) % U32

/-- The `uint16_t` parsed from `cmd[7 .. 8]` by `scsi_cmd_read_10`. -/
def read_10_length (cmd : List Nat) : Nat :=
  ((cdb_byte cmd 7 <<< 8) ||| cdb_byte cmd 8) % 65536

/-- Embeds `scsi_cmd_read_10`; `lba + length` is a `uint32_t` sum. -/
def scsi_cmd_read_10 (ctx : UsbScsiContext) (cmd : List Nat) : Bool × UsbScsiContext :=
  match ctx.vfat with
  | none => (false, scsi_set_sense ctx SCSI_SENSE_NOT_READY SCSI_ASC_MEDIUM_NOT_PRESENT)
  | some vfat =>
    let lba := read_10_lba cmd
    let length := read_10_length cmd
    let total_blocks := virtual_fat_get_total_sectors vfat
    if add32 lba length > total_blocks then
      (false, scsi_set_sense ctx SCSI_SENSE_ILLEGAL_REQUEST SCSI_ASC_LBA_OUT_OF_RANGE)
    else
      (true, { ctx with is_small_data_mode := false
                        current_lba := lba
                        remaining_blocks := length
                        buffer_offset := 0
                        state := ScsiState.SCSI_STATE_TX_DATA })

/-- Embeds `scsi_cmd_mode_sense_6`. -/
def scsi_cmd_mode_sense_6 (ctx : UsbScsiContext) : Bool × UsbScsiContext :=
  (true, small_reply ctx [0x03, 0x00, 0x80, 0x00])

/-- Embeds `scsi_cmd_mode_sense_10`. -/
def scsi_cmd_mode_sense_10 (ctx : UsbScsiContext) : Bool × UsbScsiContext :=
  (true, small_reply ctx [0x00, 0x06, 0x00, 0x80, 0x00, 0x00, 0x00, 0x00])

/-- Embeds `scsi_cmd_read_format_capacities`. -/
def scsi_cmd_read_format_capacities (ctx : UsbScsiContext) : Bool × UsbScsiContext :=
  match ctx.vfat with
  | none => (false, scsi_set_sense ctx SCSI_SENSE_NOT_READY SCSI_ASC_MEDIUM_NOT_PRESENT)
  | some vfat =>
    let total_blocks := virtual_fat_get_total_sectors vfat
    let last_lba := sub32 total_blocks 1
    (true, small_reply ctx
      ([0x00, 0x00, 0x00, 0x08] ++ be32_bytes last_lba ++
        [0x02, (SCSI_BLOCK_SIZE >>> 16) &&& 0xFF, (SCSI_BLOCK_SIZE >>> 8) &&& 0xFF,
          SCSI_BLOCK_SIZE &&& 0xFF]))

/-- Embeds `usb_scsi_get_sense_data` on the context's own `block_buffer` (the
call made by REQUEST SENSE): the sense bytes are stored and the sense pair is
cleared. -/
def usb_scsi_get_sense_data (ctx : UsbScsiContext) : UsbScsiContext :=
  let buffer := memcpy ctx.block_buffer 0 (zeros SCSI_SENSE_DATA_SIZE)
  let buffer := memcpy buffer 0 [0x70]
  let buffer := memcpy buffer 2 [ctx.sense_key]
  let buffer := memcpy buffer 7 [0x0A]
  let buffer := memcpy buffer 12 [ctx.asc]
  let buffer := memcpy buffer 13 [0x00]
  { ctx with block_buffer := buffer, sense_key := SCSI_SENSE_NO_SENSE, asc := 0 }

/-- Embeds `usb_scsi_process_command` for non-NULL `ctx` and `cmd`: the return
value and the context afterwards. -/
def usb_scsi_process_command (ctx : UsbScsiContext) (cmd : List Nat) (cmd_len : Nat) :
    Bool × UsbScsiContext :=
  if cmd_len = 0 then (false, ctx)
  else
    let ctx := { ctx with state := ScsiState.SCSI_STATE_IDLE
                          sense_key := SCSI_SENSE_NO_SENSE
                          asc := 0 }
    let opcode := cdb_byte cmd 0
    if opcode = SCSI_CMD_TEST_UNIT_READY then scsi_cmd_test_unit_ready ctx
    else if opcode = SCSI_CMD_INQUIRY then scsi_cmd_inquiry ctx cmd
    else if opcode = SCSI_CMD_READ_FORMAT_CAPACITY then scsi_cmd_read_format_capacities ctx
    else if opcode = SCSI_CMD_READ_CAPACITY_10 then scsi_cmd_read_capacity_10 ctx
    else if opcode = SCSI_CMD_READ_10 then scsi_cmd_read_10 ctx cmd
    else if opcode = SCSI_CMD_MODE_SENSE_6 then scsi_cmd_mode_sense_6 ctx
    else if opcode = SCSI_CMD_MODE_SENSE_10 then scsi_cmd_mode_sense_10 ctx
    else if opcode = SCSI_CMD_REQUEST_SENSE then
      let ctx := usb_scsi_get_sense_data ctx
      (true, { ctx with is_small_data_mode := true
                        buffer_offset := 0
                        remaining_blocks := SCSI_SENSE_DATA_SIZE
                        state := ScsiState.SCSI_STATE_TX_DATA })
    else if opcode = SCSI_CMD_PREVENT_ALLOW_MEDIUM_REMOVAL then (true, ctx)
    else if opcode = SCSI_CMD_START_STOP_UNIT then
      if cmd_len < 5 then
        (false, scsi_set_sense ctx SCSI_SENSE_ILLEGAL_REQUEST SCSI_ASC_INVALID_FIELD_IN_CDB)
      else (true, ctx)
    else if opcode = SCSI_CMD_WRITE_10 then
      (false, scsi_set_sense ctx SCSI_SENSE_DATA_PROTECT 0x27)
    else (false, scsi_set_sense ctx SCSI_SENSE_ILLEGAL_REQUEST SCSI_ASC_INVALID_COMMAND)

/-- What one call of `usb_scsi_transmit_data` does: the return value `sent`,
the bytes `data` copied into the caller's buffer, the LBA handed to
`virtual_fat_read_sector` in this call (if it was called), and the context
afterwards. -/
structure TxResult where
  sent : Nat
  data : List Nat
  read_lba : Option Nat
  ctx : UsbScsiContext

/-- The part of `usb_scsi_transmit_data` after the comment "Send data from
current sector"; `read_lba` records the sector read made earlier in the call.
`buffer_offset` is below 512 whenever this runs (it is reset on reaching 512),
so the `size_t` difference `SCSI_BLOCK_SIZE - buffer_offset` does not wrap. -/
def transmit_sector_part (ctx : UsbScsiContext) (max_len : Nat) (read_lba : Option Nat) :
    TxResult :=
  let available := SCSI_BLOCK_SIZE - ctx.buffer_offset
  let bytes_to_send := if available < max_len then available else max_len
  let data := slice ctx.block_buffer ctx.buffer_offset bytes_to_send
  let ctx1 := { ctx with buffer_offset := ctx.buffer_offset + bytes_to_send }
  let ctx2 :=
    if ctx1.buffer_offset ≥ SCSI_BLOCK_SIZE then
      let ctx2 := { ctx1 with buffer_offset := 0 }
      if ctx2.remaining_blocks = 0 then { ctx2 with state := ScsiState.SCSI_STATE_IDLE }
      else ctx2
    else ctx1
  { sent := bytes_to_send, data := data, read_lba := read_lba, ctx := ctx2 }

/-- The small-data branch of `usb_scsi_transmit_data`. -/
def transmit_small_part (ctx : UsbScsiContext) (max_len : Nat) : TxResult :=
  if ctx.buffer_offset ≥ ctx.remaining_blocks then
    { sent := 0, data := [], read_lba := none
      ctx := { ctx with state := ScsiState.SCSI_STATE_IDLE } }
  else
    let available := ctx.remaining_blocks - ctx.buffer_offset
    let bytes_to_send := if available < max_len then available else max_len
    let data := slice ctx.block_buffer ctx.buffer_offset bytes_to_send
    let ctx1 := { ctx with buffer_offset := ctx.buffer_offset + bytes_to_send }
    let ctx2 :=
      if ctx1.buffer_offset ≥ ctx1.remaining_blocks then
        { ctx1 with state := ScsiState.SCSI_STATE_IDLE, remaining_blocks := 0 }
      else ctx1
    { sent := bytes_to_send, data := data, read_lba := none, ctx := ctx2 }

/-- Embeds `usb_scsi_transmit_data` for non-NULL `ctx` and `buffer`.  `none`:
the sector read stores outside `block_buffer`, or it is made with a NULL
storage handle; both are outside the model. -/
def usb_scsi_transmit_data (ctx : UsbScsiContext) (max_len : Nat) : Option TxResult :=
  if ctx.state ≠ ScsiState.SCSI_STATE_TX_DATA then
    some { sent := 0, data := [], read_lba := none, ctx := ctx }
  else if ctx.is_small_data_mode then some (transmit_small_part ctx max_len)
  else
    if ctx.remaining_blocks = 0 ∧ ctx.buffer_offset = 0 then
      some { sent := 0, data := [], read_lba := none
             ctx := { ctx with state := ScsiState.SCSI_STATE_IDLE } }
    else if ctx.buffer_offset = 0 ∧ ctx.remaining_blocks > 0 then
      match ctx.vfat, ctx.storage with
      | none, _ =>
        some { sent := 0, data := [], read_lba := some ctx.current_lba
               ctx := { ctx with state := ScsiState.SCSI_STATE_IDLE } }
      | some _, none => none
      | some vfat, some storage =>
        match virtual_fat_read_sector storage vfat ctx.current_lba with
        | ReadOutcome.returned_false =>
          some { sent := 0, data := [], read_lba := some ctx.current_lba
                 ctx := { ctx with state := ScsiState.SCSI_STATE_IDLE } }
        | ReadOutcome.out_of_bounds => none
        | ReadOutcome.ok sector =>
          some (transmit_sector_part
            { ctx with block_buffer := sector
                       current_lba := add32 ctx.current_lba 1
                       remaining_blocks := ctx.remaining_blocks - 1 }
            max_len (some ctx.current_lba))
    else some (transmit_sector_part ctx max_len none)

/-- Embeds `usb_scsi_receive_data`. -/
def usb_scsi_receive_data (_ctx : UsbScsiContext) (_buffer : List Nat) (_len : Nat) : Bool :=
  false

/-- Embeds `usb_scsi_has_tx_data` for a non-NULL context. -/
def usb_scsi_has_tx_data (ctx : UsbScsiContext) : Bool :=
  ctx.state = ScsiState.SCSI_STATE_TX_DATA

/-! ## The Bulk-Only Transport worker (`usb_msc.h`, `usb_msc.c`) -/

def USB_MSC_EP_IN : Nat := 0x82
def USB_MSC_EP_OUT : Nat := 0x02
def USB_MSC_EP_SIZE : Nat := 64
def USB_MSC_CBW_SIGNATURE : Nat := 0x43425355
def USB_MSC_CSW_SIGNATURE : Nat := 0x53425355
def USB_MSC_CSW_STATUS_PASSED : Nat := 0x00
def USB_MSC_CSW_STATUS_FAILED : Nat := 0x01
def USB_MSC_CSW_STATUS_PHASE_ERROR : Nat := 0x02

/-- The value of `sizeof(UsbMscCbw)` for the packed struct. -/
def CBW_SIZE : Nat := 31

inductive MscState where
  | MSC_STATE_IDLE
  | MSC_STATE_READ_CBW
  | MSC_STATE_DATA_IN
  | MSC_STATE_DATA_OUT
  | MSC_STATE_BUILD_CSW
  | MSC_STATE_WRITE_CSW
deriving DecidableEq, Repr

/-! The packed `UsbMscCbw` is kept as its 31 bytes, because `usbd_ep_read`
stores into it bytewise; the fields are read out little-endian. -/

def cbw_dSignature (cbw : List Nat) : Nat := leValue (slice cbw 0 4)
def cbw_dTag (cbw : List Nat) : Nat := leValue (slice cbw 4 4)
def cbw_dDataLength (cbw : List Nat) : Nat := leValue (slice cbw 8 4)
def cbw_bmFlags (cbw : List Nat) : Nat := cbw.getD 12 0
def cbw_bLUN (cbw : List Nat) : Nat := cbw.getD 13 0
def cbw_bCBLength (cbw : List Nat) : Nat := cbw.getD 14 0
def cbw_CB (cbw : List Nat) : List Nat := slice cbw 15 16

/-- Embeds `UsbMscCsw`. -/
structure UsbMscCsw where
  dSignature : Nat
  dTag : Nat
  dDataResidue : Nat
  bStatus : Nat
deriving DecidableEq, Repr

/-- The 13 bytes of the packed `UsbMscCsw` that `usbd_ep_write` sends. -/
def csw_bytes (csw : UsbMscCsw) : List Nat :=
  le32 csw.dSignature ++ le32 csw.dTag ++ le32 csw.dDataResidue ++ [csw.bStatus % 256]

/-- Embeds `struct UsbMscContext`, without the thread handles and the saved
USB mode.  `scsi` is the SCSI context pointed to (`usb_msc_start` refuses to
start the worker with a NULL pointer); `usb_dev` tells whether the device
pointer is non-NULL. -/
structure UsbMscContext where
  scsi : UsbScsiContext
  usb_dev : Bool
  state : MscState
  cbw : List Nat
  csw : UsbMscCsw
  tx_buffer : List Nat
  tx_len : Nat
  tx_offset : Nat
  rx_buffer : List Nat
  rx_len : Nat

/-- Embeds `usb_msc_alloc` followed by `usb_msc_set_scsi` with a non-NULL
context: everything else is zeroed. -/
def usb_msc_alloc (scsi : UsbScsiContext) : UsbMscContext :=
  { scsi := scsi, usb_dev := false, state := MscState.MSC_STATE_IDLE
    cbw := zeros CBW_SIZE
    csw := { dSignature := 0, dTag := 0, dDataResidue := 0, bStatus := 0 }
    tx_buffer := zeros 512, tx_len := 0, tx_offset := 0
    rx_buffer := zeros 512, rx_len := 0 }

/-- What the USB driver answers during one pass of the worker loop: the result
of `usbd_ep_read` with the bytes it stores, and the result of `usbd_ep_write`.
A pass makes at most one call of each. -/
structure UsbBus where
  read_len : Int
  read_data : List Nat
  write_result : Int

/-- The bytes a `usbd_ep_read` of `size` bytes stores: as many as it returns,
never more than `size`. -/
def ep_read_bytes (bus : UsbBus) (size : Nat) : List Nat :=
  bus.read_data.take (min bus.read_len.toNat size)

/-- The calls the worker makes to the USB driver, in order.  A read carries the
returned length and what the target buffer holds afterwards (the whole `cbw`,
or the bytes received); a write carries the bytes handed over (the `csw`, or
the first `tx_len` bytes of `tx_buffer`) and the result returned. -/
inductive UsbAction where
  | read_cbw (len : Int) (cbw : List Nat)
  | read_data (len : Int) (data : List Nat)
  | write_csw (csw : UsbMscCsw) (result : Int)
  | write_data (data : List Nat) (result : Int)
  | stall (ep : Nat)
deriving DecidableEq, Repr

/-- The stores to `csw.dSignature`, `csw.dTag`, `csw.dDataResidue` and
`csw.bStatus` followed by `usbd_ep_write(dev, USB_MSC_EP_IN, &ctx->csw, 13)`,
whose result the worker does not look at. -/
def send_csw (ctx : UsbMscContext) (bStatus dDataResidue : Nat) (bus : UsbBus) :
    UsbMscContext × List UsbAction :=
  let csw : UsbMscCsw :=
    { dSignature := USB_MSC_CSW_SIGNATURE, dTag := cbw_dTag ctx.cbw
      dDataResidue := dDataResidue, bStatus := bStatus }
  ({ ctx with csw := csw }, [UsbAction.write_csw csw bus.write_result])

/-- The residue computed in the data-in case: `dDataLength - tx_offset` when
`dDataLength > tx_offset`, else 0. -/
def data_in_residue (ctx : UsbMscContext) : Nat :=
  if cbw_dDataLength ctx.cbw > ctx.tx_offset then cbw_dDataLength ctx.cbw - ctx.tx_offset
  else 0

/-- The block "Try to send buffered data" of the data-in case. -/
def send_buffered (ctx : UsbMscContext) (bus : UsbBus) : UsbMscContext × List UsbAction :=
  if ctx.tx_len > 0 then
    if bus.write_result < 0 then
      (ctx, [UsbAction.write_data (ctx.tx_buffer.take ctx.tx_len) bus.write_result])
    else
      ({ ctx with tx_offset := add32 ctx.tx_offset ctx.tx_len, tx_len := 0 },
        [UsbAction.write_data (ctx.tx_buffer.take ctx.tx_len) bus.write_result])
  else (ctx, [])

/-- The case `MSC_STATE_DATA_IN` from the label `process_data_in`.  `none`:
the SCSI layer's sector read leaves the model. -/
def process_data_in (ctx : UsbMscContext) (bus : UsbBus) :
    Option (UsbMscContext × List UsbAction) :=
  if usb_scsi_has_tx_data ctx.scsi = false then
    let s := send_csw ctx USB_MSC_CSW_STATUS_PASSED (data_in_residue ctx) bus
    some ({ s.1 with state := MscState.MSC_STATE_READ_CBW, tx_offset := 0, tx_len := 0 }, s.2)
  else if ctx.tx_len = 0 then
    match usb_scsi_transmit_data ctx.scsi USB_MSC_EP_SIZE with
    | none => none
    | some r =>
      let ctx1 := { ctx with scsi := r.ctx
                             tx_buffer := memcpy ctx.tx_buffer 0 r.data
                             tx_len := r.sent }
      if ctx1.tx_len = 0 then
        let s := send_csw ctx1 USB_MSC_CSW_STATUS_FAILED (data_in_residue ctx1) bus
        some ({ s.1 with state := MscState.MSC_STATE_READ_CBW, tx_offset := 0, tx_len := 0 },
          s.2)
      else some (send_buffered ctx1 bus)
  else some (send_buffered ctx bus)

/-- The case `MSC_STATE_READ_CBW`, with its jump to `process_data_in`. -/
def state_read_cbw (ctx : UsbMscContext) (bus : UsbBus) :
    Option (UsbMscContext × List UsbAction) :=
  let len := bus.read_len
  if len ≤ 0 then some (ctx, [UsbAction.read_cbw len ctx.cbw])
  else
    let ctx1 := { ctx with cbw := memcpy ctx.cbw 0 (ep_read_bytes bus CBW_SIZE) }
    let rd := UsbAction.read_cbw len ctx1.cbw
    if len ≠ CBW_SIZE ∨ cbw_dSignature ctx1.cbw ≠ USB_MSC_CBW_SIGNATURE then
      some ({ ctx1 with state := MscState.MSC_STATE_READ_CBW },
        [rd, UsbAction.stall USB_MSC_EP_IN, UsbAction.stall USB_MSC_EP_OUT])
    else
      let r := usb_scsi_process_command ctx1.scsi (cbw_CB ctx1.cbw) (cbw_bCBLength ctx1.cbw)
      let ctx2 := { ctx1 with scsi := r.2 }
      if r.1 = false then
        let s := send_csw ctx2 USB_MSC_CSW_STATUS_FAILED (cbw_dDataLength ctx2.cbw) bus
        some ({ s.1 with state := MscState.MSC_STATE_READ_CBW }, rd :: s.2)
      else if cbw_dDataLength ctx2.cbw > 0 then
        if (cbw_bmFlags ctx2.cbw &&& 0x80) ≠ 0 then
          match process_data_in
              { ctx2 with state := MscState.MSC_STATE_DATA_IN, tx_offset := 0 } bus with
          | none => none
          | some s => some (s.1, rd :: s.2)
        else some ({ ctx2 with state := MscState.MSC_STATE_DATA_OUT, rx_len := 0 }, [rd])
      else
        let s := send_csw ctx2 USB_MSC_CSW_STATUS_PASSED 0 bus
        some ({ s.1 with state := MscState.MSC_STATE_READ_CBW }, rd :: s.2)

/-- The case `MSC_STATE_DATA_OUT`; `rx_len += len` is a `uint32_t` sum. -/
def state_data_out (ctx : UsbMscContext) (bus : UsbBus) : UsbMscContext × List UsbAction :=
  let len := bus.read_len
  if len > 0 then
    let ctx1 := { ctx with rx_buffer := memcpy ctx.rx_buffer 0 (ep_read_bytes bus USB_MSC_EP_SIZE) }
    let rd := UsbAction.read_data len (ep_read_bytes bus USB_MSC_EP_SIZE)
    let rx_ok := usb_scsi_receive_data ctx1.scsi ctx1.rx_buffer len.toNat
    let ctx2 := { ctx1 with rx_len := add32 ctx1.rx_len len.toNat }
    if rx_ok = false ∨ ctx2.rx_len ≥ cbw_dDataLength ctx2.cbw then
      let s := send_csw ctx2
        (if rx_ok then USB_MSC_CSW_STATUS_PASSED else USB_MSC_CSW_STATUS_FAILED) 0 bus
      ({ s.1 with state := MscState.MSC_STATE_READ_CBW }, rd :: s.2)
    else (ctx2, [rd])
  else (ctx, [UsbAction.read_data len []])

/-- The `switch(ctx->state)` of the worker for an `EventRxTx` with a non-NULL
device. -/
def worker_rxtx (ctx : UsbMscContext) (bus : UsbBus) : Option (UsbMscContext × List UsbAction) :=
  match ctx.state with
  | MscState.MSC_STATE_READ_CBW => state_read_cbw ctx bus
  | MscState.MSC_STATE_DATA_IN => process_data_in ctx bus
  | MscState.MSC_STATE_DATA_OUT => some (state_data_out ctx bus)
  | MscState.MSC_STATE_BUILD_CSW | MscState.MSC_STATE_WRITE_CSW =>
    let s := send_csw ctx ctx.csw.bStatus 0 bus
    some ({ s.1 with state := MscState.MSC_STATE_READ_CBW }, s.2)
  | MscState.MSC_STATE_IDLE => some ({ ctx with state := MscState.MSC_STATE_READ_CBW }, [])

/-- The thread flags one `furi_thread_flags_wait` returns. -/
structure WorkerFlags where
  event_exit : Bool
  event_reset : Bool
  event_rxtx : Bool
deriving DecidableEq, Repr

/-- One pass of the `while(1)` loop of `mass_thread_worker`: whether the loop
goes on, the context afterwards, and the driver calls made. -/
def worker_pass (ctx : UsbMscContext) (flags : WorkerFlags) (bus : UsbBus) :
    Option (Bool × UsbMscContext × List UsbAction) :=
  if flags.event_exit then some (false, ctx, [])
  else if flags.event_reset then
    some (true, { ctx with state := MscState.MSC_STATE_READ_CBW, tx_offset := 0, tx_len := 0 },
      [])
  else if flags.event_rxtx then
    if ctx.usb_dev = false then some (true, ctx, [])
    else
      match worker_rxtx ctx bus with
      | none => none
      | some s => some (true, s.1, s.2)
  else some (true, ctx, [])

/-- The `while(1)` loop over the flags waited for, with the driver's answers:
the driver calls made, and the context at the end (`none` once a pass leaves
the model; the calls made before it are kept). -/
def worker_loop : UsbMscContext → List (WorkerFlags × UsbBus) →
    List UsbAction × Option UsbMscContext
  | ctx, [] => ([], some ctx)
  | ctx, (flags, bus) :: rest =>
    match worker_pass ctx flags bus with
    | none => ([], none)
    | some (false, ctx1, acts) => (acts, some ctx1)
    | some (true, ctx1, acts) =>
      let r := worker_loop ctx1 rest
      (acts ++ r.1, r.2)

/-- Embeds `mass_thread_worker`: the state is set to `MSC_STATE_READ_CBW`, then
the loop runs. -/
def mass_thread_worker (ctx : UsbMscContext) (events : List (WorkerFlags × UsbBus)) :
    List UsbAction × Option UsbMscContext :=
  worker_loop { ctx with state := MscState.MSC_STATE_READ_CBW } events

/-! ## Vocabulary of the statements -/

/-- The sector a read produced, if it produced one. -/
def ReadOutcome.sector? : ReadOutcome → Option (List Nat)
  | ReadOutcome.ok buffer => some buffer
  | ReadOutcome.returned_false => none
  | ReadOutcome.out_of_bounds => none

/-- A storage on which no file can be opened. -/
def empty_storage : Storage :=
  { file_size := fun _ => none, file_read := fun _ _ _ => [] }

/-- A buffer with the four bytes at offsets 16..19 set to zero. -/
def zero_crc_field (header : List Nat) : List Nat := memcpy header 16 (zeros 4)

/-- One CRC bit step in arithmetic form (equal to `crc32_bit`). -/
def crc32_bit_arith (crc : Nat) : Nat := (crc >>> 1) ^^^ (0xEDB88320 * (crc % 2))

/-- The CRC fold with the running value forced at every byte, for evaluation
(equal to `List.foldl crc32_byte`). -/
def crc32_fold_strict : List Nat → Nat → Nat
  | [], c => c
  | b :: bs, c =>
    match crc32_bit_arith (crc32_bit_arith (crc32_bit_arith (crc32_bit_arith
      (crc32_bit_arith (crc32_bit_arith (crc32_bit_arith (crc32_bit_arith (c ^^^ b)))))))) with
    | 0 => crc32_fold_strict bs 0
    | n + 1 => crc32_fold_strict bs (n + 1)


/-- The cluster count the specification assigns to an entry: at least one
cluster for a file, exactly one for a directory. -/
def spec_clusters (file : VirtualFatFile) : Nat :=
  if file.is_directory then 1 else max 1 ((file.size + 511) / 512)

/-- The entries occupy consecutive cluster runs in table order: the first run
starts at `start`, each next run starts where the previous one ends, and the
last one ends at `next`; `count` gives the length of an entry's run. -/
def runs_contiguous (count : VirtualFatFile → Nat) :
    Nat → List VirtualFatFile → Nat → Prop
  | start, [], next => next = start
  | start, file :: files, next =>
    file.start_cluster = start ∧ runs_contiguous count (start + count file) files next

/-- No cluster lies in the runs of two different entries. -/
def runs_disjoint (count : VirtualFatFile → Nat) (files : List VirtualFatFile) : Prop :=
  ∀ (i j : Nat) (f g : VirtualFatFile), i ≠ j → files[i]? = some f → files[j]? = some g →
    ∀ c : Nat, ¬ ((f.start_cluster ≤ c ∧ c < f.start_cluster + count f) ∧
                   (g.start_cluster ≤ c ∧ c < g.start_cluster + count g))

/-- What every filesystem built through the API satisfies. -/
def FsInv (vfat : VirtualFat) : Prop :=
  vfat.files.length ≤ MAX_FILES ∧
  runs_contiguous fat_clusters 3 vfat.files vfat.next_cluster ∧
  vfat.next_cluster ≤ 3 + vfat.files.length * 8388608 ∧
  (∀ f ∈ vfat.files, f.source_type = FileSourceType.FILE_SOURCE_MEMORY →
    f.is_directory = false → f.size = f.memory_data.length) ∧
  (∀ f ∈ vfat.files, f.name.length = 11)

/-- Sector `k` of a file with bytes `data`: the bytes `data[512k .. 512k+512)`
that exist, followed by zero padding up to 512 bytes. -/
def file_sector_bytes (data : List Nat) (k : Nat) : List Nat :=
  slice data (512 * k) 512 ++ zeros (512 - (slice data (512 * k) 512).length)

/-- Number of long-name slots the directory loops emit for an entry:
`(uint8_t)((lfn_len + 12) / 13)` with `lfn_len = (uint8_t)strlen(long_name)`. -/
def lfn_slots (file : VirtualFatFile) : Nat :=
  ((file.long_name.length % 256 + 12) / 13) % 256

/-- The sequence byte of the `i`-th emitted long-name slot (counting from 0) of
a run of `k` slots: `k, k-1, ..., 1`, the first one or-ed with `LFN_LAST`. -/
def lfn_sequence (k i : Nat) : Nat :=
  if i = 0 then k ||| LFN_LAST else k - i

/-- Number of 32-byte slots the entries of `files` whose parent is
`dir_index` take together (long-name slots and one 8.3 slot each). -/
def dir_slots (dir_index : Int) : List VirtualFatFile → Nat
  | [] => 0
  | file :: files =>
    (if file.parent_index = dir_index then lfn_slots file + 1 else 0) + dir_slots dir_index files

/-- The attribute byte of an entry's 8.3 slot. -/
def entry_attributes (file : VirtualFatFile) : Nat :=
  if file.is_directory then 0x10 else 0x20

/-- The short-name checksum in arithmetic form: starting from 0, for each name
byte `sum := ((sum & 1) << 7) + (sum >> 1) + byte` modulo 256, with
`(sum & 1) << 7 = (sum mod 2) * 128` and `sum >> 1 = sum / 2`. -/
def spec_lfn_checksum (name : List Nat) : Nat :=
  name.foldl (fun sum byte => ((sum % 2) * 128 + sum / 2 + byte) % 256) 0

/-- The slots of entry `file` in a directory sector, starting at slot `e`: its
`k = ceil(n / 13)` long-name slots with sequence numbers `k, ..., 1`, bit `0x40`
added to the first only, each with attribute byte `0x0F`; then its 8.3 slot. -/
def long_name_run_at (sec : List Nat) (e : Nat) (file : VirtualFatFile) : Prop :=
  (∀ i, i < (file.long_name.length + 12) / 13 →
    slice sec (32 * (e + i)) 1
      = [(file.long_name.length + 12) / 13 - i + (if i = 0 then 0x40 else 0)] ∧
    slice sec (32 * (e + i) + 11) 1 = [0x0F]) ∧
  slice sec (32 * (e + (file.long_name.length + 12) / 13)) 32
    = write_directory_entry file.name (entry_attributes file) file.start_cluster file.size

/-- Byte 13 of every long-name slot of the run at slot `e` is the checksum of
the 11 name bytes of the 8.3 slot that follows the run. -/
def checksum_run_at (sec : List Nat) (e : Nat) (file : VirtualFatFile) : Prop :=
  ∀ i, i < (file.long_name.length + 12) / 13 →
    slice sec (32 * (e + i) + 13) 1
      = [spec_lfn_checksum (slice sec (32 * (e + (file.long_name.length + 12) / 13)) 11)]

/-- The filesystem holding the one memory file `filename` with bytes `data`. -/
def single_file_fs (filename data : List Nat) : VirtualFat :=
  (virtual_fat_add_file virtual_fat_alloc filename data).2

/-- Six memory files whose names need two long-name slots each. -/
def six_long_names_fs : VirtualFat :=
  (virtual_fat_add_file (virtual_fat_add_file (virtual_fat_add_file (virtual_fat_add_file
    (virtual_fat_add_file (virtual_fat_add_file virtual_fat_alloc
      (ascii "autoexec-1.ipxe") (ascii "#!ipxe\n")).2
      (ascii "autoexec-2.ipxe") (ascii "#!ipxe\n")).2
      (ascii "autoexec-3.ipxe") (ascii "#!ipxe\n")).2
      (ascii "autoexec-4.ipxe") (ascii "#!ipxe\n")).2
      (ascii "autoexec-5.ipxe") (ascii "#!ipxe\n")).2
      (ascii "autoexec-6.ipxe") (ascii "#!ipxe\n")).2

/-- The table entry `virtual_fat_add_file` stores for "autoexec.ipxe" on an
empty filesystem. -/
def autoexec_entry : VirtualFatFile :=
  { name := ascii "AUTOEXECIPX"
    long_name := ascii "autoexec.ipxe"
    size := 7
    start_cluster := 3
    source_type := FileSourceType.FILE_SOURCE_MEMORY
    memory_data := ascii "#!ipxe\n"
    sd_path := []
    is_directory := false
    parent_index := -1 }

/-! ## Vocabulary for path insertion and subdirectory sectors -/

/-- The 8.3 name the specification gives a path component: upper-cased, cut
to 8 characters and space-padded to 11 bytes. -/
def spec_dir_name (component : List Nat) : List Nat :=
  (component.take 8).map toupper ++ List.replicate (11 - min 8 component.length) 32

/-- The first existing directory under `parent` whose 8.3 name is that of
`component`, by table index. -/
def spec_lookup (vfat : VirtualFat) (component : List Nat) (parent : Int) : Option Nat :=
  vfat.files.findIdx?
    (fun f => f.is_directory && decide (f.parent_index = parent) &&
      decide (f.name = spec_dir_name component))

/-- A storage in which every path opens as a file of `size` zero bytes. -/
def uniform_storage (size : Nat) : Storage :=
  { file_size := fun _ => some size, file_read := fun _ _ count => zeros count }

/-- What the table shows of an entry: 8.3 name, directory flag, parent index
and start cluster. -/
def entry_summary (f : VirtualFatFile) : List Nat × Bool × Int × Nat :=
  (f.name, f.is_directory, f.parent_index, f.start_cluster)

/-- The filesystem after adding the external file "BOOTX64.EFI" under
"EFI/BOOT" to an empty filesystem (`none` when the add leaves the table). -/
def efi_boot_fs : Option VirtualFat :=
  (virtual_fat_add_file_to_subdir (uniform_storage 1024) virtual_fat_alloc (ascii "EFI/BOOT")
    (ascii "BOOTX64.EFI") (ascii "/ext/bootx64.efi")).map Prod.snd

/-- The index `p` is the root (-1) or the table index of a directory. -/
def ValidParent (vfat : VirtualFat) (p : Int) : Prop :=
  p = -1 ∨ ∃ (j : Nat) (dir : VirtualFatFile), p = (j : Int) ∧ vfat.files[j]? = some dir ∧
    dir.is_directory = true

/-- Every entry has a long name of at most 255 characters and a parent that
is the root or a directory of the table. -/
def TableInv (vfat : VirtualFat) : Prop :=
  ∀ f ∈ vfat.files, f.long_name.length ≤ 255 ∧ ValidParent vfat f.parent_index

/-- The 8.3 entry "." of a directory that starts at `cluster`. -/
def dot_entry (cluster : Nat) : List Nat :=
  write_directory_entry (ascii ".          ") 0x10 cluster 0

/-- The 8.3 entry ".." pointing at a parent that starts at `cluster`. -/
def dotdot_entry (cluster : Nat) : List Nat :=
  write_directory_entry (ascii "..         ") 0x10 cluster 0

/-- Eight external files "F1" ... "F8" added under the directory "D". -/
def crowded_dir_ops : List Op :=
  (List.range 8).map (fun i =>
    Op.add_file_to_subdir (uniform_storage 1024) (ascii "D") [70, 49 + i] (ascii "/ext/f"))

/-! ## Vocabulary for the SCSI target -/

/-- The context the application sets up: allocated, storage handle set, the
filesystem `vfat` attached. -/
def scsi_session (storage : Storage) (vfat : VirtualFat) : UsbScsiContext :=
  usb_scsi_set_virtual_fat (usb_scsi_set_storage usb_scsi_alloc (some storage)) vfat

/-- The value of a big-endian byte string. -/
def be_value (bytes : List Nat) : Nat := bytes.foldl (fun acc b => acc * 256 + b) 0

/-- Successive calls of `usb_scsi_transmit_data` with the limits `ms`, each on
the context the previous call left: the results in call order (`none` when a
call leaves the model). -/
def transmit_calls : UsbScsiContext → List Nat → Option (List TxResult)
  | _, [] => some []
  | ctx, m :: ms =>
    match usb_scsi_transmit_data ctx m with
    | none => none
    | some r =>
      match transmit_calls r.ctx ms with
      | none => none
      | some rs => some (r :: rs)

/-- The calls with limits `ms` and results `rs` deliver the bytes of `total`
in order from position `k`: each call returns the number of bytes it copied,
at most its limit, at least one byte while bytes of `total` remain and none
afterwards; the bytes are the next ones of `total`; and the call reads the
sector `reads k` tells for its position (none when it tells none). -/
def DeliversFrom (total : List Nat) (reads : Nat → Option Nat) :
    Nat → List Nat → List TxResult → Prop
  | _, [], [] => True
  | k, m :: ms, r :: rs =>
    r.sent = r.data.length ∧ r.data.length ≤ m ∧ (k < total.length → 1 ≤ r.data.length) ∧
    (total.length ≤ k → r.sent = 0) ∧
    r.data = (total.drop k).take r.data.length ∧ r.read_lba = reads k ∧
    DeliversFrom total reads (k + r.data.length) ms rs
  | _, _, _ => False

/-- The sector `virtual_fat_read_sector` returns for LBA `a + i` (a
`uint32_t` sum); empty when the read returns no sector. -/
def stream_sector (storage : Storage) (vfat : VirtualFat) (a i : Nat) : List Nat :=
  ((virtual_fat_read_sector storage vfat (add32 a i)).sector?).getD []

/-- The bytes of the sectors `a, a + 1, ..., a + n - 1` as
`virtual_fat_read_sector` returns them, one after the other. -/
def stream_bytes (storage : Storage) (vfat : VirtualFat) (a n : Nat) : List Nat :=
  (List.range n).flatMap (stream_sector storage vfat a)

/-- The sector read a READ(10) stream of `n` sectors from LBA `a` makes at
byte position `k`: sector `a + k / 512` when the position enters it. -/
def stream_reads (a n k : Nat) : Option Nat :=
  if k % 512 = 0 ∧ k < 512 * n then some (add32 a (k / 512)) else none

/-- The reply lengths the specification lists for the small-reply commands. -/
def small_reply_length (cmd : List Nat) : Nat :=
  if cdb_byte cmd 0 = 0x03 then 18
  else if cdb_byte cmd 0 = 0x12 then
    if (cdb_byte cmd 1 &&& 0x01) ≠ 0 then (if cdb_byte cmd 2 = 0x00 then 6 else 8) else 36
  else if cdb_byte cmd 0 = 0x1A then 4
  else if cdb_byte cmd 0 = 0x5A then 8
  else if cdb_byte cmd 0 = 0x23 then 12
  else 8

/-- The state of a small reply `total` after `k` of its bytes were returned. -/
def SmallInv (total : List Nat) (ctx : UsbScsiContext) (k : Nat) : Prop :=
  k ≤ total.length ∧
  (k < total.length →
    ctx.state = ScsiState.SCSI_STATE_TX_DATA ∧ ctx.is_small_data_mode = true ∧
    ctx.buffer_offset = k ∧ ctx.remaining_blocks = total.length ∧
    ctx.block_buffer.take total.length = total) ∧
  (k = total.length → ctx.state = ScsiState.SCSI_STATE_IDLE)

/-- The state of a READ(10) stream of `n` sectors from LBA `a` after `k` of
its bytes were returned: `(k + 511) / 512` sectors have been read. -/
def StreamInv (storage : Storage) (vfat : VirtualFat) (a n : Nat) (ctx : UsbScsiContext)
    (k : Nat) : Prop :=
  k ≤ 512 * n ∧
  (k < 512 * n →
    ctx.state = ScsiState.SCSI_STATE_TX_DATA ∧ ctx.is_small_data_mode = false ∧
    ctx.storage = some storage ∧ ctx.vfat = some vfat ∧
    ctx.buffer_offset = k % 512 ∧ ctx.remaining_blocks = n - (k + 511) / 512 ∧
    ctx.current_lba = add32 a ((k + 511) / 512) ∧
    (k % 512 ≠ 0 → ctx.block_buffer = stream_sector storage vfat a (k / 512))) ∧
  (k = 512 * n → ctx.state = ScsiState.SCSI_STATE_IDLE)

/-! ## Vocabulary for the INQUIRY replies and the transport worker -/

/-- The reply a command leaves for byte-mode transmission: the first
`remaining_blocks` bytes of `block_buffer`. -/
def pending_reply (ctx : UsbScsiContext) : List Nat :=
  ctx.block_buffer.take ctx.remaining_blocks

/-- The 31 bytes of a command block wrapper with the signature "USBC", LUN 0,
and the command block `cb` padded with zeros to 16 bytes. -/
def cbw_packet (dTag dDataLength bmFlags bCBLength : Nat) (cb : List Nat) : List Nat :=
  le32 USB_MSC_CBW_SIGNATURE ++ le32 dTag ++ le32 dDataLength ++ [bmFlags, 0, bCBLength]
    ++ (cb ++ zeros (16 - cb.length))

/-- The flags of a wake-up for `EventRxTx` alone. -/
def rxtx_flags : WorkerFlags :=
  { event_exit := false, event_reset := false, event_rxtx := true }

/-- An `EventRxTx` wake-up during which the driver answers a read with
`read_len` and the bytes `read_data`, and a write with `write_result`. -/
def rxtx_event (read_len : Int) (read_data : List Nat) (write_result : Int) :
    WorkerFlags × UsbBus :=
  (rxtx_flags, { read_len := read_len, read_data := read_data, write_result := write_result })

/-- The worker context of a started session: allocated, SCSI context
attached, device pointer stored by `msc_init`. -/
def msc_session (scsi : UsbScsiContext) : UsbMscContext :=
  { usb_msc_alloc scsi with usb_dev := true }

/-- The bytes the IN endpoint accepted as data: those of the data writes
whose result is not negative, in order. -/
def delivered_bytes : List UsbAction → List Nat
  | [] => []
  | UsbAction.write_data data result :: acts =>
    if result < 0 then delivered_bytes acts else data ++ delivered_bytes acts
  | _ :: acts => delivered_bytes acts

/-- The tag of the last valid command block wrapper (31 bytes read, signature
"USBC") after the driver calls `acts`, `last` being the one before them. -/
def last_valid_tag : Option Nat → List UsbAction → Option Nat
  | last, [] => last
  | last, UsbAction.read_cbw len cbw :: acts =>
    last_valid_tag
      (if len = 31 ∧ cbw_dSignature cbw = USB_MSC_CBW_SIGNATURE then some (cbw_dTag cbw)
        else last) acts
  | last, _ :: acts => last_valid_tag last acts

/-- Every CSW written among the driver calls `acts` has the signature "USBS",
the tag of the last valid command block wrapper read before it (`last` at the
start), and a status byte among `0x00`, `0x01`, `0x02`. -/
def csws_echo : Option Nat → List UsbAction → Bool
  | _, [] => true
  | last, UsbAction.read_cbw len cbw :: acts =>
    csws_echo
      (if len = 31 ∧ cbw_dSignature cbw = USB_MSC_CBW_SIGNATURE then some (cbw_dTag cbw)
        else last) acts
  | last, UsbAction.write_csw csw _ :: acts =>
    decide (csw.dSignature = 0x53425355 ∧ some csw.dTag = last ∧
      csw.bStatus ∈ [0x00, 0x01, 0x02]) && csws_echo last acts
  | last, _ :: acts => csws_echo last acts

/-- What holds of the worker between passes, `last` being the tag of the last
valid command block wrapper: it waits for a wrapper, or it is in a data phase
of the command whose wrapper `cbw` still holds. -/
def WorkerInv (ctx : UsbMscContext) (last : Option Nat) : Prop :=
  ctx.state = MscState.MSC_STATE_READ_CBW ∨
  ((ctx.state = MscState.MSC_STATE_DATA_IN ∨ ctx.state = MscState.MSC_STATE_DATA_OUT) ∧
    last = some (cbw_dTag ctx.cbw))

/-- The LBA a CHS triple of a partition entry stands for with 255 heads and 63
sectors per track: head `b1`, sector `b2 & 0x3F`, cylinder
`b3 + 4 * (b2 & 0xC0)`. -/
def chs_decode (b1 b2 b3 : Nat) : Nat :=
  ((b3 + 4 * (b2 &&& 0xC0)) * 255 + b1) * 63 + ((b2 &&& 0x3F) - 1)

/-- Fifteen empty memory files "FA", "FB", ..., "FO" added to the root. -/
def fifteen_files_ops : List Op :=
  (List.range 15).map (fun i => Op.add_file [70, 65 + i] [])

/-- Seven external files added under the directory "D": "F1" ... "F5" (one
long-name slot each), then "autoexec-6.ipxe" and "autoexec-7.ipxe" (two
long-name slots each). -/
def overfull_dir_ops : List Op :=
  (List.range 5).map (fun i =>
    Op.add_file_to_subdir (uniform_storage 1024) (ascii "D") [70, 49 + i] (ascii "/ext/f"))
  ++ [Op.add_file_to_subdir (uniform_storage 1024) (ascii "D") (ascii "autoexec-6.ipxe")
        (ascii "/ext/f"),
      Op.add_file_to_subdir (uniform_storage 1024) (ascii "D") (ascii "autoexec-7.ipxe")
        (ascii "/ext/f")]

/-- The byte offset of the `i`-th UTF-16 unit (`i = 0 .. 12`) in a long-name
slot: units 0..4 at 1..10, units 5..10 at 14..25, units 11..12 at 28..31. -/
def lfn_unit_offset (i : Nat) : Nat :=
  if i < 5 then 1 + 2 * i else if i < 11 then 14 + 2 * (i - 5) else 28 + 2 * (i - 11)

/-- The UTF-16 unit due at position `p` of a long name: the character, then
one `0x0000`, then `0xFFFF`. -/
def spec_lfn_unit (long_name : List Nat) (p : Nat) : Nat :=
  if p < long_name.length then long_name.getD p 0
  else if p = long_name.length then 0x0000 else 0xFFFF

/-- A file name of 250 lower-case letters "abc...xyzabc...". -/
def long_name_250 : List Nat := (List.range 250).map (fun i => 97 + i % 26)

/-- The callback calls made over a sequence of `virtual_fat_read_sector`
calls, in order. -/
def read_sequence_callbacks (vfat : VirtualFat) (lbas : List Nat) : List (List Nat × Nat) :=
  lbas.flatMap (virtual_fat_read_sector_callbacks vfat)

/-- The filesystem with the one memory file "data.bin" of 600 bytes (two
sectors, clusters 3 and 4) and a read callback registered with context 7. -/
def watched_file_fs : VirtualFat :=
  virtual_fat_set_read_callback (single_file_fs (ascii "data.bin") (zeros 600)) true 7

theorem zeros_length (n : Nat) : (zeros n).length = n := by simp [zeros]

theorem le32_length (v : Nat) : (le32 v).length = 4 := rfl

theorem le16_length (v : Nat) : (le16 v).length = 2 := rfl

theorem leValue_le32 (v : Nat) (h : v < U32) : leValue (le32 v) = v := by
  simp only [leValue, le32, U32] at *
  omega

theorem memcpy_length (buf src : List Nat) (off : Nat) (h : off + src.length ≤ buf.length) :
    (memcpy buf off src).length = buf.length := by
  simp only [memcpy, List.length_append, List.length_take, List.length_drop]
  omega

theorem slice_memcpy_same (buf src : List Nat) (off : Nat) (h : off + src.length ≤ buf.length) :
    slice (memcpy buf off src) off src.length = src := by
  have h1 : (buf.take off).length = off := by simp; omega
  simp only [slice, memcpy, List.append_assoc]
  rw [List.drop_left' h1, List.take_left' rfl]

theorem take_memcpy_of_le (buf src : List Nat) (off n : Nat) (h : n ≤ off)
    (hb : off ≤ buf.length) : (memcpy buf off src).take n = buf.take n := by
  have h1 : (buf.take off).length = off := by simp; omega
  simp only [memcpy, List.append_assoc]
  rw [List.take_append_of_le_length (by omega), List.take_take, Nat.min_eq_left h]

theorem drop_memcpy_of_le (buf src : List Nat) (off n : Nat) (h : off + src.length ≤ n)
    (hb : off + src.length ≤ buf.length) : (memcpy buf off src).drop n = buf.drop n := by
  have h1 : (buf.take off ++ src).length = off + src.length := by simp; omega
  simp only [memcpy]
  rw [List.drop_append_eq_append_drop, List.drop_eq_nil_of_le (by omega), List.nil_append, h1,
    List.drop_drop]
  congr 1
  omega

theorem take_memcpy_of_ge (buf src : List Nat) (off n : Nat) (h : off + src.length ≤ n)
    (hb : n ≤ buf.length) : (memcpy buf off src).take n = memcpy (buf.take n) off src := by
  have h1 : (buf.take off ++ src).length = off + src.length := by simp; omega
  simp only [memcpy]
  rw [List.take_append_eq_append_take, List.take_of_length_le (by omega), h1, List.take_take,
    Nat.min_eq_left (by omega), List.drop_take, List.take_drop]

theorem slice_memcpy_of_le (buf src : List Nat) (off a n : Nat) (h : a + n ≤ off)
    (hb : off ≤ buf.length) : slice (memcpy buf off src) a n = slice buf a n := by
  have h1 : (buf.take off).length = off := by simp; omega
  simp only [slice, memcpy, List.append_assoc]
  rw [List.drop_append_of_le_length (by omega), List.take_append_of_le_length (by simp; omega),
    List.drop_take, List.take_take, Nat.min_eq_left (by omega)]

theorem slice_memcpy_of_ge (buf src : List Nat) (off a n : Nat) (h : off + src.length ≤ a)
    (hb : off + src.length ≤ buf.length) : slice (memcpy buf off src) a n = slice buf a n := by
  simp only [slice]
  rw [drop_memcpy_of_le buf src off a h hb]

theorem memcpy_memcpy_same (buf a b : List Nat) (off : Nat) (hab : a.length = b.length)
    (hb : off + a.length ≤ buf.length) :
    memcpy (memcpy buf off a) off b = memcpy buf off b := by
  have h1 : (memcpy buf off a).take off = buf.take off :=
    take_memcpy_of_le buf a off off (le_refl _) (by omega)
  have h2 : (memcpy buf off a).drop (off + b.length) = buf.drop (off + b.length) :=
    drop_memcpy_of_le buf a off (off + b.length) (by omega) hb
  show (memcpy buf off a).take off ++ b ++ (memcpy buf off a).drop (off + b.length) = _
  rw [h1, h2]
  rfl

theorem memcpy_slice_self (buf : List Nat) (off n : Nat) (h : off + n ≤ buf.length) :
    memcpy buf off (slice buf off n) = buf := by
  have hl : (slice buf off n).length = n := by simp [slice]; omega
  simp only [memcpy, hl]
  simp only [slice]
  rw [List.append_assoc, ← List.drop_drop, List.take_append_drop, List.take_append_drop]

/-! ## CRC-32 -/

theorem crc32_bit_lt (c : Nat) (h : c < U32) : crc32_bit c < U32 := by
  have h1 : c >>> 1 < 2 ^ 32 := by
    rw [Nat.shiftRight_eq_div_pow]
    simp only [U32] at h
    omega
  unfold crc32_bit
  split
  · exact Nat.xor_lt_two_pow h1 (by norm_num)
  · exact h1

theorem crc32_byte_lt (c b : Nat) (hc : c < U32) (hb : b < 256) : crc32_byte c b < U32 := by
  have h0 : c ^^^ b < U32 :=
    Nat.xor_lt_two_pow (n := 32) hc (lt_trans hb (by norm_num))
  unfold crc32_byte
  exact crc32_bit_lt _ (crc32_bit_lt _ (crc32_bit_lt _ (crc32_bit_lt _
    (crc32_bit_lt _ (crc32_bit_lt _ (crc32_bit_lt _ (crc32_bit_lt _ h0)))))))

theorem crc32_fold_lt (data : List Nat) (c : Nat) (hc : c < U32) (hd : ∀ b ∈ data, b < 256) :
    data.foldl crc32_byte c < U32 := by
  induction data generalizing c with
  | nil => simpa using hc
  | cons b bs ih =>
    simp only [List.foldl_cons]
    exact ih _ (crc32_byte_lt c b hc (hd b (by simp))) (fun x hx => hd x (by simp [hx]))

theorem crc32_calculate_lt (data : List Nat) (hd : ∀ b ∈ data, b < 256) :
    crc32_calculate data < U32 := by
  unfold crc32_calculate
  exact Nat.xor_lt_two_pow (n := 32) (crc32_fold_lt data _ (by norm_num [U32]) hd) (by norm_num)


/-! ## GPT headers -/

theorem mem_memcpy_lt (b src : List Nat) (off : Nat) (hb : ∀ x ∈ b, x < 256)
    (hs : ∀ x ∈ src, x < 256) : ∀ x ∈ memcpy b off src, x < 256 := by
  intro x hx
  simp only [memcpy, List.mem_append] at hx
  rcases hx with (hx | hx) | hx
  · exact hb x (List.mem_of_mem_take hx)
  · exact hs x hx
  · exact hb x (List.mem_of_mem_drop hx)

theorem le32_lt (v : Nat) : ∀ x ∈ le32 v, x < 256 := by
  intro x hx
  simp only [le32, List.mem_cons, List.mem_singleton, List.not_mem_nil, or_false] at hx
  omega

theorem zeros_lt (n : Nat) : ∀ x ∈ zeros n, x < 256 := by
  intro x hx
  simp only [zeros, List.mem_replicate] at hx
  omega

theorem append_lt (a b : List Nat) (ha : ∀ x ∈ a, x < 256) (hb : ∀ x ∈ b, x < 256) :
    ∀ x ∈ a ++ b, x < 256 := by
  intro x hx
  rcases List.mem_append.1 hx with h | h
  · exact ha x h
  · exact hb x h

/-- A header sector under construction: 512 bytes, zero from offset 92 on. -/
theorem header_step (b src : List Nat) (off : Nat)
    (hb : b.length = 512 ∧ b.drop 92 = zeros 420 ∧ ∀ x ∈ b, x < 256)
    (h : off + src.length ≤ 92) (hs : ∀ x ∈ src, x < 256) :
    (memcpy b off src).length = 512 ∧ (memcpy b off src).drop 92 = zeros 420 ∧
      ∀ x ∈ memcpy b off src, x < 256 := by
  obtain ⟨h1, h2, h3⟩ := hb
  refine ⟨?_, ?_, mem_memcpy_lt b src off h3 hs⟩
  · rw [memcpy_length _ _ _ (by omega), h1]
  · rw [drop_memcpy_of_le _ _ _ _ h (by omega), h2]

theorem header_base :
    (zeros SECTOR_SIZE).length = 512 ∧ (zeros SECTOR_SIZE).drop 92 = zeros 420 ∧
      ∀ x ∈ zeros SECTOR_SIZE, x < 256 :=
  ⟨zeros_length _, List.drop_replicate 0 92 512, zeros_lt _⟩

/-- The CRC field stays zero under stores above it. -/
theorem crc_field_step (b src : List Nat) (off : Nat)
    (hb : b.length = 512 ∧ slice b 16 4 = zeros 4) (h : 20 ≤ off)
    (h2 : off + src.length ≤ 512) :
    (memcpy b off src).length = 512 ∧ slice (memcpy b off src) 16 4 = zeros 4 := by
  obtain ⟨h1, h3⟩ := hb
  refine ⟨?_, ?_⟩
  · rw [memcpy_length _ _ _ (by omega), h1]
  · rw [slice_memcpy_of_le _ _ _ _ _ (by omega) (by omega), h3]

theorem crc_field_base (b : List Nat) (hb : b.length = 512) :
    (memcpy b 16 (zeros 4)).length = 512 ∧ slice (memcpy b 16 (zeros 4)) 16 4 = zeros 4 := by
  have hz : (zeros 4).length = 4 := rfl
  refine ⟨?_, ?_⟩
  · rw [memcpy_length _ _ _ (by rw [hz]; omega), hb]
  · have := slice_memcpy_same b (zeros 4) 16 (by rw [hz]; omega)
    rwa [hz] at this

theorem length_step (b src : List Nat) (off : Nat) (hb : b.length = 512)
    (h2 : off + src.length ≤ 512) : (memcpy b off src).length = 512 := by
  rw [memcpy_length _ _ _ (by omega), hb]

theorem gpt_header_fields_inv (ts ps pz : Nat) :
    (gpt_header_fields ts ps pz).length = 512 ∧
      (gpt_header_fields ts ps pz).drop 92 = zeros 420 ∧
      ∀ x ∈ gpt_header_fields ts ps pz, x < 256 := by
  unfold gpt_header_fields
  dsimp only
  iterate 14
    refine header_step _ _ _ ?_ (by first | decide | simp [le32, zeros])
      (by first | decide | exact le32_lt _ | exact zeros_lt _
                | exact append_lt _ _ (le32_lt _) (zeros_lt _))
  exact header_base

theorem gpt_backup_header_fields_inv (ts ps pz : Nat) :
    (gpt_backup_header_fields ts ps pz).length = 512 ∧
      (gpt_backup_header_fields ts ps pz).drop 92 = zeros 420 ∧
      ∀ x ∈ gpt_backup_header_fields ts ps pz, x < 256 := by
  unfold gpt_backup_header_fields
  dsimp only
  iterate 14
    refine header_step _ _ _ ?_ (by first | decide | simp [le32, zeros])
      (by first | decide | exact le32_lt _ | exact zeros_lt _
                | exact append_lt _ _ (le32_lt _) (zeros_lt _))
  exact header_base

theorem gpt_header_fields_crc_zero (ts ps pz : Nat) :
    (gpt_header_fields ts ps pz).length = 512 ∧
      slice (gpt_header_fields ts ps pz) 16 4 = zeros 4 := by
  unfold gpt_header_fields
  dsimp only
  iterate 10 refine crc_field_step _ _ _ ?_ (by decide) (by first | decide | simp [le32, zeros])
  refine crc_field_base _ ?_
  iterate 3 refine length_step _ _ _ ?_ (by decide)
  exact zeros_length _

theorem gpt_backup_header_fields_crc_zero (ts ps pz : Nat) :
    (gpt_backup_header_fields ts ps pz).length = 512 ∧
      slice (gpt_backup_header_fields ts ps pz) 16 4 = zeros 4 := by
  unfold gpt_backup_header_fields
  dsimp only
  iterate 10 refine crc_field_step _ _ _ ?_ (by decide) (by first | decide | simp [le32, zeros])
  refine crc_field_base _ ?_
  iterate 3 refine length_step _ _ _ ?_ (by decide)
  exact zeros_length _

/-- A finished header: the fields with the CRC of their first 92 bytes stored
at 16..19.  Zeroing that field gives the fields back, the stored value is the
CRC, and the rest of the sector is zero. -/
theorem header_crc_stored (fields : List Nat)
    (h1 : fields.length = 512 ∧ fields.drop 92 = zeros 420 ∧ ∀ x ∈ fields, x < 256)
    (h2 : slice fields 16 4 = zeros 4) :
    let sector := memcpy fields 16 (le32 (crc32_calculate (fields.take 92)))
    leValue (slice sector 16 4) = crc32_calculate (zero_crc_field (sector.take 92)) ∧
      sector.drop 92 = zeros 420 ∧ sector.length = 512 ∧
      slice sector 16 4 = le32 (crc32_calculate (fields.take 92)) ∧
      slice sector 88 4 = slice fields 88 4 := by
  obtain ⟨hl, hd, hb⟩ := h1
  intro sector
  have hc : crc32_calculate (fields.take 92) < U32 :=
    crc32_calculate_lt _ (fun x hx => hb x (List.mem_of_mem_take hx))
  have hs : slice sector 16 4 = le32 (crc32_calculate (fields.take 92)) :=
    slice_memcpy_same fields (le32 (crc32_calculate (fields.take 92))) 16
      (by rw [le32_length]; omega)
  have hz : zero_crc_field (sector.take 92) = fields.take 92 := by
    unfold zero_crc_field
    show memcpy ((memcpy fields 16 _).take 92) 16 (zeros 4) = _
    rw [take_memcpy_of_ge _ _ _ _ (by rw [le32_length]; omega) (by omega),
      memcpy_memcpy_same _ (le32 _) (zeros 4) 16 rfl
        (by rw [le32_length, List.length_take]; omega)]
    have h3 : slice (fields.take 92) 16 4 = zeros 4 := by
      rw [← h2]
      simp only [slice, List.drop_take, List.take_take]
      rfl
    rw [← h3]
    exact memcpy_slice_self _ _ _ (by rw [List.length_take]; omega)
  refine ⟨?_, ?_, ?_, hs, ?_⟩
  · rw [hs, hz, leValue_le32 _ hc]
  · show (memcpy fields 16 _).drop 92 = _
    rw [drop_memcpy_of_le _ _ _ _ (by rw [le32_length]; omega) (by rw [le32_length]; omega), hd]
  · show (memcpy fields 16 _).length = _
    rw [memcpy_length _ _ _ (by rw [le32_length]; omega), hl]
  · exact slice_memcpy_of_ge _ _ _ _ _ (by rw [le32_length]; omega)
      (by rw [le32_length]; omega)

/-- C6. For every total sector count, partition start and partition length, the
header-CRC field (bytes 16..19, little-endian) of the sector produced by
`generate_gpt_header`, and of the one produced by `generate_gpt_backup_header`,
is the CRC-32 of that sector's first 92 bytes with bytes 16..19 set to zero,
and bytes 92..511 of both sectors are zero. -/
theorem gpt_header_crc_validates (total_sectors partition_start_lba partition_sectors : Nat) :
    (leValue (slice (generate_gpt_header total_sectors partition_start_lba partition_sectors) 16 4)
        = crc32_calculate (zero_crc_field
            ((generate_gpt_header total_sectors partition_start_lba partition_sectors).take 92)) ∧
      (generate_gpt_header total_sectors partition_start_lba partition_sectors).drop 92
        = zeros 420 ∧
      (generate_gpt_header total_sectors partition_start_lba partition_sectors).length = 512) ∧
    (leValue
        (slice (generate_gpt_backup_header total_sectors partition_start_lba partition_sectors) 16 4)
        = crc32_calculate (zero_crc_field
            ((generate_gpt_backup_header total_sectors partition_start_lba
              partition_sectors).take 92)) ∧
      (generate_gpt_backup_header total_sectors partition_start_lba partition_sectors).drop 92
        = zeros 420 ∧
      (generate_gpt_backup_header total_sectors partition_start_lba partition_sectors).length
        = 512) := by
  have hp := header_crc_stored _ (gpt_header_fields_inv total_sectors partition_start_lba
    partition_sectors) (gpt_header_fields_crc_zero _ _ _).2
  have hb := header_crc_stored _ (gpt_backup_header_fields_inv total_sectors partition_start_lba
    partition_sectors) (gpt_backup_header_fields_crc_zero _ _ _).2
  exact ⟨⟨hp.1, hp.2.1, hp.2.2.1⟩, ⟨hb.1, hb.2.1, hb.2.2.1⟩⟩

/-! ## CRC-32 of the shipped partition array -/

theorem crc32_bit_arith_eq (c : Nat) : crc32_bit_arith c = crc32_bit c := by
  unfold crc32_bit_arith crc32_bit
  rcases Nat.mod_two_eq_zero_or_one c with h | h <;> simp [h]

theorem crc32_fold_strict_eq (l : List Nat) (c : Nat) :
    crc32_fold_strict l c = l.foldl crc32_byte c := by
  induction l generalizing c with
  | nil => rfl
  | cons b bs ih =>
    simp only [crc32_fold_strict, List.foldl_cons, crc32_bit_arith_eq]
    split
    · next h => rw [ih]; unfold crc32_byte; rw [h]
    · next n h => rw [ih]; unfold crc32_byte; rw [h]

theorem memcpy_append_left (a b src : List Nat) (off : Nat) (h : off + src.length ≤ a.length) :
    memcpy (a ++ b) off src = memcpy a off src ++ b := by
  simp only [memcpy]
  rw [List.take_append_of_le_length (by omega), List.drop_append_of_le_length h]
  simp only [List.append_assoc]

theorem length128_step (b src : List Nat) (off : Nat) (hb : b.length = 128)
    (h : off + src.length ≤ 128) : (memcpy b off src).length = 128 := by
  rw [memcpy_length _ _ _ (by omega), hb]

theorem build_partition_entry_append (a b : List Nat) (s n : Nat) (h : a.length = 128) :
    build_partition_entry (a ++ b) s n = build_partition_entry a s n ++ b := by
  unfold build_partition_entry
  dsimp only
  have h1 := length128_step a ESP_TYPE_GUID 0 h (by decide)
  have h2 := length128_step _ PART_GUID 16 h1 (by decide)
  have h3 := length128_step _ (le32 s ++ [0, 0, 0, 0]) 32 h2 (by simp [le32])
  have h4 := length128_step _ (le32 (sub32 (add32 s n) 1) ++ [0, 0, 0, 0]) 40 h3 (by simp [le32])
  have h5 := length128_step _ ([0x01] ++ zeros 7) 48 h4 (by decide)
  rw [memcpy_append_left a b _ _ (by rw [h]; decide),
    memcpy_append_left _ b _ _ (by rw [h1]; decide),
    memcpy_append_left _ b _ _ (by rw [h2]; simp [le32]),
    memcpy_append_left _ b _ _ (by rw [h3]; simp [le32]),
    memcpy_append_left _ b _ _ (by rw [h4]; decide),
    memcpy_append_left _ b _ _ (by rw [h5]; decide)]

set_option maxRecDepth 100000 in
theorem crc_entry_shipped :
    (build_partition_entry (zeros 128) 2048 260063).foldl crc32_byte 0xFFFFFFFF = 671824843 := by
  rw [← crc32_fold_strict_eq]
  decide

set_option maxRecDepth 100000 in
theorem crc_zero_run_1 : (zeros 2032).foldl crc32_byte 671824843 = 969143128 := by
  rw [← crc32_fold_strict_eq]
  decide

set_option maxRecDepth 100000 in
theorem crc_zero_run_2 : (zeros 2032).foldl crc32_byte 969143128 = 3329784971 := by
  rw [← crc32_fold_strict_eq]
  decide

set_option maxRecDepth 100000 in
theorem crc_zero_run_3 : (zeros 2032).foldl crc32_byte 3329784971 = 1069894186 := by
  rw [← crc32_fold_strict_eq]
  decide

set_option maxRecDepth 100000 in
theorem crc_zero_run_4 : (zeros 2032).foldl crc32_byte 1069894186 = 2125255160 := by
  rw [← crc32_fold_strict_eq]
  decide

set_option maxRecDepth 100000 in
theorem crc_zero_run_5 : (zeros 2032).foldl crc32_byte 2125255160 = 946550465 := by
  rw [← crc32_fold_strict_eq]
  decide

set_option maxRecDepth 100000 in
theorem crc_zero_run_6 : (zeros 2032).foldl crc32_byte 946550465 = 2055123038 := by
  rw [← crc32_fold_strict_eq]
  decide

set_option maxRecDepth 100000 in
theorem crc_zero_run_7 : (zeros 2032).foldl crc32_byte 2055123038 = 636371216 := by
  rw [← crc32_fold_strict_eq]
  decide

set_option maxRecDepth 100000 in
theorem crc_zero_run_8 : (zeros 2032).foldl crc32_byte 636371216 = 3304215034 := by
  rw [← crc32_fold_strict_eq]
  decide

theorem zeros_add (m n : Nat) : zeros (m + n) = zeros m ++ zeros n :=
  List.replicate_add m n 0

theorem part_array_zeros_split :
    zeros (128 * 128) = zeros 128 ++ (zeros 2032 ++ (zeros 2032 ++ (zeros 2032 ++
      (zeros 2032 ++ (zeros 2032 ++ (zeros 2032 ++ (zeros 2032 ++ zeros 2032))))))) := by
  have h : (128 * 128 : Nat) =
      128 + (2032 + (2032 + (2032 + (2032 + (2032 + (2032 + (2032 + 2032))))))) := by norm_num
  rw [h]
  simp only [zeros_add]

theorem crc_part_array_shipped : crc32_calculate (gpt_part_array 2048 260063) = 990752261 := by
  rw [crc32_calculate, gpt_part_array, part_array_zeros_split, build_partition_entry_append _ _ _ _ (zeros_length 128)]
  simp only [List.foldl_append, crc_entry_shipped, crc_zero_run_1, crc_zero_run_2,
    crc_zero_run_3, crc_zero_run_4, crc_zero_run_5, crc_zero_run_6, crc_zero_run_7,
    crc_zero_run_8]
  decide

/-! ## The two header CRCs -/

theorem slice_part_crc (b src : List Nat) (hb : b.length = 512) (hs : src.length = 4) :
    slice (memcpy b 88 src) 88 4 = src := by
  have := slice_memcpy_same b src 88 (by omega)
  rwa [hs] at this

theorem gpt_header_fields_part_crc (ts ps pz : Nat) :
    slice (gpt_header_fields ts ps pz) 88 4 = le32 (crc32_calculate (gpt_part_array ps pz)) := by
  unfold gpt_header_fields
  dsimp only
  refine slice_part_crc _ _ ?_ rfl
  iterate 13 refine length_step _ _ _ ?_ (by first | decide | simp [le32, zeros])
  exact zeros_length _

theorem gpt_backup_header_fields_part_crc (ts ps pz : Nat) :
    slice (gpt_backup_header_fields ts ps pz) 88 4
      = le32 (crc32_calculate (gpt_part_array ps pz)) := by
  unfold gpt_backup_header_fields
  dsimp only
  refine slice_part_crc _ _ ?_ rfl
  iterate 13 refine length_step _ _ _ ?_ (by first | decide | simp [le32, zeros])
  exact zeros_length _

set_option maxRecDepth 100000 in
theorem header_crc_shipped :
    crc32_calculate ((gpt_header_fields 262144 2048 260063).take 92) = 4122954059 := by
  rw [crc32_calculate, ← crc32_fold_strict_eq, gpt_header_fields]
  simp only [crc_part_array_shipped]
  decide

set_option maxRecDepth 100000 in
theorem backup_header_crc_shipped :
    crc32_calculate ((gpt_backup_header_fields 262144 2048 260063).take 92) = 2017110805 := by
  rw [crc32_calculate, ← crc32_fold_strict_eq, gpt_backup_header_fields]
  simp only [crc_part_array_shipped]
  decide

/-- C7, as stated, fails: for the shipped geometry (262144 sectors, partition
at 2048 of 260063 sectors) the header CRC stored in the primary header is
`0xF5BF494B` and the one stored in the backup header is `0x783AAB15`. -/
theorem gpt_header_crcs_differ :
    slice (generate_gpt_header 262144 2048 260063) 16 4 = [0x4B, 0x49, 0xBF, 0xF5] ∧
    slice (generate_gpt_backup_header 262144 2048 260063) 16 4 = [0x15, 0xAB, 0x3A, 0x78] ∧
    slice (generate_gpt_header 262144 2048 260063) 16 4
      ≠ slice (generate_gpt_backup_header 262144 2048 260063) 16 4 := by
  have hp : slice (generate_gpt_header 262144 2048 260063) 16 4
      = le32 (crc32_calculate ((gpt_header_fields 262144 2048 260063).take 92)) :=
    (header_crc_stored _ (gpt_header_fields_inv 262144 2048 260063)
      (gpt_header_fields_crc_zero _ _ _).2).2.2.2.1
  have hb : slice (generate_gpt_backup_header 262144 2048 260063) 16 4
      = le32 (crc32_calculate ((gpt_backup_header_fields 262144 2048 260063).take 92)) :=
    (header_crc_stored _ (gpt_backup_header_fields_inv 262144 2048 260063)
      (gpt_backup_header_fields_crc_zero _ _ _).2).2.2.2.1
  rw [header_crc_shipped] at hp
  rw [backup_header_crc_shipped] at hb
  have hp' : slice (generate_gpt_header 262144 2048 260063) 16 4 = [0x4B, 0x49, 0xBF, 0xF5] :=
    hp.trans (by decide)
  have hb' : slice (generate_gpt_backup_header 262144 2048 260063) 16 4
      = [0x15, 0xAB, 0x3A, 0x78] := hb.trans (by decide)
  refine ⟨hp', hb', ?_⟩
  rw [hp', hb']
  decide

/-- C7, amended. For every total sector count, partition start and partition
length, the header CRC stored in the primary header is the CRC-32 of the
primary header's own first 92 bytes with the CRC field zeroed, the header CRC
stored in the backup header is the CRC-32 of the backup header's own first 92
bytes with the CRC field zeroed, and the two headers carry the same
partition-array CRC at bytes 88..91. -/
theorem gpt_header_crcs_each_validate (total_sectors partition_start_lba partition_sectors : Nat) :
    leValue (slice (generate_gpt_header total_sectors partition_start_lba partition_sectors) 16 4)
      = crc32_calculate (zero_crc_field
          ((generate_gpt_header total_sectors partition_start_lba partition_sectors).take 92)) ∧
    leValue
        (slice (generate_gpt_backup_header total_sectors partition_start_lba partition_sectors) 16 4)
      = crc32_calculate (zero_crc_field
          ((generate_gpt_backup_header total_sectors partition_start_lba
            partition_sectors).take 92)) ∧
    slice (generate_gpt_header total_sectors partition_start_lba partition_sectors) 88 4
      = slice (generate_gpt_backup_header total_sectors partition_start_lba partition_sectors)
          88 4 := by
  have hp := header_crc_stored _ (gpt_header_fields_inv total_sectors partition_start_lba
    partition_sectors) (gpt_header_fields_crc_zero _ _ _).2
  have hb := header_crc_stored _ (gpt_backup_header_fields_inv total_sectors partition_start_lba
    partition_sectors) (gpt_backup_header_fields_crc_zero _ _ _).2
  refine ⟨hp.1, hb.1, ?_⟩
  have e1 := hp.2.2.2.2
  have e2 := hb.2.2.2.2
  rw [gpt_header_fields_part_crc] at e1
  rw [gpt_backup_header_fields_part_crc] at e2
  exact e1.trans e2.symm

/-! ## Dispatch of `virtual_fat_read_sector` -/

theorem read_sector_lba0_gpt (storage : Storage) (vfat : VirtualFat)
    (h : vfat.partition_scheme = PartitionScheme.PARTITION_SCHEME_GPT_ONLY) :
    virtual_fat_read_sector storage vfat 0
      = ReadOutcome.ok (generate_protective_mbr TOTAL_SECTORS) := by
  simp [virtual_fat_read_sector, h]

theorem read_sector_lba1_gpt (storage : Storage) (vfat : VirtualFat)
    (h : vfat.partition_scheme = PartitionScheme.PARTITION_SCHEME_GPT_ONLY) :
    virtual_fat_read_sector storage vfat 1
      = ReadOutcome.ok
          (generate_gpt_header TOTAL_SECTORS PARTITION_START PARTITION_SECTORS_GPT) := by
  simp [virtual_fat_read_sector, h]

theorem read_sector_backup_header_gpt (storage : Storage) (vfat : VirtualFat)
    (h : vfat.partition_scheme = PartitionScheme.PARTITION_SCHEME_GPT_ONLY) :
    virtual_fat_read_sector storage vfat 262143
      = ReadOutcome.ok
          (generate_gpt_backup_header TOTAL_SECTORS PARTITION_START PARTITION_SECTORS_GPT) := by
  simp [virtual_fat_read_sector, h, PARTITION_START, GPT_BACKUP_ARRAY_START, GPT_BACKUP_HEADER,
    TOTAL_SECTORS, GPT_BACKUP_SECTORS]

set_option maxRecDepth 100000 in
/-- C5. With the scheme `GptOnly` (262144 sectors, partition at 2048), the read
of LBA 0 yields a partition entry at bytes 446..461 that is not bootable, has
type `0xEE`, start LBA 1 and sector count 262143, and the signature `55 AA` at
510..511; the read of LBA 1 yields bytes 0..7 = "EFI PART", bytes 24..31 =
`01 00 00 00 00 00 00 00` and bytes 32..39 = `FF FF 03 00 00 00 00 00`; the
read of LBA 262143 yields a header whose current LBA is `0x3FFFF` and whose
backup LBA is 1. -/
theorem gpt_enumeration_sectors (storage : Storage) (vfat : VirtualFat)
    (h : vfat.partition_scheme = PartitionScheme.PARTITION_SCHEME_GPT_ONLY) :
    (∃ s0, virtual_fat_read_sector storage vfat 0 = ReadOutcome.ok s0 ∧
      slice s0 446 16 = [0x00, 0x00, 0x02, 0x00, 0xEE, 0xFF, 0xFF, 0xFF,
                         0x01, 0x00, 0x00, 0x00, 0xFF, 0xFF, 0x03, 0x00] ∧
      leValue (slice s0 454 4) = 1 ∧ leValue (slice s0 458 4) = 262143 ∧
      slice s0 510 2 = [0x55, 0xAA] ∧ s0.length = 512) ∧
    (∃ s1, virtual_fat_read_sector storage vfat 1 = ReadOutcome.ok s1 ∧
      slice s1 0 8 = ascii "EFI PART" ∧
      slice s1 24 8 = [0x01, 0x00, 0x00, 0x00, 0x00, 0x00, 0x00, 0x00] ∧
      slice s1 32 8 = [0xFF, 0xFF, 0x03, 0x00, 0x00, 0x00, 0x00, 0x00]) ∧
    (∃ sl, virtual_fat_read_sector storage vfat 262143 = ReadOutcome.ok sl ∧
      leValue (slice sl 24 8) = 0x3FFFF ∧ leValue (slice sl 32 8) = 1) := by
  refine ⟨⟨_, read_sector_lba0_gpt storage vfat h, ?_⟩,
    ⟨_, read_sector_lba1_gpt storage vfat h, ?_⟩,
    ⟨_, read_sector_backup_header_gpt storage vfat h, ?_⟩⟩
  · decide
  · decide
  · decide

/-- C5 at the freshly allocated filesystem, whose scheme is `GptOnly`. -/
theorem gpt_enumeration_sectors_witness :
    virtual_fat_alloc.partition_scheme = PartitionScheme.PARTITION_SCHEME_GPT_ONLY ∧
    ∃ s0, virtual_fat_read_sector empty_storage virtual_fat_alloc 0 = ReadOutcome.ok s0 ∧
      leValue (slice s0 458 4) = 262143 :=
  ⟨rfl, by
    obtain ⟨⟨s0, h0, _, _, h2, _⟩, _⟩ := gpt_enumeration_sectors empty_storage virtual_fat_alloc rfl
    exact ⟨s0, h0, h2⟩⟩

/-! ## Cluster allocation -/

theorem clusters_needed_le (size : Nat) : clusters_needed size ≤ 8388607 := by
  unfold clusters_needed
  simp only [SECTORS_PER_CLUSTER, SECTOR_SIZE, U32]
  omega

theorem clusters_needed_eq (size : Nat) (h : size ≤ U32 - 512) :
    clusters_needed size = (size + 511) / 512 := by
  unfold clusters_needed
  simp only [SECTORS_PER_CLUSTER, SECTOR_SIZE, U32] at *
  omega

theorem fat_clusters_le (f : VirtualFatFile) : fat_clusters f ≤ 8388608 := by
  unfold fat_clusters
  split
  · omega
  · have := clusters_needed_le f.size
    omega

theorem runs_contiguous_append (count : VirtualFatFile → Nat) (files : List VirtualFatFile)
    (f : VirtualFatFile) (start next : Nat) (h : runs_contiguous count start files next)
    (hf : f.start_cluster = next) :
    runs_contiguous count start (files ++ [f]) (next + count f) := by
  induction files generalizing start with
  | nil =>
    simp only [runs_contiguous] at h
    subst h
    simp [runs_contiguous, hf]
  | cons g gs ih =>
    simp only [runs_contiguous] at h
    simp only [List.cons_append, runs_contiguous]
    exact ⟨h.1, ih _ h.2⟩

theorem runs_contiguous_le (count : VirtualFatFile → Nat) (files : List VirtualFatFile)
    (start next : Nat) (h : runs_contiguous count start files next) : start ≤ next := by
  induction files generalizing start with
  | nil => simp only [runs_contiguous] at h; omega
  | cons g gs ih =>
    simp only [runs_contiguous] at h
    have := ih _ h.2
    omega

/-- In a contiguous table every entry starts at or after `start`, and an
earlier entry's run ends at or before a later entry's start. -/
theorem runs_contiguous_ordered (count : VirtualFatFile → Nat) (files : List VirtualFatFile)
    (start next : Nat) (h : runs_contiguous count start files next) :
    (∀ (i : Nat) (f : VirtualFatFile), files[i]? = some f →
      start ≤ f.start_cluster ∧ f.start_cluster + count f ≤ next) ∧
    (∀ (i j : Nat) (f g : VirtualFatFile), i < j → files[i]? = some f → files[j]? = some g →
      f.start_cluster + count f ≤ g.start_cluster) := by
  induction files generalizing start with
  | nil => simp
  | cons a as ih =>
    simp only [runs_contiguous] at h
    obtain ⟨h1, h2⟩ := h
    obtain ⟨ih1, ih2⟩ := ih _ h2
    have hle := runs_contiguous_le _ _ _ _ h2
    refine ⟨?_, ?_⟩
    · intro i f hi
      cases i with
      | zero =>
        simp only [List.getElem?_cons_zero, Option.some.injEq] at hi
        subst hi
        omega
      | succ i =>
        simp only [List.getElem?_cons_succ] at hi
        have := ih1 i f hi
        omega
    · intro i j f g hij hi hj
      cases j with
      | zero => omega
      | succ j =>
        simp only [List.getElem?_cons_succ] at hj
        cases i with
        | zero =>
          simp only [List.getElem?_cons_zero, Option.some.injEq] at hi
          subst hi
          have := ih1 j g hj
          omega
        | succ i =>
          simp only [List.getElem?_cons_succ] at hi
          exact ih2 i j f g (by omega) hi hj

theorem runs_contiguous_disjoint (count : VirtualFatFile → Nat) (files : List VirtualFatFile)
    (start next : Nat) (h : runs_contiguous count start files next) :
    runs_disjoint count files := by
  intro i j f g hij hi hj c hc
  obtain ⟨_, hord⟩ := runs_contiguous_ordered count files start next h
  rcases Nat.lt_or_gt_of_ne hij with hlt | hgt
  · have := hord i j f g hlt hi hj
    omega
  · have := hord j i g f hgt hj hi
    omega

theorem parse_83_length (filename : List Nat) : (parse_83 filename).length = 11 := by
  unfold parse_83
  dsimp only
  have h0 : ∀ n : Nat, n ≤ 8 →
      (memcpy (List.replicate 11 32) 0 ((filename.take n).map toupper)).length = 11 := by
    intro n hn
    rw [memcpy_length]
    · simp
    · simp only [List.length_map, List.length_take, List.length_replicate]
      omega
  have h1 : ∀ (b : List Nat) (m : Nat) (l : List Nat), b.length = 11 → m ≤ 3 →
      (memcpy b 8 ((l.take m).map toupper)).length = 11 := by
    intro b m l hb hm
    rw [memcpy_length, hb]
    simp only [List.length_map, List.length_take, hb]
    omega
  split
  · split
    · exact h1 _ _ _ (h0 _ (Nat.min_le_right _ _)) (Nat.min_le_right _ _)
    · exact h0 _ (Nat.min_le_right _ _)
  · exact h0 _ (Nat.min_le_right _ _)

theorem dir_83_length (dirname : List Nat) : (dir_83 dirname).length = 11 := by
  unfold dir_83
  dsimp only
  rw [memcpy_length]
  · simp
  · simp only [List.length_map, List.length_take, List.length_replicate]
    omega

theorem fsinv_alloc : FsInv virtual_fat_alloc := by
  simp [FsInv, virtual_fat_alloc, runs_contiguous, MAX_FILES]

/-- Appending an entry that starts at `next_cluster` and advancing the counter
by its cluster count keeps the invariant. -/
theorem fsinv_append (v v1 : VirtualFat) (f : VirtualFatFile) (hv : FsInv v)
    (hlen : v.files.length < MAX_FILES) (hfiles : v1.files = v.files ++ [f])
    (hnext : v1.next_cluster = add32 v.next_cluster (fat_clusters f))
    (hstart : f.start_cluster = v.next_cluster)
    (hmem : f.source_type = FileSourceType.FILE_SOURCE_MEMORY → f.is_directory = false →
      f.size = f.memory_data.length)
    (hname : f.name.length = 11) : FsInv v1 := by
  obtain ⟨h1, h2, h3, h4, h5⟩ := hv
  have hc := fat_clusters_le f
  simp only [MAX_FILES] at hlen h1
  have hadd : add32 v.next_cluster (fat_clusters f) = v.next_cluster + fat_clusters f := by
    unfold add32 U32
    apply Nat.mod_eq_of_lt
    omega
  unfold FsInv
  rw [hfiles, hnext, hadd]
  refine ⟨?_, runs_contiguous_append _ _ _ _ _ h2 hstart, ?_, ?_, ?_⟩
  · simp only [List.length_append, List.length_singleton, MAX_FILES]
    omega
  · simp only [List.length_append, List.length_singleton]
    omega
  · intro g hg
    rcases List.mem_append.1 hg with hg | hg
    · exact h4 g hg
    · rw [List.mem_singleton.1 hg]
      exact hmem
  · intro g hg
    rcases List.mem_append.1 hg with hg | hg
    · exact h5 g hg
    · rw [List.mem_singleton.1 hg]
      exact hname

theorem fsinv_add_file (v : VirtualFat) (filename data : List Nat) (hv : FsInv v) :
    FsInv (virtual_fat_add_file v filename data).2 := by
  unfold virtual_fat_add_file
  split
  · exact hv
  · next hlen =>
    refine fsinv_append v _ _ hv (by omega) rfl ?_ rfl (fun _ _ => rfl) (parse_83_length _)
    simp [fat_clusters]

theorem fsinv_add_sd_file (storage : Storage) (v : VirtualFat) (filename sd_path : List Nat)
    (hv : FsInv v) : FsInv (virtual_fat_add_sd_file storage v filename sd_path).2 := by
  unfold virtual_fat_add_sd_file
  split
  · exact hv
  · next hlen =>
    split
    · exact hv
    · refine fsinv_append v _ _ hv (by omega) rfl ?_ rfl ?_ (parse_83_length _)
      · simp [fat_clusters]
      · intro h
        simp at h

theorem new_directory_clusters (v : VirtualFat) (n : List Nat) (p : Int) :
    fat_clusters (new_directory v n p) = 1 := by
  simp [fat_clusters, new_directory]

theorem fsinv_new_directory (v v1 : VirtualFat) (n : List Nat) (p : Int) (hv : FsInv v)
    (hlen : v.files.length < MAX_FILES) (hfiles : v1.files = v.files ++ [new_directory v n p])
    (hnext : v1.next_cluster = add32 v.next_cluster 1) : FsInv v1 := by
  refine fsinv_append v v1 (new_directory v n p) hv hlen hfiles ?_ rfl ?_ (dir_83_length _)
  · rw [new_directory_clusters]
    exact hnext
  · intro _ h
    simp [new_directory] at h

theorem fsinv_add_directory (v : VirtualFat) (dirname : List Nat) (hv : FsInv v) :
    FsInv (virtual_fat_add_directory v dirname).2 := by
  unfold virtual_fat_add_directory
  split
  · exact hv
  · next hlen => exact fsinv_new_directory v _ dirname (-1) hv (by omega) rfl rfl

theorem fsinv_create_directory_path_loop (fuel : Nat) (v : VirtualFat) (ptr : List Nat)
    (cur : Int) (hv : FsInv v) : FsInv (create_directory_path_loop fuel v ptr cur).1 := by
  induction fuel generalizing v ptr cur with
  | zero => exact hv
  | succ n ih =>
    unfold create_directory_path_loop
    dsimp only
    split
    · exact hv
    · split
      · exact hv
      · split
        · split
          · exact hv
          · next hlen =>
            exact ih _ _ _ (fsinv_new_directory v _ _ _ hv (by omega) rfl rfl)
        · exact ih _ _ _ hv

theorem fsinv_create_directory_path (v : VirtualFat) (path : List Nat) (hv : FsInv v) :
    FsInv (create_directory_path v path).1 := by
  unfold create_directory_path
  split
  · exact hv
  · exact fsinv_create_directory_path_loop _ _ _ _ hv

theorem fsinv_add_file_to_subdir (storage : Storage) (v v1 : VirtualFat)
    (parent_dir filename sd_path : List Nat) (b : Bool) (hv : FsInv v)
    (h : virtual_fat_add_file_to_subdir storage v parent_dir filename sd_path = some (b, v1)) :
    FsInv v1 := by
  have hp := fsinv_create_directory_path v parent_dir hv
  unfold virtual_fat_add_file_to_subdir at h
  dsimp only at h
  split at h
  · simp only [Option.some.injEq, Prod.mk.injEq] at h
    rw [← h.2]
    exact hv
  · split at h
    · simp only [Option.some.injEq, Prod.mk.injEq] at h
      rw [← h.2]
      exact hp
    · split at h
      · simp only [Option.some.injEq, Prod.mk.injEq] at h
        rw [← h.2]
        exact hp
      · split at h
        · simp at h
        · next hlen =>
          simp only [Option.some.injEq, Prod.mk.injEq] at h
          rw [← h.2]
          refine fsinv_append _ _ _ hp (by omega) rfl ?_ rfl ?_ (parse_83_length _)
          · simp [fat_clusters]
          · intro h
            simp at h

theorem fsinv_apply (v v1 : VirtualFat) (op : Op) (hv : FsInv v) (h : op.apply v = some v1) :
    FsInv v1 := by
  cases op with
  | add_file filename data =>
    simp only [Op.apply, Option.some.injEq] at h
    rw [← h]
    exact fsinv_add_file v filename data hv
  | add_text_file filename text =>
    simp only [Op.apply, Option.some.injEq] at h
    rw [← h]
    exact fsinv_add_file v filename text hv
  | add_sd_file storage filename sd_path =>
    simp only [Op.apply, Option.some.injEq] at h
    rw [← h]
    exact fsinv_add_sd_file storage v filename sd_path hv
  | add_directory dirname =>
    simp only [Op.apply, Option.some.injEq] at h
    rw [← h]
    exact fsinv_add_directory v dirname hv
  | add_file_to_subdir storage parent_dir filename sd_path =>
    simp only [Op.apply, Option.map_eq_some'] at h
    obtain ⟨⟨b, w⟩, hw, rfl⟩ := h
    exact fsinv_add_file_to_subdir storage v w parent_dir filename sd_path b hv hw
  | set_partition_scheme scheme =>
    simp only [Op.apply, Option.some.injEq] at h
    rw [← h]
    exact hv
  | set_read_callback installed context =>
    simp only [Op.apply, Option.some.injEq] at h
    rw [← h]
    exact hv

theorem fsinv_run_ops (ops : List Op) (v v1 : VirtualFat) (hv : FsInv v)
    (h : run_ops v ops = some v1) : FsInv v1 := by
  induction ops generalizing v with
  | nil =>
    simp only [run_ops, Option.some.injEq] at h
    rw [← h]
    exact hv
  | cons op ops ih =>
    simp only [run_ops] at h
    split at h
    · simp at h
    · next w hw => exact ih w (fsinv_apply v w op hv hw) h

theorem fsinv_built (vfat : VirtualFat) (h : Built vfat) : FsInv vfat := by
  obtain ⟨ops, hops⟩ := h
  exact fsinv_run_ops ops _ _ fsinv_alloc hops

/-- C4, as stated, fails: after adding an empty memory file and then a second
file, both entries start at cluster 3, so with one cluster counted for the
empty file the second does not start where the first ends and the two runs
share cluster 3. -/
theorem empty_file_shares_start_cluster :
    ∃ v, run_ops virtual_fat_alloc
          [Op.add_file (ascii "EMPTY.TXT") [], Op.add_file (ascii "HELLO.TXT") (ascii "hi")]
        = some v ∧
      v.files.map (fun f => f.start_cluster) = [3, 3] ∧
      ¬ runs_contiguous spec_clusters 3 v.files v.next_cluster ∧
      ¬ runs_disjoint spec_clusters v.files := by
  refine ⟨(virtual_fat_add_file (virtual_fat_add_file virtual_fat_alloc (ascii "EMPTY.TXT") []).2
    (ascii "HELLO.TXT") (ascii "hi")).2, rfl, by decide, ?_, ?_⟩
  · intro h
    exact absurd h.2.1 (by decide)
  · intro h
    exact h 0 1 _ _ (by decide) rfl rfl 3 (by decide)

/-- C4, amended. For every sequence of add operations (memory file, external
file, directory, file under path), the cluster runs `[start, start + C)` of the
resulting entries, with `C = ceil(size / 512)` for a file of at most
`2^32 - 512` bytes (an empty file has an empty run) and `C = 1` for a directory,
are pairwise disjoint and contiguous in insertion order: the first starts at
cluster 3, each next one starts where the previous ends, `next_cluster` is the
end of the last; no entry starts below cluster 3; at most 16 entries exist. -/
theorem cluster_runs_contiguous (vfat : VirtualFat) (h : Built vfat) :
    runs_contiguous fat_clusters 3 vfat.files vfat.next_cluster ∧
    runs_disjoint fat_clusters vfat.files ∧
    (∀ f ∈ vfat.files, 3 ≤ f.start_cluster) ∧
    (∀ f ∈ vfat.files, f.is_directory = true → fat_clusters f = 1) ∧
    (∀ f ∈ vfat.files, f.is_directory = false → f.size ≤ U32 - 512 →
      fat_clusters f = (f.size + 511) / 512) ∧
    vfat.files.length ≤ 16 := by
  obtain ⟨h1, h2, _, _, _⟩ := fsinv_built vfat h
  refine ⟨h2, runs_contiguous_disjoint _ _ _ _ h2, ?_, ?_, ?_, h1⟩
  · intro f hf
    obtain ⟨i, hi⟩ := List.getElem?_of_mem hf
    exact ((runs_contiguous_ordered _ _ _ _ h2).1 i f hi).1
  · intro f _ hd
    simp [fat_clusters, hd]
  · intro f _ hd hs
    simp only [fat_clusters, hd, Bool.false_eq_true, if_false]
    exact clusters_needed_eq f.size hs

set_option maxRecDepth 100000 in
/-- C4 (amended) at the filesystem holding a 600-byte file and a directory. -/
theorem cluster_runs_contiguous_witness :
    ∃ v, Built v ∧ v.files.map (fun f => f.start_cluster) = [3, 5] ∧ v.next_cluster = 6 ∧
      runs_contiguous fat_clusters 3 v.files v.next_cluster :=
  ⟨(virtual_fat_add_directory
      (virtual_fat_add_file virtual_fat_alloc (ascii "DATA.BIN") (zeros 600)).2 (ascii "EFI")).2,
    ⟨[Op.add_file (ascii "DATA.BIN") (zeros 600), Op.add_directory (ascii "EFI")], rfl⟩,
    by decide, by decide,
    (cluster_runs_contiguous _
      ⟨[Op.add_file (ascii "DATA.BIN") (zeros 600), Op.add_directory (ascii "EFI")], rfl⟩).1⟩

/-! ## The data area -/

theorem read_sector_data_area (storage : Storage) (vfat : VirtualFat) (lba : Nat)
    (h1 : 6144 < lba) (h2 : lba < U32)
    (hg : vfat.partition_scheme = PartitionScheme.PARTITION_SCHEME_GPT_ONLY →
      lba < GPT_BACKUP_ARRAY_START) :
    virtual_fat_read_sector storage vfat lba
      = data_area_loop storage vfat (lba - 6142) 0 vfat.files 0 := by
  have hc : add32 (lba - 6144) 2 = lba - 6142 := by
    unfold add32
    simp only [U32] at *
    rw [Nat.mod_eq_of_lt (by omega)]
    omega
  unfold virtual_fat_read_sector
  simp only [PARTITION_SECTORS_GPT, PARTITION_SECTORS_MBR, GPT_LAST_USABLE, TOTAL_SECTORS,
    GPT_BACKUP_SECTORS, PARTITION_START, SECTORS_PER_CLUSTER, SECTOR_SIZE, RESERVED_SECTORS,
    GPT_BACKUP_ARRAY_START, GPT_BACKUP_HEADER] at hg ⊢
  by_cases hs : vfat.partition_scheme = PartitionScheme.PARTITION_SCHEME_GPT_ONLY
  · have h3 := hg hs
    simp only [hs, if_true, true_and]
    norm_num
    iterate 13 rw [if_neg (show ¬ _ by omega)]
    rw [if_pos (show _ by omega), hc, Nat.mod_one, if_neg (show ¬ _ by omega)]
  · simp only [hs, if_false, false_and]
    norm_num
    iterate 11 rw [if_neg (show ¬ _ by omega)]
    rw [if_pos (show _ by omega), hc, Nat.mod_one, if_neg (show ¬ _ by omega)]

theorem data_area_loop_file (storage : Storage) (vfat : VirtualFat) (cl : Nat)
    (pre post : List VirtualFatFile) (f : VirtualFatFile) (start next i : Nat)
    (h : runs_contiguous fat_clusters start (pre ++ f :: post) next) (hn : next < U32)
    (hd : f.is_directory = false) (h1 : f.start_cluster ≤ cl)
    (h2 : cl < f.start_cluster + clusters_needed f.size) :
    data_area_loop storage vfat cl 0 (pre ++ f :: post) i
      = ReadOutcome.ok (read_file_data storage f ((cl - f.start_cluster) * 512)) := by
  induction pre generalizing start i with
  | nil =>
    simp only [List.nil_append, runs_contiguous] at h
    have hle := runs_contiguous_le _ _ _ _ h.2
    have hfc : fat_clusters f = clusters_needed f.size := by simp [fat_clusters, hd]
    rw [hfc] at hle
    have hadd : add32 f.start_cluster (clusters_needed f.size)
        = f.start_cluster + clusters_needed f.size := by
      unfold add32
      exact Nat.mod_eq_of_lt (by omega)
    have hcn := clusters_needed_le f.size
    simp only [List.nil_append, data_area_loop, hd, Bool.false_eq_true, false_and, if_false,
      true_and, hadd, h1, h2, and_self, if_true, SECTORS_PER_CLUSTER, SECTOR_SIZE, Nat.mul_one,
      Nat.add_zero]
    have e1 : (cl - f.start_cluster) % U32 = cl - f.start_cluster :=
      Nat.mod_eq_of_lt (by simp only [U32]; omega)
    have e2 : (cl - f.start_cluster) * 512 % U32 = (cl - f.start_cluster) * 512 :=
      Nat.mod_eq_of_lt (by simp only [U32]; omega)
    rw [e1, e2]
  | cons g gs ih =>
    obtain ⟨hg, hrest⟩ : g.start_cluster = start ∧
        runs_contiguous fat_clusters (start + fat_clusters g) (gs ++ f :: post) next := h
    have hord := (runs_contiguous_ordered _ _ _ _ hrest).1 gs.length f
      (by rw [List.getElem?_append_right (le_refl _)]; simp)
    have hle := runs_contiguous_le _ _ _ _ hrest
    have hne : ¬ (g.is_directory = true ∧ cl = g.start_cluster ∧ 0 = 0) := by
      rintro ⟨hgd, hcl, _⟩
      have : fat_clusters g = 1 := by simp [fat_clusters, hgd]
      omega
    have hnf : ¬ (g.is_directory = false ∧ g.start_cluster ≤ cl ∧
        cl < add32 g.start_cluster (clusters_needed g.size)) := by
      rintro ⟨hgd, _, hcl⟩
      have hfc : fat_clusters g = clusters_needed g.size := by simp [fat_clusters, hgd]
      have hadd : add32 g.start_cluster (clusters_needed g.size)
          = g.start_cluster + clusters_needed g.size := by
        unfold add32
        exact Nat.mod_eq_of_lt (by omega)
      omega
    rw [List.cons_append, data_area_loop, if_neg hne, if_neg hnf]
    exact ih _ _ hrest

theorem read_file_data_memory (storage : Storage) (f : VirtualFatFile) (k : Nat)
    (hm : f.source_type = FileSourceType.FILE_SOURCE_MEMORY)
    (hs : f.size = f.memory_data.length) (hk : 512 * k < f.size) :
    read_file_data storage f (k * 512) = file_sector_bytes f.memory_data k := by
  have hlen : (slice f.memory_data (512 * k) 512).length = min 512 (f.size - 512 * k) := by
    simp [slice, hs]
  have hsl : ∀ n, n = min 512 (f.size - 512 * k) →
      slice f.memory_data (k * 512) n = slice f.memory_data (512 * k) 512 := by
    intro n hn
    simp only [slice]
    rw [Nat.mul_comm k 512, hn]
    apply List.ext_getElem?
    intro i
    simp only [List.getElem?_take, List.getElem?_drop]
    by_cases hi : i < min 512 (f.size - 512 * k)
    · have : i < 512 := by omega
      simp [hi, this]
    · simp only [hi, if_false]
      split
      · rw [List.getElem?_eq_none]
        omega
      · rfl
  unfold read_file_data file_sector_bytes
  simp only [SECTOR_SIZE, hm]
  rw [if_pos (by omega)]
  have hz : ∀ src : List Nat, src.length ≤ 512 →
      memcpy (zeros 512) 0 src = src ++ zeros (512 - src.length) := by
    intro src hsrc
    simp only [memcpy, List.take_zero, List.nil_append, Nat.zero_add, zeros,
      List.drop_replicate]
  split
  · next hgt =>
    rw [hsl 512 (by omega), hz _ (by rw [hlen]; omega)]
  · next hle =>
    rw [hsl (f.size - k * 512) (by omega), hz _ (by rw [hlen]; omega)]

/-! ## Entries are only ever appended -/

theorem files_prefix_create_directory_path_loop (fuel : Nat) (v : VirtualFat) (ptr : List Nat)
    (cur : Int) : ∃ extra, (create_directory_path_loop fuel v ptr cur).1.files = v.files ++ extra := by
  induction fuel generalizing v ptr cur with
  | zero => exact ⟨[], by simp [create_directory_path_loop]⟩
  | succ n ih =>
    have key : ∀ (w : VirtualFat) (p : List Nat) (c : Int), (∃ e0, w.files = v.files ++ e0) →
        ∃ extra, (create_directory_path_loop n w p c).1.files = v.files ++ extra := by
      intro w p c ⟨e0, h0⟩
      obtain ⟨e, he⟩ := ih w p c
      exact ⟨e0 ++ e, by rw [he, h0, List.append_assoc]⟩
    unfold create_directory_path_loop
    dsimp only
    split
    · exact ⟨[], by simp⟩
    · split
      · exact ⟨[], by simp⟩
      · split
        · split
          · exact ⟨[], by simp⟩
          · exact key _ _ _ ⟨[_], rfl⟩
        · exact ih _ _ _

theorem files_prefix_apply (v v1 : VirtualFat) (op : Op) (h : op.apply v = some v1) :
    ∃ extra, v1.files = v.files ++ extra := by
  cases op with
  | add_file filename data =>
    simp only [Op.apply, Option.some.injEq] at h
    rw [← h]
    unfold virtual_fat_add_file
    split
    · exact ⟨[], by simp⟩
    · exact ⟨_, rfl⟩
  | add_text_file filename text =>
    simp only [Op.apply, Option.some.injEq] at h
    rw [← h]
    unfold virtual_fat_add_text_file virtual_fat_add_file
    split
    · exact ⟨[], by simp⟩
    · exact ⟨_, rfl⟩
  | add_sd_file storage filename sd_path =>
    simp only [Op.apply, Option.some.injEq] at h
    rw [← h]
    unfold virtual_fat_add_sd_file
    split
    · exact ⟨[], by simp⟩
    · split
      · exact ⟨[], by simp⟩
      · exact ⟨_, rfl⟩
  | add_directory dirname =>
    simp only [Op.apply, Option.some.injEq] at h
    rw [← h]
    unfold virtual_fat_add_directory
    split
    · exact ⟨[], by simp⟩
    · exact ⟨_, rfl⟩
  | add_file_to_subdir storage parent_dir filename sd_path =>
    simp only [Op.apply, Option.map_eq_some'] at h
    obtain ⟨⟨b, w⟩, hw, rfl⟩ := h
    have hp : ∃ extra, (create_directory_path v parent_dir).1.files = v.files ++ extra := by
      unfold create_directory_path
      split
      · exact ⟨[], by simp⟩
      · exact files_prefix_create_directory_path_loop _ _ _ _
    obtain ⟨e, he⟩ := hp
    unfold virtual_fat_add_file_to_subdir at hw
    dsimp only at hw
    split at hw
    · simp only [Option.some.injEq, Prod.mk.injEq] at hw
      exact ⟨[], by rw [← hw.2]; simp⟩
    · split at hw
      · simp only [Option.some.injEq, Prod.mk.injEq] at hw
        exact ⟨e, by rw [← hw.2]; exact he⟩
      · split at hw
        · simp only [Option.some.injEq, Prod.mk.injEq] at hw
          exact ⟨e, by rw [← hw.2]; exact he⟩
        · split at hw
          · simp at hw
          · simp only [Option.some.injEq, Prod.mk.injEq] at hw
            rw [← hw.2]
            dsimp only
            rw [he, List.append_assoc]
            exact ⟨_, rfl⟩
  | set_partition_scheme scheme =>
    simp only [Op.apply, Option.some.injEq] at h
    exact ⟨[], by rw [← h]; simp [virtual_fat_set_partition_scheme]⟩
  | set_read_callback installed context =>
    simp only [Op.apply, Option.some.injEq] at h
    exact ⟨[], by rw [← h]; simp [virtual_fat_set_read_callback]⟩

theorem files_prefix_run_ops (ops : List Op) (v v1 : VirtualFat) (h : run_ops v ops = some v1) :
    ∃ extra, v1.files = v.files ++ extra := by
  induction ops generalizing v with
  | nil =>
    simp only [run_ops, Option.some.injEq] at h
    exact ⟨[], by rw [← h]; simp⟩
  | cons op ops ih =>
    simp only [run_ops] at h
    split at h
    · simp at h
    · next w hw =>
      obtain ⟨e1, he1⟩ := files_prefix_apply v w op hw
      obtain ⟨e2, he2⟩ := ih w h
      exact ⟨e1 ++ e2, by rw [he2, he1, List.append_assoc]⟩

theorem add_file_entry (v1 : VirtualFat) (filename D : List Nat)
    (h : v1.files.length < MAX_FILES) :
    ∃ f, (virtual_fat_add_file v1 filename D).2.files = v1.files ++ [f] ∧
      f.start_cluster = v1.next_cluster ∧ f.size = D.length ∧ f.memory_data = D ∧
      f.is_directory = false ∧ f.source_type = FileSourceType.FILE_SOURCE_MEMORY ∧
      f.parent_index = -1 ∧ f.name = parse_83 filename ∧ f.long_name = filename.take 255 := by
  unfold virtual_fat_add_file
  rw [if_neg (by omega)]
  exact ⟨_, rfl, rfl, rfl, rfl, rfl, rfl, rfl, rfl, rfl⟩

/-- C2. For every memory file added with data `D` (of at most `2^32 - 512`
bytes, as any buffer on the 32-bit target is) to a filesystem built by add
operations, whatever was added before and whatever is added after, and every
sector index `k < ceil(S / 512)`: with `s` the start cluster the file received,
the read at LBA `2048 + 32 + 2 * 2032 + (s - 2) + k` (below the GPT backup area
in scheme GptOnly) returns the bytes `D[512k .. min(S, 512k + 512))` followed
by zero padding up to 512 bytes. -/
theorem memory_file_sector_roundtrip (storage : Storage) (ops1 ops2 : List Op)
    (v1 v : VirtualFat) (filename D : List Nat) (k : Nat)
    (h1 : run_ops virtual_fat_alloc ops1 = some v1)
    (hfree : v1.files.length < MAX_FILES)
    (h2 : run_ops (virtual_fat_add_file v1 filename D).2 ops2 = some v)
    (hsize : D.length ≤ U32 - 512)
    (hk : k < (D.length + 511) / 512)
    (hg : v.partition_scheme = PartitionScheme.PARTITION_SCHEME_GPT_ONLY →
      2048 + 32 + 2 * 2032 + (v1.next_cluster - 2) + k < GPT_BACKUP_ARRAY_START) :
    virtual_fat_read_sector storage v (2048 + 32 + 2 * 2032 + (v1.next_cluster - 2) + k)
      = ReadOutcome.ok (file_sector_bytes D k) ∧
    (file_sector_bytes D k).length = 512 := by
  have hv1 : FsInv v1 := fsinv_run_ops ops1 _ _ fsinv_alloc h1
  have hv0 : FsInv (virtual_fat_add_file v1 filename D).2 := fsinv_add_file v1 filename D hv1
  have hv : FsInv v := fsinv_run_ops ops2 _ _ hv0 h2
  obtain ⟨extra, hex⟩ := files_prefix_run_ops ops2 _ _ h2
  obtain ⟨f, hadd, hfs, hfz, hfd, hfdir, hfm, _⟩ := add_file_entry v1 filename D hfree
  rw [hadd, List.append_assoc, List.singleton_append] at hex
  obtain ⟨hlen16, hrun, hnext, _, _⟩ := hv
  simp only [MAX_FILES] at hlen16
  rw [hex] at hrun
  have hs3 : 3 ≤ v1.next_cluster := runs_contiguous_le _ _ _ _ hv1.2.1
  have hord := (runs_contiguous_ordered _ _ _ _ hrun).1 v1.files.length f
    (by rw [List.getElem?_append_right (le_refl _)]; simp)
  have hcn : clusters_needed f.size = (D.length + 511) / 512 := by
    rw [hfz]
    exact clusters_needed_eq _ hsize
  have hfc : fat_clusters f = clusters_needed f.size := by
    simp [fat_clusters, hfdir]
  rw [hfc, hcn, hfs] at hord
  have hnu : v.next_cluster < U32 := by
    simp only [U32]
    omega
  have hlba : 2048 + 32 + 2 * 2032 + (v1.next_cluster - 2) + k - 6142 = v1.next_cluster + k := by
    omega
  refine ⟨?_, ?_⟩
  · rw [read_sector_data_area storage v _ (by omega) (by simp only [U32] at *; omega) hg, hlba,
      hex, data_area_loop_file storage v _ v1.files extra f 3 v.next_cluster 0 hrun hnu hfdir
        (by omega) (by rw [hcn]; omega), hfs, Nat.add_sub_cancel_left,
      read_file_data_memory storage f k hfm (by rw [hfz, hfd]) (by rw [hfz]; omega), hfd]
  · simp only [file_sector_bytes, List.length_append, zeros_length]
    have : (slice D (512 * k) 512).length ≤ 512 := by simp [slice]
    omega

set_option maxRecDepth 100000 in
/-- C2 at "HELLO.TXT" holding "hi", followed by a directory: the sector of
cluster 3 is "hi" and 510 zero bytes. -/
theorem memory_file_sector_roundtrip_witness :
    virtual_fat_read_sector empty_storage
        (virtual_fat_add_directory
          (virtual_fat_add_file virtual_fat_alloc (ascii "HELLO.TXT") (ascii "hi")).2
          (ascii "EFI")).2 6145
      = ReadOutcome.ok (ascii "hi" ++ zeros 510) :=
  (memory_file_sector_roundtrip empty_storage [] [Op.add_directory (ascii "EFI")]
    virtual_fat_alloc _ (ascii "HELLO.TXT") (ascii "hi") 0 rfl (by decide) rfl (by decide)
    (by decide) (by decide)).1

/-! ## The FAT -/

theorem fat_chain_loop_length (fe start clusters n : Nat) (fat : List Nat) :
    (fat_chain_loop fe start clusters n fat).length = fat.length := by
  induction n with
  | zero => rfl
  | succ n ih =>
    simp only [fat_chain_loop]
    split
    · split <;> simp [ih]
    · exact ih

theorem fat_chain_loop_get (fe start clusters n j : Nat) (fat : List Nat)
    (hn : n ≤ clusters) (hw : start + clusters < U32) (hfe : fe + 128 < U32)
    (hj : j < fat.length) (hl : fat.length = 128) :
    (fat_chain_loop fe start clusters n fat)[j]? =
      if start ≤ fe + j ∧ fe + j < start + n then
        some (if fe + j = start + clusters - 1 then 0x0FFFFFFF else fe + j + 1)
      else fat[j]? := by
  induction n with
  | zero =>
    simp only [fat_chain_loop]
    rw [if_neg (by omega)]
  | succ n ih =>
    have ih := ih (by omega)
    have e1 : add32 start n = start + n := by
      unfold add32
      exact Nat.mod_eq_of_lt (by omega)
    have e2 : add32 fe (SECTOR_SIZE / 4) = fe + 128 := by
      unfold add32
      simp only [SECTOR_SIZE]
      exact Nat.mod_eq_of_lt (by omega)
    have e3 : add32 (start + n) 1 = start + n + 1 := by
      unfold add32
      exact Nat.mod_eq_of_lt (by omega)
    have hlen := fat_chain_loop_length fe start clusters n fat
    have hiff : fe + j ≠ start + n →
        ((start ≤ fe + j ∧ fe + j < start + (n + 1)) ↔ (start ≤ fe + j ∧ fe + j < start + n)) := by
      omega
    simp only [fat_chain_loop, e1, e2, e3]
    by_cases hc : fe ≤ start + n ∧ start + n < fe + 128
    · rw [if_pos hc]
      by_cases hjn : start + n - fe = j
      · have hfj : fe + j = start + n := by omega
        have hin : start ≤ fe + j ∧ fe + j < start + (n + 1) := by omega
        by_cases hlast : n = clusters - 1
        · rw [if_pos hlast, List.getElem?_set, if_pos hjn, if_pos (by omega), if_pos hin,
            if_pos (by omega)]
        · rw [if_neg hlast, List.getElem?_set, if_pos hjn, if_pos (by omega), if_pos hin,
            if_neg (by omega), hfj]
      · have hne : fe + j ≠ start + n := by omega
        by_cases hlast : n = clusters - 1
        · rw [if_pos hlast, List.getElem?_set_ne hjn, ih]
          simp only [hiff hne]
        · rw [if_neg hlast, List.getElem?_set_ne hjn, ih]
          simp only [hiff hne]
    · rw [if_neg hc, ih]
      have hne : fe + j ≠ start + n := by omega
      simp only [hiff hne]

theorem fat_files_loop_length (fe : Nat) (files : List VirtualFatFile) (fat : List Nat) :
    (fat_files_loop fe files fat).length = fat.length := by
  induction files generalizing fat with
  | nil => rfl
  | cons g gs ih =>
    simp only [fat_files_loop]
    rw [ih, fat_chain_loop_length]

/-- Entries whose runs do not contain the cluster leave its FAT entry alone. -/
theorem fat_files_loop_untouched (fe j : Nat) (files : List VirtualFatFile) (fat : List Nat)
    (hfe : fe + 128 < U32) (hj : j < fat.length) (hl : fat.length = 128)
    (hw : ∀ g ∈ files, g.start_cluster + fat_clusters g < U32)
    (hout : ∀ g ∈ files,
      ¬ (g.start_cluster ≤ fe + j ∧ fe + j < g.start_cluster + fat_clusters g)) :
    (fat_files_loop fe files fat)[j]? = fat[j]? := by
  induction files generalizing fat with
  | nil => rfl
  | cons g gs ih =>
    simp only [fat_files_loop]
    have hlen := fat_chain_loop_length fe g.start_cluster (fat_clusters g) (fat_clusters g) fat
    rw [ih _ (by omega) (by omega) (fun x hx => hw x (by simp [hx]))
      (fun x hx => hout x (by simp [hx])),
      fat_chain_loop_get fe g.start_cluster (fat_clusters g) (fat_clusters g) j fat (le_refl _)
        (hw g (by simp)) hfe hj hl,
      if_neg (hout g (by simp))]

theorem slice_flatMap_le32 (entries : List Nat) (j v : Nat) (h : entries[j]? = some v) :
    slice (entries.flatMap le32) (4 * j) 4 = le32 v := by
  induction entries generalizing j with
  | nil => simp at h
  | cons a as ih =>
    cases j with
    | zero =>
      simp only [List.getElem?_cons_zero, Option.some.injEq] at h
      subst h
      simp only [List.flatMap_cons, slice, Nat.mul_zero, List.drop_zero]
      rw [List.take_append_of_le_length (by rw [le32_length])]
      rfl
    | succ j =>
      simp only [List.getElem?_cons_succ] at h
      simp only [List.flatMap_cons, slice]
      have : 4 * (j + 1) = (le32 a).length + 4 * j := by rw [le32_length]; omega
      rw [this, List.drop_append]
      exact ih j h

theorem fat_initial_length (k : Nat) :
    (if k = 0 then [0x0FFFFFF8, 0x0FFFFFFF, 0x0FFFFFFF] ++ (List.replicate (SECTOR_SIZE / 4) 0).drop 3
      else List.replicate (SECTOR_SIZE / 4) 0).length = 128 := by
  split <;> simp [SECTOR_SIZE]

theorem read_sector_fat1_lba (storage : Storage) (vfat : VirtualFat) (lba : Nat)
    (h1 : 2080 ≤ lba) (h2 : lba < 4112) :
    virtual_fat_read_sector storage vfat lba
      = ReadOutcome.ok (generate_fat_sector vfat (lba - 2080)) := by
  unfold virtual_fat_read_sector
  simp only [PARTITION_SECTORS_GPT, PARTITION_SECTORS_MBR, GPT_LAST_USABLE, TOTAL_SECTORS,
    GPT_BACKUP_SECTORS, PARTITION_START, SECTORS_PER_CLUSTER, SECTOR_SIZE, RESERVED_SECTORS,
    GPT_BACKUP_ARRAY_START, GPT_BACKUP_HEADER]
  by_cases hsch : vfat.partition_scheme = PartitionScheme.PARTITION_SCHEME_GPT_ONLY
  · simp only [hsch, if_true, true_and]
    norm_num
    repeat (first | rw [if_neg (by omega)] | rw [if_pos (by omega)])
  · simp only [hsch, if_false, false_and]
    norm_num
    repeat (first | rw [if_neg (by omega)] | rw [if_pos (by omega)])

theorem read_sector_fat2_lba (storage : Storage) (vfat : VirtualFat) (lba : Nat)
    (h1 : 4112 ≤ lba) (h2 : lba < 6144) :
    virtual_fat_read_sector storage vfat lba
      = ReadOutcome.ok (generate_fat_sector vfat (lba - 4112)) := by
  unfold virtual_fat_read_sector
  simp only [PARTITION_SECTORS_GPT, PARTITION_SECTORS_MBR, GPT_LAST_USABLE, TOTAL_SECTORS,
    GPT_BACKUP_SECTORS, PARTITION_START, SECTORS_PER_CLUSTER, SECTOR_SIZE, RESERVED_SECTORS,
    GPT_BACKUP_ARRAY_START, GPT_BACKUP_HEADER]
  by_cases hsch : vfat.partition_scheme = PartitionScheme.PARTITION_SCHEME_GPT_ONLY
  · simp only [hsch, if_true, true_and]
    norm_num
    repeat (first | rw [if_neg (by omega)] | rw [if_pos (by omega)])
  · simp only [hsch, if_false, false_and]
    norm_num
    repeat (first | rw [if_neg (by omega)] | rw [if_pos (by omega)])

theorem read_sector_fat1 (storage : Storage) (vfat : VirtualFat) (k : Nat) (hk : k < 2032) :
    virtual_fat_read_sector storage vfat (2080 + k)
      = ReadOutcome.ok (generate_fat_sector vfat k) := by
  rw [read_sector_fat1_lba storage vfat (2080 + k) (by omega) (by omega),
    Nat.add_sub_cancel_left]

theorem read_sector_fat2 (storage : Storage) (vfat : VirtualFat) (k : Nat) (hk : k < 2032) :
    virtual_fat_read_sector storage vfat (2080 + 2032 + k)
      = ReadOutcome.ok (generate_fat_sector vfat k) := by
  have e : 2080 + 2032 + k - 4112 = k := by omega
  rw [read_sector_fat2_lba storage vfat (2080 + 2032 + k) (by omega) (by omega), e]

theorem lfn_units_length (ln : List Nat) (off first n : Nat) :
    (lfn_units ln off first n).length = 2 * n := by
  unfold lfn_units
  induction n with
  | zero => rfl
  | succ n ih =>
    rw [List.range_succ, List.flatMap_append, List.length_append, ih]
    simp [le16]
    omega

theorem write_lfn_entry_layout (s cs : Nat) (ln : List Nat) :
    write_lfn_entry s ln cs =
      [s] ++ lfn_units ln ((((((s &&& 0x3F : Nat) : Int) - 1) * 13) % 256).toNat) 0 5
        ++ [LFN_ATTR, 0x00, cs]
        ++ lfn_units ln ((((((s &&& 0x3F : Nat) : Int) - 1) * 13) % 256).toNat) 5 6
        ++ [0x00, 0x00]
        ++ lfn_units ln ((((((s &&& 0x3F : Nat) : Int) - 1) * 13) % 256).toNat) 11 2 := by
  rfl

theorem write_lfn_entry_length (s cs : Nat) (ln : List Nat) :
    (write_lfn_entry s ln cs).length = 32 := by
  rw [write_lfn_entry_layout]
  simp [lfn_units_length]

theorem memcpy_append_right (a b src : List Nat) (off : Nat) (h : a.length ≤ off) :
    memcpy (a ++ b) off src = a ++ memcpy b (off - a.length) src := by
  have e : off + src.length - a.length = off - a.length + src.length := by omega
  simp only [memcpy]
  rw [List.take_append_eq_append_take, List.take_of_length_le h,
    List.drop_append_eq_append_drop, List.drop_eq_nil_of_le (by omega), e]
  simp only [List.append_assoc, List.nil_append]

theorem write_directory_entry_layout (name : List Nat) (attributes start_cluster size : Nat)
    (h : name.length = 11) :
    write_directory_entry name attributes start_cluster size =
      name ++ ([attributes] ++ zeros 8 ++ le16 (start_cluster / 65536) ++ [0x00, 0x60, 0x21, 0x58]
        ++ le16 start_cluster ++ le32 size) := by
  have ht : name.take 11 = name := List.take_of_length_le (by omega)
  have h0 : memcpy (zeros 32) 0 name = name ++ zeros 21 := by
    simp only [memcpy, List.take_zero, List.nil_append, Nat.zero_add, h, zeros,
      List.drop_replicate]
  unfold write_directory_entry
  dsimp only
  rw [ht, h0, memcpy_append_right _ _ _ _ (by omega), memcpy_append_right _ _ _ _ (by omega),
    memcpy_append_right _ _ _ _ (by omega), memcpy_append_right _ _ _ _ (by omega),
    memcpy_append_right _ _ _ _ (by omega), memcpy_append_right _ _ _ _ (by omega),
    memcpy_append_right _ _ _ _ (by omega), h]
  rfl

theorem write_directory_entry_length (name : List Nat) (attributes start_cluster size : Nat) :
    (write_directory_entry name attributes start_cluster size).length = 32 := by
  unfold write_directory_entry
  dsimp only
  have h0 : (memcpy (zeros 32) 0 (name.take 11)).length = 32 := by
    rw [memcpy_length _ _ _ (by simp [zeros]), zeros_length]
  have step : ∀ (b src : List Nat) (off : Nat), b.length = 32 → off + src.length ≤ 32 →
      (memcpy b off src).length = 32 := by
    intro b src off hb hs
    rw [memcpy_length _ _ _ (by omega), hb]
  exact step _ _ _ (step _ _ _ (step _ _ _ (step _ _ _ (step _ _ _ (step _ _ _ (step _ _ _ h0
    (by simp)) (by simp [zeros])) (by simp)) (by simp)) (by simp [le16])) (by simp [le16]))
    (by simp [le32])

theorem slice_of_take_eq (a b : List Nat) (m off n : Nat) (h : a.take m = b.take m)
    (hle : off + n ≤ m) : slice a off n = slice b off n := by
  have e : ∀ l : List Nat, slice l off n = slice (l.take m) off n := by
    intro l
    simp only [slice, List.drop_take, List.take_take]
    rw [Nat.min_eq_left (by omega)]
  rw [e a, e b, h]

theorem take_of_take_eq (a b : List Nat) (m n : Nat) (h : a.take m = b.take m) (hle : n ≤ m) :
    a.take n = b.take n := by
  have e : ∀ l : List Nat, l.take n = (l.take m).take n := by
    intro l
    rw [List.take_take, Nat.min_eq_left hle]
  rw [e a, e b, h]

/-- The loop `lfn_loop` never moves backwards, keeps the buffer length and leaves the
slots before `entry_count` alone. -/
theorem lfn_loop_general (ln : List Nat) (cs K j ec : Nat) (buf : List Nat)
    (hlen : buf.length = 512) :
    ec ≤ (lfn_loop ln cs K j ec buf).1 ∧
      ((lfn_loop ln cs K j ec buf).1 ≤ 16 ∨ (lfn_loop ln cs K j ec buf).1 = ec) ∧
      (lfn_loop ln cs K j ec buf).2.length = 512 ∧
      (lfn_loop ln cs K j ec buf).2.take (32 * ec) = buf.take (32 * ec) := by
  induction j generalizing ec buf with
  | zero => simp [lfn_loop, hlen]
  | succ j ih =>
    simp only [lfn_loop, SECTOR_SIZE]
    split
    · next hlt =>
      have hlt16 : ec < 16 := hlt
      have hl : (memcpy buf (32 * ec)
          (write_lfn_entry (if j + 1 = K then (j + 1) ||| LFN_LAST else j + 1) ln cs)).length
            = 512 := by
        rw [memcpy_length _ _ _ (by rw [write_lfn_entry_length]; omega), hlen]
      obtain ⟨h1, h2, h3, h4⟩ := ih (ec + 1) _ hl
      refine ⟨by omega, by omega, h3, ?_⟩
      rw [take_of_take_eq _ _ _ _ h4 (by omega),
        take_memcpy_of_le _ _ _ _ (le_refl _) (by omega)]
    · simp [hlen]

/-- When the run fits, `lfn_loop` emits `j` slots with sequence numbers
`j, ..., 1` and touches nothing else. -/
theorem lfn_loop_spec (ln : List Nat) (cs K j ec : Nat) (buf : List Nat)
    (hlen : buf.length = 512) (hfit : ec + j ≤ 16) :
    (lfn_loop ln cs K j ec buf).1 = ec + j ∧
      (lfn_loop ln cs K j ec buf).2.length = 512 ∧
      (lfn_loop ln cs K j ec buf).2.take (32 * ec) = buf.take (32 * ec) ∧
      (∀ i, i < j → slice (lfn_loop ln cs K j ec buf).2 (32 * (ec + i)) 32
        = write_lfn_entry (if j - i = K then (j - i) ||| LFN_LAST else j - i) ln cs) := by
  induction j generalizing ec buf with
  | zero => simp [lfn_loop, hlen]
  | succ j ih =>
    have hlt : ec < SECTOR_SIZE / 32 := by
      simp only [SECTOR_SIZE]
      omega
    have hl : (memcpy buf (32 * ec)
        (write_lfn_entry (if j + 1 = K then (j + 1) ||| LFN_LAST else j + 1) ln cs)).length
          = 512 := by
      rw [memcpy_length _ _ _ (by rw [write_lfn_entry_length]; omega), hlen]
    simp only [lfn_loop, if_pos hlt]
    obtain ⟨h1, h2, h3, h4⟩ := ih (ec + 1) _ hl (by omega)
    refine ⟨by omega, h2, ?_, ?_⟩
    · rw [take_of_take_eq _ _ _ _ h3 (by omega),
        take_memcpy_of_le _ _ _ _ (le_refl _) (by omega)]
    · intro i hi
      cases i with
      | zero =>
        rw [slice_of_take_eq _ _ _ _ _ h3 (by omega)]
        have := slice_memcpy_same buf
          (write_lfn_entry (if j + 1 = K then (j + 1) ||| LFN_LAST else j + 1) ln cs) (32 * ec)
          (by rw [write_lfn_entry_length]; omega)
        rw [write_lfn_entry_length] at this
        simpa using this
      | succ i =>
        have := h4 i (by omega)
        have e1 : ec + 1 + i = ec + (i + 1) := by omega
        have e2 : j + 1 - (i + 1) = j - i := by omega
        rw [e1] at this
        rw [e2]
        exact this

theorem lfn_slots_nil (f : VirtualFatFile) (h : f.long_name = []) : lfn_slots f = 0 := by
  simp [lfn_slots, h]

/-- The state `dir_emit` reaches before the 8.3 store. -/
theorem dir_emit_eq (f : VirtualFatFile) (ec : Nat) (buf : List Nat) :
    dir_emit f ec buf =
      (if 32 * (lfn_loop f.long_name (lfn_checksum f.name) (lfn_slots f) (lfn_slots f) ec buf).1
            + 32 ≤ SECTOR_SIZE then
        some ((lfn_loop f.long_name (lfn_checksum f.name) (lfn_slots f) (lfn_slots f) ec buf).1 + 1,
          memcpy (lfn_loop f.long_name (lfn_checksum f.name) (lfn_slots f) (lfn_slots f) ec buf).2
            (32 * (lfn_loop f.long_name (lfn_checksum f.name) (lfn_slots f) (lfn_slots f)
              ec buf).1)
            (write_directory_entry f.name (entry_attributes f) f.start_cluster f.size))
      else none) := by
  unfold dir_emit
  dsimp only
  by_cases h : f.long_name = []
  · have hk := lfn_slots_nil f h
    simp only [h, ne_eq, not_true_eq_false, if_false, hk, lfn_loop, entry_attributes]
  · simp only [h, ne_eq, not_false_eq_true, if_true, lfn_slots, entry_attributes]

theorem dir_emit_general (f : VirtualFatFile) (ec : Nat) (buf : List Nat) (st : Nat × List Nat)
    (hlen : buf.length = 512) (h : dir_emit f ec buf = some st) :
    ec < st.1 ∧ st.1 ≤ 16 ∧ st.2.length = 512 ∧ st.2.take (32 * ec) = buf.take (32 * ec) := by
  rw [dir_emit_eq] at h
  obtain ⟨h1, _, h3, h4⟩ :=
    lfn_loop_general f.long_name (lfn_checksum f.name) (lfn_slots f) (lfn_slots f) ec buf hlen
  split at h
  · next hg =>
    simp only [SECTOR_SIZE] at hg
    simp only [Option.some.injEq] at h
    rw [← h]
    refine ⟨by simp only; omega, by simp only; omega, ?_, ?_⟩
    · simp only
      rw [memcpy_length _ _ _ (by rw [write_directory_entry_length]; omega), h3]
    · simp only
      rw [take_memcpy_of_le _ _ _ _ (Nat.mul_le_mul_left 32 h1) (by omega), h4]
  · simp at h

theorem lfn_sequence_eq (k i : Nat) (hi : i < k) :
    (if k - i = k then (k - i) ||| LFN_LAST else k - i) = lfn_sequence k i := by
  unfold lfn_sequence
  by_cases h0 : i = 0
  · subst h0
    simp
  · rw [if_neg (by omega), if_neg h0]

/-- An entry whose slots fit: its long-name run, then its 8.3 slot. -/
theorem dir_emit_spec (f : VirtualFatFile) (ec : Nat) (buf : List Nat)
    (hlen : buf.length = 512) (hfit : ec + lfn_slots f + 1 ≤ 16) :
    ∃ buf1, dir_emit f ec buf = some (ec + lfn_slots f + 1, buf1) ∧ buf1.length = 512 ∧
      buf1.take (32 * ec) = buf.take (32 * ec) ∧
      (∀ i, i < lfn_slots f → slice buf1 (32 * (ec + i)) 32
        = write_lfn_entry (lfn_sequence (lfn_slots f) i) f.long_name (lfn_checksum f.name)) ∧
      slice buf1 (32 * (ec + lfn_slots f)) 32
        = write_directory_entry f.name (entry_attributes f) f.start_cluster f.size := by
  obtain ⟨h1, h2, h3, h4⟩ :=
    lfn_loop_spec f.long_name (lfn_checksum f.name) (lfn_slots f) (lfn_slots f) ec buf hlen
      (by omega)
  rw [dir_emit_eq, h1, if_pos (by simp only [SECTOR_SIZE]; omega)]
  have hwl := write_directory_entry_length f.name (entry_attributes f) f.start_cluster f.size
  refine ⟨_, rfl, ?_, ?_, ?_, ?_⟩
  · rw [memcpy_length _ _ _ (by rw [hwl]; omega), h2]
  · rw [take_memcpy_of_le _ _ _ _ (by omega) (by omega), h3]
  · intro i hi
    rw [slice_memcpy_of_le _ _ _ _ _ (by omega) (by omega), h4 i hi, lfn_sequence_eq _ _ hi]
  · have := slice_memcpy_same
      (lfn_loop f.long_name (lfn_checksum f.name) (lfn_slots f) (lfn_slots f) ec buf).2
      (write_directory_entry f.name (entry_attributes f) f.start_cluster f.size)
      (32 * (ec + lfn_slots f)) (by rw [hwl]; omega)
    rwa [hwl] at this

theorem dir_loop_full (p : Int) (files : List VirtualFatFile) (ec : Nat) (buf : List Nat)
    (h : 16 ≤ ec) : dir_loop p files ec buf = some buf := by
  cases files with
  | nil => rfl
  | cons g gs =>
    rw [dir_loop, if_neg (by simp only [SECTOR_SIZE]; omega)]

/-- A sector the loop produces keeps its length and the slots written before. -/
theorem dir_loop_preserves (p : Int) (files : List VirtualFatFile) (ec : Nat)
    (buf sec : List Nat) (hlen : buf.length = 512)
    (h : dir_loop p files ec buf = some sec) :
    sec.length = 512 ∧ sec.take (32 * ec) = buf.take (32 * ec) := by
  induction files generalizing ec buf with
  | nil =>
    simp only [dir_loop, Option.some.injEq] at h
    rw [← h]
    exact ⟨hlen, rfl⟩
  | cons g gs ih =>
    rw [dir_loop] at h
    split at h
    · split at h
      · exact ih _ _ hlen h
      · split at h
        · simp at h
        · next st hst =>
          obtain ⟨h1, _, h3, h4⟩ := dir_emit_general g ec buf st hlen hst
          obtain ⟨i1, i2⟩ := ih _ _ h3 h
          exact ⟨i1, by rw [take_of_take_eq _ _ _ _ i2 (by omega), h4]⟩
    · simp only [Option.some.injEq] at h
      rw [← h]
      exact ⟨hlen, rfl⟩

/-- The loop over a prefix whose slots fit ends at the slot count of the
prefix. -/
theorem dir_loop_prefix (p : Int) (pre rest : List VirtualFatFile) (ec : Nat) (buf : List Nat)
    (hlen : buf.length = 512) (hfit : ec + dir_slots p pre ≤ 16) :
    ∃ buf1, dir_loop p (pre ++ rest) ec buf = dir_loop p rest (ec + dir_slots p pre) buf1 ∧
      buf1.length = 512 ∧ buf1.take (32 * ec) = buf.take (32 * ec) := by
  induction pre generalizing ec buf with
  | nil => exact ⟨buf, rfl, hlen, rfl⟩
  | cons g gs ih =>
    by_cases hec : ec < 16
    · rw [List.cons_append, dir_loop, if_pos (by simp only [SECTOR_SIZE]; omega)]
      by_cases hp : g.parent_index = p
      · have hd : dir_slots p (g :: gs) = lfn_slots g + 1 + dir_slots p gs := by
          simp [dir_slots, hp]
        rw [hd] at hfit
        obtain ⟨b1, hb1, hl1, ht1, _⟩ := dir_emit_spec g ec buf hlen (by omega)
        obtain ⟨b2, hb2, hl2, ht2⟩ := ih (ec + lfn_slots g + 1) b1 hl1 (by omega)
        refine ⟨b2, ?_, hl2, ?_⟩
        · rw [if_neg (by simp [hp]), hb1]
          simp only
          rw [hb2, hd]
          congr 1
          omega
        · rw [take_of_take_eq _ _ _ _ ht2 (by omega), ht1]
      · have hd : dir_slots p (g :: gs) = dir_slots p gs := by
          simp [dir_slots, hp]
        rw [hd] at hfit ⊢
        rw [if_pos hp]
        exact ih ec buf hlen hfit
    · refine ⟨buf, ?_, hlen, rfl⟩
      rw [dir_loop_full p _ ec buf (by omega), dir_loop_full p _ _ buf (by omega)]

/-- The loop produces a sector when all the slots fit. -/
theorem dir_loop_total (p : Int) (files : List VirtualFatFile) (ec : Nat) (buf : List Nat)
    (hlen : buf.length = 512) (hfit : ec + dir_slots p files ≤ 16) :
    ∃ sec, dir_loop p files ec buf = some sec := by
  obtain ⟨b, hb, _, _⟩ := dir_loop_prefix p files [] ec buf hlen hfit
  rw [List.append_nil] at hb
  exact ⟨b, by rw [hb]; rfl⟩

/-- Layout of one entry in a sector the loop produces, when the entry's own
slots fit: `lfn_slots` long-name slots, then the 8.3 slot. -/
theorem dir_loop_entry_layout (p : Int) (pre post : List VirtualFatFile) (f : VirtualFatFile)
    (ec : Nat) (buf sec : List Nat) (hlen : buf.length = 512) (hp : f.parent_index = p)
    (hfit : ec + dir_slots p pre + lfn_slots f + 1 ≤ 16)
    (h : dir_loop p (pre ++ f :: post) ec buf = some sec) :
    sec.length = 512 ∧
    (∀ i, i < lfn_slots f → slice sec (32 * (ec + dir_slots p pre + i)) 32
      = write_lfn_entry (lfn_sequence (lfn_slots f) i) f.long_name (lfn_checksum f.name)) ∧
    slice sec (32 * (ec + dir_slots p pre + lfn_slots f)) 32
      = write_directory_entry f.name (entry_attributes f) f.start_cluster f.size := by
  obtain ⟨b1, hb1, hl1, _⟩ := dir_loop_prefix p pre (f :: post) ec buf hlen (by omega)
  rw [hb1, dir_loop, if_pos (by simp only [SECTOR_SIZE]; omega), if_neg (by simp [hp])] at h
  obtain ⟨b2, hb2, hl2, _, hs1, hs2⟩ :=
    dir_emit_spec f (ec + dir_slots p pre) b1 hl1 (by omega)
  rw [hb2] at h
  simp only at h
  obtain ⟨hl3, ht3⟩ := dir_loop_preserves p post _ b2 sec hl2 h
  refine ⟨hl3, ?_, ?_⟩
  · intro i hi
    rw [slice_of_take_eq _ _ _ _ _ ht3 (by omega), hs1 i hi]
  · rw [slice_of_take_eq _ _ _ _ _ ht3 (by omega), hs2]

/-! ## Reading directory sectors -/

theorem slice_slice (l : List Nat) (a n b m : Nat) (h : b + m ≤ n) :
    slice (slice l a n) b m = slice l (a + b) m := by
  simp only [slice, List.drop_take, List.take_take, List.drop_drop]
  rw [Nat.min_eq_left (by omega)]

theorem write_lfn_entry_fields (s cs : Nat) (ln : List Nat) :
    slice (write_lfn_entry s ln cs) 0 1 = [s] ∧
      slice (write_lfn_entry s ln cs) 11 1 = [LFN_ATTR] ∧
      slice (write_lfn_entry s ln cs) 13 1 = [cs] := by
  rw [write_lfn_entry_layout]
  have h11 : ∀ u : List Nat, u.length = 10 → ∀ rest : List Nat,
      List.drop 11 ([s] ++ (u ++ rest)) = rest := by
    intro u hu rest
    rw [← List.append_assoc]
    exact List.drop_left' (by simp [hu])
  have hu := lfn_units_length ln ((((((s &&& 0x3F : Nat) : Int) - 1) * 13) % 256).toNat) 0 5
  refine ⟨rfl, ?_, ?_⟩
  · simp only [slice, List.append_assoc]
    rw [h11 _ (by rw [hu])]
    rfl
  · simp only [slice, List.append_assoc]
    have : (13 : Nat) = 11 + 2 := rfl
    rw [this, ← List.drop_drop, h11 _ (by rw [hu])]
    rfl

theorem write_directory_entry_fields (name : List Nat) (attributes start_cluster size : Nat)
    (h : name.length = 11) :
    slice (write_directory_entry name attributes start_cluster size) 0 11 = name ∧
      slice (write_directory_entry name attributes start_cluster size) 11 1 = [attributes] ∧
      slice (write_directory_entry name attributes start_cluster size) 20 2
        = le16 (start_cluster / 65536) ∧
      slice (write_directory_entry name attributes start_cluster size) 26 2
        = le16 start_cluster ∧
      slice (write_directory_entry name attributes start_cluster size) 28 4 = le32 size := by
  rw [write_directory_entry_layout _ _ _ _ h]
  have hd : ∀ (rest : List Nat) (m : Nat), List.drop (11 + m) (name ++ rest) = rest.drop m := by
    intro rest m
    rw [← List.drop_drop, List.drop_left' h]
  refine ⟨?_, ?_, ?_, ?_, ?_⟩
  · simp only [slice, List.drop_zero]
    rw [← h, List.take_left']
    rfl
  · exact (congrArg (List.take 1) (hd _ 0)).trans rfl
  · exact (congrArg (List.take 2) (hd _ 9)).trans rfl
  · exact (congrArg (List.take 2) (hd _ 15)).trans rfl
  · exact (congrArg (List.take 4) (hd _ 17)).trans rfl

theorem or_lfn_last (k : Nat) (h : k ≤ 20) : k ||| LFN_LAST = k + 0x40 := by
  simp only [LFN_LAST]
  interval_cases k <;> rfl

theorem lfn_slots_eq (f : VirtualFatFile) (h : f.long_name.length ≤ 255) :
    lfn_slots f = (f.long_name.length + 12) / 13 := by
  unfold lfn_slots
  omega

theorem lfn_checksum_eq_spec (name : List Nat) (h : name.length = 11) :
    lfn_checksum name = spec_lfn_checksum name := by
  have hstep : ∀ sum c : Nat,
      (((sum &&& 1) <<< 7) + (sum >>> 1) + c % 256) % 256
        = ((sum % 2) * 128 + sum / 2 + c) % 256 := by
    intro sum c
    rw [Nat.and_one_is_mod, Nat.shiftLeft_eq, Nat.shiftRight_eq_div_pow]
    omega
  unfold lfn_checksum spec_lfn_checksum
  rw [List.take_of_length_le (by omega)]
  congr 1
  funext sum c
  exact hstep sum c

/-- The layout of `dir_loop_entry_layout` in the terms of the statements. -/
theorem dir_loop_runs (p : Int) (pre post : List VirtualFatFile) (f : VirtualFatFile)
    (ec : Nat) (buf sec : List Nat) (hlen : buf.length = 512) (hp : f.parent_index = p)
    (hn : f.long_name.length ≤ 255)
    (hfit : ec + dir_slots p pre + (f.long_name.length + 12) / 13 + 1 ≤ 16)
    (h : dir_loop p (pre ++ f :: post) ec buf = some sec) :
    long_name_run_at sec (ec + dir_slots p pre) f ∧
      (f.name.length = 11 → checksum_run_at sec (ec + dir_slots p pre) f) := by
  have hk := lfn_slots_eq f hn
  rw [← hk] at hfit
  obtain ⟨_, h1, h2⟩ := dir_loop_entry_layout p pre post f ec buf sec hlen hp hfit h
  rw [hk] at h1 h2
  have hk20 : (f.long_name.length + 12) / 13 ≤ 20 := by omega
  refine ⟨⟨?_, h2⟩, ?_⟩
  · intro i hi
    have e0 := slice_slice sec (32 * (ec + dir_slots p pre + i)) 32 0 1 (by omega)
    have e11 := slice_slice sec (32 * (ec + dir_slots p pre + i)) 32 11 1 (by omega)
    rw [h1 i hi] at e0 e11
    obtain ⟨f0, f11, _⟩ := write_lfn_entry_fields
      (lfn_sequence ((f.long_name.length + 12) / 13) i) (lfn_checksum f.name) f.long_name
    rw [f0] at e0
    rw [f11] at e11
    refine ⟨?_, e11.symm⟩
    have e0' : slice sec (32 * (ec + dir_slots p pre + i)) 1
        = [lfn_sequence ((f.long_name.length + 12) / 13) i] := e0.symm
    rw [e0']
    unfold lfn_sequence
    by_cases hi0 : i = 0
    · rw [if_pos hi0, if_pos hi0, or_lfn_last _ hk20, hi0]
      rfl
    · rw [if_neg hi0, if_neg hi0]
      rfl
  · intro hname i hi
    have e13 := slice_slice sec (32 * (ec + dir_slots p pre + i)) 32 13 1 (by omega)
    rw [h1 i hi] at e13
    obtain ⟨_, _, f13⟩ := write_lfn_entry_fields
      (lfn_sequence ((f.long_name.length + 12) / 13) i) (lfn_checksum f.name) f.long_name
    rw [f13] at e13
    have en := slice_slice sec (32 * (ec + dir_slots p pre + (f.long_name.length + 12) / 13))
      32 0 11 (by omega)
    rw [h2, (write_directory_entry_fields f.name _ _ _ hname).1] at en
    have en' : slice sec (32 * (ec + dir_slots p pre + (f.long_name.length + 12) / 13)) 11
        = f.name := en.symm
    rw [en', ← e13, lfn_checksum_eq_spec _ hname]

theorem generate_subdirectory_eq (vfat : VirtualFat) (d : Nat) (dir : VirtualFatFile)
    (h : vfat.files[d]? = some dir) (hd : dir.is_directory = true) :
    ∃ buf, buf.length = 512 ∧
      generate_subdirectory vfat (d : Int) = dir_loop (d : Int) vfat.files 2 buf := by
  have hlt : d < vfat.files.length := by
    by_contra hc
    rw [List.getElem?_eq_none (by omega)] at h
    simp at h
  unfold generate_subdirectory
  dsimp only
  rw [if_neg (by omega), Int.toNat_ofNat, h]
  simp only [hd, not_true_eq_false, if_false]
  refine ⟨_, ?_, rfl⟩
  rw [memcpy_length _ _ _ (by
      rw [write_directory_entry_length, memcpy_length _ _ _ (by
        rw [write_directory_entry_length, zeros_length]; decide), zeros_length]; decide),
    memcpy_length _ _ _ (by rw [write_directory_entry_length, zeros_length]; decide),
    zeros_length]
  rfl

theorem read_sector_root (storage : Storage) (vfat : VirtualFat) :
    virtual_fat_read_sector storage vfat 6144 =
      match generate_root_directory vfat with
      | some buffer => ReadOutcome.ok buffer
      | none => ReadOutcome.out_of_bounds := by
  unfold virtual_fat_read_sector
  simp only [PARTITION_SECTORS_GPT, PARTITION_SECTORS_MBR, GPT_LAST_USABLE, TOTAL_SECTORS,
    GPT_BACKUP_SECTORS, PARTITION_START, SECTORS_PER_CLUSTER, SECTOR_SIZE, RESERVED_SECTORS,
    GPT_BACKUP_ARRAY_START, GPT_BACKUP_HEADER]
  by_cases hsch : vfat.partition_scheme = PartitionScheme.PARTITION_SCHEME_GPT_ONLY
  · simp only [hsch, if_true, true_and]
    norm_num [add32, U32]
  · simp only [hsch, if_false, false_and]
    norm_num [add32, U32]

/-! ## Directory sectors: the claims -/

theorem generate_root_directory_runs (vfat : VirtualFat) (pre post : List VirtualFatFile)
    (f : VirtualFatFile) (sec : List Nat) (hfiles : vfat.files = pre ++ f :: post)
    (hn : f.long_name.length ≤ 255) (hp : f.parent_index = -1)
    (hfit : dir_slots (-1) pre + (f.long_name.length + 12) / 13 + 1 ≤ 16)
    (h : generate_root_directory vfat = some sec) :
    long_name_run_at sec (dir_slots (-1) pre) f ∧
      (f.name.length = 11 → checksum_run_at sec (dir_slots (-1) pre) f) := by
  unfold generate_root_directory at h
  rw [hfiles] at h
  have := dir_loop_runs (-1) pre post f 0 (zeros SECTOR_SIZE) sec (zeros_length _) hp hn
    (by omega) h
  rwa [Nat.zero_add] at this

theorem generate_subdirectory_runs (vfat : VirtualFat) (pre post : List VirtualFatFile)
    (f dir : VirtualFatFile) (d : Nat) (sec : List Nat) (hfiles : vfat.files = pre ++ f :: post)
    (hn : f.long_name.length ≤ 255) (hdir : vfat.files[d]? = some dir)
    (hd : dir.is_directory = true) (hp : f.parent_index = (d : Int))
    (hfit : 2 + dir_slots (d : Int) pre + (f.long_name.length + 12) / 13 + 1 ≤ 16)
    (h : generate_subdirectory vfat (d : Int) = some sec) :
    long_name_run_at sec (2 + dir_slots (d : Int) pre) f ∧
      (f.name.length = 11 → checksum_run_at sec (2 + dir_slots (d : Int) pre) f) := by
  obtain ⟨buf, hlen, heq⟩ := generate_subdirectory_eq vfat d dir hdir hd
  rw [heq, hfiles] at h
  exact dir_loop_runs (d : Int) pre post f 2 buf sec hlen hp hn hfit h

set_option maxRecDepth 100000 in
/-- C9. For every entry with a long name of length `n ≤ 255` whose slots fit in
the directory sector, root-directory and subdirectory synthesis emit exactly
`ceil(n / 13)` long-name slots immediately before the entry's 8.3 slot, with
sequence numbers `ceil(n / 13), ..., 2, 1` in that order and bit `0x40` added to
the first of them only; a sector is produced whenever all the slots of the
directory fit; for the memory file "autoexec.ipxe" slot 0 of the root sector
has sequence byte `0x41` and slot 1 is the 8.3 entry named "AUTOEXECIPX". -/
theorem long_name_slots_precede_short_entry (vfat : VirtualFat)
    (pre post : List VirtualFatFile) (f : VirtualFatFile)
    (hfiles : vfat.files = pre ++ f :: post) (hn : f.long_name.length ≤ 255) :
    (∀ sec, f.parent_index = -1 →
      dir_slots (-1) pre + (f.long_name.length + 12) / 13 + 1 ≤ 16 →
      generate_root_directory vfat = some sec →
      long_name_run_at sec (dir_slots (-1) pre) f) ∧
    (∀ (d : Nat) (dir : VirtualFatFile) (sec : List Nat), vfat.files[d]? = some dir →
      dir.is_directory = true → f.parent_index = (d : Int) →
      2 + dir_slots (d : Int) pre + (f.long_name.length + 12) / 13 + 1 ≤ 16 →
      generate_subdirectory vfat (d : Int) = some sec →
      long_name_run_at sec (2 + dir_slots (d : Int) pre) f) ∧
    (dir_slots (-1) vfat.files ≤ 16 → ∃ sec, generate_root_directory vfat = some sec) ∧
    (∀ (d : Nat) (dir : VirtualFatFile), vfat.files[d]? = some dir → dir.is_directory = true →
      2 + dir_slots (d : Int) vfat.files ≤ 16 →
      ∃ sec, generate_subdirectory vfat (d : Int) = some sec) ∧
    (virtual_fat_read_sector empty_storage
        (single_file_fs (ascii "autoexec.ipxe") (ascii "#!ipxe\n")) 6144).sector?.map
      (fun sec => (slice sec 0 1, slice sec 32 11, slice sec 43 1))
        = some ([0x41], ascii "AUTOEXECIPX", [0x20]) := by
  refine ⟨?_, ?_, ?_, ?_, by decide⟩
  · intro sec hp hfit h
    exact (generate_root_directory_runs vfat pre post f sec hfiles hn hp hfit h).1
  · intro d dir sec hdir hd hp hfit h
    exact (generate_subdirectory_runs vfat pre post f dir d sec hfiles hn hdir hd hp hfit h).1
  · intro hfit
    exact dir_loop_total (-1) vfat.files 0 (zeros SECTOR_SIZE) (zeros_length _) (by omega)
  · intro d dir hdir hd hfit
    obtain ⟨buf, hlen, heq⟩ := generate_subdirectory_eq vfat d dir hdir hd
    rw [heq]
    exact dir_loop_total (d : Int) vfat.files 2 buf hlen hfit

set_option maxRecDepth 100000 in
/-- C9 at the root directory that holds "autoexec.ipxe" alone. -/
theorem long_name_slots_precede_short_entry_witness :
    ∃ sec, generate_root_directory (single_file_fs (ascii "autoexec.ipxe") (ascii "#!ipxe\n"))
        = some sec ∧ long_name_run_at sec 0 autoexec_entry := by
  have h := long_name_slots_precede_short_entry
    (single_file_fs (ascii "autoexec.ipxe") (ascii "#!ipxe\n")) [] [] autoexec_entry
    (by decide) (by decide)
  obtain ⟨sec, hsec⟩ := h.2.2.1 (by decide)
  exact ⟨sec, hsec, h.1 sec rfl (by decide) hsec⟩

set_option maxRecDepth 100000 in
/-- C10. For every long-name slot emitted in a root or subdirectory sector for
an entry (8.3 name of 11 bytes, long name of at most 255 characters, slots
fitting in the sector), byte 13 equals the short-name checksum of the 11 name
bytes of the 8.3 slot that the slot's run precedes, the checksum starting at 0
and becoming `((sum & 1) << 7) + (sum >> 1) + byte` modulo 256 for each name
byte in order; for "AUTOEXECIPX" it is `0x33`. -/
theorem long_name_checksum_matches (vfat : VirtualFat) (pre post : List VirtualFatFile)
    (f : VirtualFatFile) (hfiles : vfat.files = pre ++ f :: post)
    (hname : f.name.length = 11) (hn : f.long_name.length ≤ 255) :
    (∀ sec, f.parent_index = -1 →
      dir_slots (-1) pre + (f.long_name.length + 12) / 13 + 1 ≤ 16 →
      generate_root_directory vfat = some sec →
      checksum_run_at sec (dir_slots (-1) pre) f) ∧
    (∀ (d : Nat) (dir : VirtualFatFile) (sec : List Nat), vfat.files[d]? = some dir →
      dir.is_directory = true → f.parent_index = (d : Int) →
      2 + dir_slots (d : Int) pre + (f.long_name.length + 12) / 13 + 1 ≤ 16 →
      generate_subdirectory vfat (d : Int) = some sec →
      checksum_run_at sec (2 + dir_slots (d : Int) pre) f) ∧
    lfn_checksum f.name = spec_lfn_checksum f.name ∧
    spec_lfn_checksum (ascii "AUTOEXECIPX") = 0x33 ∧
    (virtual_fat_read_sector empty_storage
        (single_file_fs (ascii "autoexec.ipxe") (ascii "#!ipxe\n")) 6144).sector?.map
      (fun sec => slice sec 13 1) = some [0x33] := by
  refine ⟨?_, ?_, lfn_checksum_eq_spec _ hname, by decide, by decide⟩
  · intro sec hp hfit h
    exact (generate_root_directory_runs vfat pre post f sec hfiles hn hp hfit h).2 hname
  · intro d dir sec hdir hd hp hfit h
    exact (generate_subdirectory_runs vfat pre post f dir d sec hfiles hn hdir hd hp hfit h).2
      hname

set_option maxRecDepth 100000 in
/-- C10 at the root directory that holds "autoexec.ipxe" alone. -/
theorem long_name_checksum_matches_witness :
    ∃ sec, generate_root_directory (single_file_fs (ascii "autoexec.ipxe") (ascii "#!ipxe\n"))
        = some sec ∧ checksum_run_at sec 0 autoexec_entry := by
  have h := long_name_checksum_matches
    (single_file_fs (ascii "autoexec.ipxe") (ascii "#!ipxe\n")) [] [] autoexec_entry
    (by decide) (by decide) (by decide)
  obtain ⟨sec, hsec⟩ := dir_loop_total (-1)
    (single_file_fs (ascii "autoexec.ipxe") (ascii "#!ipxe\n")).files 0 (zeros SECTOR_SIZE)
    (zeros_length _) (by decide)
  exact ⟨sec, hsec, h.1 sec rfl (by decide) hsec⟩

set_option maxRecDepth 100000 in
/-- C8, as stated, fails: with "HELLO.TXT" holding "hi" as the only entry, the
first 32 bytes of the root-directory sector are a long-name slot (sequence
byte `0x41`, then "HELLO" in UTF-16, attribute `0x0F`), not the 8.3 entry. -/
theorem hello_first_slot_is_long_name :
    (virtual_fat_read_sector empty_storage
        (single_file_fs (ascii "HELLO.TXT") (ascii "hi")) 6144).sector?.map
      (fun sec => (slice sec 0 11, slice sec 11 1))
        = some ([0x41, 0x48, 0, 0x45, 0, 0x4C, 0, 0x4C, 0, 0x4F, 0], [0x0F]) ∧
    (virtual_fat_read_sector empty_storage
        (single_file_fs (ascii "HELLO.TXT") (ascii "hi")) 6144).sector?.map
      (fun sec => (slice sec 0 11, slice sec 11 1))
        ≠ some (ascii "HELLO   TXT", [0x20]) := by
  constructor <;> decide

/-- C8, amended. For every memory file added as the only entry of an empty
filesystem whose name (cut to 255 characters) has `n` characters with
`ceil(n / 13) + 1 ≤ 16`, the root-directory sector (LBA 6144, the sector of
cluster 2) starts with the file's `ceil(n / 13)` long-name slots, and the 32
bytes after them are the file's 8.3 entry: the 11-byte upper-case space-padded
name, attribute `0x20`, start-cluster high word `0x0000` at offsets 20..21 and
low word `0x0003` at 26..27, and the data length at 28..31; for "HELLO.TXT"
containing "hi" that entry is slot 1, named "HELLO   TXT", with size 2. -/
theorem single_file_root_entry (storage : Storage) (filename data : List Nat)
    (hfit : (min 255 filename.length + 12) / 13 + 1 ≤ 16) :
    (∃ sec, virtual_fat_read_sector storage (single_file_fs filename data) 6144
        = ReadOutcome.ok sec ∧
      (∀ i, i < (min 255 filename.length + 12) / 13 →
        slice sec (32 * i) 1
          = [(min 255 filename.length + 12) / 13 - i + (if i = 0 then 0x40 else 0)] ∧
        slice sec (32 * i + 11) 1 = [0x0F]) ∧
      slice sec (32 * ((min 255 filename.length + 12) / 13)) 11 = parse_83 filename ∧
      slice sec (32 * ((min 255 filename.length + 12) / 13) + 11) 1 = [0x20] ∧
      slice sec (32 * ((min 255 filename.length + 12) / 13) + 20) 2 = [0x00, 0x00] ∧
      slice sec (32 * ((min 255 filename.length + 12) / 13) + 26) 2 = [0x03, 0x00] ∧
      slice sec (32 * ((min 255 filename.length + 12) / 13) + 28) 4 = le32 data.length) ∧
    (min 255 (ascii "HELLO.TXT").length + 12) / 13 = 1 ∧
    parse_83 (ascii "HELLO.TXT") = ascii "HELLO   TXT" ∧
    le32 (ascii "hi").length = [0x02, 0x00, 0x00, 0x00] := by
  refine ⟨?_, by decide, by decide, by decide⟩
  obtain ⟨f, hfs, hstart, hsize, _, hdir, _, hparent, hname, hlong⟩ :=
    add_file_entry virtual_fat_alloc filename data (by decide)
  have hfiles : (single_file_fs filename data).files = [] ++ f :: [] := hfs
  have hl : f.long_name.length = min 255 filename.length := by
    rw [hlong, List.length_take]
  have hn : f.long_name.length ≤ 255 := by omega
  have hnl : f.name.length = 11 := by rw [hname, parse_83_length]
  have hslots : dir_slots (-1) (single_file_fs filename data).files = lfn_slots f + 1 := by
    rw [hfiles]
    simp [dir_slots, hparent]
  obtain ⟨sec, hsec⟩ := dir_loop_total (-1) (single_file_fs filename data).files 0
    (zeros SECTOR_SIZE) (zeros_length _) (by rw [hslots, lfn_slots_eq f hn, hl]; omega)
  have hroot : generate_root_directory (single_file_fs filename data) = some sec := hsec
  obtain ⟨hrun, h83⟩ := (generate_root_directory_runs _ [] [] f sec hfiles hn hparent
    (by rw [hl]; simp only [dir_slots]; omega) hroot).1
  rw [hl] at hrun h83
  simp only [dir_slots, Nat.zero_add] at hrun h83
  obtain ⟨w0, w11, w20, w26, w28⟩ := write_directory_entry_fields f.name (entry_attributes f)
    f.start_cluster f.size hnl
  have sub : ∀ b m : Nat, b + m ≤ 32 →
      slice sec (32 * ((min 255 filename.length + 12) / 13) + b) m
        = slice (write_directory_entry f.name (entry_attributes f) f.start_cluster f.size) b m := by
    intro b m hbm
    rw [← h83, slice_slice _ _ _ _ _ hbm]
  refine ⟨sec, ?_, hrun, ?_, ?_, ?_, ?_, ?_⟩
  · rw [read_sector_root, hroot]
  · have := sub 0 11 (by omega)
    rw [Nat.add_zero] at this
    rw [this, w0, hname]
  · rw [sub 11 1 (by omega), w11]
    simp [entry_attributes, hdir]
  · rw [sub 20 2 (by omega), w20, hstart]
    rfl
  · rw [sub 26 2 (by omega), w26, hstart]
    rfl
  · rw [sub 28 4 (by omega), w28, hsize]

set_option maxRecDepth 100000 in
/-- C8 (amended) at "HELLO.TXT" holding "hi". -/
theorem single_file_root_entry_witness :
    ∃ sec, virtual_fat_read_sector empty_storage
        (single_file_fs (ascii "HELLO.TXT") (ascii "hi")) 6144 = ReadOutcome.ok sec ∧
      slice sec 32 11 = ascii "HELLO   TXT" ∧ slice sec 43 1 = [0x20] ∧
      slice sec 52 2 = [0x00, 0x00] ∧ slice sec 58 2 = [0x03, 0x00] ∧
      slice sec 60 4 = [0x02, 0x00, 0x00, 0x00] := by
  obtain ⟨⟨sec, h0, _, h1, h2, h3, h4, h5⟩, _⟩ :=
    single_file_root_entry empty_storage (ascii "HELLO.TXT") (ascii "hi") (by decide)
  exact ⟨sec, h0, h1, h2, h3, h4, h5⟩

set_option maxRecDepth 100000 in
/-- C1 fails on the code: six memory files with 15-character names are built
through the public API, and the read of the root-directory sector (LBA 6144)
stores the sixth file's 8.3 entry at bytes 512..543, outside the 512-byte
buffer. -/
theorem root_directory_read_overflows :
    Built six_long_names_fs ∧
    dir_slots (-1) six_long_names_fs.files = 18 ∧
    virtual_fat_read_sector empty_storage six_long_names_fs 6144 = ReadOutcome.out_of_bounds :=
  ⟨⟨[Op.add_file (ascii "autoexec-1.ipxe") (ascii "#!ipxe\n"),
     Op.add_file (ascii "autoexec-2.ipxe") (ascii "#!ipxe\n"),
     Op.add_file (ascii "autoexec-3.ipxe") (ascii "#!ipxe\n"),
     Op.add_file (ascii "autoexec-4.ipxe") (ascii "#!ipxe\n"),
     Op.add_file (ascii "autoexec-5.ipxe") (ascii "#!ipxe\n"),
     Op.add_file (ascii "autoexec-6.ipxe") (ascii "#!ipxe\n")], rfl⟩, by decide, by decide⟩

/-! ## The read never takes the trailing `return false` -/

theorem data_area_loop_ne_false (storage : Storage) (vfat : VirtualFat) (cl sic : Nat)
    (files : List VirtualFatFile) (i : Nat) :
    data_area_loop storage vfat cl sic files i ≠ ReadOutcome.returned_false := by
  induction files generalizing i with
  | nil => simp [data_area_loop]
  | cons g gs ih =>
    rw [data_area_loop]
    split
    · split <;> simp
    · split
      · simp
      · exact ih _

theorem ite_ne_returned_false (c : Prop) [Decidable c] (a b : ReadOutcome)
    (ha : c → a ≠ ReadOutcome.returned_false) (hb : ¬ c → b ≠ ReadOutcome.returned_false) :
    (if c then a else b) ≠ ReadOutcome.returned_false := by
  split
  · next h => exact ha h
  · next h => exact hb h

theorem root_outcome_ne_false (r : Option (List Nat)) :
    (match r with
      | some buffer => ReadOutcome.ok buffer
      | none => ReadOutcome.out_of_bounds) ≠ ReadOutcome.returned_false := by
  cases r <;> simp

theorem read_sector_ne_false (storage : Storage) (vfat : VirtualFat) (lba : Nat) :
    virtual_fat_read_sector storage vfat lba ≠ ReadOutcome.returned_false := by
  unfold virtual_fat_read_sector
  simp only [PARTITION_SECTORS_GPT, PARTITION_SECTORS_MBR, GPT_LAST_USABLE, TOTAL_SECTORS,
    GPT_BACKUP_SECTORS, PARTITION_START, SECTORS_PER_CLUSTER, SECTOR_SIZE, RESERVED_SECTORS,
    GPT_BACKUP_ARRAY_START, GPT_BACKUP_HEADER]
  by_cases hsch : vfat.partition_scheme = PartitionScheme.PARTITION_SCHEME_GPT_ONLY
  · simp only [hsch, if_true, true_and]
    repeat' (refine ite_ne_returned_false _ _ _ (fun _ => ?_) (fun _ => ?_))
    all_goals first
      | exact data_area_loop_ne_false _ _ _ _ _ _
      | exact root_outcome_ne_false _
      | (intro h; cases h; done)
      | (exfalso; omega)
  · simp only [hsch, if_false, false_and]
    repeat' (refine ite_ne_returned_false _ _ _ (fun _ => ?_) (fun _ => ?_))
    all_goals first
      | exact data_area_loop_ne_false _ _ _ _ _ _
      | exact root_outcome_ne_false _
      | (intro h; cases h; done)
      | (exfalso; omega)

/-! ## Every sector a read produces has 512 bytes -/

theorem generate_mbr_length (s n t : Nat) : (generate_mbr s n t).length = 512 := by
  unfold generate_mbr
  dsimp only
  iterate 5 refine length_step _ _ _ ?_ (by first | decide | simp [le32])
  exact zeros_length _

theorem generate_protective_mbr_length (n : Nat) : (generate_protective_mbr n).length = 512 := by
  unfold generate_protective_mbr
  dsimp only
  iterate 4 refine length_step _ _ _ ?_ (by first | decide | simp [le32])
  exact zeros_length _

theorem generate_gpt_partitions_length (s n : Nat) :
    (generate_gpt_partitions s n).length = 512 := by
  unfold generate_gpt_partitions build_partition_entry
  dsimp only
  iterate 6 refine length_step _ _ _ ?_ (by first | decide | simp [le32])
  exact zeros_length _

theorem generate_boot_sector_length (n : Nat) : (generate_boot_sector n).length = 512 := by
  unfold generate_boot_sector
  dsimp only
  iterate 16
    (refine length_step _ _ _ ?_
      (by first | decide | simp [le32, le16, boot_message, ascii, fat32_bootstrap]))
  exact zeros_length _

theorem generate_fsinfo_sector_length : generate_fsinfo_sector.length = 512 := by
  unfold generate_fsinfo_sector
  dsimp only
  iterate 5 refine length_step _ _ _ ?_ (by decide)
  exact zeros_length _

theorem flatMap_le32_length (entries : List Nat) :
    (entries.flatMap le32).length = 4 * entries.length := by
  induction entries with
  | nil => rfl
  | cons a as ih =>
    rw [List.flatMap_cons, List.length_append, ih, le32_length, List.length_cons]
    omega

theorem generate_fat_sector_length (vfat : VirtualFat) (k : Nat) :
    (generate_fat_sector vfat k).length = 512 := by
  unfold generate_fat_sector fat_sector_entries
  dsimp only
  rw [flatMap_le32_length, fat_files_loop_length, fat_initial_length]

theorem read_file_data_length (storage : Storage) (f : VirtualFatFile) (offset : Nat) :
    (read_file_data storage f offset).length = 512 := by
  have hz : (zeros SECTOR_SIZE).length = 512 := zeros_length _
  have hs : ∀ src : List Nat, src.length ≤ 512 →
      (memcpy (zeros SECTOR_SIZE) 0 src).length = 512 := by
    intro src h
    rw [memcpy_length _ _ _ (by rw [hz]; omega), hz]
  unfold read_file_data
  dsimp only
  split
  · split
    · apply hs
      simp only [slice, List.length_take, SECTOR_SIZE]
      split <;> omega
    · split
      · apply hs
        simp only [List.length_take, SECTOR_SIZE]
        split <;> omega
      · exact hz
  · exact hz

theorem generate_subdirectory_length (vfat : VirtualFat) (i : Int) (sec : List Nat)
    (h : generate_subdirectory vfat i = some sec) : sec.length = 512 := by
  unfold generate_subdirectory at h
  dsimp only at h
  split at h
  · simp only [Option.some.injEq] at h
    rw [← h]
    exact zeros_length _
  · split at h
    · simp only [Option.some.injEq] at h
      rw [← h]
      exact zeros_length _
    · split at h
      · simp only [Option.some.injEq] at h
        rw [← h]
        exact zeros_length _
      · refine (dir_loop_preserves _ _ _ _ sec ?_ h).1
        rw [memcpy_length _ _ _ (by
            rw [write_directory_entry_length, memcpy_length _ _ _ (by
              rw [write_directory_entry_length, zeros_length]; decide), zeros_length]; decide),
          memcpy_length _ _ _ (by rw [write_directory_entry_length, zeros_length]; decide),
          zeros_length]
        rfl

theorem data_area_loop_length (storage : Storage) (vfat : VirtualFat) (cl sic : Nat)
    (files : List VirtualFatFile) (i : Nat) (sec : List Nat)
    (h : data_area_loop storage vfat cl sic files i = ReadOutcome.ok sec) : sec.length = 512 := by
  induction files generalizing i with
  | nil =>
    simp only [data_area_loop, ReadOutcome.ok.injEq] at h
    rw [← h]
    exact zeros_length _
  | cons g gs ih =>
    rw [data_area_loop] at h
    split at h
    · split at h
      · next b hb =>
        simp only [ReadOutcome.ok.injEq] at h
        rw [← h]
        exact generate_subdirectory_length vfat _ b hb
      · simp at h
    · split at h
      · simp only [ReadOutcome.ok.injEq] at h
        rw [← h]
        exact read_file_data_length _ _ _
      · exact ih _ h

theorem ite_ok_length (c : Prop) [Decidable c] (a b : ReadOutcome)
    (ha : ∀ sec, a = ReadOutcome.ok sec → sec.length = 512)
    (hb : ∀ sec, b = ReadOutcome.ok sec → sec.length = 512) :
    ∀ sec, (if c then a else b) = ReadOutcome.ok sec → sec.length = 512 := by
  split
  · exact ha
  · exact hb

theorem ok_length (buffer : List Nat) (h : buffer.length = 512) :
    ∀ sec, ReadOutcome.ok buffer = ReadOutcome.ok sec → sec.length = 512 := by
  intro sec hs
  simp only [ReadOutcome.ok.injEq] at hs
  rw [← hs]
  exact h

/-- Whenever `virtual_fat_read_sector` produces a sector, it has 512 bytes. -/
theorem read_sector_length (storage : Storage) (vfat : VirtualFat) (lba : Nat) :
    ∀ sec, virtual_fat_read_sector storage vfat lba = ReadOutcome.ok sec → sec.length = 512 := by
  unfold virtual_fat_read_sector
  dsimp only
  repeat' (refine ite_ok_length _ _ _ ?_ ?_)
  · exact ok_length _ (generate_mbr_length _ _ _)
  · exact ok_length _ (generate_protective_mbr_length _)
  · exact ok_length _ (header_crc_stored _ (gpt_header_fields_inv _ _ _)
      (gpt_header_fields_crc_zero _ _ _).2).2.2.1
  · exact ok_length _ (zeros_length _)
  · exact ok_length _ (generate_gpt_partitions_length _ _)
  · exact ok_length _ (zeros_length _)
  · exact ok_length _ (zeros_length _)
  · exact ok_length _ (generate_gpt_partitions_length _ _)
  · exact ok_length _ (zeros_length _)
  · exact ok_length _ (header_crc_stored _ (gpt_backup_header_fields_inv _ _ _)
      (gpt_backup_header_fields_crc_zero _ _ _).2).2.2.1
  · exact ok_length _ (generate_boot_sector_length _)
  · exact ok_length _ generate_fsinfo_sector_length
  · exact ok_length _ (generate_boot_sector_length _)
  · exact ok_length _ generate_fsinfo_sector_length
  · exact ok_length _ (zeros_length _)
  · exact ok_length _ (generate_fat_sector_length _ _)
  · exact ok_length _ (generate_fat_sector_length _ _)
  · intro sec h
    unfold generate_root_directory at h
    split at h
    · next b hb =>
      simp only [ReadOutcome.ok.injEq] at h
      rw [← h]
      exact (dir_loop_preserves _ _ _ _ b (zeros_length _) hb).1
    · cases h
  · exact fun sec h => data_area_loop_length _ _ _ _ _ _ sec h
  · intro sec h
    cases h

/-! ## Path-based insertion -/

theorem dir_83_eq_spec (component : List Nat) : dir_83 component = spec_dir_name component := by
  unfold dir_83 spec_dir_name memcpy
  simp only [List.take_zero, List.nil_append, List.length_map, List.length_take, zero_add,
    List.drop_replicate]
  rcases Nat.le_total component.length 8 with h | h
  · rw [Nat.min_eq_left h, Nat.min_self, Nat.min_eq_right h, List.take_of_length_le h,
      List.take_of_length_le (Nat.le_refl _)]
  · rw [Nat.min_eq_right h, Nat.min_eq_left h]

theorem find_directory_loop_eq (name : List Nat) (parent : Int) (fs : List VirtualFatFile)
    (i : Nat) :
    find_directory_loop name parent fs i =
      match fs.findIdx? (fun f => f.is_directory && decide (f.parent_index = parent) &&
          decide (f.name = name)) i with
      | some j => (j : Int)
      | none => -1 := by
  induction fs generalizing i with
  | nil => rfl
  | cons f fs ih =>
    rw [find_directory_loop, List.findIdx?_cons]
    by_cases h : f.is_directory = true ∧ f.parent_index = parent ∧ f.name = name
    · rw [if_pos h, if_pos (by simp [h.1, h.2.1, h.2.2])]
    · rw [if_neg h, if_neg (by simpa [and_assoc] using h)]
      exact ih (i + 1)

theorem find_directory_eq (vfat : VirtualFat) (component : List Nat) (parent : Int) :
    find_directory vfat component parent =
      match spec_lookup vfat component parent with
      | some j => (j : Int)
      | none => -1 := by
  unfold find_directory spec_lookup
  rw [find_directory_loop_eq, dir_83_eq_spec]

theorem findIdx_some_get (l : List VirtualFatFile) (p : VirtualFatFile → Bool) (i j : Nat)
    (h : l.findIdx? p i = some j) : i ≤ j ∧ ∃ x, l[j - i]? = some x ∧ p x = true := by
  induction l generalizing i with
  | nil => simp at h
  | cons f fs ih =>
    rw [List.findIdx?_cons] at h
    by_cases hp : p f = true
    · rw [if_pos hp] at h
      simp only [Option.some.injEq] at h
      subst h
      exact ⟨Nat.le_refl _, f, by simp, hp⟩
    · rw [if_neg hp] at h
      obtain ⟨h1, x, h2, h3⟩ := ih (i + 1) h
      refine ⟨by omega, x, ?_, h3⟩
      have e : j - i = (j - (i + 1)) + 1 := by omega
      rw [e, List.getElem?_cons_succ]
      exact h2

theorem spec_lookup_valid (vfat : VirtualFat) (c : List Nat) (parent : Int) (j : Nat)
    (h : spec_lookup vfat c parent = some j) :
    ∃ dir, vfat.files[j]? = some dir ∧ dir.is_directory = true ∧ dir.parent_index = parent ∧
      dir.name = spec_dir_name c := by
  obtain ⟨_, x, h2, h3⟩ := findIdx_some_get _ _ 0 j h
  refine ⟨x, by simpa using h2, ?_⟩
  simpa [and_assoc] using h3

theorem validparent_append (v v1 : VirtualFat) (e : VirtualFatFile) (p : Int)
    (hfiles : v1.files = v.files ++ [e]) (h : ValidParent v p) : ValidParent v1 p := by
  rcases h with h | ⟨j, dir, h1, h2, h3⟩
  · exact Or.inl h
  · refine Or.inr ⟨j, dir, h1, ?_, h3⟩
    have hj : j < v.files.length := by
      by_contra hc
      rw [List.getElem?_eq_none (by omega)] at h2
      simp at h2
    rw [hfiles, List.getElem?_append_left hj]
    exact h2

theorem validparent_last (v v1 : VirtualFat) (e : VirtualFatFile)
    (hfiles : v1.files = v.files ++ [e]) (hd : e.is_directory = true) :
    ValidParent v1 (v.files.length : Int) := by
  refine Or.inr ⟨v.files.length, e, rfl, ?_, hd⟩
  rw [hfiles]
  simp

theorem tableinv_append (v v1 : VirtualFat) (e : VirtualFatFile) (hv : TableInv v)
    (hfiles : v1.files = v.files ++ [e]) (hl : e.long_name.length ≤ 255)
    (hp : ValidParent v e.parent_index) : TableInv v1 := by
  intro f hf
  rw [hfiles] at hf
  rcases List.mem_append.1 hf with hf | hf
  · exact ⟨(hv f hf).1, validparent_append v v1 e _ hfiles (hv f hf).2⟩
  · rw [List.mem_singleton.1 hf]
    exact ⟨hl, validparent_append v v1 e _ hfiles hp⟩

theorem tableinv_same_files (v v1 : VirtualFat) (hv : TableInv v) (h : v1.files = v.files) :
    TableInv v1 := by
  intro f hf
  rw [h] at hf
  obtain ⟨h1, h2⟩ := hv f hf
  refine ⟨h1, ?_⟩
  rcases h2 with h2 | ⟨j, dir, a, b, c⟩
  · exact Or.inl h2
  · exact Or.inr ⟨j, dir, a, by rw [h]; exact b, c⟩

theorem take_255_length (s : List Nat) : (s.take 255).length ≤ 255 := by
  rw [List.length_take]
  omega

theorem tableinv_alloc : TableInv virtual_fat_alloc := by
  intro f hf
  simp [virtual_fat_alloc] at hf

theorem tableinv_add_file (v : VirtualFat) (filename data : List Nat) (hv : TableInv v) :
    TableInv (virtual_fat_add_file v filename data).2 := by
  unfold virtual_fat_add_file
  split
  · exact hv
  · exact tableinv_append v _ _ hv rfl (take_255_length _) (Or.inl rfl)

theorem tableinv_add_sd_file (storage : Storage) (v : VirtualFat) (filename sd_path : List Nat)
    (hv : TableInv v) : TableInv (virtual_fat_add_sd_file storage v filename sd_path).2 := by
  unfold virtual_fat_add_sd_file
  split
  · exact hv
  · split
    · exact hv
    · exact tableinv_append v _ _ hv rfl (take_255_length _) (Or.inl rfl)

theorem tableinv_add_directory (v : VirtualFat) (dirname : List Nat) (hv : TableInv v) :
    TableInv (virtual_fat_add_directory v dirname).2 := by
  unfold virtual_fat_add_directory
  split
  · exact hv
  · exact tableinv_append v _ _ hv rfl (take_255_length _) (Or.inl rfl)

theorem find_directory_valid (v : VirtualFat) (token : List Nat) (cur : Int)
    (h : ¬ find_directory v token cur < 0) : ValidParent v (find_directory v token cur) := by
  rw [find_directory_eq] at h ⊢
  cases hl : spec_lookup v token cur with
  | none =>
    rw [hl] at h
    exact absurd (by decide) h
  | some j =>
    obtain ⟨dir, h1, h2, _, _⟩ := spec_lookup_valid v token cur j hl
    exact Or.inr ⟨j, dir, rfl, h1, h2⟩

theorem tableinv_create_directory_path_loop (fuel : Nat) (v : VirtualFat) (ptr : List Nat)
    (cur : Int) (hv : TableInv v) (hcur : ValidParent v cur) :
    TableInv (create_directory_path_loop fuel v ptr cur).1 ∧
      ValidParent (create_directory_path_loop fuel v ptr cur).1
        (create_directory_path_loop fuel v ptr cur).2 := by
  induction fuel generalizing v ptr cur with
  | zero => exact ⟨hv, hcur⟩
  | succ n ih =>
    unfold create_directory_path_loop
    dsimp only
    split
    · exact ⟨hv, hcur⟩
    · split
      · exact ⟨hv, hcur⟩
      · split
        · split
          · exact ⟨hv, Or.inl rfl⟩
          · refine ih _ _ _ (tableinv_append v _ _ hv rfl (take_255_length _) hcur) ?_
            exact validparent_last v _ _ rfl rfl
        · next hfound => exact ih _ _ _ hv (find_directory_valid v _ cur hfound)

theorem tableinv_create_directory_path (v : VirtualFat) (path : List Nat) (hv : TableInv v) :
    TableInv (create_directory_path v path).1 ∧
      ValidParent (create_directory_path v path).1 (create_directory_path v path).2 := by
  unfold create_directory_path
  split
  · exact ⟨hv, Or.inl rfl⟩
  · exact tableinv_create_directory_path_loop _ _ _ _ hv (Or.inl rfl)

theorem tableinv_add_file_to_subdir (storage : Storage) (v v1 : VirtualFat)
    (parent_dir filename sd_path : List Nat) (b : Bool) (hv : TableInv v)
    (h : virtual_fat_add_file_to_subdir storage v parent_dir filename sd_path = some (b, v1)) :
    TableInv v1 := by
  obtain ⟨hp, hq⟩ := tableinv_create_directory_path v parent_dir hv
  unfold virtual_fat_add_file_to_subdir at h
  dsimp only at h
  split at h
  · simp only [Option.some.injEq, Prod.mk.injEq] at h
    rw [← h.2]
    exact hv
  · split at h
    · simp only [Option.some.injEq, Prod.mk.injEq] at h
      rw [← h.2]
      exact hp
    · split at h
      · simp only [Option.some.injEq, Prod.mk.injEq] at h
        rw [← h.2]
        exact hp
      · split at h
        · simp at h
        · simp only [Option.some.injEq, Prod.mk.injEq] at h
          rw [← h.2]
          exact tableinv_append _ _ _ hp rfl (take_255_length _) hq

theorem tableinv_apply (v v1 : VirtualFat) (op : Op) (hv : TableInv v)
    (h : op.apply v = some v1) : TableInv v1 := by
  cases op with
  | add_file filename data =>
    simp only [Op.apply, Option.some.injEq] at h
    rw [← h]
    exact tableinv_add_file v filename data hv
  | add_text_file filename text =>
    simp only [Op.apply, Option.some.injEq] at h
    rw [← h]
    exact tableinv_add_file v filename text hv
  | add_sd_file storage filename sd_path =>
    simp only [Op.apply, Option.some.injEq] at h
    rw [← h]
    exact tableinv_add_sd_file storage v filename sd_path hv
  | add_directory dirname =>
    simp only [Op.apply, Option.some.injEq] at h
    rw [← h]
    exact tableinv_add_directory v dirname hv
  | add_file_to_subdir storage parent_dir filename sd_path =>
    simp only [Op.apply, Option.map_eq_some'] at h
    obtain ⟨⟨b, w⟩, hw, rfl⟩ := h
    exact tableinv_add_file_to_subdir storage v w parent_dir filename sd_path b hv hw
  | set_partition_scheme scheme =>
    simp only [Op.apply, Option.some.injEq] at h
    rw [← h]
    exact tableinv_same_files v _ hv rfl
  | set_read_callback installed context =>
    simp only [Op.apply, Option.some.injEq] at h
    rw [← h]
    exact tableinv_same_files v _ hv rfl

theorem tableinv_run_ops (ops : List Op) (v v1 : VirtualFat) (hv : TableInv v)
    (h : run_ops v ops = some v1) : TableInv v1 := by
  induction ops generalizing v with
  | nil =>
    simp only [run_ops, Option.some.injEq] at h
    rw [← h]
    exact hv
  | cons op ops ih =>
    simp only [run_ops] at h
    split at h
    · simp at h
    · next w hw => exact ih w (tableinv_apply v w op hv hw) h

theorem tableinv_built (vfat : VirtualFat) (h : Built vfat) : TableInv vfat := by
  obtain ⟨ops, hops⟩ := h
  exact tableinv_run_ops ops _ _ tableinv_alloc hops

/-! ## Subdirectory sectors -/

theorem lfn_loop_drop (ln : List Nat) (cs K j ec : Nat) (buf : List Nat)
    (hlen : buf.length = 512) (hfit : ec + j ≤ 16) (n : Nat) (hn : 32 * (ec + j) ≤ n) :
    (lfn_loop ln cs K j ec buf).2.drop n = buf.drop n := by
  induction j generalizing ec buf with
  | zero => simp [lfn_loop]
  | succ j ih =>
    have hlt : ec < SECTOR_SIZE / 32 := by
      simp only [SECTOR_SIZE]
      omega
    have hwl := write_lfn_entry_length (if j + 1 = K then (j + 1) ||| LFN_LAST else j + 1) cs ln
    have hl : (memcpy buf (32 * ec)
        (write_lfn_entry (if j + 1 = K then (j + 1) ||| LFN_LAST else j + 1) ln cs)).length
          = 512 := by
      rw [memcpy_length _ _ _ (by rw [hwl]; omega), hlen]
    simp only [lfn_loop, if_pos hlt]
    rw [ih (ec + 1) _ hl (by omega) (by omega),
      drop_memcpy_of_le _ _ _ _ (by rw [hwl]; omega) (by rw [hwl]; omega)]

theorem dir_emit_drop (f : VirtualFatFile) (ec : Nat) (buf : List Nat) (st : Nat × List Nat)
    (hlen : buf.length = 512) (hfit : ec + lfn_slots f + 1 ≤ 16)
    (h : dir_emit f ec buf = some st) (n : Nat) (hn : 32 * (ec + lfn_slots f + 1) ≤ n) :
    st.2.drop n = buf.drop n := by
  obtain ⟨h1, h2, _, _⟩ :=
    lfn_loop_spec f.long_name (lfn_checksum f.name) (lfn_slots f) (lfn_slots f) ec buf hlen
      (by omega)
  have hwl := write_directory_entry_length f.name (entry_attributes f) f.start_cluster f.size
  rw [dir_emit_eq, h1, if_pos (by simp only [SECTOR_SIZE]; omega)] at h
  simp only [Option.some.injEq] at h
  rw [← h]
  simp only
  rw [drop_memcpy_of_le _ _ _ _ (by rw [hwl]; omega) (by rw [hwl, h2]; omega),
    lfn_loop_drop _ _ _ _ _ _ hlen (by omega) n (by omega)]

/-- The directory loop leaves the bytes after the last slot it needs as they
were. -/
theorem dir_loop_drop (p : Int) (files : List VirtualFatFile) (ec : Nat) (buf sec : List Nat)
    (hlen : buf.length = 512) (hfit : ec + dir_slots p files ≤ 16)
    (h : dir_loop p files ec buf = some sec) (n : Nat)
    (hn : 32 * (ec + dir_slots p files) ≤ n) : sec.drop n = buf.drop n := by
  induction files generalizing ec buf with
  | nil =>
    simp only [dir_loop, Option.some.injEq] at h
    rw [h]
  | cons g gs ih =>
    by_cases hec : ec < 16
    · rw [dir_loop, if_pos (by simp only [SECTOR_SIZE]; omega)] at h
      by_cases hp : g.parent_index = p
      · have hd : dir_slots p (g :: gs) = lfn_slots g + 1 + dir_slots p gs := by
          simp [dir_slots, hp]
        rw [hd] at hfit hn
        obtain ⟨b1, hb1, hl1, _, _⟩ := dir_emit_spec g ec buf hlen (by omega)
        have hdrop := dir_emit_drop g ec buf _ hlen (by omega) hb1 n (by omega)
        rw [if_neg (by simp [hp]), hb1] at h
        simp only at h hdrop
        rw [ih (ec + lfn_slots g + 1) b1 hl1 (by omega) h (by omega), hdrop]
      · have hd : dir_slots p (g :: gs) = dir_slots p gs := by
          simp [dir_slots, hp]
        rw [hd] at hfit hn
        rw [if_pos hp] at h
        exact ih ec buf hlen hfit h hn
    · rw [dir_loop_full p _ ec buf (by omega)] at h
      simp only [Option.some.injEq] at h
      rw [h]

theorem subdir_header_eq (a b : List Nat) (ha : a.length = 32) (hb : b.length = 32) :
    memcpy (memcpy (zeros 512) 0 a) 32 b = a ++ b ++ zeros 448 := by
  have h0 : memcpy (zeros 512) 0 a = a ++ zeros 480 := by
    simp only [memcpy, List.take_zero, List.nil_append, Nat.zero_add, ha, zeros,
      List.drop_replicate]
  rw [h0, memcpy_append_right _ _ _ _ (by omega), ha]
  simp only [memcpy, Nat.sub_self, List.take_zero, List.nil_append, Nat.zero_add, hb, zeros,
    List.drop_replicate, List.append_assoc]

/-- The sector of a directory: the "." and ".." entries, then the loop over
the table from slot 2. -/
theorem generate_subdirectory_header (vfat : VirtualFat) (d : Nat) (dir : VirtualFatFile)
    (h : vfat.files[d]? = some dir) (hd : dir.is_directory = true) :
    generate_subdirectory vfat (d : Int) = dir_loop (d : Int) vfat.files 2
      (dot_entry dir.start_cluster ++
        dotdot_entry (if dir.parent_index ≥ 0 then
            match vfat.files[dir.parent_index.toNat]? with
            | some parent => parent.start_cluster
            | none => 0
          else 2) ++ zeros 448) := by
  have hlt : d < vfat.files.length := by
    by_contra hc
    rw [List.getElem?_eq_none (by omega)] at h
    simp at h
  unfold generate_subdirectory
  dsimp only
  rw [if_neg (by omega), Int.toNat_ofNat, h]
  simp only [hd, not_true_eq_false, if_false]
  have e1 : memcpy (List.replicate 11 32) 0 [46] = ascii ".          " := by decide
  have e2 : memcpy (List.replicate 11 32) 0 [46, 46] = ascii "..         " := by decide
  rw [e1, e2]
  simp only [SECTOR_SIZE]
  rw [subdir_header_eq _ _ (write_directory_entry_length _ _ _ _)
    (write_directory_entry_length _ _ _ _)]
  rfl

/-- The data-area loop reaches a directory at its start cluster. -/
theorem data_area_loop_dir (storage : Storage) (vfat : VirtualFat)
    (pre post : List VirtualFatFile) (d : VirtualFatFile) (start next i : Nat)
    (h : runs_contiguous fat_clusters start (pre ++ d :: post) next) (hn : next < U32)
    (hd : d.is_directory = true) :
    data_area_loop storage vfat d.start_cluster 0 (pre ++ d :: post) i
      = match generate_subdirectory vfat ((i + pre.length : Nat) : Int) with
        | some buffer => ReadOutcome.ok buffer
        | none => ReadOutcome.out_of_bounds := by
  induction pre generalizing start i with
  | nil =>
    simp only [List.nil_append, data_area_loop, hd, true_and, and_self, if_true,
      List.length_nil, Nat.add_zero]
  | cons g gs ih =>
    obtain ⟨hg, hrest⟩ : g.start_cluster = start ∧
        runs_contiguous fat_clusters (start + fat_clusters g) (gs ++ d :: post) next := h
    have hord := (runs_contiguous_ordered _ _ _ _ hrest).1 gs.length d
      (by rw [List.getElem?_append_right (le_refl _)]; simp)
    have hle := runs_contiguous_le _ _ _ _ hrest
    have hne : ¬ (g.is_directory = true ∧ d.start_cluster = g.start_cluster ∧ 0 = 0) := by
      rintro ⟨hgd, hcl, _⟩
      have : fat_clusters g = 1 := by simp [fat_clusters, hgd]
      omega
    have hnf : ¬ (g.is_directory = false ∧ g.start_cluster ≤ d.start_cluster ∧
        d.start_cluster < add32 g.start_cluster (clusters_needed g.size)) := by
      rintro ⟨hgd, _, hcl⟩
      have hfc : fat_clusters g = clusters_needed g.size := by simp [fat_clusters, hgd]
      have hadd : add32 g.start_cluster (clusters_needed g.size)
          = g.start_cluster + clusters_needed g.size := by
        unfold add32
        exact Nat.mod_eq_of_lt (by omega)
      omega
    rw [List.cons_append, data_area_loop, if_neg hne, if_neg hnf, ih _ _ hrest]
    simp only [List.length_cons]
    have e : i + 1 + gs.length = i + (gs.length + 1) := by omega
    rw [e]

/-- The read at the sector of a directory's start cluster yields the
directory's sector. -/
theorem read_sector_subdirectory (storage : Storage) (vfat : VirtualFat) (d : Nat)
    (dir : VirtualFatFile) (hb : Built vfat) (hdir : vfat.files[d]? = some dir)
    (hd : dir.is_directory = true)
    (hg : vfat.partition_scheme = PartitionScheme.PARTITION_SCHEME_GPT_ONLY →
      6144 + (dir.start_cluster - 2) < GPT_BACKUP_ARRAY_START) :
    virtual_fat_read_sector storage vfat (6144 + (dir.start_cluster - 2))
      = match generate_subdirectory vfat (d : Int) with
        | some buffer => ReadOutcome.ok buffer
        | none => ReadOutcome.out_of_bounds := by
  obtain ⟨hl16, hruns, hnext, _, _⟩ := fsinv_built vfat hb
  have hlt : d < vfat.files.length := by
    by_contra hc
    rw [List.getElem?_eq_none (by omega)] at hdir
    simp at hdir
  obtain ⟨hs1, hs2⟩ := (runs_contiguous_ordered _ _ _ _ hruns).1 d dir hdir
  simp only [MAX_FILES] at hl16
  have hfc : fat_clusters dir = 1 := by simp [fat_clusters, hd]
  have hnu : vfat.next_cluster < U32 := by
    simp only [U32]
    omega
  rw [read_sector_data_area storage vfat _ (by omega) (by simp only [U32] at *; omega) hg]
  have hsplit : vfat.files = vfat.files.take d ++ dir :: vfat.files.drop (d + 1) := by
    have := List.getElem?_eq_some.1 hdir
    obtain ⟨hd', hget⟩ := this
    rw [← hget]
    exact (List.take_append_drop d vfat.files).symm.trans (by rw [List.drop_eq_getElem_cons hd'])
  have hcl : 6144 + (dir.start_cluster - 2) - 6142 = dir.start_cluster := by omega
  rw [hcl]
  have hlen : (vfat.files.take d).length = d := by
    rw [List.length_take]
    omega
  have := data_area_loop_dir storage vfat (vfat.files.take d) (vfat.files.drop (d + 1)) dir 3
    vfat.next_cluster 0 (by rw [← hsplit]; exact hruns) hnu hd
  rw [← hsplit, Nat.zero_add, hlen] at this
  exact this

theorem dir_slots_append (p : Int) (pre rest : List VirtualFatFile) :
    dir_slots p (pre ++ rest) = dir_slots p pre + dir_slots p rest := by
  induction pre with
  | nil => simp [dir_slots]
  | cons g gs ih =>
    rw [List.cons_append, dir_slots, dir_slots, ih]
    omega

theorem subdir_header_drop (a b : List Nat) (n : Nat) (ha : a.length = 32) (hb : b.length = 32)
    (hn : 64 ≤ n) : (a ++ b ++ zeros 448).drop n = zeros (512 - n) := by
  have hab : (a ++ b).length = 64 := by simp [ha, hb]
  rw [List.drop_append_eq_append_drop, List.drop_eq_nil_of_le (by omega), List.nil_append, hab]
  simp only [zeros, List.drop_replicate]
  congr 1
  omega

set_option maxRecDepth 100000 in
/-- C12, as stated, fails: with eight files under the directory "D" (nine
table entries), the children need 16 slots after "." and "..", the loop stops
when the 16 slots of the sector are used, and the sector read at the
directory's cluster holds "F1" ... "F7" but no slot of the eighth child "F8". -/
theorem crowded_directory_drops_child :
    (run_ops virtual_fat_alloc crowded_dir_ops).map (fun v => v.files.map entry_summary)
      = some [(ascii "D          ", true, -1, 3), (ascii "F1         ", false, 0, 4),
        (ascii "F2         ", false, 0, 6), (ascii "F3         ", false, 0, 8),
        (ascii "F4         ", false, 0, 10), (ascii "F5         ", false, 0, 12),
        (ascii "F6         ", false, 0, 14), (ascii "F7         ", false, 0, 16),
        (ascii "F8         ", false, 0, 18)] ∧
    (run_ops virtual_fat_alloc crowded_dir_ops).map (fun v => dir_slots 0 v.files) = some 16 ∧
    ((run_ops virtual_fat_alloc crowded_dir_ops).bind
        (fun v => (virtual_fat_read_sector (uniform_storage 1024) v 6145).sector?)).map
      (fun sec => (List.range 16).map (fun i => slice sec (32 * i) 11))
      = some
        [ascii ".          ", ascii "..         ",
         [0x41, 70, 0, 49, 0, 0, 0, 255, 255, 255, 255], ascii "F1         ",
         [0x41, 70, 0, 50, 0, 0, 0, 255, 255, 255, 255], ascii "F2         ",
         [0x41, 70, 0, 51, 0, 0, 0, 255, 255, 255, 255], ascii "F3         ",
         [0x41, 70, 0, 52, 0, 0, 0, 255, 255, 255, 255], ascii "F4         ",
         [0x41, 70, 0, 53, 0, 0, 0, 255, 255, 255, 255], ascii "F5         ",
         [0x41, 70, 0, 54, 0, 0, 0, 255, 255, 255, 255], ascii "F6         ",
         [0x41, 70, 0, 55, 0, 0, 0, 255, 255, 255, 255], ascii "F7         "] := by
  refine ⟨by decide, by decide, by decide⟩

set_option maxRecDepth 100000 in
/-- C12, amended. For every directory entry `d` of a filesystem built by add
operations whose slots fit in one sector ("." and ".." and the slots of the
entries under `d` are at most 16) and whose sector lies below the GPT backup
area in scheme GptOnly: the sector read at `d`'s start cluster has as slot 0
the 8.3 entry "." (attribute `0x10`, start cluster = that of `d`, size 0), as
slot 1 the entry ".." (attribute `0x10`, start cluster 2 when `d`'s parent is
the root, else the parent directory's start cluster), then the slots of
exactly the entries whose `parent_index` is `d`'s index, in insertion order,
and zero bytes after them; for "EFI/BOOT" the sector of cluster 3 holds ".",
".." with cluster 2, a long-name slot and the BOOT entry with attribute `0x10`
and cluster 4. -/
theorem subdirectory_sector_layout (storage : Storage) (vfat : VirtualFat) (d : Nat)
    (dir : VirtualFatFile) (hb : Built vfat) (hdir : vfat.files[d]? = some dir)
    (hd : dir.is_directory = true) (hfit : 2 + dir_slots (d : Int) vfat.files ≤ 16)
    (hg : vfat.partition_scheme = PartitionScheme.PARTITION_SCHEME_GPT_ONLY →
      6144 + (dir.start_cluster - 2) < GPT_BACKUP_ARRAY_START) :
    (∃ sec, virtual_fat_read_sector storage vfat (6144 + (dir.start_cluster - 2))
        = ReadOutcome.ok sec ∧ sec.length = 512 ∧
      slice sec 0 32 = dot_entry dir.start_cluster ∧
      (dir.parent_index = -1 → slice sec 32 32 = dotdot_entry 2) ∧
      (∀ (j : Nat) (parent : VirtualFatFile), dir.parent_index = (j : Int) →
        vfat.files[j]? = some parent → slice sec 32 32 = dotdot_entry parent.start_cluster) ∧
      ValidParent vfat dir.parent_index ∧
      (∀ (pre post : List VirtualFatFile) (f : VirtualFatFile), vfat.files = pre ++ f :: post →
        f.parent_index = (d : Int) → long_name_run_at sec (2 + dir_slots (d : Int) pre) f) ∧
      sec.drop (32 * (2 + dir_slots (d : Int) vfat.files))
        = zeros (512 - 32 * (2 + dir_slots (d : Int) vfat.files))) ∧
    (efi_boot_fs.bind
        (fun v => (virtual_fat_read_sector (uniform_storage 1024) v 6145).sector?)).map
      (fun sec => [slice sec 0 12, slice sec 26 2, slice sec 32 12, slice sec 58 2,
        slice sec 64 1, slice sec 96 12, slice sec 122 2, sec.drop 128])
      = some [ascii ".          " ++ [0x10], [3, 0], ascii "..         " ++ [0x10], [2, 0],
        [0x41], ascii "BOOT       " ++ [0x10], [4, 0], zeros 384] := by
  refine ⟨?_, by decide⟩
  have hti := tableinv_built vfat hb
  have hmem : dir ∈ vfat.files := List.mem_iff_getElem?.2 ⟨d, hdir⟩
  have hdl := write_directory_entry_length (ascii ".          ") 0x10 dir.start_cluster 0
  rw [read_sector_subdirectory storage vfat d dir hb hdir hd hg,
    generate_subdirectory_header vfat d dir hdir hd]
  generalize hpc : (if dir.parent_index ≥ 0 then
      match vfat.files[dir.parent_index.toNat]? with
      | some parent => parent.start_cluster
      | none => 0
    else 2) = pc
  have hddl := write_directory_entry_length (ascii "..         ") 0x10 pc 0
  have hlen : (dot_entry dir.start_cluster ++ dotdot_entry pc ++ zeros 448).length = 512 := by
    simp only [List.length_append, dot_entry, dotdot_entry, hdl, hddl, zeros_length]
  obtain ⟨sec, hsec⟩ := dir_loop_total (d : Int) vfat.files 2 _ hlen hfit
  obtain ⟨hsl, htake⟩ := dir_loop_preserves (d : Int) vfat.files 2 _ sec hlen hsec
  have hs0 : slice sec 0 32 = dot_entry dir.start_cluster := by
    rw [slice_of_take_eq _ _ _ _ _ htake (by omega)]
    simp only [slice, List.drop_zero, List.append_assoc]
    rw [List.take_left' (by simp only [dot_entry, hdl])]
  have hs1 : slice sec 32 32 = dotdot_entry pc := by
    rw [slice_of_take_eq _ _ _ _ _ htake (by omega)]
    simp only [slice, List.append_assoc]
    rw [List.drop_left' (by simp only [dot_entry, hdl]),
      List.take_left' (by simp only [dotdot_entry, hddl])]
  rw [hsec]
  refine ⟨sec, rfl, hsl, hs0, ?_, ?_, (hti dir hmem).2, ?_, ?_⟩
  · intro hroot
    rw [hs1, ← hpc, hroot]
    rfl
  · intro j parent hj hp
    rw [hs1, ← hpc, hj, if_pos (Int.ofNat_nonneg j), Int.toNat_ofNat, hp]
  · intro pre post f hfiles hpar
    have hf : f ∈ vfat.files := by
      rw [hfiles]
      simp
    have hn := (hti f hf).1
    have hk := lfn_slots_eq f hn
    have hslots : dir_slots (d : Int) vfat.files
        = dir_slots (d : Int) pre + (lfn_slots f + 1 + dir_slots (d : Int) post) := by
      rw [hfiles, dir_slots_append]
      simp [dir_slots, hpar]
    rw [hfiles] at hsec
    exact (dir_loop_runs (d : Int) pre post f 2 _ sec hlen hpar hn (by omega) hsec).1
  · rw [dir_loop_drop (d : Int) vfat.files 2 _ sec hlen hfit hsec _ (le_refl _)]
    exact subdir_header_drop _ _ _ (by simp only [dot_entry, hdl])
      (by simp only [dotdot_entry, hddl]) (by omega)

set_option maxRecDepth 100000 in
/-- The amended C12 applies to the directory "EFI" added to the empty
filesystem. -/
theorem subdirectory_sector_layout_witness :
    Built (virtual_fat_add_directory virtual_fat_alloc (ascii "EFI")).2 ∧
    2 + dir_slots ((0 : Nat) : Int) (virtual_fat_add_directory virtual_fat_alloc (ascii "EFI")).2.files
      ≤ 16 ∧
    ∃ sec, virtual_fat_read_sector empty_storage
        (virtual_fat_add_directory virtual_fat_alloc (ascii "EFI")).2
        (6144 + ((new_directory virtual_fat_alloc (ascii "EFI") (-1)).start_cluster - 2))
          = ReadOutcome.ok sec ∧ sec.length = 512 :=
  ⟨⟨[Op.add_directory (ascii "EFI")], rfl⟩, by decide,
    (subdirectory_sector_layout empty_storage
      (virtual_fat_add_directory virtual_fat_alloc (ascii "EFI")).2 0
      (new_directory virtual_fat_alloc (ascii "EFI") (-1)) ⟨[Op.add_directory (ascii "EFI")], rfl⟩
      rfl rfl (by decide) (fun _ => by decide)).1.imp (fun _ h => ⟨h.1, h.2.1⟩)⟩

/-! ## SCSI commands -/

theorem shift_or_lt (x b i : Nat) (hb : b < 2 ^ i) : (x <<< i) ||| b = x * 2 ^ i + b := by
  rw [Nat.shiftLeft_eq, Nat.mul_comm x, Nat.mul_add_lt_is_or hb]

/-- The LBA field of READ(10) is the big-endian value of CDB bytes 2..5. -/
theorem read_10_lba_eq (cmd : List Nat) (h : ∀ i, cdb_byte cmd i < 256) :
    read_10_lba cmd = be_value [cdb_byte cmd 2, cdb_byte cmd 3, cdb_byte cmd 4, cdb_byte cmd 5] := by
  have h2 := h 2
  have h3 := h 3
  have h4 := h 4
  have h5 := h 5
  unfold read_10_lba be_value
  rw [Nat.or_assoc, Nat.or_assoc, shift_or_lt _ _ 8 (by omega),
    shift_or_lt _ _ 16 (by omega), shift_or_lt _ _ 24 (by omega)]
  simp only [U32, List.foldl_cons, List.foldl_nil]
  omega

/-- The length field of READ(10) is the big-endian value of CDB bytes 7..8. -/
theorem read_10_length_eq (cmd : List Nat) (h : ∀ i, cdb_byte cmd i < 256) :
    read_10_length cmd = be_value [cdb_byte cmd 7, cdb_byte cmd 8] := by
  have h7 := h 7
  have h8 := h 8
  unfold read_10_length be_value
  rw [shift_or_lt _ _ 8 (by omega)]
  simp only [List.foldl_cons, List.foldl_nil]
  omega

/-- What READ(10) does with a medium attached: the range check is made on the
`uint32_t` sum. -/
theorem read_10_with_medium (ctx : UsbScsiContext) (vfat : VirtualFat) (cmd : List Nat)
    (cmd_len : Nat) (hlen : cmd_len ≠ 0) (hop : cdb_byte cmd 0 = 0x28)
    (hv : ctx.vfat = some vfat) :
    usb_scsi_process_command ctx cmd cmd_len =
      if add32 (read_10_lba cmd) (read_10_length cmd) > TOTAL_SECTORS then
        (false, { ctx with state := ScsiState.SCSI_STATE_IDLE
                           sense_key := SCSI_SENSE_ILLEGAL_REQUEST
                           asc := SCSI_ASC_LBA_OUT_OF_RANGE })
      else
        (true, { ctx with state := ScsiState.SCSI_STATE_TX_DATA
                          sense_key := SCSI_SENSE_NO_SENSE
                          asc := 0
                          is_small_data_mode := false
                          current_lba := read_10_lba cmd
                          remaining_blocks := read_10_length cmd
                          buffer_offset := 0 }) := by
  unfold usb_scsi_process_command
  rw [if_neg hlen]
  simp only [hop, SCSI_CMD_TEST_UNIT_READY, SCSI_CMD_INQUIRY, SCSI_CMD_READ_FORMAT_CAPACITY,
    SCSI_CMD_READ_CAPACITY_10, SCSI_CMD_READ_10, scsi_cmd_read_10, hv,
    virtual_fat_get_total_sectors, scsi_set_sense]
  norm_num

/-- C13 fails on the code: after WRITE(10) is rejected with the pair
(0x07, 0x27) stored, the REQUEST SENSE handed to `usb_scsi_process_command`
next succeeds and 18 bytes are transmitted, but the reset at the top of
`usb_scsi_process_command` has cleared the pair before the reply is built:
bytes 2 and 12 of the reply are 0. -/
theorem request_sense_after_write_reports_nothing :
    (usb_scsi_process_command (scsi_session empty_storage virtual_fat_alloc)
      [0x2A, 0, 0, 0, 0, 0, 0, 0, 1, 0] 10).1 = false ∧
    ((usb_scsi_process_command (scsi_session empty_storage virtual_fat_alloc)
        [0x2A, 0, 0, 0, 0, 0, 0, 0, 1, 0] 10).2.sense_key,
      (usb_scsi_process_command (scsi_session empty_storage virtual_fat_alloc)
        [0x2A, 0, 0, 0, 0, 0, 0, 0, 1, 0] 10).2.asc) = (0x07, 0x27) ∧
    (usb_scsi_process_command
      (usb_scsi_process_command (scsi_session empty_storage virtual_fat_alloc)
        [0x2A, 0, 0, 0, 0, 0, 0, 0, 1, 0] 10).2 [0x03, 0, 0, 0, 18, 0] 6).1 = true ∧
    (usb_scsi_transmit_data
      (usb_scsi_process_command
        (usb_scsi_process_command (scsi_session empty_storage virtual_fat_alloc)
          [0x2A, 0, 0, 0, 0, 0, 0, 0, 1, 0] 10).2 [0x03, 0, 0, 0, 18, 0] 6).2 64).map
      (fun r => (r.sent, r.data))
      = some (18, [0x70, 0, 0, 0, 0, 0, 0, 0x0A, 0, 0, 0, 0, 0, 0, 0, 0, 0, 0]) := by
  decide

/-- C14. For every CDB whose opcode is `0x2A` (WRITE(10)), with or without a
medium attached, `usb_scsi_process_command` returns failure, leaves the
context with sense key `0x07` and ASC `0x27`, and leaves no data to transmit:
`usb_scsi_has_tx_data` is false and `usb_scsi_transmit_data` returns 0. -/
theorem write_10_is_refused (ctx : UsbScsiContext) (cmd : List Nat) (cmd_len : Nat)
    (hlen : cmd_len ≠ 0) (hop : cdb_byte cmd 0 = 0x2A) :
    (usb_scsi_process_command ctx cmd cmd_len).1 = false ∧
    (usb_scsi_process_command ctx cmd cmd_len).2.sense_key = 0x07 ∧
    (usb_scsi_process_command ctx cmd cmd_len).2.asc = 0x27 ∧
    usb_scsi_has_tx_data (usb_scsi_process_command ctx cmd cmd_len).2 = false ∧
    ∀ max_len, (usb_scsi_transmit_data (usb_scsi_process_command ctx cmd cmd_len).2 max_len).map
      (fun r => (r.sent, r.data)) = some (0, []) := by
  have e : usb_scsi_process_command ctx cmd cmd_len =
      (false, { ctx with state := ScsiState.SCSI_STATE_IDLE
                         sense_key := SCSI_SENSE_DATA_PROTECT
                         asc := 0x27 }) := by
    unfold usb_scsi_process_command
    rw [if_neg hlen]
    simp only [hop, SCSI_CMD_TEST_UNIT_READY, SCSI_CMD_INQUIRY, SCSI_CMD_READ_FORMAT_CAPACITY,
      SCSI_CMD_READ_CAPACITY_10, SCSI_CMD_READ_10, SCSI_CMD_MODE_SENSE_6,
      SCSI_CMD_MODE_SENSE_10, SCSI_CMD_REQUEST_SENSE, SCSI_CMD_PREVENT_ALLOW_MEDIUM_REMOVAL,
      SCSI_CMD_START_STOP_UNIT, SCSI_CMD_WRITE_10, scsi_set_sense]
    norm_num
  rw [e]
  refine ⟨rfl, rfl, rfl, rfl, ?_⟩
  intro max_len
  rfl

/-- C14 applies to a WRITE(10) of one sector at LBA 0 sent to a session with a
medium. -/
theorem write_10_is_refused_witness :
    (10 : Nat) ≠ 0 ∧ cdb_byte [0x2A, 0, 0, 0, 0, 0, 0, 0, 1, 0] 0 = 0x2A ∧
    (usb_scsi_process_command (scsi_session empty_storage virtual_fat_alloc)
      [0x2A, 0, 0, 0, 0, 0, 0, 0, 1, 0] 10).1 = false :=
  ⟨by decide, rfl,
    (write_10_is_refused (scsi_session empty_storage virtual_fat_alloc)
      [0x2A, 0, 0, 0, 0, 0, 0, 0, 1, 0] 10 (by decide) rfl).1⟩

/-- C15 fails on the code: READ(10) with LBA `0xFFFFFFFF` and length 1 on a
session with a medium is accepted, because the `uint32_t` sum `lba + length`
wraps to 0; the stream is set up at LBA `0xFFFFFFFF` with no sense stored,
although `0xFFFFFFFF + 1 > 262144`. -/
theorem read_10_range_check_wraps :
    read_10_lba [0x28, 0, 0xFF, 0xFF, 0xFF, 0xFF, 0, 0, 1, 0] = 0xFFFFFFFF ∧
    read_10_length [0x28, 0, 0xFF, 0xFF, 0xFF, 0xFF, 0, 0, 1, 0] = 1 ∧
    ¬ (0xFFFFFFFF + 1 ≤ TOTAL_SECTORS) ∧
    (usb_scsi_process_command (scsi_session empty_storage virtual_fat_alloc)
      [0x28, 0, 0xFF, 0xFF, 0xFF, 0xFF, 0, 0, 1, 0] 10).1 = true ∧
    (usb_scsi_process_command (scsi_session empty_storage virtual_fat_alloc)
      [0x28, 0, 0xFF, 0xFF, 0xFF, 0xFF, 0, 0, 1, 0] 10).2.state = ScsiState.SCSI_STATE_TX_DATA ∧
    (usb_scsi_process_command (scsi_session empty_storage virtual_fat_alloc)
      [0x28, 0, 0xFF, 0xFF, 0xFF, 0xFF, 0, 0, 1, 0] 10).2.is_small_data_mode = false ∧
    (usb_scsi_process_command (scsi_session empty_storage virtual_fat_alloc)
      [0x28, 0, 0xFF, 0xFF, 0xFF, 0xFF, 0, 0, 1, 0] 10).2.current_lba = 0xFFFFFFFF ∧
    (usb_scsi_process_command (scsi_session empty_storage virtual_fat_alloc)
      [0x28, 0, 0xFF, 0xFF, 0xFF, 0xFF, 0, 0, 1, 0] 10).2.remaining_blocks = 1 ∧
    (usb_scsi_process_command (scsi_session empty_storage virtual_fat_alloc)
      [0x28, 0, 0xFF, 0xFF, 0xFF, 0xFF, 0, 0, 1, 0] 10).2.asc = 0 := by
  decide

theorem slice_memcpy_zero (buf src : List Nat) :
    slice (memcpy buf 0 src) 0 src.length = src := by
  simp [slice, memcpy]

/-- C18. With a medium attached, after `usb_scsi_process_command` on the CDB
`25 00 00 00 00 00 00 00 00 00`, `usb_scsi_transmit_data` with `max_len ≥ 8`
returns exactly the 8 bytes `00 03 FF FF 00 00 02 00`: the last LBA
`0x0003FFFF` (total sectors - 1) big-endian, then the block size `0x00000200`
big-endian; nothing is left to transmit afterwards. -/
theorem read_capacity_reply (ctx : UsbScsiContext) (vfat : VirtualFat) (max_len : Nat)
    (hv : ctx.vfat = some vfat) (hm : 8 ≤ max_len) :
    (usb_scsi_process_command ctx [0x25, 0, 0, 0, 0, 0, 0, 0, 0, 0] 10).1 = true ∧
    (usb_scsi_transmit_data
      (usb_scsi_process_command ctx [0x25, 0, 0, 0, 0, 0, 0, 0, 0, 0] 10).2 max_len).map
      (fun r => (r.sent, r.data, usb_scsi_has_tx_data r.ctx))
      = some (8, [0x00, 0x03, 0xFF, 0xFF, 0x00, 0x00, 0x02, 0x00], false) ∧
    be_value [0x00, 0x03, 0xFF, 0xFF] = virtual_fat_get_total_sectors vfat - 1 ∧
    be_value [0x00, 0x00, 0x02, 0x00] = 512 := by
  have hreply : be32_bytes (sub32 TOTAL_SECTORS 1) ++ be32_bytes SCSI_BLOCK_SIZE
      = [0x00, 0x03, 0xFF, 0xFF, 0x00, 0x00, 0x02, 0x00] := by decide
  have e : usb_scsi_process_command ctx [0x25, 0, 0, 0, 0, 0, 0, 0, 0, 0] 10 =
      (true, small_reply { ctx with state := ScsiState.SCSI_STATE_IDLE
                                    sense_key := SCSI_SENSE_NO_SENSE
                                    asc := 0 }
        [0x00, 0x03, 0xFF, 0xFF, 0x00, 0x00, 0x02, 0x00]) := by
    unfold usb_scsi_process_command
    rw [if_neg (by decide)]
    have hop : cdb_byte [0x25, 0, 0, 0, 0, 0, 0, 0, 0, 0] 0 = 0x25 := rfl
    simp only [hop, SCSI_CMD_TEST_UNIT_READY, SCSI_CMD_INQUIRY, SCSI_CMD_READ_FORMAT_CAPACITY,
      SCSI_CMD_READ_CAPACITY_10, scsi_cmd_read_capacity_10, hv, virtual_fat_get_total_sectors,
      hreply]
    norm_num
  rw [e]
  refine ⟨rfl, ?_, rfl, by decide⟩
  have hsl : slice (memcpy ctx.block_buffer 0 [0x00, 0x03, 0xFF, 0xFF, 0x00, 0x00, 0x02, 0x00])
      0 8 = [0x00, 0x03, 0xFF, 0xFF, 0x00, 0x00, 0x02, 0x00] := slice_memcpy_zero _ _
  have hmin : (if 8 < max_len then 8 else max_len) = 8 := by
    split
    · rfl
    · omega
  simp only [usb_scsi_transmit_data, small_reply, transmit_small_part, List.length_cons,
    List.length_nil, Nat.zero_add, Nat.reduceAdd, Nat.sub_zero, hmin, hsl, usb_scsi_has_tx_data]
  norm_num
  decide

/-- C18 applies to a session with the empty filesystem and a 64-byte limit. -/
theorem read_capacity_reply_witness :
    (scsi_session empty_storage virtual_fat_alloc).vfat = some virtual_fat_alloc ∧ 8 ≤ 64 ∧
    (usb_scsi_transmit_data
      (usb_scsi_process_command (scsi_session empty_storage virtual_fat_alloc)
        [0x25, 0, 0, 0, 0, 0, 0, 0, 0, 0] 10).2 64).map
      (fun r => (r.sent, r.data, usb_scsi_has_tx_data r.ctx))
      = some (8, [0x00, 0x03, 0xFF, 0xFF, 0x00, 0x00, 0x02, 0x00], false) :=
  ⟨rfl, by decide,
    (read_capacity_reply (scsi_session empty_storage virtual_fat_alloc) virtual_fat_alloc 64 rfl
      (by decide)).2.1⟩

/-- C20 fails on the code: TEST UNIT READY on a context without a medium (as
allocated, or after `usb_scsi_clear`) succeeds with no data phase and stores
no sense, where READ CAPACITY(10) on the same context fails with NOT_READY
(0x02) / 0x3A. -/
theorem test_unit_ready_without_medium :
    usb_scsi_alloc.vfat = none ∧
    (usb_scsi_process_command usb_scsi_alloc [0x00, 0, 0, 0, 0, 0] 6).1 = true ∧
    usb_scsi_has_tx_data (usb_scsi_process_command usb_scsi_alloc [0x00, 0, 0, 0, 0, 0] 6).2
      = false ∧
    ((usb_scsi_process_command usb_scsi_alloc [0x00, 0, 0, 0, 0, 0] 6).2.sense_key,
      (usb_scsi_process_command usb_scsi_alloc [0x00, 0, 0, 0, 0, 0] 6).2.asc) = (0, 0) ∧
    (usb_scsi_clear (scsi_session empty_storage virtual_fat_alloc)).vfat = none ∧
    (usb_scsi_process_command (usb_scsi_clear (scsi_session empty_storage virtual_fat_alloc))
      [0x00, 0, 0, 0, 0, 0] 6).1 = true ∧
    (usb_scsi_process_command usb_scsi_alloc [0x25, 0, 0, 0, 0, 0, 0, 0, 0, 0] 10).1 = false ∧
    ((usb_scsi_process_command usb_scsi_alloc [0x25, 0, 0, 0, 0, 0, 0, 0, 0, 0] 10).2.sense_key,
      (usb_scsi_process_command usb_scsi_alloc [0x25, 0, 0, 0, 0, 0, 0, 0, 0, 0] 10).2.asc)
      = (0x02, 0x3A) := by
  decide

/-- C19. For every opcode byte other than `0x00`, `0x03`, `0x12`, `0x1A`,
`0x1B`, `0x1E`, `0x23`, `0x25`, `0x28`, `0x2A` and `0x5A`,
`usb_scsi_process_command` (with a non-empty CDB) fails and stores sense
ILLEGAL_REQUEST (`0x05`) with ASC `0x20`; for none of those eleven opcodes
does it store ASC `0x20`. -/
theorem unknown_opcode_is_rejected (ctx : UsbScsiContext) (cmd : List Nat) (cmd_len : Nat)
    (hlen : cmd_len ≠ 0) :
    (cdb_byte cmd 0 ∉ [0x00, 0x03, 0x12, 0x1A, 0x1B, 0x1E, 0x23, 0x25, 0x28, 0x2A, 0x5A] →
      (usb_scsi_process_command ctx cmd cmd_len).1 = false ∧
      (usb_scsi_process_command ctx cmd cmd_len).2.sense_key = 0x05 ∧
      (usb_scsi_process_command ctx cmd cmd_len).2.asc = 0x20) ∧
    (cdb_byte cmd 0 ∈ [0x00, 0x03, 0x12, 0x1A, 0x1B, 0x1E, 0x23, 0x25, 0x28, 0x2A, 0x5A] →
      (usb_scsi_process_command ctx cmd cmd_len).2.asc ≠ 0x20) := by
  constructor
  · intro h
    simp only [List.mem_cons, List.mem_singleton, List.not_mem_nil, or_false, not_or] at h
    obtain ⟨h1, h2, h3, h4, h5, h6, h7, h8, h9, h10, h11⟩ := h
    have e : usb_scsi_process_command ctx cmd cmd_len =
        (false, { ctx with state := ScsiState.SCSI_STATE_IDLE
                           sense_key := SCSI_SENSE_ILLEGAL_REQUEST
                           asc := SCSI_ASC_INVALID_COMMAND }) := by
      unfold usb_scsi_process_command
      rw [if_neg hlen]
      simp only [SCSI_CMD_TEST_UNIT_READY, SCSI_CMD_INQUIRY, SCSI_CMD_READ_FORMAT_CAPACITY,
        SCSI_CMD_READ_CAPACITY_10, SCSI_CMD_READ_10, SCSI_CMD_MODE_SENSE_6,
        SCSI_CMD_MODE_SENSE_10, SCSI_CMD_REQUEST_SENSE, SCSI_CMD_PREVENT_ALLOW_MEDIUM_REMOVAL,
        SCSI_CMD_START_STOP_UNIT, SCSI_CMD_WRITE_10, scsi_set_sense, if_neg h1, if_neg h2,
        if_neg h3, if_neg h4, if_neg h5, if_neg h6, if_neg h7, if_neg h8, if_neg h9, if_neg h10,
        if_neg h11]
    rw [e]
    exact ⟨rfl, rfl, rfl⟩
  · intro h
    simp only [List.mem_cons, List.mem_singleton, List.not_mem_nil, or_false] at h
    unfold usb_scsi_process_command
    rw [if_neg hlen]
    simp only [SCSI_CMD_TEST_UNIT_READY, SCSI_CMD_INQUIRY, SCSI_CMD_READ_FORMAT_CAPACITY,
      SCSI_CMD_READ_CAPACITY_10, SCSI_CMD_READ_10, SCSI_CMD_MODE_SENSE_6,
      SCSI_CMD_MODE_SENSE_10, SCSI_CMD_REQUEST_SENSE, SCSI_CMD_PREVENT_ALLOW_MEDIUM_REMOVAL,
      SCSI_CMD_START_STOP_UNIT, SCSI_CMD_WRITE_10, SCSI_SENSE_ILLEGAL_REQUEST,
      SCSI_SENSE_NOT_READY, SCSI_SENSE_DATA_PROTECT, SCSI_SENSE_NO_SENSE,
      SCSI_ASC_INVALID_FIELD_IN_CDB, SCSI_ASC_MEDIUM_NOT_PRESENT, SCSI_ASC_LBA_OUT_OF_RANGE,
      SCSI_ASC_INVALID_COMMAND]
    rcases h with h | h | h | h | h | h | h | h | h | h | h <;>
      simp only [h, scsi_cmd_test_unit_ready, scsi_cmd_inquiry, scsi_cmd_read_format_capacities,
        scsi_cmd_read_capacity_10, scsi_cmd_read_10, scsi_cmd_mode_sense_6,
        scsi_cmd_mode_sense_10, usb_scsi_get_sense_data, small_reply, scsi_set_sense,
        SCSI_SENSE_ILLEGAL_REQUEST, SCSI_SENSE_NOT_READY, SCSI_SENSE_NO_SENSE,
        SCSI_ASC_INVALID_FIELD_IN_CDB, SCSI_ASC_MEDIUM_NOT_PRESENT, SCSI_ASC_LBA_OUT_OF_RANGE] <;>
      norm_num <;>
      (repeat' split) <;> simp

/-- C19 applies to the one-byte CDB with opcode `0xFF`. -/
theorem unknown_opcode_is_rejected_witness :
    (1 : Nat) ≠ 0 ∧
    cdb_byte [0xFF] 0 ∉ [0x00, 0x03, 0x12, 0x1A, 0x1B, 0x1E, 0x23, 0x25, 0x28, 0x2A, 0x5A] ∧
    (usb_scsi_process_command (scsi_session empty_storage virtual_fat_alloc) [0xFF] 1).2.asc
      = 0x20 :=
  ⟨by decide, by decide,
    ((unknown_opcode_is_rejected (scsi_session empty_storage virtual_fat_alloc) [0xFF] 1
      (by decide)).1 (by decide)).2.2⟩

/-! ## Data delivery -/

/-- Calls that deliver `total` from position `k` return a prefix of the rest
of `total`, and all of it when there are at least as many calls as bytes left. -/
theorem delivers_flatten (total : List Nat) (reads : Nat → Option Nat) (k : Nat)
    (ms : List Nat) (rs : List TxResult) (h : DeliversFrom total reads k ms rs) :
    rs.length = ms.length ∧
    (rs.map (fun r => r.data)).flatten
      = (total.drop k).take ((rs.map (fun r => r.data)).flatten.length) ∧
    (total.length - k ≤ ms.length → (rs.map (fun r => r.data)).flatten = total.drop k) := by
  induction ms generalizing k rs with
  | nil =>
    cases rs with
    | nil =>
      refine ⟨rfl, by simp, ?_⟩
      intro hle
      simp only [List.length_nil] at hle
      rw [List.drop_eq_nil_of_le (by omega)]
      rfl
    | cons r rs => exact absurd h (by simp [DeliversFrom])
  | cons m ms ih =>
    cases rs with
    | nil => exact absurd h (by simp [DeliversFrom])
    | cons r rs =>
      obtain ⟨_, _, h3, _, h5, _, h7⟩ := h
      obtain ⟨i1, i2, i3⟩ := ih (k + r.data.length) rs h7
      have hsplit : ∀ c d : Nat, (total.drop k).take (c + d)
          = (total.drop k).take c ++ (total.drop (k + c)).take d := by
        intro c d
        rw [List.take_add, List.drop_drop]
      refine ⟨by simp [i1], ?_, ?_⟩
      · simp only [List.map_cons, List.flatten_cons, List.length_append]
        rw [hsplit, ← h5, ← i2]
      · intro hle
        simp only [List.map_cons, List.flatten_cons]
        simp only [List.length_cons] at hle
        have hrest : total.length - (k + r.data.length) ≤ ms.length := by
          by_cases hk : k < total.length
          · have := h3 hk
            omega
          · omega
        rw [i3 hrest, h5]
        conv_rhs => rw [← List.take_append_drop r.data.length (total.drop k)]
        rw [List.drop_drop, ← h5]

theorem stream_bytes_succ (storage : Storage) (vfat : VirtualFat) (a n : Nat) :
    stream_bytes storage vfat a (n + 1)
      = stream_bytes storage vfat a n ++ stream_sector storage vfat a n := by
  unfold stream_bytes
  rw [List.range_succ, List.flatMap_append]
  simp

theorem stream_bytes_length (storage : Storage) (vfat : VirtualFat) (a n : Nat)
    (h : ∀ i, i < n → (stream_sector storage vfat a i).length = 512) :
    (stream_bytes storage vfat a n).length = 512 * n := by
  induction n with
  | zero => rfl
  | succ n ih =>
    rw [stream_bytes_succ, List.length_append, ih (fun i hi => h i (by omega)),
      h n (by omega)]
    omega

/-- A piece of the stream that lies inside sector `q` is that piece of the
sector. -/
theorem stream_bytes_piece (storage : Storage) (vfat : VirtualFat) (a n q o c : Nat)
    (h : ∀ i, i < n → (stream_sector storage vfat a i).length = 512) (hq : q < n)
    (hoc : o + c ≤ 512) :
    ((stream_bytes storage vfat a n).drop (512 * q + o)).take c
      = ((stream_sector storage vfat a q).drop o).take c := by
  induction n with
  | zero => omega
  | succ n ih =>
    have hl := stream_bytes_length storage vfat a n (fun i hi => h i (by omega))
    rw [stream_bytes_succ]
    by_cases hqn : q < n
    · rw [List.drop_append_of_le_length (by omega),
        List.take_append_of_le_length (by rw [List.length_drop]; omega)]
      exact ih (fun i hi => h i (by omega)) hqn
    · have hqe : q = n := by omega
      subst hqe
      have e : 512 * q + o = (stream_bytes storage vfat a q).length + o := by omega
      rw [e, List.drop_append]

theorem take_take_drop (buf : List Nat) (L k c : Nat) (hc : k + c ≤ L) :
    ((buf.take L).drop k).take c = (buf.drop k).take c := by
  rw [List.drop_take, List.take_take, Nat.min_eq_left (by omega)]

/-- One call of `usb_scsi_transmit_data` during a small reply. -/
theorem small_step (total : List Nat) (ctx : UsbScsiContext) (k m : Nat)
    (hinv : SmallInv total ctx k) (hm : 1 ≤ m) :
    ∃ r, usb_scsi_transmit_data ctx m = some r ∧
      r.sent = r.data.length ∧ r.data.length ≤ m ∧ (k < total.length → 1 ≤ r.data.length) ∧
      (total.length ≤ k → r.sent = 0) ∧
      r.data = (total.drop k).take r.data.length ∧ r.read_lba = none ∧
      SmallInv total r.ctx (k + r.data.length) := by
  obtain ⟨hk, hlt, heq⟩ := hinv
  by_cases hk2 : k < total.length
  · obtain ⟨hs, hsm, hoff, hrem, hbuf⟩ := hlt hk2
    have hbl : total.length ≤ ctx.block_buffer.length := by
      have := congrArg List.length hbuf
      rw [List.length_take] at this
      omega
    generalize hc : (if total.length - k < m then total.length - k else m) = c
    have hc1 : 1 ≤ c := by
      rw [← hc]
      split <;> omega
    have hc2 : c ≤ m := by
      rw [← hc]
      split <;> omega
    have hc3 : k + c ≤ total.length := by
      rw [← hc]
      split <;> omega
    have hdata : slice ctx.block_buffer k c = (total.drop k).take c := by
      rw [← hbuf, take_take_drop _ _ _ _ hc3]
      rfl
    have hdl : (slice ctx.block_buffer k c).length = c := by
      simp only [slice, List.length_take, List.length_drop]
      omega
    have e : usb_scsi_transmit_data ctx m = some
        { sent := c, data := slice ctx.block_buffer k c, read_lba := none
          ctx := if k + c ≥ total.length then
              { ctx with buffer_offset := k + c, state := ScsiState.SCSI_STATE_IDLE
                         remaining_blocks := 0 }
            else { ctx with buffer_offset := k + c } } := by
      unfold usb_scsi_transmit_data
      rw [if_neg (by rw [hs]; decide), if_pos hsm]
      unfold transmit_small_part
      rw [if_neg (by omega)]
      simp only [hoff, hrem, hc]
    refine ⟨_, e, ?_, ?_, ?_, ?_, ?_, rfl, ?_⟩
    · simp only [hdl]
    · simp only [hdl]
      exact hc2
    · intro _
      simp only [hdl]
      exact hc1
    · intro hle
      omega
    · simp only [hdl]
      exact hdata
    · simp only [hdl]
      by_cases hend : k + c ≥ total.length
      · rw [if_pos hend]
        exact ⟨hc3, fun h => absurd h (by omega), fun _ => rfl⟩
      · rw [if_neg hend]
        exact ⟨hc3, fun _ => ⟨hs, hsm, rfl, hrem, hbuf⟩, fun h => absurd h (by omega)⟩
  · have hke : k = total.length := by omega
    have hs := heq hke
    have e : usb_scsi_transmit_data ctx m
        = some { sent := 0, data := [], read_lba := none, ctx := ctx } := by
      unfold usb_scsi_transmit_data
      rw [if_pos (by rw [hs]; decide)]
    refine ⟨_, e, rfl, Nat.zero_le _, fun h => absurd h hk2, fun _ => rfl, ?_, rfl, ?_⟩
    · simp
    · exact ⟨hk, hlt, heq⟩

/-- Successive calls during a small reply deliver the reply. -/
theorem small_calls (total : List Nat) (ctx : UsbScsiContext) (k : Nat) (ms : List Nat)
    (hinv : SmallInv total ctx k) (hms : ∀ m ∈ ms, 1 ≤ m) :
    ∃ rs, transmit_calls ctx ms = some rs ∧ DeliversFrom total (fun _ => none) k ms rs := by
  induction ms generalizing ctx k with
  | nil => exact ⟨[], rfl, trivial⟩
  | cons m ms ih =>
    obtain ⟨r, hr, h1, h2, h3, h4, h5, h6, h7⟩ :=
      small_step total ctx k m hinv (hms m (List.mem_cons_self _ _))
    obtain ⟨rs, hrs, hd⟩ := ih r.ctx (k + r.data.length) h7
      (fun x hx => hms x (List.mem_cons_of_mem _ hx))
    refine ⟨r :: rs, ?_, h1, h2, h3, h4, h5, h6, hd⟩
    simp only [transmit_calls, hr, hrs]

theorem small_inv_start (ctx : UsbScsiContext) (L : Nat)
    (hs : ctx.state = ScsiState.SCSI_STATE_TX_DATA) (hsm : ctx.is_small_data_mode = true)
    (hoff : ctx.buffer_offset = 0) (hrem : ctx.remaining_blocks = L) (hL : 0 < L)
    (hlen : L ≤ ctx.block_buffer.length) : SmallInv (ctx.block_buffer.take L) ctx 0 := by
  have hl : (ctx.block_buffer.take L).length = L := by
    rw [List.length_take]
    omega
  refine ⟨Nat.zero_le _, fun _ => ⟨hs, hsm, hoff, by rw [hl]; exact hrem, by rw [hl]⟩, ?_⟩
  intro h
  omega

theorem small_reply_ready (ctx : UsbScsiContext) (reply : List Nat) :
    (small_reply ctx reply).state = ScsiState.SCSI_STATE_TX_DATA ∧
    (small_reply ctx reply).is_small_data_mode = true ∧
    (small_reply ctx reply).buffer_offset = 0 ∧
    (small_reply ctx reply).remaining_blocks = reply.length ∧
    reply.length ≤ (small_reply ctx reply).block_buffer.length := by
  refine ⟨rfl, rfl, rfl, rfl, ?_⟩
  simp only [small_reply, memcpy, List.take_zero, List.nil_append, List.length_append]
  omega

theorem sense_data_length (ctx : UsbScsiContext) :
    18 ≤ (usb_scsi_get_sense_data ctx).block_buffer.length := by
  have h0 : 18 ≤ (memcpy ctx.block_buffer 0 (zeros SCSI_SENSE_DATA_SIZE)).length := by
    simp only [memcpy, List.take_zero, List.nil_append, List.length_append, zeros_length,
      SCSI_SENSE_DATA_SIZE]
    omega
  have step : ∀ (b : List Nat) (off x : Nat), 18 ≤ b.length → off < 18 →
      18 ≤ (memcpy b off [x]).length := by
    intro b off x hb ho
    rw [memcpy_length _ _ _ (by simp only [List.length_singleton]; omega)]
    exact hb
  unfold usb_scsi_get_sense_data
  dsimp only
  exact step _ _ _ (step _ _ _ (step _ _ _ (step _ _ _ (step _ _ _ h0 (by omega)) (by omega))
    (by omega)) (by omega)) (by omega)

/-- After a successful small-reply command the reply is ready: byte mode,
offset 0, and the reply length of the command's table row. -/
theorem small_command_ready (ctx0 : UsbScsiContext) (cmd : List Nat) (cmd_len : Nat)
    (hok : (usb_scsi_process_command ctx0 cmd cmd_len).1 = true)
    (hop : cdb_byte cmd 0 ∈ [0x03, 0x12, 0x1A, 0x5A, 0x23, 0x25]) :
    (usb_scsi_process_command ctx0 cmd cmd_len).2.state = ScsiState.SCSI_STATE_TX_DATA ∧
    (usb_scsi_process_command ctx0 cmd cmd_len).2.is_small_data_mode = true ∧
    (usb_scsi_process_command ctx0 cmd cmd_len).2.buffer_offset = 0 ∧
    (usb_scsi_process_command ctx0 cmd cmd_len).2.remaining_blocks = small_reply_length cmd ∧
    0 < small_reply_length cmd ∧
    small_reply_length cmd ≤ (usb_scsi_process_command ctx0 cmd cmd_len).2.block_buffer.length := by
  have hlen : cmd_len ≠ 0 := by
    intro h0
    rw [usb_scsi_process_command, if_pos h0] at hok
    simp at hok
  simp only [List.mem_cons, List.mem_singleton, List.not_mem_nil, or_false] at hop
  unfold usb_scsi_process_command at hok ⊢
  rw [if_neg hlen] at hok ⊢
  simp only [SCSI_CMD_TEST_UNIT_READY, SCSI_CMD_INQUIRY, SCSI_CMD_READ_FORMAT_CAPACITY,
    SCSI_CMD_READ_CAPACITY_10, SCSI_CMD_READ_10, SCSI_CMD_MODE_SENSE_6,
    SCSI_CMD_MODE_SENSE_10, SCSI_CMD_REQUEST_SENSE, SCSI_CMD_PREVENT_ALLOW_MEDIUM_REMOVAL,
    SCSI_CMD_START_STOP_UNIT, SCSI_CMD_WRITE_10] at hok ⊢
  rcases hop with h | h | h | h | h | h
  · simp only [h, small_reply_length] at hok ⊢
    norm_num
    exact ⟨rfl, sense_data_length _⟩
  · simp only [h, small_reply_length, scsi_cmd_inquiry] at hok ⊢
    norm_num at hok ⊢
    by_cases hev : cdb_byte cmd 1 % 2 = 1
    · simp only [hev, if_true] at hok ⊢
      by_cases hp0 : cdb_byte cmd 2 = 0
      · simp only [hp0, if_true] at hok ⊢
        exact small_reply_ready _ _ |>.imp id (fun x => x.imp id (fun y => y.imp id
          (fun z => ⟨z.1, by norm_num, z.2⟩)))
      · simp only [hp0, if_false] at hok ⊢
        by_cases hp8 : cdb_byte cmd 2 = 128
        · simp only [hp8, if_true] at hok ⊢
          exact small_reply_ready _ _ |>.imp id (fun x => x.imp id (fun y => y.imp id
            (fun z => ⟨z.1, by norm_num, z.2⟩)))
        · simp only [hp8, if_false] at hok
          simp at hok
    · simp only [hev, if_false] at hok ⊢
      exact small_reply_ready _ _ |>.imp id (fun x => x.imp id (fun y => y.imp id
        (fun z => ⟨z.1, by norm_num, z.2⟩)))
  · simp only [h, small_reply_length, scsi_cmd_mode_sense_6] at hok ⊢
    norm_num
    exact small_reply_ready _ _ |>.imp id (fun x => x.imp id (fun y => y.imp id
      (fun z => ⟨z.1, z.2⟩)))
  · simp only [h, small_reply_length, scsi_cmd_mode_sense_10] at hok ⊢
    norm_num
    exact small_reply_ready _ _ |>.imp id (fun x => x.imp id (fun y => y.imp id
      (fun z => ⟨z.1, z.2⟩)))
  · simp only [h, small_reply_length, scsi_cmd_read_format_capacities] at hok ⊢
    norm_num at hok ⊢
    cases hv : ctx0.vfat with
    | none =>
      simp only [hv] at hok
      simp at hok
    | some v =>
      simp only [hv]
      exact small_reply_ready _ _ |>.imp id (fun x => x.imp id (fun y => y.imp id
        (fun z => ⟨z.1, z.2⟩)))
  · simp only [h, small_reply_length, scsi_cmd_read_capacity_10] at hok ⊢
    norm_num at hok ⊢
    cases hv : ctx0.vfat with
    | none =>
      simp only [hv] at hok
      simp at hok
    | some v =>
      simp only [hv]
      exact small_reply_ready _ _ |>.imp id (fun x => x.imp id (fun y => y.imp id
        (fun z => ⟨z.1, z.2⟩)))

/-- C17. After a successful small-reply command (REQUEST SENSE 18 bytes,
standard INQUIRY 36, VPD page `0x00` 6, VPD page `0x80` 8, MODE SENSE(6) 4,
MODE SENSE(10) 8, READ FORMAT CAPACITIES 12, READ CAPACITY(10) 8), repeated
`usb_scsi_transmit_data` calls with limits of at least 1 return chunks of at
most the limit, not empty while the reply is not exhausted, whose
concatenation is the first `L` bytes of the reply buffer, and every call after
the reply is exhausted returns 0. -/
theorem small_reply_transmission (ctx0 : UsbScsiContext) (cmd : List Nat) (cmd_len : Nat)
    (ms : List Nat) (hok : (usb_scsi_process_command ctx0 cmd cmd_len).1 = true)
    (hop : cdb_byte cmd 0 ∈ [0x03, 0x12, 0x1A, 0x5A, 0x23, 0x25])
    (hms : ∀ m ∈ ms, 1 ≤ m) :
    (usb_scsi_process_command ctx0 cmd cmd_len).2.remaining_blocks = small_reply_length cmd ∧
    ((usb_scsi_process_command ctx0 cmd cmd_len).2.block_buffer.take
      (small_reply_length cmd)).length = small_reply_length cmd ∧
    ∃ rs, transmit_calls (usb_scsi_process_command ctx0 cmd cmd_len).2 ms = some rs ∧
      DeliversFrom
        ((usb_scsi_process_command ctx0 cmd cmd_len).2.block_buffer.take (small_reply_length cmd))
        (fun _ => none) 0 ms rs ∧
      (small_reply_length cmd ≤ ms.length →
        (rs.map (fun r => r.data)).flatten =
          (usb_scsi_process_command ctx0 cmd cmd_len).2.block_buffer.take
            (small_reply_length cmd)) := by
  obtain ⟨h1, h2, h3, h4, h5, h6⟩ := small_command_ready ctx0 cmd cmd_len hok hop
  have hl : ((usb_scsi_process_command ctx0 cmd cmd_len).2.block_buffer.take
      (small_reply_length cmd)).length = small_reply_length cmd := by
    rw [List.length_take]
    omega
  have hinv := small_inv_start _ (small_reply_length cmd) h1 h2 h3 h4 h5 h6
  obtain ⟨rs, hrs, hd⟩ := small_calls _ _ 0 ms hinv hms
  refine ⟨h4, hl, rs, hrs, hd, ?_⟩
  intro hle
  obtain ⟨_, _, hall⟩ := delivers_flatten _ _ _ _ _ hd
  rw [hall (by rw [hl]; omega)]
  rfl

/-- C17 applies to a standard INQUIRY fetched in chunks of at most 16 bytes. -/
theorem small_reply_transmission_witness :
    (usb_scsi_process_command (scsi_session empty_storage virtual_fat_alloc)
      [0x12, 0, 0, 0, 36, 0] 6).1 = true ∧
    (∀ m ∈ [16, 16, 16, 16], 1 ≤ m) ∧
    (usb_scsi_process_command (scsi_session empty_storage virtual_fat_alloc)
      [0x12, 0, 0, 0, 36, 0] 6).2.remaining_blocks = small_reply_length [0x12, 0, 0, 0, 36, 0] :=
  ⟨by decide, by decide,
    (small_reply_transmission (scsi_session empty_storage virtual_fat_alloc)
      [0x12, 0, 0, 0, 36, 0] 6 [16, 16, 16, 16] (by decide) (by decide) (by decide)).1⟩

theorem stream_sector_ok (storage : Storage) (vfat : VirtualFat) (a n : Nat)
    (hsec : ∀ i, i < n → ∃ sec,
      virtual_fat_read_sector storage vfat (add32 a i) = ReadOutcome.ok sec) (i : Nat)
    (hi : i < n) :
    virtual_fat_read_sector storage vfat (add32 a i)
      = ReadOutcome.ok (stream_sector storage vfat a i) ∧
    (stream_sector storage vfat a i).length = 512 := by
  obtain ⟨sec, hs⟩ := hsec i hi
  have e : stream_sector storage vfat a i = sec := by
    unfold stream_sector
    rw [hs]
    rfl
  rw [e]
  exact ⟨hs, read_sector_length storage vfat _ sec hs⟩

/-- The fields of the result of the sector branch after the sector is in
`block_buffer`. -/
theorem sector_part_fields (ctx : UsbScsiContext) (m : Nat) (rl : Option Nat)
    (hlen : ctx.block_buffer.length = 512) :
    (transmit_sector_part ctx m rl).sent
      = (if 512 - ctx.buffer_offset < m then 512 - ctx.buffer_offset else m) ∧
    (transmit_sector_part ctx m rl).data = slice ctx.block_buffer ctx.buffer_offset
      (if 512 - ctx.buffer_offset < m then 512 - ctx.buffer_offset else m) ∧
    (transmit_sector_part ctx m rl).data.length
      = (if 512 - ctx.buffer_offset < m then 512 - ctx.buffer_offset else m) ∧
    (transmit_sector_part ctx m rl).read_lba = rl ∧
    (transmit_sector_part ctx m rl).ctx =
      (if ctx.buffer_offset
          + (if 512 - ctx.buffer_offset < m then 512 - ctx.buffer_offset else m) ≥ 512 then
        if ctx.remaining_blocks = 0 then
          { ctx with buffer_offset := 0, state := ScsiState.SCSI_STATE_IDLE }
        else { ctx with buffer_offset := 0 }
      else { ctx with buffer_offset := ctx.buffer_offset
          + (if 512 - ctx.buffer_offset < m then 512 - ctx.buffer_offset else m) }) := by
  refine ⟨rfl, rfl, ?_, rfl, rfl⟩
  simp only [transmit_sector_part, SCSI_BLOCK_SIZE, slice, List.length_take, List.length_drop,
    hlen]
  split <;> omega

theorem add32_succ (a q : Nat) : add32 (add32 a q) 1 = add32 a (q + 1) := by
  simp only [add32, U32]
  omega

/-- The sector branch of `usb_scsi_transmit_data` once sector `k / 512` of the
stream is in `block_buffer`: the next bytes of the stream are returned. -/
theorem sector_part_step (storage : Storage) (vfat : VirtualFat) (a n : Nat)
    (ctx : UsbScsiContext) (k m : Nat) (rl : Option Nat)
    (hlens : ∀ i, i < n → (stream_sector storage vfat a i).length = 512)
    (hk2 : k < 512 * n) (hm : 1 ≤ m)
    (hs : ctx.state = ScsiState.SCSI_STATE_TX_DATA) (hsm : ctx.is_small_data_mode = false)
    (hst : ctx.storage = some storage) (hvf : ctx.vfat = some vfat)
    (hoff : ctx.buffer_offset = k % 512) (hrem : ctx.remaining_blocks = n - (k / 512 + 1))
    (hlba : ctx.current_lba = add32 a (k / 512 + 1))
    (hb : ctx.block_buffer = stream_sector storage vfat a (k / 512)) :
    (transmit_sector_part ctx m rl).sent = (transmit_sector_part ctx m rl).data.length ∧
    (transmit_sector_part ctx m rl).data.length ≤ m ∧
    1 ≤ (transmit_sector_part ctx m rl).data.length ∧
    (transmit_sector_part ctx m rl).data
      = ((stream_bytes storage vfat a n).drop k).take
          (transmit_sector_part ctx m rl).data.length ∧
    (transmit_sector_part ctx m rl).read_lba = rl ∧
    StreamInv storage vfat a n (transmit_sector_part ctx m rl).ctx
      (k + (transmit_sector_part ctx m rl).data.length) ∧
    k % 512 + (transmit_sector_part ctx m rl).data.length ≤ 512 := by
  have hq : k / 512 < n := by omega
  have hsl : ctx.block_buffer.length = 512 := by
    rw [hb]
    exact hlens _ hq
  have hpiece : ∀ c, k % 512 + c ≤ 512 →
      ((stream_bytes storage vfat a n).drop k).take c
        = slice (stream_sector storage vfat a (k / 512)) (k % 512) c := by
    intro c hc
    have := stream_bytes_piece storage vfat a n (k / 512) (k % 512) c hlens hq hc
    rw [Nat.div_add_mod] at this
    exact this
  obtain ⟨f1, f2, f3, f4, f5⟩ := sector_part_fields ctx m rl hsl
  rw [hoff] at f1 f2 f3 f5
  generalize hc : (if 512 - k % 512 < m then 512 - k % 512 else m) = c at f1 f2 f3 f5
  have hc1 : 1 ≤ c := by
    rw [← hc]
    split <;> omega
  have hc2 : c ≤ m := by
    rw [← hc]
    split <;> omega
  have hc3 : k % 512 + c ≤ 512 := by
    rw [← hc]
    split <;> omega
  refine ⟨by rw [f1, f3], by rw [f3]; exact hc2, by rw [f3]; exact hc1, ?_, f4, ?_,
    by rw [f3]; exact hc3⟩
  · rw [f3, f2, hpiece c hc3, hb]
  · rw [f3, f5]
    by_cases hfull : k % 512 + c ≥ 512
    · rw [if_pos hfull]
      by_cases hlast : ctx.remaining_blocks = 0
      · rw [if_pos hlast]
        exact ⟨by omega, fun h => absurd h (by omega), fun _ => rfl⟩
      · rw [if_neg hlast]
        refine ⟨by omega, fun _ => ⟨hs, hsm, hst, hvf, ?_, ?_, ?_, ?_⟩,
          fun h => absurd h (by omega)⟩
        · show 0 = (k + c) % 512
          omega
        · show ctx.remaining_blocks = n - (k + c + 511) / 512
          omega
        · show ctx.current_lba = add32 a ((k + c + 511) / 512)
          rw [hlba]
          congr 1
          omega
        · intro hne
          omega
    · rw [if_neg hfull]
      refine ⟨by omega, fun _ => ⟨hs, hsm, hst, hvf, ?_, ?_, ?_, ?_⟩,
        fun h => absurd h (by omega)⟩
      · show k % 512 + c = (k + c) % 512
        omega
      · show ctx.remaining_blocks = n - (k + c + 511) / 512
        omega
      · show ctx.current_lba = add32 a ((k + c + 511) / 512)
        rw [hlba]
        congr 1
        omega
      · intro _
        show ctx.block_buffer = stream_sector storage vfat a ((k + c) / 512)
        rw [hb]
        congr 1
        omega

/-- One call of `usb_scsi_transmit_data` during a READ(10) stream whose
sectors all read. -/
theorem stream_step (storage : Storage) (vfat : VirtualFat) (a n : Nat) (ctx : UsbScsiContext)
    (k m : Nat)
    (hsec : ∀ i, i < n → ∃ sec,
      virtual_fat_read_sector storage vfat (add32 a i) = ReadOutcome.ok sec)
    (hinv : StreamInv storage vfat a n ctx k) (hm : 1 ≤ m) :
    ∃ r, usb_scsi_transmit_data ctx m = some r ∧
      r.sent = r.data.length ∧ r.data.length ≤ m ∧ (k < 512 * n → 1 ≤ r.data.length) ∧
      (512 * n ≤ k → r.sent = 0) ∧
      r.data = ((stream_bytes storage vfat a n).drop k).take r.data.length ∧
      r.read_lba = stream_reads a n k ∧
      StreamInv storage vfat a n r.ctx (k + r.data.length) ∧
      k % 512 + r.data.length ≤ 512 := by
  obtain ⟨hk, hlt, heq⟩ := hinv
  have hlens : ∀ i, i < n → (stream_sector storage vfat a i).length = 512 :=
    fun i hi => (stream_sector_ok storage vfat a n hsec i hi).2
  by_cases hk2 : k < 512 * n
  · obtain ⟨hs, hsm, hst, hvf, hoff, hrem, hlba, hbuf⟩ := hlt hk2
    have hq : k / 512 < n := by omega
    by_cases ho : k % 512 = 0
    · -- a sector boundary: the next sector is read
      have hq2 : (k + 511) / 512 = k / 512 := by omega
      obtain ⟨hread, _⟩ := stream_sector_ok storage vfat a n hsec (k / 512) hq
      have e : usb_scsi_transmit_data ctx m = some (transmit_sector_part
          { ctx with block_buffer := stream_sector storage vfat a (k / 512)
                     current_lba := add32 ctx.current_lba 1
                     remaining_blocks := ctx.remaining_blocks - 1 }
          m (some ctx.current_lba)) := by
        unfold usb_scsi_transmit_data
        rw [if_neg (by rw [hs]; decide), if_neg (by rw [hsm]; decide),
          if_neg (by rw [hrem]; omega), if_pos (by rw [hoff, hrem]; omega), hvf, hst]
        simp only
        rw [hlba, hq2, hread]
      obtain ⟨g1, g2, g3, g4, g5, g6, g7⟩ := sector_part_step storage vfat a n
        { ctx with block_buffer := stream_sector storage vfat a (k / 512)
                   current_lba := add32 ctx.current_lba 1
                   remaining_blocks := ctx.remaining_blocks - 1 }
        k m (some ctx.current_lba) hlens hk2 hm hs hsm hst hvf hoff
        (by show ctx.remaining_blocks - 1 = n - (k / 512 + 1); omega)
        (by show add32 ctx.current_lba 1 = add32 a (k / 512 + 1); rw [hlba, hq2, add32_succ])
        rfl
      refine ⟨_, e, g1, g2, fun _ => g3, fun h => absurd h (by omega), g4, ?_, g6, g7⟩
      rw [g5, hlba, hq2]
      unfold stream_reads
      rw [if_pos ⟨ho, hk2⟩]
    · -- inside a sector: the bytes come from `block_buffer`
      have hq2 : (k + 511) / 512 = k / 512 + 1 := by omega
      have e : usb_scsi_transmit_data ctx m = some (transmit_sector_part ctx m none) := by
        unfold usb_scsi_transmit_data
        rw [if_neg (by rw [hs]; decide), if_neg (by rw [hsm]; decide),
          if_neg (by rw [hoff]; omega), if_neg (by rw [hoff]; omega)]
      obtain ⟨g1, g2, g3, g4, g5, g6, g7⟩ := sector_part_step storage vfat a n ctx k m none hlens hk2
        hm hs hsm hst hvf hoff (by rw [hrem, hq2]) (by rw [hlba, hq2]) (hbuf ho)
      refine ⟨_, e, g1, g2, fun _ => g3, fun h => absurd h (by omega), g4, ?_, g6, g7⟩
      rw [g5]
      unfold stream_reads
      rw [if_neg (by omega)]
  · have hke : k = 512 * n := by omega
    have hs := heq hke
    have e : usb_scsi_transmit_data ctx m
        = some { sent := 0, data := [], read_lba := none, ctx := ctx } := by
      unfold usb_scsi_transmit_data
      rw [if_pos (by rw [hs]; decide)]
    refine ⟨_, e, rfl, Nat.zero_le _, fun h => absurd h hk2, fun _ => rfl, ?_, ?_, ?_, ?_⟩
    · simp
    · unfold stream_reads
      rw [if_neg (by omega)]
    · exact ⟨hk, hlt, heq⟩
    · show k % 512 + 0 ≤ 512
      omega

/-- Successive calls during a READ(10) stream deliver the sectors in order,
and the sector reads made are those of the sectors entered, one each, in
increasing order. -/
theorem stream_calls (storage : Storage) (vfat : VirtualFat) (a n : Nat) (ctx : UsbScsiContext)
    (k : Nat) (ms : List Nat)
    (hsec : ∀ i, i < n → ∃ sec,
      virtual_fat_read_sector storage vfat (add32 a i) = ReadOutcome.ok sec)
    (hinv : StreamInv storage vfat a n ctx k) (hms : ∀ m ∈ ms, 1 ≤ m) :
    ∃ rs, transmit_calls ctx ms = some rs ∧
      DeliversFrom (stream_bytes storage vfat a n) (stream_reads a n) k ms rs ∧
      rs.filterMap (fun r => r.read_lba)
        = (List.range' ((k + 511) / 512)
            ((k + (rs.map (fun r => r.data)).flatten.length + 511) / 512 - (k + 511) / 512)).map
            (add32 a) := by
  have hlen : (stream_bytes storage vfat a n).length = 512 * n :=
    stream_bytes_length storage vfat a n
      (fun i hi => (stream_sector_ok storage vfat a n hsec i hi).2)
  induction ms generalizing ctx k with
  | nil => exact ⟨[], rfl, trivial, by simp⟩
  | cons m ms ih =>
    obtain ⟨r, hr, h1, h2, h3, h4, h5, h6, h7, h8⟩ :=
      stream_step storage vfat a n ctx k m hsec hinv (hms m (List.mem_cons_self _ _))
    obtain ⟨rs, hrs, hd, htr⟩ := ih r.ctx (k + r.data.length) h7
      (fun x hx => hms x (List.mem_cons_of_mem _ hx))
    refine ⟨r :: rs, ?_, ⟨h1, h2, ?_, ?_, h5, h6, hd⟩, ?_⟩
    · simp only [transmit_calls, hr, hrs]
    · rw [hlen]
      exact h3
    · rw [hlen]
      exact h4
    · simp only [List.map_cons, List.flatten_cons, List.length_append]
      generalize (rs.map (fun r => r.data)).flatten.length = B at htr ⊢
      have hkn := hinv.1
      by_cases hrd : k % 512 = 0 ∧ k < 512 * n
      · have hc := h3 hrd.2
        have hrl : r.read_lba = some (add32 a (k / 512)) := by
          rw [h6]
          unfold stream_reads
          rw [if_pos hrd]
        rw [List.filterMap_cons_some hrl, htr]
        have e1 : (k + 511) / 512 = k / 512 := by omega
        have e2 : (k + r.data.length + 511) / 512 = k / 512 + 1 := by omega
        have e3 : (k + (r.data.length + B) + 511) / 512 - k / 512
            = ((k + r.data.length + B + 511) / 512 - (k / 512 + 1)) + 1 := by omega
        rw [e1, e2, e3, List.range'_succ, List.map_cons, Nat.add_assoc k]
      · have hrl : r.read_lba = none := by
          rw [h6]
          unfold stream_reads
          rw [if_neg hrd]
        rw [List.filterMap_cons_none hrl, htr]
        have e2 : (k + r.data.length + 511) / 512 = (k + 511) / 512 := by
          by_cases hk2 : k < 512 * n
          · omega
          · have := h4 (by omega)
            omega
        rw [e2, Nat.add_assoc k]

theorem stream_inv_start (ctx0 : UsbScsiContext) (storage : Storage) (vfat : VirtualFat)
    (cmd : List Nat) (cmd_len : Nat) (hst : ctx0.storage = some storage)
    (hvf : ctx0.vfat = some vfat) (hop : cdb_byte cmd 0 = 0x28)
    (hok : (usb_scsi_process_command ctx0 cmd cmd_len).1 = true)
    (hn : 1 ≤ read_10_length cmd) :
    StreamInv storage vfat (read_10_lba cmd) (read_10_length cmd)
      (usb_scsi_process_command ctx0 cmd cmd_len).2 0 := by
  have hlen : cmd_len ≠ 0 := by
    intro h0
    rw [usb_scsi_process_command, if_pos h0] at hok
    simp at hok
  have ha : add32 (read_10_lba cmd) 0 = read_10_lba cmd := by
    unfold add32 read_10_lba
    rw [Nat.add_zero, Nat.mod_mod]
  rw [read_10_with_medium ctx0 vfat cmd cmd_len hlen hop hvf] at hok ⊢
  split at hok
  · simp at hok
  · next hle =>
    rw [if_neg hle]
    refine ⟨Nat.zero_le _, fun _ => ⟨rfl, rfl, hst, hvf, rfl, ?_, ?_, ?_⟩,
      fun h => absurd h (by omega)⟩
    · show read_10_length cmd = read_10_length cmd - (0 + 511) / 512
      omega
    · show read_10_lba cmd = add32 (read_10_lba cmd) ((0 + 511) / 512)
      rw [show (0 + 511) / 512 = 0 from rfl, ha]
    · intro h
      exact absurd rfl h

/-- C16. After a successful READ(10) for `n ≥ 1` sectors starting at LBA `a`
whose sectors all read, for every sequence of `usb_scsi_transmit_data` calls
with limits of at least 1: every call returns between 1 and its limit bytes
until `512 * n` bytes have been returned and 0 afterwards; the returned chunks
are, in order, the bytes of the sectors `a, a + 1, ..., a + n - 1` as
`virtual_fat_read_sector` returns them (all of them once there are at least
`512 * n` calls); and the sector reads made are those of the first
`ceil(B / 512)` sectors after `B` bytes, one read each in increasing LBA
order.  LBAs are `uint32_t` sums, equal to `a + i` when `a + n ≤ 2^32`. -/
theorem read_10_stream_delivers_sectors (ctx0 : UsbScsiContext) (storage : Storage)
    (vfat : VirtualFat) (cmd : List Nat) (cmd_len : Nat) (ms : List Nat)
    (hst : ctx0.storage = some storage) (hvf : ctx0.vfat = some vfat)
    (hop : cdb_byte cmd 0 = 0x28)
    (hok : (usb_scsi_process_command ctx0 cmd cmd_len).1 = true)
    (hn : 1 ≤ read_10_length cmd)
    (hsec : ∀ i, i < read_10_length cmd → ∃ sec,
      virtual_fat_read_sector storage vfat (add32 (read_10_lba cmd) i) = ReadOutcome.ok sec)
    (hms : ∀ m ∈ ms, 1 ≤ m) :
    (stream_bytes storage vfat (read_10_lba cmd) (read_10_length cmd)).length
      = 512 * read_10_length cmd ∧
    (∀ i, i < read_10_length cmd →
      virtual_fat_read_sector storage vfat (add32 (read_10_lba cmd) i)
        = ReadOutcome.ok (stream_sector storage vfat (read_10_lba cmd) i)) ∧
    (read_10_lba cmd + read_10_length cmd ≤ U32 →
      ∀ i, i < read_10_length cmd → add32 (read_10_lba cmd) i = read_10_lba cmd + i) ∧
    ∃ rs, transmit_calls (usb_scsi_process_command ctx0 cmd cmd_len).2 ms = some rs ∧
      DeliversFrom (stream_bytes storage vfat (read_10_lba cmd) (read_10_length cmd))
        (stream_reads (read_10_lba cmd) (read_10_length cmd)) 0 ms rs ∧
      (512 * read_10_length cmd ≤ ms.length →
        (rs.map (fun r => r.data)).flatten
          = stream_bytes storage vfat (read_10_lba cmd) (read_10_length cmd)) ∧
      rs.filterMap (fun r => r.read_lba)
        = (List.range (((rs.map (fun r => r.data)).flatten.length + 511) / 512)).map
            (add32 (read_10_lba cmd)) := by
  have hlen := stream_bytes_length storage vfat (read_10_lba cmd) (read_10_length cmd)
    (fun i hi => (stream_sector_ok storage vfat _ _ hsec i hi).2)
  have hinv := stream_inv_start ctx0 storage vfat cmd cmd_len hst hvf hop hok hn
  obtain ⟨rs, hrs, hd, htr⟩ := stream_calls storage vfat _ _ _ 0 ms hsec hinv hms
  refine ⟨hlen, fun i hi => (stream_sector_ok storage vfat _ _ hsec i hi).1, ?_, rs, hrs, hd,
    ?_, ?_⟩
  · intro hle i hi
    unfold add32
    exact Nat.mod_eq_of_lt (by omega)
  · intro hle
    obtain ⟨_, _, hall⟩ := delivers_flatten _ _ _ _ _ hd
    rw [hall (by rw [hlen]; omega)]
    rfl
  · rw [htr, List.range_eq_range']
    simp

/-- C16 applies to a READ(10) of the sector at LBA 0 of a session with the
empty filesystem, fetched in chunks of at most 64 bytes. -/
theorem read_10_stream_delivers_sectors_witness :
    (usb_scsi_process_command (scsi_session empty_storage virtual_fat_alloc)
      [0x28, 0, 0, 0, 0, 0, 0, 0, 1, 0] 10).1 = true ∧
    1 ≤ read_10_length [0x28, 0, 0, 0, 0, 0, 0, 0, 1, 0] ∧
    (∀ m ∈ [64, 64, 64, 64, 64, 64, 64, 64, 64], 1 ≤ m) ∧
    (stream_bytes empty_storage virtual_fat_alloc (read_10_lba [0x28, 0, 0, 0, 0, 0, 0, 0, 1, 0])
      (read_10_length [0x28, 0, 0, 0, 0, 0, 0, 0, 1, 0])).length
      = 512 * read_10_length [0x28, 0, 0, 0, 0, 0, 0, 0, 1, 0] :=
  ⟨by decide, by decide, by decide,
    (read_10_stream_delivers_sectors (scsi_session empty_storage virtual_fat_alloc) empty_storage
      virtual_fat_alloc [0x28, 0, 0, 0, 0, 0, 0, 0, 1, 0] 10 [64, 64, 64, 64, 64, 64, 64, 64, 64]
      rfl rfl rfl (by decide) (by decide)
      (by
        intro i hi
        have h1 : read_10_length [0x28, 0, 0, 0, 0, 0, 0, 0, 1, 0] = 1 := by decide
        have h2 : read_10_lba [0x28, 0, 0, 0, 0, 0, 0, 0, 1, 0] = 0 := by decide
        rw [h1] at hi
        have h3 : i = 0 := by omega
        rw [h2, h3]
        exact ⟨generate_protective_mbr TOTAL_SECTORS, rfl⟩)
      (by decide)).1⟩

/-! ## INQUIRY -/

theorem pending_reply_small (ctx : UsbScsiContext) (reply : List Nat) :
    pending_reply (small_reply ctx reply) = reply := by
  simp [pending_reply, small_reply, memcpy]

theorem process_command_inquiry (ctx : UsbScsiContext) (cmd : List Nat) (cmd_len : Nat)
    (hlen : 0 < cmd_len) (hop : cdb_byte cmd 0 = 0x12) :
    usb_scsi_process_command ctx cmd cmd_len
      = scsi_cmd_inquiry
          { ctx with state := ScsiState.SCSI_STATE_IDLE, sense_key := SCSI_SENSE_NO_SENSE
                     asc := 0 } cmd := by
  unfold usb_scsi_process_command
  rw [if_neg (by omega)]
  simp only [hop, SCSI_CMD_TEST_UNIT_READY, SCSI_CMD_INQUIRY]
  rw [if_neg (by decide), if_pos trivial]

/-- C21. For every INQUIRY CDB (opcode `0x12`, handed over with a non-zero
length): with the EVPD bit clear the command succeeds and leaves the 36-byte
standard reply, byte 1 = `0x80`, vendor `"FLIPPER "` at 8..15, product
`"Boot2Flipper    "` at 16..31, revision `"1.0 "` at 32..35; with EVPD set and
page code `0x00` the reply lists the pages `0x00` and `0x80`; with page code
`0x80` it carries the 4-byte serial `"FLP0"`; for every other page code the
command fails with sense ILLEGAL_REQUEST (`0x05`) / ASC `0x24`. -/
theorem inquiry_replies (ctx : UsbScsiContext) (cmd : List Nat) (cmd_len : Nat)
    (hlen : 0 < cmd_len) (hop : cdb_byte cmd 0 = 0x12) :
    ((cdb_byte cmd 1 &&& 0x01) = 0 →
      (usb_scsi_process_command ctx cmd cmd_len).1 = true ∧
      (usb_scsi_process_command ctx cmd cmd_len).2.state = ScsiState.SCSI_STATE_TX_DATA ∧
      (usb_scsi_process_command ctx cmd cmd_len).2.is_small_data_mode = true ∧
      (usb_scsi_process_command ctx cmd cmd_len).2.buffer_offset = 0 ∧
      (pending_reply (usb_scsi_process_command ctx cmd cmd_len).2).length = 36 ∧
      (pending_reply (usb_scsi_process_command ctx cmd cmd_len).2).take 8
        = [0x00, 0x80, 0x00, 0x02, 0x1F, 0x00, 0x00, 0x00] ∧
      slice (pending_reply (usb_scsi_process_command ctx cmd cmd_len).2) 8 8
        = ascii "FLIPPER " ∧
      slice (pending_reply (usb_scsi_process_command ctx cmd cmd_len).2) 16 16
        = ascii "Boot2Flipper    " ∧
      slice (pending_reply (usb_scsi_process_command ctx cmd cmd_len).2) 32 4
        = ascii "1.0 ") ∧
    ((cdb_byte cmd 1 &&& 0x01) ≠ 0 → cdb_byte cmd 2 = 0x00 →
      (usb_scsi_process_command ctx cmd cmd_len).1 = true ∧
      (usb_scsi_process_command ctx cmd cmd_len).2.state = ScsiState.SCSI_STATE_TX_DATA ∧
      (usb_scsi_process_command ctx cmd cmd_len).2.is_small_data_mode = true ∧
      (usb_scsi_process_command ctx cmd cmd_len).2.buffer_offset = 0 ∧
      pending_reply (usb_scsi_process_command ctx cmd cmd_len).2
        = [0x00, 0x00, 0x00, 0x02, 0x00, 0x80]) ∧
    ((cdb_byte cmd 1 &&& 0x01) ≠ 0 → cdb_byte cmd 2 = 0x80 →
      (usb_scsi_process_command ctx cmd cmd_len).1 = true ∧
      (usb_scsi_process_command ctx cmd cmd_len).2.state = ScsiState.SCSI_STATE_TX_DATA ∧
      (usb_scsi_process_command ctx cmd cmd_len).2.is_small_data_mode = true ∧
      (usb_scsi_process_command ctx cmd cmd_len).2.buffer_offset = 0 ∧
      pending_reply (usb_scsi_process_command ctx cmd cmd_len).2
        = [0x00, 0x80, 0x00, 0x04] ++ ascii "FLP0") ∧
    ((cdb_byte cmd 1 &&& 0x01) ≠ 0 → cdb_byte cmd 2 ≠ 0x00 → cdb_byte cmd 2 ≠ 0x80 →
      (usb_scsi_process_command ctx cmd cmd_len).1 = false ∧
      (usb_scsi_process_command ctx cmd cmd_len).2.sense_key = 0x05 ∧
      (usb_scsi_process_command ctx cmd cmd_len).2.asc = 0x24) := by
  rw [process_command_inquiry ctx cmd cmd_len hlen hop]
  refine ⟨fun h0 => ?_, fun h1 hp => ?_, fun h1 hp => ?_, fun h1 hp0 hp8 => ?_⟩
  · have e : scsi_cmd_inquiry
          { ctx with state := ScsiState.SCSI_STATE_IDLE, sense_key := SCSI_SENSE_NO_SENSE
                     asc := 0 } cmd
        = (true, small_reply
            { ctx with state := ScsiState.SCSI_STATE_IDLE, sense_key := SCSI_SENSE_NO_SENSE
                       asc := 0 }
            ([SCSI_DEVICE_TYPE_DIRECT_ACCESS, 0x80, 0x00, 0x02, 0x1F, 0x00, 0x00, 0x00]
              ++ ascii "FLIPPER " ++ ascii "Boot2Flipper    " ++ ascii "1.0 ")) := by
      unfold scsi_cmd_inquiry
      simp only [h0, ne_eq, not_true_eq_false, if_false]
    rw [e]
    refine ⟨rfl, rfl, rfl, rfl, ?_, ?_, ?_, ?_, ?_⟩ <;>
      (simp only [pending_reply_small]; decide)
  · have e : scsi_cmd_inquiry
          { ctx with state := ScsiState.SCSI_STATE_IDLE, sense_key := SCSI_SENSE_NO_SENSE
                     asc := 0 } cmd
        = (true, small_reply
            { ctx with state := ScsiState.SCSI_STATE_IDLE, sense_key := SCSI_SENSE_NO_SENSE
                       asc := 0 }
            [SCSI_DEVICE_TYPE_DIRECT_ACCESS, 0x00, 0x00, 0x02, 0x00, 0x80]) := by
      unfold scsi_cmd_inquiry
      simp only [h1, hp, ne_eq, not_false_eq_true, if_true]
    rw [e]
    refine ⟨rfl, rfl, rfl, rfl, ?_⟩
    simp only [pending_reply_small]
    decide
  · have e : scsi_cmd_inquiry
          { ctx with state := ScsiState.SCSI_STATE_IDLE, sense_key := SCSI_SENSE_NO_SENSE
                     asc := 0 } cmd
        = (true, small_reply
            { ctx with state := ScsiState.SCSI_STATE_IDLE, sense_key := SCSI_SENSE_NO_SENSE
                       asc := 0 }
            ([SCSI_DEVICE_TYPE_DIRECT_ACCESS, 0x80, 0x00, 0x04] ++ ascii "FLP0")) := by
      unfold scsi_cmd_inquiry
      simp only [h1, hp, ne_eq, not_false_eq_true, if_true]
      rw [if_neg (by decide)]
    rw [e]
    refine ⟨rfl, rfl, rfl, rfl, ?_⟩
    simp only [pending_reply_small]
    decide
  · have e : scsi_cmd_inquiry
          { ctx with state := ScsiState.SCSI_STATE_IDLE, sense_key := SCSI_SENSE_NO_SENSE
                     asc := 0 } cmd
        = (false, scsi_set_sense
            { ctx with state := ScsiState.SCSI_STATE_IDLE, sense_key := SCSI_SENSE_NO_SENSE
                       asc := 0 }
            SCSI_SENSE_ILLEGAL_REQUEST SCSI_ASC_INVALID_FIELD_IN_CDB) := by
      unfold scsi_cmd_inquiry
      simp only [h1, hp0, hp8, ne_eq, not_false_eq_true, if_true, if_false]
    rw [e]
    exact ⟨rfl, rfl, rfl⟩

/-- C21 applies to the standard INQUIRY and to a request for VPD page `0x83`. -/
theorem inquiry_replies_witness :
    slice (pending_reply (usb_scsi_process_command usb_scsi_alloc
      [0x12, 0, 0, 0, 36, 0] 6).2) 8 8 = ascii "FLIPPER " ∧
    (usb_scsi_process_command usb_scsi_alloc [0x12, 1, 0x83, 0, 36, 0] 6).2.asc = 0x24 :=
  ⟨((inquiry_replies usb_scsi_alloc [0x12, 0, 0, 0, 36, 0] 6 (by decide) (by decide)).1
      (by decide)).2.2.2.2.2.2.1,
   ((inquiry_replies usb_scsi_alloc [0x12, 1, 0x83, 0, 36, 0] 6 (by decide) (by decide)).2.2.2
      (by decide) (by decide) (by decide)).2.2⟩

/-! ## The MBR scheme and the boot sector -/

theorem read_sector_lba0_mbr (storage : Storage) (vfat : VirtualFat)
    (h : vfat.partition_scheme = PartitionScheme.PARTITION_SCHEME_MBR_ONLY) :
    virtual_fat_read_sector storage vfat 0
      = ReadOutcome.ok (generate_mbr PARTITION_START PARTITION_SECTORS_MBR 0xEF) := by
  simp [virtual_fat_read_sector, h]

theorem read_sector_lba1_mbr (storage : Storage) (vfat : VirtualFat)
    (h : vfat.partition_scheme = PartitionScheme.PARTITION_SCHEME_MBR_ONLY) :
    virtual_fat_read_sector storage vfat 1 = ReadOutcome.ok (zeros SECTOR_SIZE) := by
  simp [virtual_fat_read_sector, h]

theorem read_sector_lba2_mbr (storage : Storage) (vfat : VirtualFat)
    (h : vfat.partition_scheme = PartitionScheme.PARTITION_SCHEME_MBR_ONLY) :
    virtual_fat_read_sector storage vfat 2 = ReadOutcome.ok (zeros SECTOR_SIZE) := by
  simp [virtual_fat_read_sector, h]

set_option maxRecDepth 100000 in
/-- C27 fails on the code: in scheme `MbrOnly` the partition type byte (offset
450) of the sector read at LBA 0 is `0xEF`, the EFI System Partition type,
where the claim has `0x0C`; the call passes `0xEF` under the comment "MBR only
- bootable FAT32 partition", and `mbr.h` gives "0x0C for FAT32 LBA". -/
theorem mbr_partition_type_is_efi :
    ((virtual_fat_read_sector empty_storage
        (virtual_fat_set_partition_scheme virtual_fat_alloc
          PartitionScheme.PARTITION_SCHEME_MBR_ONLY) 0).sector?.map
      (fun sector => sector.getD 450 0)) = some 0xEF ∧ (0xEF : Nat) ≠ 0x0C := by
  refine ⟨?_, by decide⟩
  rw [read_sector_lba0_mbr _ _ rfl]
  decide

set_option maxRecDepth 100000 in
/-- The first sectors of scheme `MbrOnly` apart from the partition type byte:
the read of LBA 0 returns an MBR whose first partition entry (bytes 446..461)
has bootable flag `0x80`, start LBA 2048 and sector count 260096
(= 262144 - 2048) in little-endian, whose entries 2 to 4 (bytes 462..509) are
zero and whose bytes 510..511 are `55 AA`; the reads of LBA 1 and LBA 2 return
512 zero bytes. -/
theorem mbr_scheme_first_sectors (storage : Storage) (vfat : VirtualFat)
    (h : vfat.partition_scheme = PartitionScheme.PARTITION_SCHEME_MBR_ONLY) :
    (∃ sector, virtual_fat_read_sector storage vfat 0 = ReadOutcome.ok sector ∧
      sector.length = 512 ∧
      sector.getD 446 0 = 0x80 ∧
      leValue (slice sector 454 4) = 2048 ∧
      leValue (slice sector 458 4) = 260096 ∧ 260096 = TOTAL_SECTORS - PARTITION_START ∧
      slice sector 462 48 = zeros 48 ∧ slice sector 510 2 = [0x55, 0xAA]) ∧
    virtual_fat_read_sector storage vfat 1 = ReadOutcome.ok (zeros 512) ∧
    virtual_fat_read_sector storage vfat 2 = ReadOutcome.ok (zeros 512) := by
  refine ⟨⟨_, read_sector_lba0_mbr storage vfat h, ?_⟩,
    read_sector_lba1_mbr storage vfat h, read_sector_lba2_mbr storage vfat h⟩
  decide

/-- The first sectors of the empty filesystem switched to `MbrOnly`. -/
theorem mbr_scheme_first_sectors_witness :
    (virtual_fat_set_partition_scheme virtual_fat_alloc
      PartitionScheme.PARTITION_SCHEME_MBR_ONLY).partition_scheme
        = PartitionScheme.PARTITION_SCHEME_MBR_ONLY ∧
    virtual_fat_read_sector empty_storage
      (virtual_fat_set_partition_scheme virtual_fat_alloc
        PartitionScheme.PARTITION_SCHEME_MBR_ONLY) 1 = ReadOutcome.ok (zeros 512) :=
  ⟨rfl, (mbr_scheme_first_sectors empty_storage
    (virtual_fat_set_partition_scheme virtual_fat_alloc
      PartitionScheme.PARTITION_SCHEME_MBR_ONLY) rfl).2.1⟩

theorem read_sector_boot (storage : Storage) (vfat : VirtualFat) :
    virtual_fat_read_sector storage vfat 2048
      = ReadOutcome.ok (generate_boot_sector
          (if vfat.partition_scheme = PartitionScheme.PARTITION_SCHEME_GPT_ONLY
            then PARTITION_SECTORS_GPT else PARTITION_SECTORS_MBR)) ∧
    virtual_fat_read_sector storage vfat 2054
      = ReadOutcome.ok (generate_boot_sector
          (if vfat.partition_scheme = PartitionScheme.PARTITION_SCHEME_GPT_ONLY
            then PARTITION_SECTORS_GPT else PARTITION_SECTORS_MBR)) ∧
    virtual_fat_read_sector storage vfat 2079 = ReadOutcome.ok (zeros SECTOR_SIZE) := by
  unfold virtual_fat_read_sector
  simp only [PARTITION_SECTORS_GPT, PARTITION_SECTORS_MBR, GPT_LAST_USABLE, TOTAL_SECTORS,
    GPT_BACKUP_SECTORS, PARTITION_START, SECTORS_PER_CLUSTER, SECTOR_SIZE, RESERVED_SECTORS,
    GPT_BACKUP_ARRAY_START, GPT_BACKUP_HEADER]
  by_cases hsch : vfat.partition_scheme = PartitionScheme.PARTITION_SCHEME_GPT_ONLY
  · simp only [hsch, if_true, true_and]
    norm_num
  · simp only [hsch, if_false, false_and]
    norm_num

set_option maxRecDepth 100000 in
theorem boot_sector_fields :
    ∀ p ∈ [260096, 260063],
      (generate_boot_sector p).length = 512 ∧
      leValue (slice (generate_boot_sector p) 11 2) = 512 ∧
      (generate_boot_sector p).getD 13 0 = 1 ∧
      leValue (slice (generate_boot_sector p) 14 2) = 32 ∧
      (generate_boot_sector p).getD 16 0 = 2 ∧
      leValue (slice (generate_boot_sector p) 32 4) = p ∧
      leValue (slice (generate_boot_sector p) 36 4) = 2032 ∧
      leValue (slice (generate_boot_sector p) 44 4) = 2 ∧
      leValue (slice (generate_boot_sector p) 48 2) = 1 ∧
      leValue (slice (generate_boot_sector p) 50 2) = 6 := by
  decide

/-- C28. For both schemes the read of LBA 2048 returns a boot sector whose BPB
declares bytes/sector 512, sectors/cluster 1, reserved sectors 32, 2 FAT
copies, total sectors (offset 32) equal to the scheme's partition length
(260096 for `MbrOnly`, 260063 for `GptOnly`), a FAT size `F` (offset 36) that
is the ceiling of partition length * 4 / 512, root cluster 2, FS Info sector 1
and backup boot sector 6; the sector read at LBA 2048 + 6 is the same; and the
read dispatches FAT1 on the LBAs from 2048 + 32 (the sector before is a zero
reserved sector), FAT2 on those from 2048 + 32 + F, and the data area, whose
first sector is the root directory (cluster 2), from 2048 + 32 + 2 * F. -/
theorem boot_sector_geometry (storage : Storage) (vfat : VirtualFat) :
    ∃ sector F, virtual_fat_read_sector storage vfat 2048 = ReadOutcome.ok sector ∧
      sector.length = 512 ∧
      leValue (slice sector 11 2) = 512 ∧ sector.getD 13 0 = 1 ∧
      leValue (slice sector 14 2) = 32 ∧ sector.getD 16 0 = 2 ∧
      leValue (slice sector 32 4)
        = (if vfat.partition_scheme = PartitionScheme.PARTITION_SCHEME_MBR_ONLY
            then 260096 else 260063) ∧
      leValue (slice sector 36 4) = F ∧
      512 * (F - 1) < leValue (slice sector 32 4) * 4 ∧
      leValue (slice sector 32 4) * 4 ≤ 512 * F ∧
      leValue (slice sector 44 4) = 2 ∧ leValue (slice sector 48 2) = 1 ∧
      leValue (slice sector 50 2) = 6 ∧
      virtual_fat_read_sector storage vfat (2048 + 6) = ReadOutcome.ok sector ∧
      virtual_fat_read_sector storage vfat (2048 + 32 - 1) = ReadOutcome.ok (zeros 512) ∧
      (∀ lba, 2048 + 32 ≤ lba → lba < 2048 + 32 + F →
        virtual_fat_read_sector storage vfat lba
          = ReadOutcome.ok (generate_fat_sector vfat (lba - (2048 + 32)))) ∧
      (∀ lba, 2048 + 32 + F ≤ lba → lba < 2048 + 32 + 2 * F →
        virtual_fat_read_sector storage vfat lba
          = ReadOutcome.ok (generate_fat_sector vfat (lba - (2048 + 32 + F)))) ∧
      (virtual_fat_read_sector storage vfat (2048 + 32 + 2 * F) =
        match generate_root_directory vfat with
        | some buffer => ReadOutcome.ok buffer
        | none => ReadOutcome.out_of_bounds) ∧
      (∀ lba, 2048 + 32 + 2 * F < lba → lba < U32 →
        (vfat.partition_scheme = PartitionScheme.PARTITION_SCHEME_GPT_ONLY →
          lba < GPT_BACKUP_ARRAY_START) →
        virtual_fat_read_sector storage vfat lba
          = data_area_loop storage vfat (lba - (2048 + 32 + 2 * F) + 2) 0 vfat.files 0) := by
  obtain ⟨e0, e6, e9⟩ := read_sector_boot storage vfat
  have hp : (if vfat.partition_scheme = PartitionScheme.PARTITION_SCHEME_GPT_ONLY
      then PARTITION_SECTORS_GPT else PARTITION_SECTORS_MBR) ∈ [260096, 260063] ∧
      (if vfat.partition_scheme = PartitionScheme.PARTITION_SCHEME_GPT_ONLY
        then PARTITION_SECTORS_GPT else PARTITION_SECTORS_MBR)
      = (if vfat.partition_scheme = PartitionScheme.PARTITION_SCHEME_MBR_ONLY
          then 260096 else 260063) := by
    cases vfat.partition_scheme <;> decide
  obtain ⟨f1, f2, f3, f4, f5, f6, f7, f8, f9, f10⟩ := boot_sector_fields _ hp.1
  refine ⟨_, 2032, e0, f1, f2, f3, f4, f5, f6.trans hp.2, f7, ?_, ?_, f8, f9, f10, e6, e9,
    ?_, ?_, read_sector_root storage vfat, ?_⟩
  · rw [f6]
    rcases List.mem_cons.1 hp.1 with h | h
    · omega
    · have h := List.mem_singleton.1 h
      omega
  · rw [f6]
    rcases List.mem_cons.1 hp.1 with h | h
    · omega
    · have h := List.mem_singleton.1 h
      omega
  · intro lba h1 h2
    exact read_sector_fat1_lba storage vfat lba h1 h2
  · intro lba h1 h2
    exact read_sector_fat2_lba storage vfat lba h1 (by omega)
  · intro lba h1 h2 hg
    have e2 : lba - (2048 + 32 + 2 * 2032) + 2 = lba - 6142 := by omega
    rw [e2]
    exact read_sector_data_area storage vfat lba h1 h2 hg

/-! ## FAT copies and free entries -/

set_option maxRecDepth 100000 in
theorem fat_initial_get (k j : Nat) (hj : j < 128) :
    (if k = 0 then [0x0FFFFFF8, 0x0FFFFFFF, 0x0FFFFFFF] ++ (List.replicate (SECTOR_SIZE / 4) 0).drop 3
      else List.replicate (SECTOR_SIZE / 4) 0)[j]?
      = some (if 128 * k + j = 0 then 0x0FFFFFF8
              else if 128 * k + j = 1 ∨ 128 * k + j = 2 then 0x0FFFFFFF else 0) := by
  by_cases hk : k = 0
  · subst hk
    rw [if_pos rfl]
    simp only [SECTOR_SIZE, Nat.mul_zero, Nat.zero_add, List.drop_replicate, List.cons_append,
      List.nil_append]
    match j, hj with
    | 0, _ => simp
    | 1, _ => simp
    | 2, _ => simp
    | j + 3, hj =>
      rw [if_neg (by omega), if_neg (by omega)]
      simp only [List.getElem?_cons_succ]
      rw [List.getElem?_replicate, if_pos (by omega)]
  · rw [if_neg hk, if_neg (by omega), if_neg (by omega)]
    simp only [SECTOR_SIZE]
    rw [List.getElem?_replicate, if_pos (by omega)]

/-- C29. For every filesystem built through the API and every FAT sector
index `k` below the FAT size 2032, the reads of sector `k` of FAT1 (LBA
`2080 + k`) and of FAT2 (LBA `2080 + 2032 + k`) return the same 512 bytes, in
which the little-endian 32-bit entry `i` describes cluster `128 * k + i`:
cluster 0 reads `0x0FFFFFF8`, clusters 1 and 2 read `0x0FFFFFFF`, and every
cluster from 3 on that lies in no entry's cluster run reads 0. -/
theorem fat_copies_and_free_entries (storage : Storage) (vfat : VirtualFat) (k i : Nat)
    (hb : Built vfat) (hk : k < 2032) (hi : i < 128) :
    ∃ sector, virtual_fat_read_sector storage vfat (2080 + k) = ReadOutcome.ok sector ∧
      virtual_fat_read_sector storage vfat (2080 + 2032 + k) = ReadOutcome.ok sector ∧
      sector.length = 512 ∧
      (128 * k + i = 0 → leValue (slice sector (4 * i) 4) = 0x0FFFFFF8) ∧
      (128 * k + i = 1 ∨ 128 * k + i = 2 → leValue (slice sector (4 * i) 4) = 0x0FFFFFFF) ∧
      (3 ≤ 128 * k + i →
        (∀ g ∈ vfat.files, ¬ (g.start_cluster ≤ 128 * k + i ∧
          128 * k + i < g.start_cluster + fat_clusters g)) →
        leValue (slice sector (4 * i) 4) = 0) := by
  obtain ⟨hlen, hrun, hnext, _, _⟩ := fsinv_built vfat hb
  simp only [MAX_FILES] at hlen
  have hbound := (runs_contiguous_ordered _ _ _ _ hrun).1
  have hw : ∀ g ∈ vfat.files, 3 ≤ g.start_cluster ∧ g.start_cluster + fat_clusters g < U32 := by
    intro g hg
    obtain ⟨d, hd⟩ := List.mem_iff_getElem?.1 hg
    have := hbound d g hd
    simp only [U32]
    omega
  have hfe : k * (SECTOR_SIZE / 4) % U32 = 128 * k := by
    simp only [SECTOR_SIZE, U32]
    omega
  have hget : ∀ v, (∀ g ∈ vfat.files, ¬ (g.start_cluster ≤ 128 * k + i ∧
        128 * k + i < g.start_cluster + fat_clusters g)) →
      v = (if 128 * k + i = 0 then 0x0FFFFFF8
            else if 128 * k + i = 1 ∨ 128 * k + i = 2 then 0x0FFFFFFF else 0) →
      leValue (slice (generate_fat_sector vfat k) (4 * i) 4) = v := by
    intro v hout hv
    have hent : (fat_sector_entries vfat k)[i]? = some v := by
      unfold fat_sector_entries
      dsimp only
      rw [hfe, fat_files_loop_untouched (128 * k) i vfat.files _ (by simp only [U32]; omega)
        (by rw [fat_initial_length]; exact hi) (fat_initial_length k)
        (fun g hg => (hw g hg).2) hout, fat_initial_get k i hi, hv]
    unfold generate_fat_sector
    rw [slice_flatMap_le32 _ _ _ hent]
    apply leValue_le32
    rw [hv]
    split
    · simp [U32]
    · split <;> simp [U32]
  have hlow : 128 * k + i < 3 → ∀ g ∈ vfat.files, ¬ (g.start_cluster ≤ 128 * k + i ∧
      128 * k + i < g.start_cluster + fat_clusters g) := by
    intro h3 g hg hin
    have := (hw g hg).1
    omega
  refine ⟨_, read_sector_fat1 storage vfat k hk, read_sector_fat2 storage vfat k hk,
    generate_fat_sector_length vfat k, ?_, ?_, ?_⟩
  · intro h0
    exact hget _ (hlow (by omega)) (by rw [if_pos h0])
  · intro h12
    exact hget _ (hlow (by omega)) (by rw [if_neg (by omega), if_pos h12])
  · intro h3 hout
    exact hget _ hout (by rw [if_neg (by omega), if_neg (by omega)])

set_option maxRecDepth 100000 in
/-- C29 applies to the FAT of the one-file filesystem: cluster 4 lies in no
run and reads 0. -/
theorem fat_copies_and_free_entries_witness :
    Built (single_file_fs (ascii "autoexec.ipxe") (ascii "#!ipxe\n")) ∧ 0 < 2032 ∧ 4 < 128 ∧
    ∃ sector, virtual_fat_read_sector empty_storage
        (single_file_fs (ascii "autoexec.ipxe") (ascii "#!ipxe\n")) (2080 + 0)
          = ReadOutcome.ok sector ∧
      virtual_fat_read_sector empty_storage
        (single_file_fs (ascii "autoexec.ipxe") (ascii "#!ipxe\n")) (2080 + 2032 + 0)
          = ReadOutcome.ok sector ∧
      leValue (slice sector (4 * 4) 4) = 0 := by
  have hb : Built (single_file_fs (ascii "autoexec.ipxe") (ascii "#!ipxe\n")) :=
    ⟨[Op.add_file (ascii "autoexec.ipxe") (ascii "#!ipxe\n")], rfl⟩
  obtain ⟨sector, h1, h2, _, _, _, h5⟩ := fat_copies_and_free_entries empty_storage
    (single_file_fs (ascii "autoexec.ipxe") (ascii "#!ipxe\n")) 0 4 hb (by decide) (by decide)
  exact ⟨hb, by decide, by decide, sector, h1, h2, h5 (by decide) (by decide)⟩

/-! ## The LBA fields of the GPT headers -/

/-- A store above a field leaves the field as it is. -/
theorem field_step_above (b src v : List Nat) (off a n : Nat)
    (hb : b.length = 512 ∧ slice b a n = v) (h : a + n ≤ off) (h2 : off + src.length ≤ 512) :
    (memcpy b off src).length = 512 ∧ slice (memcpy b off src) a n = v := by
  obtain ⟨h1, h3⟩ := hb
  refine ⟨?_, ?_⟩
  · rw [memcpy_length _ _ _ (by omega), h1]
  · rw [slice_memcpy_of_le _ _ _ _ _ h (by omega), h3]

/-- The store of a field sets it. -/
theorem field_step_set (b src : List Nat) (a n : Nat) (hb : b.length = 512)
    (hn : src.length = n) (h : a + n ≤ 512) :
    (memcpy b a src).length = 512 ∧ slice (memcpy b a src) a n = src := by
  subst hn
  refine ⟨?_, slice_memcpy_same b src a (by omega)⟩
  rw [memcpy_length _ _ _ (by omega), hb]

/-- The header CRC stored at 16..19 leaves the fields from offset 20 on. -/
theorem field_after_crc (fields : List Nat) (crc a n : Nat) (hl : fields.length = 512)
    (ha : 20 ≤ a) : slice (memcpy fields 16 (le32 crc)) a n = slice fields a n :=
  slice_memcpy_of_ge _ _ _ _ _ (by rw [le32_length]; omega) (by rw [le32_length]; omega)

theorem leValue_le32_zeros (v : Nat) (h : v < U32) : leValue (le32 v ++ zeros 4) = v := by
  simp only [leValue, le32, zeros, U32, List.replicate, List.cons_append, List.nil_append] at *
  omega

theorem gpt_header_lba_fields (ts ps pz : Nat) :
    slice (generate_gpt_header ts ps pz) 24 8 = [0x01] ++ zeros 7 ∧
    slice (generate_gpt_header ts ps pz) 32 8 = le32 (sub32 ts 1) ++ zeros 4 ∧
    slice (generate_gpt_header ts ps pz) 40 8 = le32 GPT_FIRST_USABLE ++ zeros 4 ∧
    slice (generate_gpt_header ts ps pz) 48 8 = le32 GPT_LAST_USABLE ++ zeros 4 := by
  have hl := (gpt_header_fields_inv ts ps pz).1
  unfold generate_gpt_header
  dsimp only
  rw [field_after_crc _ _ _ _ hl (by decide), field_after_crc _ _ _ _ hl (by decide),
    field_after_crc _ _ _ _ hl (by decide), field_after_crc _ _ _ _ hl (by decide)]
  unfold gpt_header_fields
  dsimp only
  refine ⟨?_, ?_, ?_, ?_⟩
  · refine (field_step_above _ _ _ _ _ _ ?_ (by decide)
      (by first | decide | simp [le32, zeros])).2
    iterate 7
      refine field_step_above _ _ _ _ _ _ ?_ (by decide) (by first | decide | simp [le32, zeros])
    refine field_step_set _ _ _ _ ?_ (by decide) (by decide)
    iterate 5 refine length_step _ _ _ ?_ (by decide)
    exact zeros_length _
  · refine (field_step_above _ _ _ _ _ _ ?_ (by decide)
      (by first | decide | simp [le32, zeros])).2
    iterate 6 refine field_step_above _ _ _ _ _ _ ?_ (by decide) (by decide)
    refine field_step_set _ _ _ _ ?_ (by simp [le32, zeros]) (by decide)
    iterate 6 refine length_step _ _ _ ?_ (by decide)
    exact zeros_length _
  · refine (field_step_above _ _ _ _ _ _ ?_ (by decide)
      (by first | decide | simp [le32, zeros])).2
    iterate 5 refine field_step_above _ _ _ _ _ _ ?_ (by decide) (by decide)
    refine field_step_set _ _ _ _ ?_ (by simp [le32, zeros]) (by decide)
    iterate 7 refine length_step _ _ _ ?_ (by first | decide | simp [le32, zeros])
    exact zeros_length _
  · refine (field_step_above _ _ _ _ _ _ ?_ (by decide)
      (by first | decide | simp [le32, zeros])).2
    iterate 4 refine field_step_above _ _ _ _ _ _ ?_ (by decide) (by decide)
    refine field_step_set _ _ _ _ ?_ (by simp [le32, zeros]) (by decide)
    iterate 8 refine length_step _ _ _ ?_ (by first | decide | simp [le32, zeros])
    exact zeros_length _

theorem gpt_backup_header_array_field (ts ps pz : Nat) :
    slice (generate_gpt_backup_header ts ps pz) 72 8
      = le32 GPT_BACKUP_ARRAY_START ++ zeros 4 := by
  have hl := (gpt_backup_header_fields_inv ts ps pz).1
  unfold generate_gpt_backup_header
  dsimp only
  rw [field_after_crc _ _ _ _ hl (by decide)]
  unfold gpt_backup_header_fields
  dsimp only
  refine (field_step_above _ _ _ _ _ _ ?_ (by decide)
    (by first | decide | simp [le32, zeros])).2
  iterate 2 refine field_step_above _ _ _ _ _ _ ?_ (by decide) (by decide)
  refine field_step_set _ _ _ _ ?_ (by simp [le32, zeros]) (by decide)
  iterate 10 refine length_step _ _ _ ?_ (by first | decide | simp [le32, zeros])
  exact zeros_length _

/-- C30, as stated, fails: given `total_sectors = 100` the primary header
reports last usable LBA 262110, not `100 - 34 = 66`, and the backup header
reports partition-array start 262111, not `100 - 33 = 67`. -/
theorem gpt_last_usable_ignores_total :
    (67 : Nat) ≤ 100 ∧
    leValue (slice (generate_gpt_header 100 2048 33) 48 8) = 262110 ∧
    leValue (slice (generate_gpt_backup_header 100 2048 33) 72 8) = 262111 ∧
    (262110 : Nat) ≠ 100 - 34 ∧ (262111 : Nat) ≠ 100 - 33 := by
  rw [(gpt_header_lba_fields 100 2048 33).2.2.2, gpt_backup_header_array_field 100 2048 33]
  decide

/-- C30, amended. For every `total_sectors >= 67` (a `uint32_t`) given to the
GPT header generators, the primary header reports current LBA 1, backup LBA =
`total_sectors - 1`, first usable LBA 34 and last usable LBA 262110 (the
constant `TOTAL_SECTORS - 34` of the 262144-sector disk), and the backup header
reports partition-array start LBA 262111 (the constant `TOTAL_SECTORS - 33`),
all as 64-bit little-endian fields at offsets 24, 32, 40, 48 and 72; the last
two equal `total_sectors - 34` and `total_sectors - 33` when `total_sectors`
is 262144. -/
theorem gpt_header_lba_values (total_sectors partition_start_lba partition_sectors : Nat)
    (h : 67 ≤ total_sectors) (h32 : total_sectors < U32) :
    leValue (slice (generate_gpt_header total_sectors partition_start_lba partition_sectors)
      24 8) = 1 ∧
    leValue (slice (generate_gpt_header total_sectors partition_start_lba partition_sectors)
      32 8) = total_sectors - 1 ∧
    leValue (slice (generate_gpt_header total_sectors partition_start_lba partition_sectors)
      40 8) = 34 ∧
    leValue (slice (generate_gpt_header total_sectors partition_start_lba partition_sectors)
      48 8) = 262110 ∧
    leValue (slice (generate_gpt_backup_header total_sectors partition_start_lba
      partition_sectors) 72 8) = 262111 ∧
    262110 = TOTAL_SECTORS - 34 ∧ 262111 = TOTAL_SECTORS - 33 ∧
    (total_sectors = TOTAL_SECTORS →
      leValue (slice (generate_gpt_header total_sectors partition_start_lba partition_sectors)
        48 8) = total_sectors - 34 ∧
      leValue (slice (generate_gpt_backup_header total_sectors partition_start_lba
        partition_sectors) 72 8) = total_sectors - 33) := by
  obtain ⟨f1, f2, f3, f4⟩ :=
    gpt_header_lba_fields total_sectors partition_start_lba partition_sectors
  have f5 := gpt_backup_header_array_field total_sectors partition_start_lba partition_sectors
  have hsub : sub32 total_sectors 1 = total_sectors - 1 := by
    unfold sub32
    simp only [U32] at *
    omega
  have e4 : leValue (le32 GPT_LAST_USABLE ++ zeros 4) = 262110 := by decide
  have e5 : leValue (le32 GPT_BACKUP_ARRAY_START ++ zeros 4) = 262111 := by decide
  rw [f1, f2, f3, f4, f5, hsub, e4, e5]
  refine ⟨by decide, leValue_le32_zeros _ (by omega), by decide, rfl, rfl, by decide, by decide,
    ?_⟩
  intro ht
  rw [ht]
  decide

/-- C30 (amended) applies to the disk's own call, `total_sectors = 262144`. -/
theorem gpt_header_lba_values_witness :
    (67 : Nat) ≤ TOTAL_SECTORS ∧ TOTAL_SECTORS < U32 ∧
    leValue (slice (generate_gpt_header TOTAL_SECTORS PARTITION_START PARTITION_SECTORS_GPT)
      32 8) = TOTAL_SECTORS - 1 :=
  ⟨by decide, by decide,
    (gpt_header_lba_values TOTAL_SECTORS PARTITION_START PARTITION_SECTORS_GPT
      (by decide) (by decide)).2.1⟩

/-! ## The transport worker: residue on the data-out path, busy writes -/

set_option maxRecDepth 100000 in
/-- C22 fails on the data-out path.  Whatever the expected length, the first
packet received in `MSC_STATE_DATA_OUT` ends the command with a CSW whose
`dDataResidue` is 0 (and whose status is failed, `usb_scsi_receive_data`
refusing every packet).  For a TEST UNIT READY wrapper with `dDataLength` 512
and direction out, followed by one 64-byte packet, the CSW reports residue 0
where `E - N = 512 - 64 = 448`. -/
theorem data_out_csw_residue_is_zero :
    (∀ (ctx : UsbMscContext) (bus : UsbBus), 0 < bus.read_len →
      (state_data_out ctx bus).2
        = [UsbAction.read_data bus.read_len (ep_read_bytes bus USB_MSC_EP_SIZE),
           UsbAction.write_csw
             { dSignature := USB_MSC_CSW_SIGNATURE, dTag := cbw_dTag ctx.cbw
               dDataResidue := 0, bStatus := USB_MSC_CSW_STATUS_FAILED } bus.write_result]) ∧
    (mass_thread_worker (msc_session (scsi_session empty_storage virtual_fat_alloc))
      [rxtx_event 31 (cbw_packet 7 512 0x00 6 [0, 0, 0, 0, 0, 0]) 13,
       rxtx_event 64 (zeros 64) 13]).1
    = [UsbAction.read_cbw 31 (cbw_packet 7 512 0x00 6 [0, 0, 0, 0, 0, 0]),
       UsbAction.read_data 64 (zeros 64),
       UsbAction.write_csw { dSignature := 0x53425355, dTag := 7, dDataResidue := 0,
                             bStatus := 0x01 } 13] ∧
    cbw_dDataLength (cbw_packet 7 512 0x00 6 [0, 0, 0, 0, 0, 0]) - (zeros 64).length = 448 := by
  refine ⟨?_, by decide, by decide⟩
  intro ctx bus hpos
  unfold state_data_out
  simp only [hpos, gt_iff_lt, if_true, usb_scsi_receive_data, true_or, send_csw,
    Bool.false_eq_true, if_false]

set_option maxRecDepth 100000 in
/-- C26 fails when the write of the last packet of a reply returns busy.  A
standard INQUIRY (36 bytes expected, direction in) whose data write returns
`-1`: the worker stays in `MSC_STATE_DATA_IN` with the 36 bytes buffered, but
on the next event it finds the SCSI layer idle, writes the CSW (passed,
residue 36) and clears the buffer; the bytes the IN endpoint accepted before
the CSW are none of the 36 bytes of the reply. -/
theorem busy_last_packet_is_dropped :
    (mass_thread_worker (msc_session (scsi_session empty_storage virtual_fat_alloc))
      [rxtx_event 31 (cbw_packet 9 36 0x80 6 [0x12, 0, 0, 0, 36, 0]) (-1)]).2.map
        (fun ctx => (ctx.state, ctx.tx_len, ctx.tx_buffer.take ctx.tx_len))
      = some (MscState.MSC_STATE_DATA_IN, 36,
          [0x00, 0x80, 0x00, 0x02, 0x1F, 0x00, 0x00, 0x00]
            ++ ascii "FLIPPER " ++ ascii "Boot2Flipper    " ++ ascii "1.0 ") ∧
    (mass_thread_worker (msc_session (scsi_session empty_storage virtual_fat_alloc))
      [rxtx_event 31 (cbw_packet 9 36 0x80 6 [0x12, 0, 0, 0, 36, 0]) (-1),
       rxtx_event 0 [] 13]).1
    = [UsbAction.read_cbw 31 (cbw_packet 9 36 0x80 6 [0x12, 0, 0, 0, 36, 0]),
       UsbAction.write_data ([0x00, 0x80, 0x00, 0x02, 0x1F, 0x00, 0x00, 0x00]
          ++ ascii "FLIPPER " ++ ascii "Boot2Flipper    " ++ ascii "1.0 ") (-1),
       UsbAction.write_csw { dSignature := 0x53425355, dTag := 9, dDataResidue := 36,
                             bStatus := 0x00 } 13] ∧
    delivered_bytes (mass_thread_worker
      (msc_session (scsi_session empty_storage virtual_fat_alloc))
      [rxtx_event 31 (cbw_packet 9 36 0x80 6 [0x12, 0, 0, 0, 36, 0]) (-1),
       rxtx_event 0 [] 13]).1 = [] ∧
    (mass_thread_worker (msc_session (scsi_session empty_storage virtual_fat_alloc))
      [rxtx_event 31 (cbw_packet 9 36 0x80 6 [0x12, 0, 0, 0, 36, 0]) (-1),
       rxtx_event 0 [] 13]).2.map (fun ctx => (ctx.state, ctx.tx_len))
      = some (MscState.MSC_STATE_READ_CBW, 0) := by
  refine ⟨by decide, by decide, by decide, by decide⟩

/-! ## The transport worker: reading a command block wrapper -/

theorem store_cbw (cbw : List Nat) (bus : UsbBus) (hlen : bus.read_len = 31)
    (hdata : bus.read_data.length = 31) (hcbw : cbw.length = 31) :
    memcpy cbw 0 (ep_read_bytes bus CBW_SIZE) = bus.read_data := by
  have e : ep_read_bytes bus CBW_SIZE = bus.read_data := by
    unfold ep_read_bytes
    rw [hlen]
    exact List.take_of_length_le (by rw [hdata]; decide)
  rw [e]
  simp only [memcpy, List.take_zero, List.nil_append, Nat.zero_add, hdata]
  rw [List.drop_eq_nil_of_le (by omega), List.append_nil]

theorem worker_pass_read_cbw (ctx : UsbMscContext) (bus : UsbBus)
    (hdev : ctx.usb_dev = true) (hst : ctx.state = MscState.MSC_STATE_READ_CBW) :
    worker_pass ctx rxtx_flags bus
      = (state_read_cbw ctx bus).map (fun s => (true, s.1, s.2)) := by
  unfold worker_pass worker_rxtx
  simp only [rxtx_flags, Bool.false_eq_true, if_false, if_true, hdev, hst]
  cases state_read_cbw ctx bus <;> rfl

/-- C24. In state `MSC_STATE_READ_CBW`, for every packet of exactly 31 bytes
with signature `0x43425355`: if the SCSI command fails, exactly one CSW with
status `0x01` and residue `dDataLength` is written and the state is
`MSC_STATE_READ_CBW` again; if it succeeds and `dDataLength = 0`, exactly one
CSW with status `0x00` and residue 0 is written and the state is
`MSC_STATE_READ_CBW` again; if it succeeds and `dDataLength > 0`, the pass goes
on with the data-in case (state `MSC_STATE_DATA_IN`, `tx_offset` 0) when
`bmFlags` bit 7 is set, and ends in state `MSC_STATE_DATA_OUT` with no CSW
otherwise. -/
theorem read_cbw_transitions (ctx : UsbMscContext) (bus : UsbBus)
    (hdev : ctx.usb_dev = true) (hst : ctx.state = MscState.MSC_STATE_READ_CBW)
    (hcbw : ctx.cbw.length = 31) (hlen : bus.read_len = 31)
    (hdata : bus.read_data.length = 31)
    (hsig : cbw_dSignature bus.read_data = 0x43425355) :
    ((usb_scsi_process_command ctx.scsi (cbw_CB bus.read_data)
        (cbw_bCBLength bus.read_data)).1 = false →
      ∃ ctx1, worker_pass ctx rxtx_flags bus = some (true, ctx1,
          [UsbAction.read_cbw 31 bus.read_data,
           UsbAction.write_csw
             { dSignature := 0x53425355, dTag := cbw_dTag bus.read_data
               dDataResidue := cbw_dDataLength bus.read_data, bStatus := 0x01 }
             bus.write_result]) ∧
        ctx1.state = MscState.MSC_STATE_READ_CBW) ∧
    ((usb_scsi_process_command ctx.scsi (cbw_CB bus.read_data)
        (cbw_bCBLength bus.read_data)).1 = true →
      cbw_dDataLength bus.read_data = 0 →
      ∃ ctx1, worker_pass ctx rxtx_flags bus = some (true, ctx1,
          [UsbAction.read_cbw 31 bus.read_data,
           UsbAction.write_csw
             { dSignature := 0x53425355, dTag := cbw_dTag bus.read_data
               dDataResidue := 0, bStatus := 0x00 }
             bus.write_result]) ∧
        ctx1.state = MscState.MSC_STATE_READ_CBW) ∧
    ((usb_scsi_process_command ctx.scsi (cbw_CB bus.read_data)
        (cbw_bCBLength bus.read_data)).1 = true →
      0 < cbw_dDataLength bus.read_data → (cbw_bmFlags bus.read_data &&& 0x80) ≠ 0 →
      worker_pass ctx rxtx_flags bus
        = (process_data_in
            { ctx with cbw := bus.read_data
                       scsi := (usb_scsi_process_command ctx.scsi (cbw_CB bus.read_data)
                         (cbw_bCBLength bus.read_data)).2
                       state := MscState.MSC_STATE_DATA_IN
                       tx_offset := 0 } bus).map
            (fun s => (true, s.1, UsbAction.read_cbw 31 bus.read_data :: s.2))) ∧
    ((usb_scsi_process_command ctx.scsi (cbw_CB bus.read_data)
        (cbw_bCBLength bus.read_data)).1 = true →
      0 < cbw_dDataLength bus.read_data → (cbw_bmFlags bus.read_data &&& 0x80) = 0 →
      ∃ ctx1, worker_pass ctx rxtx_flags bus
          = some (true, ctx1, [UsbAction.read_cbw 31 bus.read_data]) ∧
        ctx1.state = MscState.MSC_STATE_DATA_OUT ∧ ctx1.rx_len = 0) := by
  rw [worker_pass_read_cbw ctx bus hdev hst]
  unfold state_read_cbw
  have hpos : ¬ bus.read_len ≤ 0 := by omega
  have hvalid : ¬ (bus.read_len ≠ (CBW_SIZE : Int) ∨
      cbw_dSignature bus.read_data ≠ USB_MSC_CBW_SIGNATURE) := by
    rw [hlen, hsig]
    decide
  simp only [hpos, if_false, store_cbw ctx.cbw bus hlen hdata hcbw, hvalid]
  refine ⟨fun hf => ?_, fun ht h0 => ?_, fun ht hd hin => ?_, fun ht hd hout => ?_⟩
  · simp only [hf, if_true, send_csw, Option.map_some']
    exact ⟨_, by rw [hlen]; rfl, rfl⟩
  · simp only [ht, Bool.true_eq_false, if_false, h0, gt_iff_lt, Nat.lt_irrefl, send_csw,
      Option.map_some']
    exact ⟨_, by rw [hlen]; rfl, rfl⟩
  · simp only [ht, Bool.true_eq_false, if_false, hd, gt_iff_lt, if_true, hin, ne_eq,
      not_false_eq_true]
    rw [hlen]
    cases process_data_in _ bus <;> rfl
  · simp only [ht, Bool.true_eq_false, if_false, hd, gt_iff_lt, if_true, hout, ne_eq,
      not_true_eq_false, Option.map_some']
    exact ⟨_, by rw [hlen], rfl, rfl⟩

set_option maxRecDepth 100000 in
/-- C24 applies to a WRITE(10) wrapper (the command fails: one CSW, status
failed, residue 512). -/
theorem read_cbw_transitions_witness :
    (msc_session (scsi_session empty_storage virtual_fat_alloc)).usb_dev = true ∧
    cbw_dSignature (cbw_packet 5 512 0x00 10 [0x2A, 0, 0, 0, 0, 0, 0, 0, 1, 0]) = 0x43425355 ∧
    ∃ ctx1, worker_pass
        { msc_session (scsi_session empty_storage virtual_fat_alloc) with
          state := MscState.MSC_STATE_READ_CBW }
        rxtx_flags
        { read_len := 31
          read_data := cbw_packet 5 512 0x00 10 [0x2A, 0, 0, 0, 0, 0, 0, 0, 1, 0]
          write_result := 13 }
      = some (true, ctx1,
          [UsbAction.read_cbw 31 (cbw_packet 5 512 0x00 10 [0x2A, 0, 0, 0, 0, 0, 0, 0, 1, 0]),
           UsbAction.write_csw
             { dSignature := 0x53425355
               dTag := cbw_dTag (cbw_packet 5 512 0x00 10 [0x2A, 0, 0, 0, 0, 0, 0, 0, 1, 0])
               dDataResidue :=
                 cbw_dDataLength (cbw_packet 5 512 0x00 10 [0x2A, 0, 0, 0, 0, 0, 0, 0, 1, 0])
               bStatus := 0x01 } 13]) ∧
      ctx1.state = MscState.MSC_STATE_READ_CBW :=
  ⟨rfl, by decide,
    (read_cbw_transitions
      { msc_session (scsi_session empty_storage virtual_fat_alloc) with
        state := MscState.MSC_STATE_READ_CBW }
      { read_len := 31
        read_data := cbw_packet 5 512 0x00 10 [0x2A, 0, 0, 0, 0, 0, 0, 0, 1, 0]
        write_result := 13 }
      rfl rfl (by decide) rfl (by decide) (by decide)).1 (by decide)⟩

/-- C25. In state `MSC_STATE_READ_CBW`, for every received packet whose length
is positive but not 31, or whose first four bytes are not the signature
`0x43425355`, the worker stalls both bulk endpoints, leaves the SCSI context
untouched, writes no CSW, and stays in `MSC_STATE_READ_CBW`. -/
theorem invalid_cbw_stalls (ctx : UsbMscContext) (bus : UsbBus)
    (hdev : ctx.usb_dev = true) (hst : ctx.state = MscState.MSC_STATE_READ_CBW)
    (hpos : 0 < bus.read_len) (hdata : bus.read_data.length = bus.read_len.toNat)
    (hbad : bus.read_len ≠ 31 ∨ leValue (bus.read_data.take 4) ≠ 0x43425355) :
    ∃ ctx1, worker_pass ctx rxtx_flags bus
        = some (true, ctx1,
            [UsbAction.read_cbw bus.read_len ctx1.cbw, UsbAction.stall USB_MSC_EP_IN,
             UsbAction.stall USB_MSC_EP_OUT]) ∧
      ctx1.scsi = ctx.scsi ∧ ctx1.csw = ctx.csw ∧
      ctx1.state = MscState.MSC_STATE_READ_CBW := by
  rw [worker_pass_read_cbw ctx bus hdev hst]
  unfold state_read_cbw
  have hpos2 : ¬ bus.read_len ≤ 0 := by omega
  have hinvalid : bus.read_len ≠ (CBW_SIZE : Int) ∨
      cbw_dSignature (memcpy ctx.cbw 0 (ep_read_bytes bus CBW_SIZE))
        ≠ USB_MSC_CBW_SIGNATURE := by
    by_cases h31 : bus.read_len = 31
    · right
      have hl : bus.read_data.length = 31 := by
        rw [hdata, h31]
        rfl
      have e : ep_read_bytes bus CBW_SIZE = bus.read_data := by
        unfold ep_read_bytes
        rw [h31]
        exact List.take_of_length_le (by rw [hl]; decide)
      have e2 : slice (memcpy ctx.cbw 0 bus.read_data) 0 4 = bus.read_data.take 4 := by
        simp only [slice, memcpy, List.take_zero, List.nil_append, List.drop_zero]
        rw [List.take_append_of_le_length (by omega)]
      rcases hbad with hb | hb
      · exact absurd h31 hb
      · unfold cbw_dSignature
        rw [e, e2]
        exact hb
    · left
      exact h31
  simp only [hpos2, if_false, hinvalid, if_true, Option.map_some']
  exact ⟨_, rfl, rfl, rfl, rfl⟩

set_option maxRecDepth 100000 in
/-- C25 applies to a 31-byte packet whose signature is "USBS" instead of
"USBC". -/
theorem invalid_cbw_stalls_witness :
    (0 : Int) < 31 ∧
    leValue ((le32 0x53425355 ++ zeros 27).take 4) ≠ 0x43425355 ∧
    ∃ ctx1, worker_pass
        { msc_session (scsi_session empty_storage virtual_fat_alloc) with
          state := MscState.MSC_STATE_READ_CBW }
        rxtx_flags
        { read_len := 31, read_data := le32 0x53425355 ++ zeros 27, write_result := 13 }
      = some (true, ctx1,
            [UsbAction.read_cbw 31 ctx1.cbw, UsbAction.stall USB_MSC_EP_IN,
             UsbAction.stall USB_MSC_EP_OUT]) ∧
      ctx1.state = MscState.MSC_STATE_READ_CBW := by
  obtain ⟨ctx1, h1, _, _, h4⟩ := invalid_cbw_stalls
    { msc_session (scsi_session empty_storage virtual_fat_alloc) with
      state := MscState.MSC_STATE_READ_CBW }
    { read_len := 31, read_data := le32 0x53425355 ++ zeros 27, write_result := 13 }
    rfl rfl (by decide) (by decide) (Or.inr (by decide))
  exact ⟨by decide, by decide, ctx1, h1, h4⟩

/-! ## The transport worker: every CSW echoes the last valid tag -/

theorem last_valid_tag_append (a b : List UsbAction) (last : Option Nat) :
    last_valid_tag last (a ++ b) = last_valid_tag (last_valid_tag last a) b := by
  induction a generalizing last with
  | nil => rfl
  | cons x xs ih =>
    cases x <;> (simp only [List.cons_append, last_valid_tag]; exact ih _)

theorem csws_echo_append (a b : List UsbAction) (last : Option Nat) :
    csws_echo last (a ++ b) = (csws_echo last a && csws_echo (last_valid_tag last a) b) := by
  induction a generalizing last with
  | nil => simp [csws_echo, last_valid_tag]
  | cons x xs ih =>
    cases x <;>
      (simp only [List.cons_append, csws_echo, last_valid_tag, Bool.and_assoc]
       first | exact ih _ | exact congrArg _ (ih _))

theorem send_csw_echo (ctx : UsbMscContext) (st res : Nat) (bus : UsbBus) (last : Option Nat)
    (hl : last = some (cbw_dTag ctx.cbw)) (hs : st = 0 ∨ st = 1) :
    csws_echo last (send_csw ctx st res bus).2 = true ∧
    last_valid_tag last (send_csw ctx st res bus).2 = last := by
  refine ⟨?_, rfl⟩
  simp only [send_csw, csws_echo, USB_MSC_CSW_SIGNATURE, hl, Bool.and_true, decide_eq_true_eq,
    true_and, List.mem_cons, List.mem_singleton, List.not_mem_nil, or_false]
  omega

theorem send_buffered_echo (ctx : UsbMscContext) (bus : UsbBus) (last : Option Nat) :
    (send_buffered ctx bus).1.cbw = ctx.cbw ∧
    (send_buffered ctx bus).1.state = ctx.state ∧
    csws_echo last (send_buffered ctx bus).2 = true ∧
    last_valid_tag last (send_buffered ctx bus).2 = last := by
  unfold send_buffered
  split
  · split <;> exact ⟨rfl, rfl, rfl, rfl⟩
  · exact ⟨rfl, rfl, rfl, rfl⟩

theorem process_data_in_echo (ctx : UsbMscContext) (bus : UsbBus)
    (s : UsbMscContext × List UsbAction) (last : Option Nat)
    (hl : last = some (cbw_dTag ctx.cbw)) (hst : ctx.state = MscState.MSC_STATE_DATA_IN)
    (h : process_data_in ctx bus = some s) :
    csws_echo last s.2 = true ∧ last_valid_tag last s.2 = last ∧ WorkerInv s.1 last := by
  unfold process_data_in at h
  split at h
  · simp only [Option.some.injEq] at h
    subst h
    obtain ⟨e1, e2⟩ := send_csw_echo ctx USB_MSC_CSW_STATUS_PASSED (data_in_residue ctx) bus
      last hl (Or.inl rfl)
    exact ⟨e1, e2, Or.inl rfl⟩
  · split at h
    · split at h
      · exact absurd h (by simp)
      · next r hr =>
        dsimp only at h
        split at h
        · simp only [Option.some.injEq] at h
          subst h
          obtain ⟨e1, e2⟩ := send_csw_echo
            { ctx with scsi := r.ctx, tx_buffer := memcpy ctx.tx_buffer 0 r.data
                       tx_len := r.sent }
            USB_MSC_CSW_STATUS_FAILED
            (data_in_residue { ctx with scsi := r.ctx
                                        tx_buffer := memcpy ctx.tx_buffer 0 r.data
                                        tx_len := r.sent }) bus last hl (Or.inr rfl)
          exact ⟨e1, e2, Or.inl rfl⟩
        · simp only [Option.some.injEq] at h
          subst h
          obtain ⟨e1, e2, e3, e4⟩ := send_buffered_echo
            { ctx with scsi := r.ctx, tx_buffer := memcpy ctx.tx_buffer 0 r.data
                       tx_len := r.sent } bus last
          refine ⟨e3, e4, Or.inr ⟨Or.inl (e2.trans hst), ?_⟩⟩
          rw [e1]
          exact hl
    · simp only [Option.some.injEq] at h
      subst h
      obtain ⟨e1, e2, e3, e4⟩ := send_buffered_echo ctx bus last
      refine ⟨e3, e4, Or.inr ⟨Or.inl (e2.trans hst), ?_⟩⟩
      rw [e1]
      exact hl

theorem state_read_cbw_echo (ctx : UsbMscContext) (bus : UsbBus)
    (s : UsbMscContext × List UsbAction) (last : Option Nat)
    (hst : ctx.state = MscState.MSC_STATE_READ_CBW) (h : state_read_cbw ctx bus = some s) :
    csws_echo last s.2 = true ∧ WorkerInv s.1 (last_valid_tag last s.2) := by
  unfold state_read_cbw at h
  dsimp only at h
  split at h
  · simp only [Option.some.injEq] at h
    subst h
    exact ⟨rfl, Or.inl hst⟩
  · split at h
    · simp only [Option.some.injEq] at h
      subst h
      exact ⟨rfl, Or.inl rfl⟩
    · next hpos hvalid =>
      have hv : bus.read_len = 31 ∧
          cbw_dSignature (memcpy ctx.cbw 0 (ep_read_bytes bus CBW_SIZE))
            = USB_MSC_CBW_SIGNATURE := by
        simp only [CBW_SIZE, ne_eq, not_or, not_not] at hvalid
        exact ⟨by exact_mod_cast hvalid.1, hvalid.2⟩
      split at h
      · simp only [Option.some.injEq] at h
        subst h
        simp only [csws_echo, last_valid_tag, hv, and_self, if_true]
        exact ⟨by decide, Or.inl rfl⟩
      · split at h
        · split at h
          · split at h
            · exact absurd h (by simp)
            · next s1 hs1 =>
              simp only [Option.some.injEq] at h
              subst h
              obtain ⟨e1, e2, e3⟩ := process_data_in_echo _ bus s1
                (some (cbw_dTag (memcpy ctx.cbw 0 (ep_read_bytes bus CBW_SIZE)))) rfl rfl hs1
              simp only [csws_echo, last_valid_tag, hv, and_self, if_true]
              rw [e2]
              exact ⟨e1, e3⟩
          · simp only [Option.some.injEq] at h
            subst h
            simp only [csws_echo, last_valid_tag, hv, and_self, if_true]
            exact ⟨trivial, Or.inr ⟨Or.inr rfl, rfl⟩⟩
        · simp only [Option.some.injEq] at h
          subst h
          simp only [csws_echo, last_valid_tag, hv, and_self, if_true]
          exact ⟨by decide, Or.inl rfl⟩

theorem state_data_out_echo (ctx : UsbMscContext) (bus : UsbBus) (last : Option Nat)
    (hl : last = some (cbw_dTag ctx.cbw)) (hst : ctx.state = MscState.MSC_STATE_DATA_OUT) :
    csws_echo last (state_data_out ctx bus).2 = true ∧
    WorkerInv (state_data_out ctx bus).1 (last_valid_tag last (state_data_out ctx bus).2) := by
  unfold state_data_out
  dsimp only
  split
  · simp only [usb_scsi_receive_data, true_or, if_true, Bool.false_eq_true, if_false]
    obtain ⟨e1, e2⟩ := send_csw_echo
      { ctx with rx_buffer := memcpy ctx.rx_buffer 0 (ep_read_bytes bus USB_MSC_EP_SIZE)
                 rx_len := add32 ctx.rx_len bus.read_len.toNat }
      USB_MSC_CSW_STATUS_FAILED 0 bus last hl (Or.inr rfl)
    exact ⟨e1, Or.inl rfl⟩
  · exact ⟨rfl, Or.inr ⟨Or.inr hst, hl⟩⟩

theorem worker_pass_echo (ctx ctx1 : UsbMscContext) (flags : WorkerFlags) (bus : UsbBus)
    (last : Option Nat) (b : Bool) (acts : List UsbAction) (hinv : WorkerInv ctx last)
    (h : worker_pass ctx flags bus = some (b, ctx1, acts)) :
    csws_echo last acts = true ∧ WorkerInv ctx1 (last_valid_tag last acts) := by
  unfold worker_pass at h
  split at h
  · simp only [Option.some.injEq, Prod.mk.injEq] at h
    obtain ⟨_, h2, h3⟩ := h
    subst h2 h3
    exact ⟨rfl, hinv⟩
  · split at h
    · simp only [Option.some.injEq, Prod.mk.injEq] at h
      obtain ⟨_, h2, h3⟩ := h
      subst h2 h3
      exact ⟨rfl, Or.inl rfl⟩
    · split at h
      · split at h
        · simp only [Option.some.injEq, Prod.mk.injEq] at h
          obtain ⟨_, h2, h3⟩ := h
          subst h2 h3
          exact ⟨rfl, hinv⟩
        · split at h
          · exact absurd h (by simp)
          · next s hs =>
            simp only [Option.some.injEq, Prod.mk.injEq] at h
            obtain ⟨_, h2, h3⟩ := h
            subst h2 h3
            unfold worker_rxtx at hs
            rcases hinv with hr | ⟨hd | hd, hl⟩
            · simp only [hr] at hs
              exact state_read_cbw_echo ctx bus s last hr hs
            · simp only [hd] at hs
              obtain ⟨e1, e2, e3⟩ := process_data_in_echo ctx bus s last hl hd hs
              rw [e2]
              exact ⟨e1, e3⟩
            · simp only [hd, Option.some.injEq] at hs
              subst hs
              exact state_data_out_echo ctx bus last hl hd
      · simp only [Option.some.injEq, Prod.mk.injEq] at h
        obtain ⟨_, h2, h3⟩ := h
        subst h2 h3
        exact ⟨rfl, hinv⟩

theorem worker_loop_echo (events : List (WorkerFlags × UsbBus)) (ctx : UsbMscContext)
    (last : Option Nat) (hinv : WorkerInv ctx last) :
    csws_echo last (worker_loop ctx events).1 = true := by
  induction events generalizing ctx last with
  | nil => rfl
  | cons e es ih =>
    obtain ⟨flags, bus⟩ := e
    unfold worker_loop
    cases hp : worker_pass ctx flags bus with
    | none => rfl
    | some r =>
      obtain ⟨b, ctx1, acts⟩ := r
      obtain ⟨e1, e2⟩ := worker_pass_echo ctx ctx1 flags bus last b acts hinv hp
      cases b with
      | false => exact e1
      | true =>
        dsimp only
        rw [csws_echo_append, e1, ih ctx1 _ e2]
        rfl

/-- C23. Every CSW the worker writes to the IN endpoint, whatever the context
it starts from and whatever events and driver answers follow, has
`dSignature = 0x53425355`, `dTag` equal to the `dTag` of the most recently
received valid command block wrapper (31 bytes, signature `0x43425355`), and a
status byte in `{0x00, 0x01, 0x02}`. -/
theorem every_csw_echoes_last_tag (ctx : UsbMscContext)
    (events : List (WorkerFlags × UsbBus)) :
    csws_echo none (mass_thread_worker ctx events).1 = true :=
  worker_loop_echo events _ none (Or.inl rfl)

/-! ## The backup GPT header against the primary -/

theorem memcpy_get_at (b src : List Nat) (off i : Nat) (h : off + src.length ≤ b.length) :
    (memcpy b off src)[i]?
      = if i < off then b[i]? else if i < off + src.length then src[i - off]? else b[i]? := by
  have h1 : (b.take off).length = off := by
    rw [List.length_take]
    omega
  unfold memcpy
  by_cases hi : i < off
  · rw [if_pos hi, List.append_assoc, List.getElem?_append_left (by omega), List.getElem?_take,
      if_pos hi]
  · rw [if_neg hi, List.append_assoc, List.getElem?_append_right (by omega), h1]
    by_cases hj : i < off + src.length
    · rw [if_pos hj, List.getElem?_append_left (by omega)]
    · rw [if_neg hj, List.getElem?_append_right (by omega), List.getElem?_drop]
      congr 1
      omega

theorem slice_get_at (b : List Nat) (a n j : Nat) :
    (slice b a n)[j]? = if j < n then b[a + j]? else none := by
  simp only [slice, List.getElem?_take, List.getElem?_drop]

theorem slice_ext (b d : List Nat) (a n : Nat)
    (h : ∀ i, a ≤ i → i < a + n → b[i]? = d[i]?) : slice b a n = slice d a n := by
  apply List.ext_getElem?
  intro j
  rw [slice_get_at, slice_get_at]
  split
  · exact h _ (by omega) (by omega)
  · rfl

/-- Two sectors that agree on the offsets `R` still agree on them after stores
of equal length at the same offset whose bytes agree on `R`. -/
theorem agree_step (R : Nat → Prop) (b d s t : List Nat) (off : Nat)
    (h : b.length = 512 ∧ d.length = 512 ∧ ∀ i, R i → b[i]? = d[i]?)
    (hl : s.length = t.length) (ho : off + s.length ≤ 512)
    (hs : ∀ i, R i → off ≤ i → i < off + s.length → s[i - off]? = t[i - off]?) :
    (memcpy b off s).length = 512 ∧ (memcpy d off t).length = 512 ∧
      ∀ i, R i → (memcpy b off s)[i]? = (memcpy d off t)[i]? := by
  obtain ⟨h1, h2, h3⟩ := h
  refine ⟨?_, ?_, ?_⟩
  · rw [memcpy_length _ _ _ (by omega), h1]
  · rw [memcpy_length _ _ _ (by omega), h2]
  · intro i hR
    rw [memcpy_get_at _ _ _ _ (by omega), memcpy_get_at _ _ _ _ (by omega), ← hl]
    split
    · exact h3 i hR
    · split
      · exact hs i hR (by omega) (by omega)
      · exact h3 i hR

theorem gpt_fields_agree (ts ps pz : Nat) :
    (gpt_backup_header_fields ts ps pz).length = 512 ∧
    (gpt_header_fields ts ps pz).length = 512 ∧
    ∀ i, (¬ (16 ≤ i ∧ i ≤ 19) ∧ ¬ (24 ≤ i ∧ i ≤ 39) ∧ ¬ (72 ≤ i ∧ i ≤ 79)) →
      (gpt_backup_header_fields ts ps pz)[i]? = (gpt_header_fields ts ps pz)[i]? := by
  unfold gpt_backup_header_fields gpt_header_fields
  dsimp only
  iterate 14
    refine agree_step _ _ _ _ _ _ ?_ (by first | with_reducible rfl | simp [le32, zeros])
      (by first | decide | simp [le32, zeros])
      (by first
        | exact fun _ _ _ _ => by with_reducible rfl
        | (intro i hR h1 h2
           simp [le32, zeros] at h2
           omega))
  exact ⟨zeros_length _, zeros_length _, fun _ _ => rfl⟩

theorem gpt_backup_header_lba_fields (ts ps pz : Nat) :
    slice (generate_gpt_backup_header ts ps pz) 24 8 = le32 (sub32 ts 1) ++ zeros 4 ∧
    slice (generate_gpt_backup_header ts ps pz) 32 8 = [0x01] ++ zeros 7 := by
  have hl := (gpt_backup_header_fields_inv ts ps pz).1
  unfold generate_gpt_backup_header
  dsimp only
  rw [field_after_crc _ _ _ _ hl (by decide), field_after_crc _ _ _ _ hl (by decide)]
  unfold gpt_backup_header_fields
  dsimp only
  refine ⟨?_, ?_⟩
  · refine (field_step_above _ _ _ _ _ _ ?_ (by decide)
      (by first | decide | simp [le32, zeros])).2
    iterate 7 refine field_step_above _ _ _ _ _ _ ?_ (by decide) (by decide)
    refine field_step_set _ _ _ _ ?_ (by simp [le32, zeros]) (by decide)
    iterate 5 refine length_step _ _ _ ?_ (by decide)
    exact zeros_length _
  · refine (field_step_above _ _ _ _ _ _ ?_ (by decide)
      (by first | decide | simp [le32, zeros])).2
    iterate 6 refine field_step_above _ _ _ _ _ _ ?_ (by decide) (by decide)
    refine field_step_set _ _ _ _ ?_ (by decide) (by decide)
    iterate 6
      refine length_step _ _ _ ?_ (by first | decide | simp [le32, zeros])
    exact zeros_length _

/-- C31. For all arguments the sector of `generate_gpt_backup_header` equals
the sector of `generate_gpt_header` at every byte outside offsets 16..19
(header CRC), 24..39 (current and backup LBA) and 72..79 (partition-array start
LBA); the backup's current LBA field is the primary's backup LBA field and the
backup's backup LBA field is the primary's current LBA field; in particular
the partition-array CRC (88..91) and the disk GUID (56..71) are identical. -/
theorem backup_header_mirrors_primary (total_sectors partition_start_lba partition_sectors : Nat) :
    (generate_gpt_backup_header total_sectors partition_start_lba partition_sectors).length
      = 512 ∧
    (generate_gpt_header total_sectors partition_start_lba partition_sectors).length = 512 ∧
    (∀ i, ¬ (16 ≤ i ∧ i ≤ 19) → ¬ (24 ≤ i ∧ i ≤ 39) → ¬ (72 ≤ i ∧ i ≤ 79) →
      (generate_gpt_backup_header total_sectors partition_start_lba partition_sectors)[i]?
        = (generate_gpt_header total_sectors partition_start_lba partition_sectors)[i]?) ∧
    slice (generate_gpt_backup_header total_sectors partition_start_lba partition_sectors) 24 8
      = slice (generate_gpt_header total_sectors partition_start_lba partition_sectors) 32 8 ∧
    slice (generate_gpt_backup_header total_sectors partition_start_lba partition_sectors) 32 8
      = slice (generate_gpt_header total_sectors partition_start_lba partition_sectors) 24 8 ∧
    slice (generate_gpt_backup_header total_sectors partition_start_lba partition_sectors) 88 4
      = slice (generate_gpt_header total_sectors partition_start_lba partition_sectors) 88 4 ∧
    slice (generate_gpt_backup_header total_sectors partition_start_lba partition_sectors) 56 16
      = slice (generate_gpt_header total_sectors partition_start_lba partition_sectors) 56 16 := by
  have hagree := agree_step _ _ _
    (le32 (crc32_calculate
      ((gpt_backup_header_fields total_sectors partition_start_lba partition_sectors).take 92)))
    (le32 (crc32_calculate
      ((gpt_header_fields total_sectors partition_start_lba partition_sectors).take 92)))
    16 (gpt_fields_agree total_sectors partition_start_lba partition_sectors)
    (by rw [le32_length, le32_length]) (by rw [le32_length]; decide)
    (by
      intro i hR h1 h2
      simp only [le32_length] at h2
      omega)
  obtain ⟨h1, h2, h3⟩ := hagree
  obtain ⟨p1, p2, _, _⟩ :=
    gpt_header_lba_fields total_sectors partition_start_lba partition_sectors
  obtain ⟨b1, b2⟩ :=
    gpt_backup_header_lba_fields total_sectors partition_start_lba partition_sectors
  refine ⟨h1, h2, fun i n1 n2 n3 => h3 i ⟨n1, n2, n3⟩, ?_, ?_, ?_, ?_⟩
  · rw [b1, p2]
  · rw [b2, p1]
  · exact slice_ext _ _ _ _ (fun i _ _ => h3 i ⟨by omega, by omega, by omega⟩)
  · exact slice_ext _ _ _ _ (fun i _ _ => h3 i ⟨by omega, by omega, by omega⟩)

/-! ## The partition array sector -/

/-- A store at the end of the bytes written so far, into the zero fill. -/
theorem memcpy_fill (pre src : List Nat) (m off : Nat) (ho : off = pre.length) :
    memcpy (pre ++ zeros m) off src = (pre ++ src) ++ zeros (m - src.length) := by
  subst ho
  simp only [memcpy, List.take_left', List.drop_append, zeros, List.drop_replicate,
    List.append_assoc]

theorem build_partition_entry_zeros (s n : Nat) :
    build_partition_entry (zeros 128) s n
      = ESP_TYPE_GUID ++ PART_GUID ++ (le32 s ++ [0, 0, 0, 0])
          ++ (le32 (sub32 (add32 s n) 1) ++ [0, 0, 0, 0]) ++ ([0x01] ++ zeros 7)
          ++ ESP_NAME_UTF16 ++ zeros 50 := by
  unfold build_partition_entry
  dsimp only
  have e1 : memcpy (zeros 128) 0 ESP_TYPE_GUID = ESP_TYPE_GUID ++ zeros 112 :=
    memcpy_fill [] ESP_TYPE_GUID 128 0 rfl
  have e2 : memcpy (ESP_TYPE_GUID ++ zeros 112) 16 PART_GUID
      = (ESP_TYPE_GUID ++ PART_GUID) ++ zeros 96 :=
    memcpy_fill _ PART_GUID 112 16 rfl
  have e3 : memcpy ((ESP_TYPE_GUID ++ PART_GUID) ++ zeros 96) 32 (le32 s ++ [0, 0, 0, 0])
      = (ESP_TYPE_GUID ++ PART_GUID ++ (le32 s ++ [0, 0, 0, 0])) ++ zeros 88 :=
    memcpy_fill _ _ 96 32 rfl
  have e4 : memcpy ((ESP_TYPE_GUID ++ PART_GUID ++ (le32 s ++ [0, 0, 0, 0])) ++ zeros 88) 40
        (le32 (sub32 (add32 s n) 1) ++ [0, 0, 0, 0])
      = (ESP_TYPE_GUID ++ PART_GUID ++ (le32 s ++ [0, 0, 0, 0])
          ++ (le32 (sub32 (add32 s n) 1) ++ [0, 0, 0, 0])) ++ zeros 80 :=
    memcpy_fill _ _ 88 40 rfl
  have e5 : memcpy ((ESP_TYPE_GUID ++ PART_GUID ++ (le32 s ++ [0, 0, 0, 0])
          ++ (le32 (sub32 (add32 s n) 1) ++ [0, 0, 0, 0])) ++ zeros 80) 48 ([0x01] ++ zeros 7)
      = (ESP_TYPE_GUID ++ PART_GUID ++ (le32 s ++ [0, 0, 0, 0])
          ++ (le32 (sub32 (add32 s n) 1) ++ [0, 0, 0, 0]) ++ ([0x01] ++ zeros 7)) ++ zeros 72 :=
    memcpy_fill _ _ 80 48 rfl
  have e6 : memcpy ((ESP_TYPE_GUID ++ PART_GUID ++ (le32 s ++ [0, 0, 0, 0])
          ++ (le32 (sub32 (add32 s n) 1) ++ [0, 0, 0, 0]) ++ ([0x01] ++ zeros 7)) ++ zeros 72)
        56 ESP_NAME_UTF16
      = (ESP_TYPE_GUID ++ PART_GUID ++ (le32 s ++ [0, 0, 0, 0])
          ++ (le32 (sub32 (add32 s n) 1) ++ [0, 0, 0, 0]) ++ ([0x01] ++ zeros 7)
          ++ ESP_NAME_UTF16) ++ zeros 50 :=
    memcpy_fill _ _ 72 56 rfl
  rw [e1, e2, e3, e4, e5, e6]

theorem generate_gpt_partitions_eq (s n : Nat) :
    generate_gpt_partitions s n
      = ESP_TYPE_GUID ++ PART_GUID ++ (le32 s ++ [0, 0, 0, 0])
          ++ (le32 (sub32 (add32 s n) 1) ++ [0, 0, 0, 0]) ++ ([0x01] ++ zeros 7)
          ++ ESP_NAME_UTF16 ++ zeros 434 := by
  have hz : zeros SECTOR_SIZE = zeros 128 ++ zeros 384 := zeros_add 128 384
  unfold generate_gpt_partitions
  rw [hz, build_partition_entry_append _ _ _ _ (zeros_length 128), build_partition_entry_zeros,
    List.append_assoc _ (zeros 50) (zeros 384), ← zeros_add 50 384]

theorem last_lba_no_wrap (s n : Nat) (hn : 1 ≤ n) (h : s + n - 1 < U32) :
    sub32 (add32 s n) 1 = s + n - 1 := by
  unfold sub32 add32
  simp only [U32] at *
  omega

set_option maxRecDepth 100000 in
/-- C32. For every partition start `s` and length `n >= 1` with
`s + n - 1 < 2^32`, the sector of `generate_gpt_partitions` holds one populated
128-byte entry at offset 0 and zeros elsewhere: bytes 0..15 are the type GUID
`28 73 2A C1 1F F8 D2 11 BA 4B 00 A0 C9 3E C9 3B`, bytes 32..39 are `s` and
bytes 40..47 are `s + n - 1` as 64-bit little-endian, bit 0 of the attribute
field at 48 is set, bytes 56..75 hold "EFI System" in UTF-16LE and every byte
from 76 on is zero; `generate_gpt_backup_partitions` produces the same
sector. -/
theorem partition_array_sector (s n : Nat) (hn : 1 ≤ n) (h : s + n - 1 < U32) :
    (generate_gpt_partitions s n).length = 512 ∧
    slice (generate_gpt_partitions s n) 0 16
      = [0x28, 0x73, 0x2A, 0xC1, 0x1F, 0xF8, 0xD2, 0x11,
         0xBA, 0x4B, 0x00, 0xA0, 0xC9, 0x3E, 0xC9, 0x3B] ∧
    leValue (slice (generate_gpt_partitions s n) 32 8) = s ∧
    leValue (slice (generate_gpt_partitions s n) 40 8) = s + n - 1 ∧
    leValue (slice (generate_gpt_partitions s n) 48 8) % 2 = 1 ∧
    slice (generate_gpt_partitions s n) 56 20 = (ascii "EFI System").flatMap le16 ∧
    (generate_gpt_partitions s n).drop 76 = zeros 436 ∧
    generate_gpt_backup_partitions s n = generate_gpt_partitions s n := by
  have hs : s < U32 := by omega
  rw [generate_gpt_partitions_eq, last_lba_no_wrap s n hn h]
  have e32 : slice (ESP_TYPE_GUID ++ PART_GUID ++ (le32 s ++ [0, 0, 0, 0])
      ++ (le32 (s + n - 1) ++ [0, 0, 0, 0]) ++ ([0x01] ++ zeros 7)
      ++ ESP_NAME_UTF16 ++ zeros 434) 32 8 = le32 s ++ zeros 4 := rfl
  have e40 : slice (ESP_TYPE_GUID ++ PART_GUID ++ (le32 s ++ [0, 0, 0, 0])
      ++ (le32 (s + n - 1) ++ [0, 0, 0, 0]) ++ ([0x01] ++ zeros 7)
      ++ ESP_NAME_UTF16 ++ zeros 434) 40 8 = le32 (s + n - 1) ++ zeros 4 := rfl
  rw [e32, e40, leValue_le32_zeros s hs, leValue_le32_zeros _ h]
  refine ⟨?_, rfl, rfl, rfl, rfl, rfl, rfl, ?_⟩
  · simp [le32, zeros, ESP_TYPE_GUID, PART_GUID, ESP_NAME_UTF16, ascii, le16]
  · unfold generate_gpt_backup_partitions
    rw [generate_gpt_partitions_eq, last_lba_no_wrap s n hn h]

/-- C32 applies to the GPT partition of the disk: start 2048, 260063 sectors. -/
theorem partition_array_sector_witness :
    1 ≤ PARTITION_SECTORS_GPT ∧ PARTITION_START + PARTITION_SECTORS_GPT - 1 < U32 ∧
    leValue (slice (generate_gpt_partitions PARTITION_START PARTITION_SECTORS_GPT) 40 8)
      = PARTITION_START + PARTITION_SECTORS_GPT - 1 :=
  ⟨by decide, by decide,
    (partition_array_sector PARTITION_START PARTITION_SECTORS_GPT (by decide)
      (by decide)).2.2.2.1⟩

/-! ## The partition-array CRC against the sectors read -/

theorem read_sector_gpt_array (storage : Storage) (vfat : VirtualFat)
    (h : vfat.partition_scheme = PartitionScheme.PARTITION_SCHEME_GPT_ONLY) :
    virtual_fat_read_sector storage vfat 2
      = ReadOutcome.ok (generate_gpt_partitions PARTITION_START PARTITION_SECTORS_GPT) ∧
    virtual_fat_read_sector storage vfat 262111
      = ReadOutcome.ok (generate_gpt_backup_partitions PARTITION_START PARTITION_SECTORS_GPT) ∧
    (∀ lba, 3 ≤ lba → lba ≤ 33 →
      virtual_fat_read_sector storage vfat lba = ReadOutcome.ok (zeros 512)) ∧
    (∀ lba, 262112 ≤ lba → lba ≤ 262142 →
      virtual_fat_read_sector storage vfat lba = ReadOutcome.ok (zeros 512)) := by
  refine ⟨?_, ?_, ?_, ?_⟩
  · simp [virtual_fat_read_sector, h]
  · simp [virtual_fat_read_sector, h, PARTITION_START, GPT_BACKUP_ARRAY_START,
      GPT_BACKUP_HEADER, TOTAL_SECTORS, GPT_BACKUP_SECTORS]
  · intro lba h1 h2
    unfold virtual_fat_read_sector
    simp only [PARTITION_START, SECTOR_SIZE]
    rw [if_neg (by omega), if_neg (by omega), if_neg (by omega), if_pos (by omega)]
  · intro lba h1 h2
    unfold virtual_fat_read_sector
    simp only [PARTITION_START, SECTOR_SIZE, GPT_BACKUP_ARRAY_START, GPT_BACKUP_HEADER,
      TOTAL_SECTORS, GPT_BACKUP_SECTORS, h, true_and]
    rw [if_neg (by omega), if_neg (by omega), if_neg (by omega), if_neg (by omega),
      if_pos (by omega), if_neg (by omega)]

/-- A run of sectors whose first is `first` and whose others are zero. -/
theorem stream_bytes_first_then_zeros (storage : Storage) (vfat : VirtualFat) (a n : Nat)
    (first : List Nat) (h0 : stream_sector storage vfat a 0 = first)
    (hz : ∀ i, 1 ≤ i → i ≤ n → stream_sector storage vfat a i = zeros 512) :
    stream_bytes storage vfat a (n + 1) = first ++ zeros (512 * n) := by
  induction n with
  | zero =>
    rw [stream_bytes_succ, h0]
    simp [stream_bytes, zeros]
  | succ n ih =>
    rw [stream_bytes_succ, ih (fun i h1 h2 => hz i h1 (by omega)), hz (n + 1) (by omega)
      (le_refl _), List.append_assoc, ← zeros_add]
    congr 2

theorem gpt_part_array_sectors (s n : Nat) :
    gpt_part_array s n = generate_gpt_partitions s n ++ zeros (512 * 31) := by
  have h1 : zeros (128 * 128) = zeros 128 ++ zeros (384 + 512 * 31) := by
    have e : (128 * 128 : Nat) = 128 + (384 + 512 * 31) := by norm_num
    rw [e]
    exact zeros_add 128 _
  have h2 : zeros SECTOR_SIZE = zeros 128 ++ zeros 384 := zeros_add 128 384
  unfold gpt_part_array generate_gpt_partitions
  rw [h1, h2, build_partition_entry_append _ _ _ _ (zeros_length 128),
    build_partition_entry_append _ _ _ _ (zeros_length 128), zeros_add 384 (512 * 31),
    List.append_assoc]

theorem build_partition_entry_lt (e : List Nat) (s n : Nat) (he : ∀ x ∈ e, x < 256) :
    ∀ x ∈ build_partition_entry e s n, x < 256 := by
  unfold build_partition_entry
  dsimp only
  iterate 6
    refine mem_memcpy_lt _ _ _ ?_
      (by first | decide | exact append_lt _ _ (le32_lt _) (by decide))
  exact he

/-- C37. In scheme `GptOnly` the partition-array CRC stored at bytes 88..91 of
the header read at LBA 1 equals the CRC-32 of the 16384 bytes obtained by
concatenating the sectors read at LBA 2, 3, ..., 33, and the same field of the
header read at LBA 262143 equals the CRC-32 of the concatenation of the
sectors read at LBA 262111, ..., 262142. -/
theorem array_crc_matches_sectors_read (storage : Storage) (vfat : VirtualFat)
    (h : vfat.partition_scheme = PartitionScheme.PARTITION_SCHEME_GPT_ONLY) :
    (stream_bytes storage vfat 2 32).length = 16384 ∧
    (stream_bytes storage vfat 262111 32).length = 16384 ∧
    (∃ header, virtual_fat_read_sector storage vfat 1 = ReadOutcome.ok header ∧
      leValue (slice header 88 4) = crc32_calculate (stream_bytes storage vfat 2 32)) ∧
    (∃ header, virtual_fat_read_sector storage vfat 262143 = ReadOutcome.ok header ∧
      leValue (slice header 88 4) = crc32_calculate (stream_bytes storage vfat 262111 32)) := by
  obtain ⟨r2, rb, rz, rbz⟩ := read_sector_gpt_array storage vfat h
  have hsmall : ∀ a i, a ≤ 262111 → i ≤ 31 → add32 a i = a + i := by
    intro a i ha hi
    unfold add32
    exact Nat.mod_eq_of_lt (by simp only [U32]; omega)
  have e1 : stream_bytes storage vfat 2 32 = gpt_part_array PARTITION_START PARTITION_SECTORS_GPT := by
    rw [gpt_part_array_sectors]
    refine stream_bytes_first_then_zeros storage vfat 2 31 _ ?_ ?_
    · unfold stream_sector
      rw [hsmall 2 0 (by omega) (by omega), r2]
      rfl
    · intro i h1 h2
      unfold stream_sector
      rw [hsmall 2 i (by omega) h2, rz (2 + i) (by omega) (by omega)]
      rfl
  have e2 : stream_bytes storage vfat 262111 32
      = gpt_part_array PARTITION_START PARTITION_SECTORS_GPT := by
    rw [gpt_part_array_sectors]
    refine stream_bytes_first_then_zeros storage vfat 262111 31 _ ?_ ?_
    · unfold stream_sector
      rw [hsmall 262111 0 (by omega) (by omega), rb]
      rfl
    · intro i h1 h2
      unfold stream_sector
      rw [hsmall 262111 i (by omega) h2, rbz (262111 + i) (by omega) (by omega)]
      rfl
  have hlen : (gpt_part_array PARTITION_START PARTITION_SECTORS_GPT).length = 16384 := by
    rw [gpt_part_array_sectors, List.length_append, generate_gpt_partitions_length,
      zeros_length]
  have hcrc : crc32_calculate (gpt_part_array PARTITION_START PARTITION_SECTORS_GPT) < U32 :=
    crc32_calculate_lt _ (build_partition_entry_lt _ _ _ (zeros_lt _))
  rw [e1, e2]
  refine ⟨hlen, hlen, ⟨_, read_sector_lba1_gpt storage vfat h, ?_⟩,
    ⟨_, read_sector_backup_header_gpt storage vfat h, ?_⟩⟩
  · unfold generate_gpt_header
    dsimp only
    rw [field_after_crc _ _ _ _ (gpt_header_fields_inv _ _ _).1 (by decide),
      gpt_header_fields_part_crc, leValue_le32 _ hcrc]
  · unfold generate_gpt_backup_header
    dsimp only
    rw [field_after_crc _ _ _ _ (gpt_backup_header_fields_inv _ _ _).1 (by decide),
      gpt_backup_header_fields_part_crc, leValue_le32 _ hcrc]

/-- C37 applies to the freshly allocated filesystem, whose scheme is `GptOnly`. -/
theorem array_crc_matches_sectors_read_witness :
    virtual_fat_alloc.partition_scheme = PartitionScheme.PARTITION_SCHEME_GPT_ONLY ∧
    (stream_bytes empty_storage virtual_fat_alloc 2 32).length = 16384 :=
  ⟨rfl, (array_crc_matches_sectors_read empty_storage virtual_fat_alloc rfl).1⟩

/-! ## The CHS fields of the MBR -/

set_option maxRecDepth 100000 in
theorem chs_cylinder_high : ∀ cyl < 1024, (cyl >>> 2) &&& 0xC0 = 64 * (cyl / 256) := by
  decide

set_option maxRecDepth 100000 in
theorem chs_sector_byte : ∀ sec < 64, ∀ a < 4,
    (((sec &&& 0x3F) ||| (64 * a)) % 256) &&& 0x3F = sec ∧
    (((sec &&& 0x3F) ||| (64 * a)) % 256) &&& 0xC0 = 64 * a := by
  decide

theorem chs_roundtrip (x : Nat) (hx : x < 1024 * 255 * 63) :
    chs_decode ((x / 63) % 255 % 256)
      ((((x % 63 + 1) &&& 0x3F) ||| (((x / (255 * 63)) >>> 2) &&& 0xC0)) % 256)
      (x / (255 * 63) % 256) = x ∧
    1 ≤ ((((x % 63 + 1) &&& 0x3F) ||| (((x / (255 * 63)) >>> 2) &&& 0xC0)) % 256) &&& 0x3F ∧
    ((((x % 63 + 1) &&& 0x3F) ||| (((x / (255 * 63)) >>> 2) &&& 0xC0)) % 256) &&& 0x3F ≤ 63 ∧
    (x / 63) % 255 % 256 ≤ 254 := by
  have hc : x / (255 * 63) < 1024 := by omega
  have hh := chs_cylinder_high _ hc
  obtain ⟨h1, h2⟩ := chs_sector_byte (x % 63 + 1) (by omega) (x / (255 * 63) / 256) (by omega)
  rw [hh]
  unfold chs_decode
  rw [h1, h2]
  omega

/-- C38. For every partition start and length (`uint32_t`, not both zero)
whose start LBA `x` and end LBA `x' = start + length - 1` are below
`1024 * 255 * 63`, the CHS bytes `generate_mbr` writes for the start (entry
bytes 1..3) and for the end (entry bytes 5..7) decode back to the LBA: with
head `h` = byte 1, sector `s` = byte 2 `& 0x3F` and cylinder `c` = byte 3 +
`4 * (byte 2 & 0xC0)`, `(c * 255 + h) * 63 + (s - 1)` equals `x` (respectively
`x'`), and `1 <= s <= 63`, `h <= 254`. -/
theorem mbr_chs_decodes_to_lba (partition_start_lba partition_sectors partition_type : Nat)
    (hpos : 1 ≤ partition_start_lba + partition_sectors)
    (hx : partition_start_lba < 1024 * 255 * 63)
    (hy : partition_start_lba + partition_sectors - 1 < 1024 * 255 * 63) :
    ∃ h1 s1 c1 h2 s2 c2,
      slice (generate_mbr partition_start_lba partition_sectors partition_type) 446 8
        = [0x80, h1, s1, c1, partition_type % 256, h2, s2, c2] ∧
      chs_decode h1 s1 c1 = partition_start_lba ∧
      1 ≤ s1 &&& 0x3F ∧ s1 &&& 0x3F ≤ 63 ∧ h1 ≤ 254 ∧
      chs_decode h2 s2 c2 = partition_start_lba + partition_sectors - 1 ∧
      1 ≤ s2 &&& 0x3F ∧ s2 &&& 0x3F ≤ 63 ∧ h2 ≤ 254 := by
  have hend : sub32 (add32 partition_start_lba partition_sectors) 1
      = partition_start_lba + partition_sectors - 1 := by
    unfold sub32 add32
    simp only [U32]
    omega
  obtain ⟨a1, a2, a3, a4⟩ := chs_roundtrip partition_start_lba hx
  obtain ⟨b1, b2, b3, b4⟩ := chs_roundtrip (partition_start_lba + partition_sectors - 1) hy
  refine ⟨_, _, _, _, _, _, ?_, a1, a2, a3, a4, b1, b2, b3, b4⟩
  unfold generate_mbr
  dsimp only
  rw [hend]
  refine (field_step_above _ _ _ _ _ _ ?_ (by decide) (by decide)).2
  iterate 2 refine field_step_above _ _ _ _ _ _ ?_ (by decide) (by rw [le32_length]; decide)
  refine field_step_set _ _ _ _ ?_ rfl (by decide)
  refine length_step _ _ _ ?_ (by decide)
  exact zeros_length _

/-- C38 applies to the MBR of the disk: start 2048, 260096 sectors. -/
theorem mbr_chs_decodes_to_lba_witness :
    1 ≤ PARTITION_START + PARTITION_SECTORS_MBR ∧ PARTITION_START < 1024 * 255 * 63 ∧
    PARTITION_START + PARTITION_SECTORS_MBR - 1 < 1024 * 255 * 63 ∧
    ∃ h1 s1 c1 h2 s2 c2,
      slice (generate_mbr PARTITION_START PARTITION_SECTORS_MBR 0xEF) 446 8
        = [0x80, h1, s1, c1, 0xEF % 256, h2, s2, c2] ∧
      chs_decode h2 s2 c2 = PARTITION_START + PARTITION_SECTORS_MBR - 1 := by
  obtain ⟨h1, s1, c1, h2, s2, c2, e, _, _, _, _, d, _⟩ :=
    mbr_chs_decodes_to_lba PARTITION_START PARTITION_SECTORS_MBR 0xEF (by decide) (by decide)
      (by decide)
  exact ⟨by decide, by decide, by decide, h1, s1, c1, h2, s2, c2, e, d⟩

/-! ## Adding a memory file -/

/-- C34. `virtual_fat_add_file` returns failure if and only if the entry table
holds `MAX_FILES` = 16 entries (or more; exactly 16 when the table is within its
bound); on failure the filesystem is unchanged, and on success exactly one entry
is appended at index `file_count` with a copy of the given bytes, `start_cluster`
= the previous `next_cluster` and parent = root (-1), while all earlier entries,
the scheme and the callback are unchanged. -/
theorem add_file_fails_only_when_full (vfat : VirtualFat) (filename data : List Nat) :
    ((virtual_fat_add_file vfat filename data).1 = false ↔ 16 ≤ vfat.files.length) ∧
    (vfat.files.length ≤ 16 →
      ((virtual_fat_add_file vfat filename data).1 = false ↔ vfat.files.length = 16)) ∧
    ((virtual_fat_add_file vfat filename data).1 = false →
      (virtual_fat_add_file vfat filename data).2 = vfat) ∧
    ((virtual_fat_add_file vfat filename data).1 = true →
      ∃ file, (virtual_fat_add_file vfat filename data).2.files = vfat.files ++ [file] ∧
        (virtual_fat_add_file vfat filename data).2.files.length = vfat.files.length + 1 ∧
        (virtual_fat_add_file vfat filename data).2.files[vfat.files.length]? = some file ∧
        (virtual_fat_add_file vfat filename data).2.files.take vfat.files.length
          = vfat.files ∧
        file.memory_data = data ∧ file.size = data.length ∧
        file.source_type = FileSourceType.FILE_SOURCE_MEMORY ∧ file.is_directory = false ∧
        file.start_cluster = vfat.next_cluster ∧ file.parent_index = -1 ∧
        (virtual_fat_add_file vfat filename data).2.partition_scheme
          = vfat.partition_scheme ∧
        (virtual_fat_add_file vfat filename data).2.read_callback = vfat.read_callback) := by
  unfold virtual_fat_add_file
  simp only [MAX_FILES]
  by_cases hfull : vfat.files.length ≥ 16
  · rw [if_pos hfull]
    refine ⟨⟨fun _ => hfull, fun _ => rfl⟩, fun hle => ⟨fun _ => by omega, fun _ => rfl⟩,
      fun _ => rfl, fun h => ?_⟩
    simp at h
  · rw [if_neg hfull]
    refine ⟨⟨fun h => ?_, fun h => absurd h hfull⟩,
      fun _ => ⟨fun h => ?_, fun h => absurd (by omega) hfull⟩, fun h => ?_, fun _ => ?_⟩
    · simp at h
    · simp at h
    · simp at h
    · refine ⟨_, rfl, ?_, ?_, ?_, rfl, rfl, rfl, rfl, rfl, rfl, rfl, rfl⟩
      · simp
      · simp
      · simp

/-! ## The entry table bound -/

set_option maxRecDepth 100000 in
/-- C35 fails on `virtual_fat_add_file_to_subdir`.  With fifteen entries in
the table, adding a file under the new directory "NEW" passes the check at the
top (15 < 16), `create_directory_path` appends the directory as entry 15 (the
table now holds 16 entries), and the file is then stored at `files[16]`,
outside the table of `MAX_FILES` = 16 entries, without a second check. -/
theorem subdir_add_overruns_table :
    (run_ops virtual_fat_alloc fifteen_files_ops).map
      (fun v => (v.files.length, (create_directory_path v (ascii "NEW")).1.files.length,
        (create_directory_path v (ascii "NEW")).2,
        (virtual_fat_add_file_to_subdir (uniform_storage 1024) v (ascii "NEW")
          (ascii "F.EFI") (ascii "/ext/f")).isNone))
      = some (15, 16, 15, true) ∧
    run_ops virtual_fat_alloc
      (fifteen_files_ops ++ [Op.add_file_to_subdir (uniform_storage 1024) (ascii "NEW")
        (ascii "F.EFI") (ascii "/ext/f")]) = none := by
  refine ⟨by decide, by decide⟩

/-! ## Directory synthesis past the sector -/

set_option maxRecDepth 100000 in
/-- C39 fails on the code.  A filesystem built by seven add operations holds
the directory "D" (cluster 3) with children that need 16 slots after "." and
"..".  Synthesis of its sector reaches slot 15 with the last child still to
come: the long-name loop writes the first of its two long-name slots into slot
15 and stops at 16 slots, and the 8.3 slot is then stored at slot 16 (bytes
512..543) without a check, outside the sector buffer: 17 slots are written,
the last one past the buffer and after an incomplete long-name run. -/
theorem subdirectory_synthesis_overflows :
    (run_ops virtual_fat_alloc overfull_dir_ops).map
      (fun v => (v.files.length, dir_slots 0 v.files + 2, generate_subdirectory v 0,
        virtual_fat_read_sector (uniform_storage 1024) v 6145))
      = some (8, 18, none, ReadOutcome.out_of_bounds) ∧
    (lfn_loop (ascii "autoexec-7.ipxe") (lfn_checksum (parse_83 (ascii "autoexec-7.ipxe")))
      2 2 15 (zeros 512)).1 = 16 ∧
    slice (lfn_loop (ascii "autoexec-7.ipxe")
      (lfn_checksum (parse_83 (ascii "autoexec-7.ipxe"))) 2 2 15 (zeros 512)).2 (32 * 15) 1
      = [0x42] ∧
    ¬ (32 * 16 + 32 ≤ SECTOR_SIZE) := by
  refine ⟨by decide, by decide, by decide, by decide⟩

/-! ## The units of a long-name slot -/

theorem lfn_unit_spec (ln : List Nat) (p : Nat) (hn : ln.length ≤ 255) :
    lfn_unit ln p = spec_lfn_unit ln p := by
  unfold lfn_unit spec_lfn_unit
  have e : ln.length % 256 = ln.length := Nat.mod_eq_of_lt (by omega)
  simp only [e]
  by_cases h1 : p < ln.length
  · rw [if_pos h1, if_neg (by omega), if_neg (by omega), if_pos h1]
  · by_cases h2 : p = ln.length
    · rw [if_neg (by omega), if_pos h2, if_neg h1, if_pos h2]
    · rw [if_pos (by omega), if_neg h1, if_neg h2]

/-- The 13 units of a slot, as stored: unit `i` holds name position
`(name_offset + i) mod 256`, the index being a `uint8_t`. -/
theorem lfn_slot_units (s cs : Nat) (ln : List Nat) (i : Nat) (hi : i < 13) :
    slice (write_lfn_entry s ln cs) (lfn_unit_offset i) 2
      = le16 (lfn_unit ln
          (((((((s &&& 0x3F : Nat) : Int) - 1) * 13) % 256).toNat + i) % 256)) ∧
    slice (write_lfn_entry s ln cs) 11 2 = [0x0F, 0x00] ∧
    slice (write_lfn_entry s ln cs) 26 2 = [0x00, 0x00] := by
  refine ⟨?_, rfl, rfl⟩
  interval_cases i <;> rfl

/-- Where the position stays below 256 the slot holds what is due: for a long
name of at most 255 characters and a slot with sequence number `q` (1..20),
unit `i` with `p = 13 * (q - 1) + i <= 255` is the character at `p`, `0x0000`
at the end of the name and `0xFFFF` after it. -/
theorem lfn_slot_units_below_256 (s cs : Nat) (ln : List Nat) (i : Nat) (hi : i < 13)
    (hn : ln.length ≤ 255) (hq1 : 1 ≤ s &&& 0x3F) (hq2 : s &&& 0x3F ≤ 20)
    (hp : 13 * ((s &&& 0x3F) - 1) + i ≤ 255) :
    slice (write_lfn_entry s ln cs) (lfn_unit_offset i) 2
      = le16 (spec_lfn_unit ln (13 * ((s &&& 0x3F) - 1) + i)) := by
  have e : ((((((s &&& 0x3F : Nat) : Int) - 1) * 13) % 256).toNat + i) % 256
      = 13 * ((s &&& 0x3F) - 1) + i := by
    omega
  rw [(lfn_slot_units s cs ln i hi).1, e, lfn_unit_spec ln _ hn]

set_option maxRecDepth 100000 in
/-- C33 fails for names of 248 to 255 characters.  A memory file with a name
of 250 characters gets 20 long-name slots; the directory loop emits the one
with sequence number 20 first.  Its units 9..12 are due at positions 256..259,
past the end of the name (250), where the claim has `0xFFFF`; the index is a
`uint8_t`, wraps to 0..3, and the slot stores the first four characters of the
name ("abcd") there. -/
theorem lfn_slot_index_wraps :
    (virtual_fat_add_file virtual_fat_alloc long_name_250 []).2.files.map
      (fun f => (f.long_name.length, lfn_slots f)) = [(250, 20)] ∧
    slice (lfn_loop long_name_250 (lfn_checksum (parse_83 long_name_250)) 20 20 0
      (zeros 512)).2 0 32
      = write_lfn_entry (20 ||| LFN_LAST) long_name_250 (lfn_checksum (parse_83 long_name_250)) ∧
    ((20 ||| LFN_LAST) &&& 0x3F) = 20 ∧ 13 * (20 - 1) + 9 = 256 ∧
    [9, 10, 11, 12].map (fun i =>
      slice (write_lfn_entry (20 ||| LFN_LAST) long_name_250
        (lfn_checksum (parse_83 long_name_250))) (lfn_unit_offset i) 2)
      = [[97, 0], [98, 0], [99, 0], [100, 0]] ∧
    [9, 10, 11, 12].map (fun i => le16 (spec_lfn_unit long_name_250 (13 * (20 - 1) + i)))
      = [[0xFF, 0xFF], [0xFF, 0xFF], [0xFF, 0xFF], [0xFF, 0xFF]] := by
  refine ⟨by decide, by decide, by decide, by decide, by decide, by decide⟩

/-! ## The read callback -/

set_option maxRecDepth 100000 in
/-- C36, as stated, fails: with a callback registered, reading the first
sector of the file "data.bin" (LBA 6145) twice invokes the callback twice, and
reading only its second sector (LBA 6146) does not invoke it at all. -/
theorem read_callback_is_not_once_per_file :
    Built watched_file_fs ∧
    watched_file_fs.files.map (fun f => (f.start_cluster, clusters_needed f.size)) = [(3, 2)] ∧
    read_sequence_callbacks watched_file_fs [6145, 6145]
      = [(ascii "data.bin", 7), (ascii "data.bin", 7)] ∧
    read_sequence_callbacks watched_file_fs [6146] = [] :=
  ⟨⟨[Op.add_file (ascii "data.bin") (zeros 600), Op.set_read_callback true 7], rfl⟩,
    by decide, by decide, by decide⟩

theorem ite_nil_of {α : Type} (c : Prop) [Decidable c] (a b : List α) (ha : c → a = [])
    (hb : ¬ c → b = []) : (if c then a else b) = [] := by
  split
  · next h => exact ha h
  · next h => exact hb h

theorem read_sector_callbacks_eq (vfat : VirtualFat) (lba : Nat) (hl : lba < U32) :
    virtual_fat_read_sector_callbacks vfat lba
      = if 6144 < lba ∧
          ¬ (vfat.partition_scheme = PartitionScheme.PARTITION_SCHEME_GPT_ONLY ∧
            262111 ≤ lba ∧ lba ≤ 262143)
        then data_area_callbacks vfat (lba - 6142) 0 vfat.files else [] := by
  have hc : 6144 < lba → add32 (lba - 6144) 2 = lba - 6142 := by
    intro h
    unfold add32
    simp only [U32] at *
    rw [Nat.mod_eq_of_lt (by omega)]
    omega
  unfold virtual_fat_read_sector_callbacks
  simp only [PARTITION_SECTORS_GPT, PARTITION_SECTORS_MBR, GPT_LAST_USABLE, TOTAL_SECTORS,
    GPT_BACKUP_SECTORS, PARTITION_START, SECTORS_PER_CLUSTER, SECTOR_SIZE, RESERVED_SECTORS,
    GPT_BACKUP_ARRAY_START, GPT_BACKUP_HEADER]
  by_cases hs : vfat.partition_scheme = PartitionScheme.PARTITION_SCHEME_GPT_ONLY
  · simp only [hs, if_true, true_and]
    norm_num
    by_cases hd : 6144 < lba ∧ ¬ (262111 ≤ lba ∧ lba ≤ 262143)
    · have hd2 : 6144 < lba ∧ (262111 ≤ lba → 262143 < lba) := ⟨hd.1, by omega⟩
      rw [if_pos hd2]
      iterate 13 rw [if_neg (show ¬ _ by omega)]
      rw [if_pos (show _ by omega), hc hd.1, Nat.mod_one, if_neg (show ¬ _ by omega)]
    · have hd2 : ¬ (6144 < lba ∧ (262111 ≤ lba → 262143 < lba)) := by omega
      rw [if_neg hd2]
      iterate 13 refine ite_nil_of _ _ _ (fun _ => rfl) (fun _ => ?_)
      refine ite_nil_of _ _ _ (fun _ => ?_) (fun _ => rfl)
      have h6 : lba = 6144 := by omega
      subst h6
      rfl
  · simp only [hs, if_false, false_and]
    norm_num
    by_cases hd : 6144 < lba
    · rw [if_pos hd]
      iterate 11 rw [if_neg (show ¬ _ by omega)]
      rw [if_pos (show _ by omega), hc hd, Nat.mod_one, if_neg (show ¬ _ by omega)]
    · rw [if_neg hd]
      iterate 11 refine ite_nil_of _ _ _ (fun _ => rfl) (fun _ => ?_)
      refine ite_nil_of _ _ _ (fun _ => ?_) (fun _ => rfl)
      have h6 : lba = 6144 := by omega
      subst h6
      rfl

/-- Within a file's cluster run the byte offset is 0 exactly at its first
cluster. -/
theorem file_offset_zero_iff (f : VirtualFatFile) (cl : Nat) (h1 : f.start_cluster ≤ cl)
    (h2 : cl < add32 f.start_cluster (clusters_needed f.size)) :
    (((cl - f.start_cluster) * SECTORS_PER_CLUSTER + 0) % U32 * SECTOR_SIZE) % U32 = 0
      ↔ cl = f.start_cluster := by
  have hk := clusters_needed_le f.size
  have ha : add32 f.start_cluster (clusters_needed f.size)
      ≤ f.start_cluster + clusters_needed f.size := by
    unfold add32
    exact Nat.mod_le _ _
  simp only [SECTORS_PER_CLUSTER, SECTOR_SIZE, U32] at *
  omega

theorem data_area_callbacks_mem (vfat : VirtualFat) (cl : Nat) (files : List VirtualFatFile) :
    (data_area_callbacks vfat cl 0 files).length ≤ 1 ∧
    ∀ c ∈ data_area_callbacks vfat cl 0 files,
      vfat.read_callback = true ∧
      ∃ f ∈ files, f.is_directory = false ∧ cl = f.start_cluster ∧
        0 < clusters_needed f.size ∧
        c = (callback_display_name f, vfat.callback_context) := by
  induction files with
  | nil => exact ⟨Nat.zero_le _, fun c hc => absurd hc (List.not_mem_nil c)⟩
  | cons g gs ih =>
    unfold data_area_callbacks
    split
    · exact ⟨Nat.zero_le _, fun c hc => absurd hc (List.not_mem_nil c)⟩
    · split
      · next _ hf =>
        dsimp only
        split
        · next hz =>
          refine ⟨le_refl _, fun c hc => ⟨hz.1, g, List.mem_cons_self _ _, hf.1, ?_, ?_, ?_⟩⟩
          · exact (file_offset_zero_iff g cl hf.2.1 hf.2.2).1 hz.2
          · have ha : add32 g.start_cluster (clusters_needed g.size)
                ≤ g.start_cluster + clusters_needed g.size := by
              unfold add32
              exact Nat.mod_le _ _
            omega
          · exact List.mem_singleton.1 hc
        · exact ⟨Nat.zero_le _, fun c hc => absurd hc (List.not_mem_nil c)⟩
      · refine ⟨ih.1, fun c hc => ?_⟩
        obtain ⟨h1, f, hf, h2⟩ := ih.2 c hc
        exact ⟨h1, f, List.mem_cons_of_mem _ hf, h2⟩

theorem data_area_callbacks_file (vfat : VirtualFat) (pre post : List VirtualFatFile)
    (f : VirtualFatFile) (start next : Nat)
    (h : runs_contiguous fat_clusters start (pre ++ f :: post) next) (hn : next < U32)
    (hd : f.is_directory = false) (hk : 0 < clusters_needed f.size)
    (hcb : vfat.read_callback = true) :
    data_area_callbacks vfat f.start_cluster 0 (pre ++ f :: post)
      = [(callback_display_name f, vfat.callback_context)] := by
  induction pre generalizing start with
  | nil =>
    simp only [List.nil_append, runs_contiguous] at h
    have hle := runs_contiguous_le _ _ _ _ h.2
    have hfc : fat_clusters f = clusters_needed f.size := by simp [fat_clusters, hd]
    rw [hfc] at hle
    have hadd : add32 f.start_cluster (clusters_needed f.size)
        = f.start_cluster + clusters_needed f.size := by
      unfold add32
      exact Nat.mod_eq_of_lt (by omega)
    have hin : f.is_directory = false ∧ f.start_cluster ≤ f.start_cluster ∧
        f.start_cluster < add32 f.start_cluster (clusters_needed f.size) :=
      ⟨hd, le_refl _, by omega⟩
    have hz := (file_offset_zero_iff f f.start_cluster hin.2.1 hin.2.2).2 rfl
    rw [List.nil_append, data_area_callbacks, if_neg (by simp [hd]), if_pos hin]
    dsimp only
    rw [if_pos ⟨hcb, hz⟩]
  | cons g gs ih =>
    obtain ⟨hg, hrest⟩ : g.start_cluster = start ∧
        runs_contiguous fat_clusters (start + fat_clusters g) (gs ++ f :: post) next := h
    have hord := (runs_contiguous_ordered _ _ _ _ hrest).1 gs.length f
      (by rw [List.getElem?_append_right (le_refl _)]; simp)
    have hle := runs_contiguous_le _ _ _ _ hrest
    have hne : ¬ (g.is_directory = true ∧ f.start_cluster = g.start_cluster ∧ 0 = 0) := by
      rintro ⟨hgd, hcl, _⟩
      have : fat_clusters g = 1 := by simp [fat_clusters, hgd]
      omega
    have hnf : ¬ (g.is_directory = false ∧ g.start_cluster ≤ f.start_cluster ∧
        f.start_cluster < add32 g.start_cluster (clusters_needed g.size)) := by
      rintro ⟨hgd, _, hcl⟩
      have hfc : fat_clusters g = clusters_needed g.size := by simp [fat_clusters, hgd]
      have hadd : add32 g.start_cluster (clusters_needed g.size)
          = g.start_cluster + clusters_needed g.size := by
        unfold add32
        exact Nat.mod_eq_of_lt (by omega)
      omega
    rw [List.cons_append, data_area_callbacks, if_neg hne, if_neg hnf]
    exact ih _ hrest

/-- C36, amended.  With a read callback set on a filesystem built through the
API, a `virtual_fat_read_sector` call invokes the callback exactly when the
sector read is the first sector of a file that has at least one sector (and is
not one of the backup GPT sectors 262111..262143 of scheme `GptOnly`): once in
that call, with the file's long name (or NAME.EXT from the 8.3 form when it is
empty) and the registered context.  A call that reads any other sector (a
later sector of a file, a directory, a FAT or a partition-table sector) invokes
nothing; so over a sequence of reads the callback is invoked once for each read
of a file's first sector, again when that sector is read again. -/
theorem read_callback_on_first_sector (vfat : VirtualFat) (lba : Nat) (hb : Built vfat)
    (hcb : vfat.read_callback = true) (hl : lba < U32) :
    (∀ f ∈ vfat.files, f.is_directory = false → 0 < clusters_needed f.size →
      lba = 6142 + f.start_cluster →
      ¬ (vfat.partition_scheme = PartitionScheme.PARTITION_SCHEME_GPT_ONLY ∧
          262111 ≤ lba ∧ lba ≤ 262143) →
      virtual_fat_read_sector_callbacks vfat lba
        = [(callback_display_name f, vfat.callback_context)]) ∧
    ((∀ f ∈ vfat.files, ¬ (f.is_directory = false ∧ 0 < clusters_needed f.size ∧
        lba = 6142 + f.start_cluster)) →
      virtual_fat_read_sector_callbacks vfat lba = []) ∧
    (virtual_fat_read_sector_callbacks vfat lba).length ≤ 1 ∧
    (∀ lbas : List Nat, read_sequence_callbacks vfat (lba :: lbas)
      = virtual_fat_read_sector_callbacks vfat lba ++ read_sequence_callbacks vfat lbas) := by
  obtain ⟨hlen, hrun, hnext, _, _⟩ := fsinv_built vfat hb
  simp only [MAX_FILES] at hlen
  have hnu : vfat.next_cluster < U32 := by
    simp only [U32]
    omega
  have hstart : ∀ f ∈ vfat.files, 3 ≤ f.start_cluster := by
    intro f hf
    obtain ⟨d, hd⟩ := List.mem_iff_getElem?.1 hf
    exact ((runs_contiguous_ordered _ _ _ _ hrun).1 d f hd).1
  have hseq : ∀ lbas : List Nat, read_sequence_callbacks vfat (lba :: lbas)
      = virtual_fat_read_sector_callbacks vfat lba ++ read_sequence_callbacks vfat lbas :=
    fun lbas => rfl
  rw [read_sector_callbacks_eq vfat lba hl] at hseq ⊢
  refine ⟨?_, ?_, ?_, hseq⟩
  · intro f hf hd hk hlba hshadow
    have h3 := hstart f hf
    obtain ⟨pre, post, hsplit⟩ := List.append_of_mem hf
    rw [if_pos ⟨by omega, hshadow⟩]
    have e : lba - 6142 = f.start_cluster := by omega
    rw [e, hsplit]
    rw [hsplit] at hrun
    exact data_area_callbacks_file vfat pre post f 3 vfat.next_cluster hrun hnu hd hk hcb
  · intro hno
    split
    · next hdata =>
      cases hc : data_area_callbacks vfat (lba - 6142) 0 vfat.files with
      | nil => rfl
      | cons c cs =>
        obtain ⟨_, f, hf, h1, h2, h3, _⟩ :=
          (data_area_callbacks_mem vfat (lba - 6142) vfat.files).2 c (by rw [hc]; simp)
        exact absurd ⟨h1, h3, by omega⟩ (hno f hf)
    · rfl
  · split
    · exact (data_area_callbacks_mem vfat (lba - 6142) vfat.files).1
    · exact Nat.zero_le _

set_option maxRecDepth 100000 in
/-- C36 (amended) applies to the watched file "data.bin": the read of its
first sector invokes the callback with its name and the context 7. -/
theorem read_callback_on_first_sector_witness :
    Built watched_file_fs ∧ watched_file_fs.read_callback = true ∧ 6145 < U32 ∧
    (virtual_fat_read_sector_callbacks watched_file_fs 6145).length ≤ 1 :=
  have hb : Built watched_file_fs :=
    ⟨[Op.add_file (ascii "data.bin") (zeros 600), Op.set_read_callback true 7], rfl⟩
  ⟨hb, rfl, by decide,
    (read_callback_on_first_sector watched_file_fs 6145 hb rfl (by decide)).2.2.1⟩

/-! ## The data-in phase against the reply length -/

end Boot2Flipper
